import Mathlib

/-!
# Escape the Aliens: a shallow embedding of the simulation core

The C globals of `map.c`, `player.c`, `enemy.c` and `items.c` are gathered in one record
`World`; every C function that mutates them becomes a function `World → World`.

Modelling conventions.

* C `int` values are `Int`.  Signed overflow is undefined behaviour in C and lies outside
  the model.
* C `float` values are exact rationals `ℚ`: no rounding, no NaN, no infinities.  The cast
  `(int)f` is truncation toward zero (`truncf`).
* The libm functions `sqrtf`, `cosf`, `sinf` and `atan2f` are not part of the repository;
  they are taken as a parameter `Libm`.  General theorems hold for every `Libm`.
* Files are lists of characters; `fgets` and `strtol` are modelled on the C standard.
* Calls into the audio layer (`audio_play_sfx`) are omitted: the simulation core never
  reads anything back from it.
-/

namespace EscapeTheAliens

/-! ## Numeric helpers -/

/-- The cast `(int)f` of a float: truncation toward zero. -/
def truncf (q : ℚ) : Int := if 0 ≤ q then ⌊q⌋ else ⌈q⌉

/-- The libm functions used by the simulation, taken as parameters. -/
structure Libm where
  sqrtf : ℚ → ℚ
  cosf : ℚ → ℚ
  sinf : ℚ → ℚ
  atan2f : ℚ → ℚ → ℚ

/-- The literal of the `M_PI` macro. -/
def M_PI : ℚ := 3.14159265358979323846

/-- The library function `fmodf(x, y)`: `x - n*y` with `n` the quotient truncated toward zero. -/
def fmodf (x y : ℚ) : ℚ := x - (truncf (x / y) : ℚ) * y

/-! ## Enumerations (`enemy.h`, `player.h`, `items.h`, `config.h`) -/

inductive EnemyState where
  | ENEMY_ALIVE
  | ENEMY_DYING
  | ENEMY_DEAD
  deriving DecidableEq, Repr

inductive EnemyKind where
  | ENEMY_KIND1
  | ENEMY_KIND2
  | ENEMY_MINIBOSS1
  | ENEMY_FINALBOSS
  deriving DecidableEq, Repr

inductive WeaponType where
  | WEAPON_PISTOL
  | WEAPON_SHOTGUN
  | WEAPON_SMG
  | WEAPON_PLASMA
  | WEAPON_RRG
  deriving DecidableEq, Repr

inductive ItemType where
  | ITEM_BULLETS
  | ITEM_MEDKIT
  | ITEM_SHOTGUN
  | ITEM_SMG
  | ITEM_SHELLS
  | ITEM_ENERGY
  | ITEM_PLASMA
  | ITEM_RRG
  deriving DecidableEq, Repr

inductive Action where
  | ACTION_MOVE_FORWARD
  | ACTION_MOVE_BACK
  | ACTION_STRAFE_LEFT
  | ACTION_STRAFE_RIGHT
  | ACTION_INTERACT
  | ACTION_PAUSE
  | ACTION_WEAPON_1
  | ACTION_WEAPON_2
  | ACTION_WEAPON_3
  | ACTION_WEAPON_4
  | ACTION_WEAPON_5
  deriving DecidableEq, Repr

open EnemyState EnemyKind WeaponType ItemType Action

/-- An entry of the `enemies` array (`enemy.h`). -/
structure Enemy where
  x : ℚ
  y : ℚ
  state : EnemyState
  kind : EnemyKind
  hp : Int
  touch_cooldown : ℚ
  dying_timer : ℚ
  attack_timer : ℚ
  deriving DecidableEq

/-- An entry of the `items` array (`items.h`). -/
structure Item where
  x : ℚ
  y : ℚ
  type : ItemType
  collected : Int
  deriving DecidableEq

def MAX_ENEMIES : Nat := 64

def MAX_ITEMS : Nat := 96

/-- The globals of `map.c`, `player.c`, `enemy.c` and `items.c`, with their C initialisers.
`enemies` and `items` hold the first `enemy_count` / `item_count` entries of the C arrays
(the entries past the count are never read), so `enemy_count = enemies.length`. -/
structure World where
  worldmap : Option (List (List Int)) := none
  worldWidth : Int := 0
  worldHeight : Int := 0
  player_spawn_x : ℚ := 1.5
  player_spawn_y : ℚ := 1.5
  map_current_level : Int := 0
  px : ℚ := 3
  py : ℚ := 3
  angle : ℚ := 0
  gun_recoil_timer : Int := 0
  shot_fired : Int := 0
  hasKey : Int := 0
  escaped : Int := 0
  godmode_enabled : Int := 0
  hasShotgun : Int := 0
  hasSMG : Int := 0
  hasPlasma : Int := 0
  hasRRG : Int := 0
  current_weapon : WeaponType := WEAPON_PISTOL
  mouse_sensitivity : ℚ := 0.0035
  hp : Int := 100
  ammo_bullets : Int := 10
  ammo_shells : Int := 0
  ammo_energy : Int := 0
  player_damage_timer : ℚ := 0
  player_dead : Int := 0
  cd_pistol : ℚ := 0
  cd_shotgun : ℚ := 0
  cd_smg : ℚ := 0
  cd_plasma : ℚ := 0
  cd_rrg : ℚ := 0
  lastLMB : Int := 0
  lastWep0 : Int := 0
  lastWep1 : Int := 0
  lastWep2 : Int := 0
  lastWep3 : Int := 0
  lastWep4 : Int := 0
  lastE : Int := 0
  enemies : List Enemy := []
  items : List Item := []
  message_text : String := ""

/-! ## The tile grid (`map.c`) -/

/-- The read `worldmap[y][x]` (0 outside the allocated grid, where C would be undefined). -/
def tileAt (m : List (List Int)) (y x : Nat) : Int := (m.getD y []).getD x 0

/-- The write `worldmap[y][x] = v`. -/
def setTile (m : List (List Int)) (y x : Nat) (v : Int) : List (List Int) :=
  m.set y ((m.getD y []).set x v)

/-- The tile read through the global pointer. -/
def World.tile (g : World) (y x : Nat) : Int :=
  match g.worldmap with
  | some m => tileAt m y x
  | none => 0

/-- The tile write through the global pointer. -/
def World.setTile (g : World) (y x : Nat) (v : Int) : World :=
  match g.worldmap with
  | some m => { g with worldmap := some (EscapeTheAliens.setTile m y x v) }
  | none => g

/-- The cells `(y, 0), ..., (y, k-1)` of row `y`, in the order of the inner `for` loop. -/
def row_cells (y : Nat) : Nat → List (Nat × Nat)
  | 0 => []
  | k + 1 => row_cells y k ++ [(y, k)]

/-- The cells visited by `for (y = 0; y < h; y++) for (x = 0; x < w; x++)`, in order. -/
def cells (w : Nat) : Nat → List (Nat × Nat)
  | 0 => []
  | n + 1 => cells w n ++ row_cells n w

/-- The nested loop over all tiles, with `body` run at each cell on the state so far. -/
def for_tiles (h w : Nat) (body : World → Nat → Nat → World) (g : World) : World :=
  (cells w h).foldl (fun acc c => body acc c.1 c.2) g

/-- The function `free_map`. -/
def free_map (g : World) : World :=
  { g with worldmap := none, worldWidth := 0, worldHeight := 0, map_current_level := 0 }

/-- The whitespace set tested by `parse_next_int` and `load_map`. -/
def is_ws (c : Char) : Bool := c = ' ' || c = '\t' || c = '\r' || c = '\n'

/-- The libc `isspace` in the C locale. -/
def isspace (c : Char) : Bool := is_ws c || c = Char.ofNat 11 || c = Char.ofNat 12

/-- The value of a run of decimal digits, most significant first. -/
def digits_value (ds : List Char) : Int :=
  ds.foldl (fun acc d => acc * 10 + ((d.toNat - 48 : Nat) : Int)) 0

/-- The optional sign of `strtol`: the string after a leading `-` or `+`, if any. -/
def skip_sign (s : List Char) : List Char :=
  if s.head? = some '-' ∨ s.head? = some '+' then s.tail else s

/-- The libc `strtol(s, &end, 10)`: `none` when no conversion is performed (`end == s`),
otherwise the value and the rest of the string at `end`.  The value is the mathematical
one; libc clamps it to the range of `long` and sets `errno`, which `parse_next_int` maps
to the same result as any value outside `[0, 99]`. -/
def strtol (s : List Char) : Option (Int × List Char) :=
  if (skip_sign (s.dropWhile isspace)).takeWhile Char.isDigit = [] then none
  else
    some (if (s.dropWhile isspace).head? = some '-'
        then - digits_value ((skip_sign (s.dropWhile isspace)).takeWhile Char.isDigit)
        else digits_value ((skip_sign (s.dropWhile isspace)).takeWhile Char.isDigit),
      (skip_sign (s.dropWhile isspace)).dropWhile Char.isDigit)

/-- The function `parse_next_int(&p, &out)`: the return value, the new `*out` and the
new `*p`, from the string at `*p` and the old `*out`. -/
def parse_next_int (p : List Char) (out : Int) : Int × Int × List Char :=
  let p1 := p.dropWhile is_ws
  if p1 = [] then (0, out, p1)
  else
    match strtol p1 with
    | none => (1, 2, p1.dropWhile (fun c => !is_ws c))
    | some (v, e) => (1, if v < 0 ∨ v > 99 then 2 else v, e)

/-- The libc `fgets(line, size, fp)` on the unread part of the file: the characters
stored (at most `size - 1`, ending after the first newline) and the part left unread. -/
def fgets_chars : Nat → List Char → List Char × List Char
  | 0, s => ([], s)
  | _ + 1, [] => ([], [])
  | n + 1, c :: s =>
    if c = '\n' then ([c], s)
    else ((fgets_chars n s).1 |> List.cons c, (fgets_chars n s).2)

/-- The C string held by the buffer after `fgets`: it ends at the first NUL byte. -/
def c_string (buf : List Char) : List Char := buf.takeWhile (fun c => c ≠ Char.ofNat 0)

/-- The successive buffers delivered by `while (fgets(line, size, fp))` from the given
file position; `fuel` bounds the number of calls (each consumes a character). -/
def fgets_lines (size : Nat) : Nat → List Char → List (List Char)
  | 0, _ => []
  | fuel + 1, s =>
    if s = [] then []
    else c_string (fgets_chars (size - 1) s).1 :: fgets_lines size fuel (fgets_chars (size - 1) s).2

/-- The lines of a file as the three passes of `load_map` read them (`char line[2048]`). -/
def file_lines (file : List Char) : List (List Char) := fgets_lines 2048 file.length file

/-- The test `!*p` after the whitespace skip at the head of each pass: the line is blank. -/
def is_blank (line : List Char) : Bool := line.dropWhile is_ws = []

/-- The inner loop `while (parse_next_int(&scan, &tmp)) cols++` of the first pass; the
fuel is the length of the string, and every successful call consumes a character. -/
def count_cols : Nat → List Char → Int → Int
  | 0, _, cols => cols
  | fuel + 1, scan, cols =>
    if (parse_next_int scan 0).1 ≠ 0 then count_cols fuel (parse_next_int scan 0).2.2 (cols + 1)
    else cols

/-- The first pass of `load_map`: the width from the first non-blank line (0 if none). -/
def first_pass : List (List Char) → Int
  | [] => 0
  | line :: rest =>
    if is_blank line then first_pass rest
    else count_cols (line.length + 1) (line.dropWhile is_ws) 0

/-- The second pass of `load_map`: the number of non-blank lines. -/
def second_pass (lines : List (List Char)) : Int :=
  lines.foldl (fun h line => if is_blank line then h else h + 1) 0

/-- The loop `for (x = 0; x < worldWidth; x++)` of the third pass on row `y`, from column
`x` on; `n` counts the columns left and `p` is the read position in the line. -/
def fill_row (y : Nat) : Nat → Nat → List Char → World → World
  | 0, _, _, g => g
  | n + 1, x, p, g =>
    let r := parse_next_int p 2
    let g1 := g.setTile y x r.2.1
    let g2 :=
      if r.2.1 = 8 then
        World.setTile { g1 with player_spawn_x := (x : ℚ) + 0.5, player_spawn_y := (y : ℚ) + 0.5 } y x 0
      else g1
    fill_row y n (x + 1) r.2.2 g2

/-- The loop `while (fgets(...) && y < worldHeight)` of the third pass, from row `y` on. -/
def third_pass : List (List Char) → Nat → World → Nat × World
  | [], y, g => (y, g)
  | line :: rest, y, g =>
    if (y : Int) < g.worldHeight then
      if is_blank line then third_pass rest y g
      else third_pass rest (y + 1) (fill_row y g.worldWidth.toNat 0 (line.dropWhile is_ws) g)
    else (y, g)

/-- The closing loop `for (; y < worldHeight; y++)` of `load_map`: rows of walls. -/
def pad_rows (y : Nat) (g : World) : World :=
  ((List.range g.worldHeight.toNat).filter (fun r => y ≤ r)).foldl
    (fun acc r => (List.range g.worldWidth.toNat).foldl (fun a x => a.setTile r x 2) acc) g

/-- The clamp of `level` to `1..9` done by `map_path` and at the end of `load_map`. -/
def clamp_level (level : Int) : Int := if level < 1 then 1 else if level > 9 then 9 else level

/-- The allocation of the grid by `calloc`: `worldHeight` rows of `worldWidth` zeros. -/
def alloc_map (g : World) : World :=
  { g with worldmap := some (List.replicate g.worldHeight.toNat (List.replicate g.worldWidth.toNat 0)) }

/-- The part of `load_map` after the dimension test: allocation, third pass and the
closing loop. -/
def load_rows (lines : List (List Char)) (g : World) : World :=
  pad_rows (third_pass lines 0 (alloc_map g)).1 (third_pass lines 0 (alloc_map g)).2

/-- The part of `load_map` before the dimension test: `free_map`, the spawn defaults and
the two passes that set `worldWidth` and `worldHeight`. -/
def load_dims (lines : List (List Char)) (g : World) : World :=
  { free_map g with
    player_spawn_x := 1.5, player_spawn_y := 1.5
    worldWidth := first_pass lines, worldHeight := second_pass lines }

/-- The function `load_map(level)`: the new globals and the return value.  `files` gives
the content of `DATA/maps/map<n>.txt` (`none` when `fopen` fails); memory allocation is
assumed to succeed. -/
def load_map (files : Int → Option (List Char)) (level : Int) (g : World) : World × Int :=
  match files (clamp_level level) with
  | none => ({ free_map g with player_spawn_x := 1.5, player_spawn_y := 1.5 }, -1)
  | some file =>
    let g1 := load_dims (file_lines file) g
    if g1.worldWidth ≤ 0 ∨ g1.worldHeight ≤ 0 then (g1, -1)
    else ({ load_rows (file_lines file) g1 with map_current_level := clamp_level level }, 0)

/-! ## Enemies (`enemy.c`) -/

def hp_for_kind (k : EnemyKind) : Int :=
  match k with
  | ENEMY_KIND1 => 2
  | ENEMY_KIND2 => 2
  | ENEMY_MINIBOSS1 => 30
  | ENEMY_FINALBOSS => 60

def move_speed_for_kind (k : EnemyKind) : ℚ :=
  match k with
  | ENEMY_KIND1 => 0.60
  | ENEMY_KIND2 => 0.70
  | ENEMY_MINIBOSS1 => 0.50
  | ENEMY_FINALBOSS => 0.45

def attack_cooldown_for_kind (k : EnemyKind) : ℚ :=
  match k with
  | ENEMY_KIND1 => 1.00
  | ENEMY_KIND2 => 0.60
  | ENEMY_MINIBOSS1 => 0.85
  | ENEMY_FINALBOSS => 0.70

def attack_damage_for_kind (k : EnemyKind) : Int :=
  match k with
  | ENEMY_KIND1 => 10
  | ENEMY_KIND2 => 10
  | ENEMY_MINIBOSS1 => 15
  | ENEMY_FINALBOSS => 20

def attack_range_for_kind (k : EnemyKind) : ℚ :=
  match k with
  | ENEMY_MINIBOSS1 => 0.65
  | ENEMY_FINALBOSS => 0.70
  | _ => 0.50

/-- The chain `if (t == 9) kind = ...; else spawn = 0;` of `init_enemies`: the kind when
`spawn` stays 1, `none` when `spawn` is cleared. -/
def enemy_kind_of_tile (t : Int) : Option EnemyKind :=
  if t = 9 then some ENEMY_KIND1
  else if t = 10 then some ENEMY_KIND2
  else if t = 12 then some ENEMY_MINIBOSS1
  else if t = 13 then some ENEMY_FINALBOSS
  else none

/-- The store `enemies[enemy_count++] = e`. -/
def push_enemy (g : World) (e : Enemy) : World := { g with enemies := g.enemies ++ [e] }

/-- The body of the nested loop of `init_enemies` at cell `(x, y)`. -/
def init_enemies_cell (g : World) (y x : Nat) : World :=
  match enemy_kind_of_tile (g.tile y x) with
  | some kind =>
    if g.enemies.length < MAX_ENEMIES then
      (push_enemy g {
          x := (x : ℚ) + 0.5, y := (y : ℚ) + 0.5, state := ENEMY_ALIVE, kind := kind,
          hp := hp_for_kind kind, touch_cooldown := 0, dying_timer := 0,
          attack_timer := 0 }).setTile y x 0
    else g
  | none => g

/-- The function `init_enemies`. -/
def init_enemies (g : World) : World :=
  let g0 := { g with enemies := [] }
  if g0.worldmap = none ∨ g0.worldWidth ≤ 0 ∨ g0.worldHeight ≤ 0 then g0
  else for_tiles g0.worldHeight.toNat g0.worldWidth.toNat init_enemies_cell g0

/-- The update of `*e` in `damage_enemy` once the guards have passed. -/
def damaged (e : Enemy) (dmg : Int) : Enemy :=
  if e.hp - dmg ≤ 0 then
    { e with
      hp := e.hp - dmg
      state := ENEMY_DYING
      dying_timer := if e.kind = ENEMY_MINIBOSS1 ∨ e.kind = ENEMY_FINALBOSS then 0.85 else 0.45
      attack_timer := 0 }
  else { e with hp := e.hp - dmg }

/-- The function `damage_enemy(i, dmg)`. -/
def damage_enemy (i : Int) (dmg : Int) (g : World) : World :=
  if i < 0 ∨ i ≥ g.enemies.length then g
  else if dmg ≤ 0 then g
  else
    match g.enemies.get? i.toNat with
    | none => g
    | some e =>
      if e.state ≠ ENEMY_ALIVE then g
      else { g with enemies := g.enemies.set i.toNat (damaged e dmg) }

/-- The loop of `enemy_boss_alive` over the enemies from the current index on. -/
def boss_alive_from : List Enemy → Int
  | [] => 0
  | e :: rest =>
    if e.state ≠ ENEMY_ALIVE then boss_alive_from rest
    else if e.kind = ENEMY_MINIBOSS1 ∨ e.kind = ENEMY_FINALBOSS then 1
    else boss_alive_from rest

/-- The function `enemy_boss_alive`. -/
def enemy_boss_alive (g : World) : Int := boss_alive_from g.enemies

/-- The chase movement of `update_enemies` (the block under `if (dist > 0.01f)`), given
the vector `(dx, dy)` to the player and its length `dist`. -/
def enemy_chase (dt : ℚ) (g : World) (e : Enemy) (dx dy dist : ℚ) : Enemy :=
  let speed := move_speed_for_kind e.kind
  if dist > 0.01 then
    let stop := attack_range_for_kind e.kind * 0.9
    if dist > stop then
      let inv := 1 / dist
      let mv := dt * speed
      let nx := e.x + dx * inv * mv
      let ny := e.y + dy * inv * mv
      match g.worldmap with
      | some m =>
        if g.worldWidth > 0 ∧ g.worldHeight > 0 then
          let curY := truncf e.y
          let mx := truncf nx
          let e1 :=
            if mx ≥ 0 ∧ mx < g.worldWidth ∧ curY ≥ 0 ∧ curY < g.worldHeight
                ∧ tileAt m curY.toNat mx.toNat < 2 then { e with x := nx }
            else e
          let my := truncf ny
          let mx2 := truncf e1.x
          if mx2 ≥ 0 ∧ mx2 < g.worldWidth ∧ my ≥ 0 ∧ my < g.worldHeight
              ∧ tileAt m my.toNat mx2.toNat < 2 then { e1 with y := ny }
          else e1
        else { e with x := nx, y := ny }
      | none => { e with x := nx, y := ny }
    else e
  else e

/-- The decrement of `attack_timer` toward 0 at the head of the loop body. -/
def tick_attack_timer (dt : ℚ) (e : Enemy) : Enemy :=
  if e.attack_timer > 0 then
    { e with attack_timer := if e.attack_timer - dt < 0 then 0 else e.attack_timer - dt }
  else e

/-- The branch `if (e->state == ENEMY_DYING)` of the loop body. -/
def dying_step (dt : ℚ) (e : Enemy) : Enemy :=
  let t := if e.dying_timer > 0 then e.dying_timer - dt else e.dying_timer
  { e with dying_timer := t, state := if t ≤ 0 then ENEMY_DEAD else e.state }

/-- The decrement of `touch_cooldown` toward 0. -/
def tick_touch_cooldown (dt : ℚ) (e : Enemy) : Enemy :=
  if e.touch_cooldown > 0 then
    { e with touch_cooldown := if e.touch_cooldown - dt < 0 then 0 else e.touch_cooldown - dt }
  else e

/-- The damage dealt to the player inside `if (!godmode_enabled)`. -/
def hurt_player (g : World) (dmg : Int) : World :=
  { g with
    hp := if g.hp - dmg ≤ 0 then 0 else g.hp - dmg
    player_damage_timer := 0.30
    player_dead := if g.hp - dmg ≤ 0 then 1 else g.player_dead }

/-- The melee attack at the end of the loop body, given the distance `dist` computed
before the chase movement. -/
def enemy_attack (g : World) (e : Enemy) (dist : ℚ) : Enemy × World :=
  if g.player_dead = 0 ∧ dist < attack_range_for_kind e.kind ∧ e.touch_cooldown ≤ 0 then
    ({ e with touch_cooldown := attack_cooldown_for_kind e.kind, attack_timer := 0.22 },
      if g.godmode_enabled = 0 then hurt_player g (attack_damage_for_kind e.kind) else g)
  else (e, g)

/-- The distance `sqrtf(dx*dx + dy*dy)` from an enemy to the player. -/
def enemy_dist (m : Libm) (g : World) (e : Enemy) : ℚ :=
  m.sqrtf ((g.px - e.x) * (g.px - e.x) + (g.py - e.y) * (g.py - e.y))

/-- The body of the loop of `update_enemies` for one enemy: the enemy and the globals
after the iteration. -/
def update_enemy (m : Libm) (dt : ℚ) (g : World) (e : Enemy) : Enemy × World :=
  if e.state = ENEMY_DEAD then (e, g)
  else if (tick_attack_timer dt e).state = ENEMY_DYING then (dying_step dt (tick_attack_timer dt e), g)
  else
    enemy_attack g
      (tick_touch_cooldown dt
        (enemy_chase dt g (tick_attack_timer dt e) (g.px - (tick_attack_timer dt e).x)
          (g.py - (tick_attack_timer dt e).y) (enemy_dist m g (tick_attack_timer dt e))))
      (enemy_dist m g (tick_attack_timer dt e))

/-- The loop `for (i = 0; i < enemy_count; i++)` of `update_enemies` from the current
index on: the updated entries and the globals. -/
def update_enemies_from (m : Libm) (dt : ℚ) : List Enemy → World → List Enemy × World
  | [], g => ([], g)
  | e :: rest, g =>
    let r := update_enemy m dt g e
    let rs := update_enemies_from m dt rest r.2
    (r.1 :: rs.1, rs.2)

/-- The function `update_enemies(dt)`. -/
def update_enemies (m : Libm) (dt : ℚ) (g : World) : World :=
  let r := update_enemies_from m dt g.enemies g
  { r.2 with enemies := r.1 }

/-! ## Items (`items.c`) -/

/-- The tile code of an item type (the value of the C enumerator). -/
def ItemType.code (t : ItemType) : Int :=
  match t with
  | ITEM_BULLETS => 5
  | ITEM_MEDKIT => 6
  | ITEM_SHOTGUN => 7
  | ITEM_SMG => 11
  | ITEM_SHELLS => 14
  | ITEM_ENERGY => 15
  | ITEM_PLASMA => 16
  | ITEM_RRG => 17

/-- The cast `(ItemType)v` for the tile codes accepted by `is_item_tile`. -/
def item_type_of_tile (v : Int) : Option ItemType :=
  if v = 5 then some ITEM_BULLETS
  else if v = 6 then some ITEM_MEDKIT
  else if v = 7 then some ITEM_SHOTGUN
  else if v = 11 then some ITEM_SMG
  else if v = 14 then some ITEM_SHELLS
  else if v = 15 then some ITEM_ENERGY
  else if v = 16 then some ITEM_PLASMA
  else if v = 17 then some ITEM_RRG
  else none

/-- The function `is_item_tile`. -/
def is_item_tile (v : Int) : Bool :=
  v = 5 || v = 6 || v = 7 || v = 11 || v = 14 || v = 15 || v = 16 || v = 17

/-- The store of a new entry at `items[item_count]` followed by `item_count++`. -/
def push_item (g : World) (it : Item) : World := { g with items := g.items ++ [it] }

/-- The body of the nested loop of `init_items` at cell `(x, y)`. -/
def init_items_cell (g : World) (y x : Nat) : World :=
  match item_type_of_tile (g.tile y x) with
  | some t =>
    if is_item_tile (g.tile y x) ∧ g.items.length < MAX_ITEMS then
      (push_item g { x := (x : ℚ) + 0.5, y := (y : ℚ) + 0.5, type := t, collected := 0 }).setTile y x 0
    else g
  | none => g

/-- The function `init_items`. -/
def init_items (g : World) : World :=
  let g0 := { g with items := [] }
  if g0.worldmap = none then g0
  else for_tiles g0.worldHeight.toNat g0.worldWidth.toNat init_items_cell g0

/-- The function `show_message` of `game.c` (the expiry time is not modelled). -/
def show_message (text : String) (g : World) : World := { g with message_text := text }

/-- The constant `INT_MAX` of a 32-bit `int`. -/
def INT_MAX : Int := 2147483647

/-- The `int` left by an addition whose mathematical result is `v`: the result reduced
modulo `2^32` into `[-2^31, 2^31)`.  Inside the range of `int` this is `v` itself; past
`INT_MAX` it is the wrapped value that the two's-complement addition produces (C leaves
signed overflow undefined). -/
def wrap_int (v : Int) : Int := (v + 2147483648) % 4294967296 - 2147483648

/-- The `switch (it->type)` of `update_items`: the effect of picking up an item.  The
sums `ammo_bullets += 3`, `hp += 10`, `ammo_shells += 4` and `ammo_energy += 10` are `int`
additions; the caps are tested on their results. -/
def item_effect (t : ItemType) (g : World) : World :=
  match t with
  | ITEM_BULLETS =>
    let a := wrap_int (g.ammo_bullets + 3)
    show_message "BULLETS +3" { g with ammo_bullets := if a > 999 then 999 else a }
  | ITEM_MEDKIT =>
    let h := wrap_int (g.hp + 10)
    show_message "MEDKIT +10" { g with hp := if h > 100 then 100 else h }
  | ITEM_SHOTGUN =>
    show_message "SHOTGUN ACQUIRED" { g with hasShotgun := 1, current_weapon := WEAPON_SHOTGUN }
  | ITEM_SMG =>
    show_message "SMG ACQUIRED" { g with hasSMG := 1, current_weapon := WEAPON_SMG }
  | ITEM_SHELLS =>
    let a := wrap_int (g.ammo_shells + 4)
    show_message "SHELLS +4" { g with ammo_shells := if a > 999 then 999 else a }
  | ITEM_ENERGY =>
    let a := wrap_int (g.ammo_energy + 10)
    show_message "ENERGY +10" { g with ammo_energy := if a > 999 then 999 else a }
  | ITEM_PLASMA =>
    show_message "PLASMA ACQUIRED" { g with hasPlasma := 1, current_weapon := WEAPON_PLASMA }
  | ITEM_RRG =>
    show_message "RRG ACQUIRED" { g with hasRRG := 1, current_weapon := WEAPON_RRG }

/-- The distance `sqrtf(dx*dx + dy*dy)` from an item to the player, as `update_items`
computes it. -/
def item_dist (m : Libm) (g : World) (it : Item) : ℚ :=
  let dx := it.x - g.px
  let dy := it.y - g.py
  m.sqrtf (dx * dx + dy * dy)

/-- The body of the loop of `update_items` for one item. -/
def update_item (m : Libm) (g : World) (it : Item) : Item × World :=
  if it.collected ≠ 0 then (it, g)
  else if item_dist m g it ≥ 0.7 then (it, g)
  else ({ it with collected := 1 }, item_effect it.type g)

/-- The loop of `update_items` from the current index on. -/
def update_items_from (m : Libm) : List Item → World → List Item × World
  | [], g => ([], g)
  | it :: rest, g =>
    let r := update_item m g it
    let rs := update_items_from m rest r.2
    (r.1 :: rs.1, rs.2)

/-- The function `update_items`. -/
def update_items (m : Libm) (g : World) : World :=
  let r := update_items_from m g.items g
  { r.2 with items := r.1 }

/-! ## The player (`player.c`) -/

/-- What `update_player` reads from SDL and the configuration: the keyboard snapshot
`k[scancode]`, the bindings returned by `config_get_bind`, the relative mouse motion
`mdx` and the mouse button mask `mstate`. -/
structure Input where
  k : Nat → Nat := fun _ => 0
  binds : Action → Nat := fun _ => 0
  mdx : Int := 0
  mstate : Nat := 0

/-- The macro `KEYDOWN(sc)`, with `SDL_SCANCODE_UNKNOWN = 0`. -/
def KEYDOWN (inp : Input) (sc : Nat) : Bool := sc ≠ 0 && inp.k sc ≠ 0

def moveSpeed : ℚ := 2.0

def PISTOL_COOLDOWN_SEC : ℚ := 0.55

def SHOTGUN_COOLDOWN_SEC : ℚ := 0.95

def SMG_COOLDOWN_SEC : ℚ := 0.12

def PLASMA_COOLDOWN_SEC : ℚ := 0.16

def RRG_COOLDOWN_SEC : ℚ := 0.90

/-- The function `cooldown_tick(&t, dt)`: the new value of `t`. -/
def cooldown_tick (t dt : ℚ) : ℚ :=
  if t > 0 then (if t - dt < 0 then 0 else t - dt) else t

/-- The function `weapon_has_ammo`. -/
def weapon_has_ammo (g : World) (w : WeaponType) : Int :=
  if g.godmode_enabled ≠ 0 then 1
  else
    match w with
    | WEAPON_PISTOL => if g.ammo_bullets > 0 then 1 else 0
    | WEAPON_SMG => if g.ammo_bullets > 0 then 1 else 0
    | WEAPON_SHOTGUN => if g.ammo_shells > 0 then 1 else 0
    | WEAPON_PLASMA => if g.ammo_energy > 0 then 1 else 0
    | WEAPON_RRG => if g.ammo_energy ≥ 5 then 1 else 0

/-- The function `weapon_consume_ammo`. -/
def weapon_consume_ammo (g : World) (w : WeaponType) : World :=
  if g.godmode_enabled ≠ 0 then g
  else
    match w with
    | WEAPON_PISTOL => { g with ammo_bullets := if g.ammo_bullets - 1 < 0 then 0 else g.ammo_bullets - 1 }
    | WEAPON_SMG => { g with ammo_bullets := if g.ammo_bullets - 1 < 0 then 0 else g.ammo_bullets - 1 }
    | WEAPON_SHOTGUN => { g with ammo_shells := if g.ammo_shells - 1 < 0 then 0 else g.ammo_shells - 1 }
    | WEAPON_PLASMA => { g with ammo_energy := if g.ammo_energy - 1 < 0 then 0 else g.ammo_energy - 1 }
    | WEAPON_RRG => { g with ammo_energy := if g.ammo_energy - 5 < 0 then 0 else g.ammo_energy - 5 }

/-- The four `if (current_weapon == ... && !has...) current_weapon = WEAPON_PISTOL;` of
`init_player`, in order. -/
def init_player_weapon (g : World) : WeaponType :=
  let w1 := if g.current_weapon = WEAPON_SHOTGUN ∧ g.hasShotgun = 0 then WEAPON_PISTOL else g.current_weapon
  let w2 := if w1 = WEAPON_SMG ∧ g.hasSMG = 0 then WEAPON_PISTOL else w1
  let w3 := if w2 = WEAPON_PLASMA ∧ g.hasPlasma = 0 then WEAPON_PISTOL else w2
  if w3 = WEAPON_RRG ∧ g.hasRRG = 0 then WEAPON_PISTOL else w3

/-- The function `init_player`. -/
def init_player (g : World) : World :=
  { g with
    px := if g.worldmap ≠ none ∧ g.worldWidth > 0 ∧ g.worldHeight > 0 then g.player_spawn_x else 3.0
    py := if g.worldmap ≠ none ∧ g.worldWidth > 0 ∧ g.worldHeight > 0 then g.player_spawn_y else 3.0
    angle := 0
    hp := 100
    ammo_bullets := if g.ammo_bullets < 0 then 0 else g.ammo_bullets
    ammo_shells := if g.ammo_shells < 0 then 0 else g.ammo_shells
    ammo_energy := if g.ammo_energy < 0 then 0 else g.ammo_energy
    hasKey := 0
    escaped := 0
    gun_recoil_timer := 0
    shot_fired := 0
    cd_pistol := 0
    cd_shotgun := 0
    cd_smg := 0
    cd_plasma := 0
    cd_rrg := 0
    current_weapon := init_player_weapon g
    player_damage_timer := 0
    player_dead := 0 }

/-- The constant `two_pi = (float)(M_PI * 2.0)`. -/
def two_pi : ℚ := M_PI * 2.0

/-- The mouse-look section of `update_player`. -/
def player_mouse_look (inp : Input) (g : World) : World :=
  let a1 := g.angle + (inp.mdx : ℚ) * g.mouse_sensitivity
  let a2 := if a1 ≥ two_pi ∨ a1 ≤ -two_pi then fmodf a1 two_pi else a1
  let a3 := if a2 < 0 then a2 + two_pi else a2
  { g with angle := a3 }

/-- The candidate position `(nx, ny)` of the movement section of `update_player`. -/
def player_candidate (m : Libm) (dt : ℚ) (inp : Input) (g : World) : ℚ × ℚ :=
  let n0 : ℚ × ℚ := (g.px, g.py)
  let n1 :=
    if KEYDOWN inp (inp.binds ACTION_MOVE_FORWARD) then
      (n0.1 + m.cosf g.angle * moveSpeed * dt, n0.2 + m.sinf g.angle * moveSpeed * dt)
    else n0
  let n2 :=
    if KEYDOWN inp (inp.binds ACTION_MOVE_BACK) then
      (n1.1 - m.cosf g.angle * moveSpeed * dt, n1.2 - m.sinf g.angle * moveSpeed * dt)
    else n1
  let n3 :=
    if KEYDOWN inp (inp.binds ACTION_STRAFE_LEFT) then
      (n2.1 + m.cosf (g.angle - M_PI / 2.0) * moveSpeed * dt,
       n2.2 + m.sinf (g.angle - M_PI / 2.0) * moveSpeed * dt)
    else n2
  if KEYDOWN inp (inp.binds ACTION_STRAFE_RIGHT) then
    (n3.1 + m.cosf (g.angle + M_PI / 2.0) * moveSpeed * dt,
     n3.2 + m.sinf (g.angle + M_PI / 2.0) * moveSpeed * dt)
  else n3

/-- The movement section of `update_player`. -/
def player_movement (m : Libm) (dt : ℚ) (inp : Input) (g : World) : World :=
  let n := player_candidate m dt inp g
  let tx := truncf n.1
  let ty := truncf n.2
  match g.worldmap with
  | some grid =>
    if tx ≥ 0 ∧ ty ≥ 0 ∧ tx < g.worldWidth ∧ ty < g.worldHeight then
      if tileAt grid ty.toNat tx.toNat < 2 then { g with px := n.1, py := n.2 } else g
    else g
  | none => g

/-- The cooldown `*cd` selected by the `switch (current_weapon)` of the shooting section. -/
def weapon_cd (g : World) (w : WeaponType) : ℚ :=
  match w with
  | WEAPON_PISTOL => g.cd_pistol
  | WEAPON_SHOTGUN => g.cd_shotgun
  | WEAPON_SMG => g.cd_smg
  | WEAPON_PLASMA => g.cd_plasma
  | WEAPON_RRG => g.cd_rrg

/-- The store `*cd = v` through the pointer selected by the `switch`. -/
def set_weapon_cd (g : World) (w : WeaponType) (v : ℚ) : World :=
  match w with
  | WEAPON_PISTOL => { g with cd_pistol := v }
  | WEAPON_SHOTGUN => { g with cd_shotgun := v }
  | WEAPON_SMG => { g with cd_smg := v }
  | WEAPON_PLASMA => { g with cd_plasma := v }
  | WEAPON_RRG => { g with cd_rrg := v }

/-- The value `cd_reset` set by the `switch (current_weapon)`. -/
def cd_reset (w : WeaponType) : ℚ :=
  match w with
  | WEAPON_PISTOL => PISTOL_COOLDOWN_SEC
  | WEAPON_SHOTGUN => SHOTGUN_COOLDOWN_SEC
  | WEAPON_SMG => SMG_COOLDOWN_SEC
  | WEAPON_PLASMA => PLASMA_COOLDOWN_SEC
  | WEAPON_RRG => RRG_COOLDOWN_SEC

/-- The value `recoil_frames` set by the `switch (current_weapon)`. -/
def recoil_frames (w : WeaponType) : Int :=
  match w with
  | WEAPON_PISTOL => 6
  | WEAPON_SHOTGUN => 10
  | WEAPON_SMG => 3
  | WEAPON_PLASMA => 4
  | WEAPON_RRG => 14

/-- The value `require_edge` set by the `switch (current_weapon)`. -/
def require_edge (w : WeaponType) : Int :=
  match w with
  | WEAPON_PISTOL => 1
  | WEAPON_SHOTGUN => 1
  | WEAPON_SMG => 0
  | WEAPON_PLASMA => 0
  | WEAPON_RRG => 1

/-- The value `currLMB`: the left button bit of `mstate` (`SDL_BUTTON(SDL_BUTTON_LEFT) = 1`). -/
def currLMB (inp : Input) : Int := if inp.mstate &&& 1 ≠ 0 then 1 else 0

/-- The value `want_fire` of the shooting section. -/
def want_fire (inp : Input) (g : World) : Int :=
  let edge : Int := if currLMB inp ≠ 0 ∧ g.lastLMB = 0 then 1 else 0
  if require_edge g.current_weapon ≠ 0 then edge else currLMB inp

/-- The head of the shooting section: the five `cooldown_tick` calls and `shot_fired = 0`. -/
def shooting_prepare (dt : ℚ) (g : World) : World :=
  { g with
    cd_pistol := cooldown_tick g.cd_pistol dt
    cd_shotgun := cooldown_tick g.cd_shotgun dt
    cd_smg := cooldown_tick g.cd_smg dt
    cd_plasma := cooldown_tick g.cd_plasma dt
    cd_rrg := cooldown_tick g.cd_rrg dt
    shot_fired := 0 }

/-- The test `want_fire && cd && (*cd <= 0.0f) && weapon_has_ammo(current_weapon)`; the
pointer `cd` is never null, the `switch` covers the five weapons. -/
def fire_test (inp : Input) (g : World) : Prop :=
  want_fire inp g ≠ 0 ∧ weapon_cd g g.current_weapon ≤ 0 ∧ weapon_has_ammo g g.current_weapon ≠ 0

instance (inp : Input) (g : World) : Decidable (fire_test inp g) := by
  unfold fire_test
  infer_instance

/-- The block run when the fire test passes. -/
def fire_weapon (g : World) : World :=
  set_weapon_cd
    { weapon_consume_ammo g g.current_weapon with
      gun_recoil_timer := recoil_frames g.current_weapon, shot_fired := 1 }
    g.current_weapon (cd_reset g.current_weapon)

/-- The shooting section of `update_player`. -/
def player_shooting (dt : ℚ) (inp : Input) (g : World) : World :=
  { (if fire_test inp (shooting_prepare dt g) then fire_weapon (shooting_prepare dt g)
      else shooting_prepare dt g) with lastLMB := currLMB inp }

/-- The value `KEYDOWN(b)` as the C `int` stored in `curr[i]`. -/
def key_int (inp : Input) (a : Action) : Int := if KEYDOWN inp (inp.binds a) then 1 else 0

/-- The five `if (curr[i] && !lastWep[i] && has...) current_weapon = ...;` of the
weapon-switch section, in order. -/
def switched_weapon (inp : Input) (g : World) : WeaponType :=
  let w0 := if key_int inp ACTION_WEAPON_1 ≠ 0 ∧ g.lastWep0 = 0 then WEAPON_PISTOL else g.current_weapon
  let w1 := if key_int inp ACTION_WEAPON_2 ≠ 0 ∧ g.lastWep1 = 0 ∧ g.hasShotgun ≠ 0 then WEAPON_SHOTGUN else w0
  let w2 := if key_int inp ACTION_WEAPON_3 ≠ 0 ∧ g.lastWep2 = 0 ∧ g.hasSMG ≠ 0 then WEAPON_SMG else w1
  let w3 := if key_int inp ACTION_WEAPON_4 ≠ 0 ∧ g.lastWep3 = 0 ∧ g.hasPlasma ≠ 0 then WEAPON_PLASMA else w2
  if key_int inp ACTION_WEAPON_5 ≠ 0 ∧ g.lastWep4 = 0 ∧ g.hasRRG ≠ 0 then WEAPON_RRG else w3

/-- The weapon-switch section of `update_player`. -/
def player_weapon_switch (inp : Input) (g : World) : World :=
  { g with
    current_weapon := switched_weapon inp g
    lastWep0 := key_int inp ACTION_WEAPON_1
    lastWep1 := key_int inp ACTION_WEAPON_2
    lastWep2 := key_int inp ACTION_WEAPON_3
    lastWep3 := key_int inp ACTION_WEAPON_4
    lastWep4 := key_int inp ACTION_WEAPON_5 }

/-- The distance from the centre of tile `(x, y)` to the player, as the interaction
section computes it. -/
def tile_dist (m : Libm) (g : World) (y x : Nat) : ℚ :=
  let dx := ((x : ℚ) + 0.5) - g.px
  let dy := ((y : ℚ) + 0.5) - g.py
  m.sqrtf (dx * dx + dy * dy)

/-- The body of the nested loop of the interaction section at cell `(x, y)`. -/
def interact_cell (m : Libm) (g : World) (y x : Nat) : World :=
  let dist := tile_dist m g y x
  let tile := g.tile y x
  if tile = 1 ∧ dist < 0.7 then
    show_message "you got the key!" { g.setTile y x 0 with hasKey := 1 }
  else if tile = 3 ∧ dist < 1.0 then
    if enemy_boss_alive g ≠ 0 then show_message "the exit is sealed. defeat the boss!" g
    else if g.hasKey ≠ 0 then { g.setTile y x 0 with escaped := 1 }
    else show_message "you need key to open the exit door." g
  else g

/-- The interaction section of `update_player`. -/
def player_interaction (m : Libm) (inp : Input) (g : World) : World :=
  let currE := key_int inp ACTION_INTERACT
  let g1 :=
    if currE ≠ 0 ∧ g.lastE = 0 then
      if g.worldmap ≠ none then
        for_tiles g.worldHeight.toNat g.worldWidth.toNat (interact_cell m) g
      else g
    else g
  { g1 with lastE := currE }

/-- The damage-flash section of `update_player`. -/
def player_damage_fx (dt : ℚ) (g : World) : World :=
  if g.player_damage_timer > 0 then
    { g with player_damage_timer :=
        if g.player_damage_timer - dt < 0 then 0 else g.player_damage_timer - dt }
  else g

/-- The head of `update_player`: `if (godmode_enabled) { player_dead = 0; hp = 100; }`. -/
def godmode_refresh (g : World) : World :=
  if g.godmode_enabled ≠ 0 then { g with player_dead := 0, hp := 100 } else g

/-- The sections of `update_player` after the `if (player_dead) return;`, in order. -/
def player_sections (m : Libm) (dt : ℚ) (inp : Input) (g : World) : World :=
  player_damage_fx dt (player_interaction m inp (player_weapon_switch inp
    (player_shooting dt inp (player_movement m dt inp (player_mouse_look inp g)))))

/-- The function `update_player(dt)`. -/
def update_player (m : Libm) (dt : ℚ) (inp : Input) (g : World) : World :=
  if (godmode_refresh g).player_dead ≠ 0 then godmode_refresh g
  else player_sections m dt inp (godmode_refresh g)

/-! ## Shot resolution (`game.c`, the block under `if (shot_fired)` of the PLAYING frame) -/

/-- The screen width `W` of `render.h`. -/
def W : Int := 800

/-- The screen height `H` of `render.h`. -/
def H : Int := 600

/-- The horizontal field of view `FOV` of `render.h`. -/
def FOV : ℚ := 0.6

/-- The function `weapon_damage`. -/
def weapon_damage (w : WeaponType) : Int :=
  match w with
  | WEAPON_SHOTGUN => 2
  | WEAPON_PLASMA => 2
  | WEAPON_RRG => 12
  | WEAPON_SMG => 1
  | WEAPON_PISTOL => 1

/-- The function `weapon_hitbox_size`. -/
def weapon_hitbox_size (w : WeaponType) : Int :=
  if w = WEAPON_SHOTGUN then 280 else if w = WEAPON_RRG then 230 else 200

/-- The loop `while (dir > M_PI) dir -= 2 * M_PI;` run for at most `fuel` iterations. -/
def wrap_above : Nat → ℚ → ℚ
  | 0, dir => dir
  | fuel + 1, dir => if dir > M_PI then wrap_above fuel (dir - 2 * M_PI) else dir

/-- The loop `while (dir < -M_PI) dir += 2 * M_PI;` run for at most `fuel` iterations. -/
def wrap_below : Nat → ℚ → ℚ
  | 0, dir => dir
  | fuel + 1, dir => if dir < -M_PI then wrap_below fuel (dir + 2 * M_PI) else dir

/-- The two normalisation loops on `dir`, each with enough fuel to reach its exit test. -/
def normalize_dir (dir : ℚ) : ℚ :=
  wrap_below (⌈-(wrap_above (⌈dir / (2 * M_PI)⌉.toNat + 1) dir) / (2 * M_PI)⌉.toNat + 1)
    (wrap_above (⌈dir / (2 * M_PI)⌉.toNat + 1) dir)

/-- The value `dir` of the shot loop for one enemy, after normalisation. -/
def shot_dir (m : Libm) (g : World) (e : Enemy) : ℚ :=
  normalize_dir (m.atan2f (e.y - g.py) (e.x - g.px) - g.angle)

/-- The value `sx` of the shot loop: the projected screen column. -/
def shot_sx (dir : ℚ) : ℚ := (dir + FOV * 0.5) / FOV * (W : ℚ)

/-- The two nested tests of the shot loop after the `ENEMY_ALIVE` test: the direction is
within half the field of view and `(sx, sy)` lies in the hitbox square. -/
def shot_in_hitbox (m : Libm) (g : World) (e : Enemy) : Prop :=
  |shot_dir m g e| < FOV * 0.5 ∧
    shot_sx (shot_dir m g e) ≥ ((Int.tdiv W 2 - Int.tdiv (weapon_hitbox_size g.current_weapon) 2 : Int) : ℚ) ∧
    shot_sx (shot_dir m g e) ≤
      ((Int.tdiv W 2 - Int.tdiv (weapon_hitbox_size g.current_weapon) 2
        + weapon_hitbox_size g.current_weapon : Int) : ℚ) ∧
    ((Int.tdiv H 2 : Int) : ℚ) ≥ ((Int.tdiv H 2 - Int.tdiv (weapon_hitbox_size g.current_weapon) 2 : Int) : ℚ) ∧
    ((Int.tdiv H 2 : Int) : ℚ) ≤
      ((Int.tdiv H 2 - Int.tdiv (weapon_hitbox_size g.current_weapon) 2
        + weapon_hitbox_size g.current_weapon : Int) : ℚ)

instance (m : Libm) (g : World) (e : Enemy) : Decidable (shot_in_hitbox m g e) := by
  unfold shot_in_hitbox
  infer_instance

/-- The enemies the shot loop considers: alive and inside the hitbox. -/
def shot_candidate (m : Libm) (g : World) (e : Enemy) : Prop :=
  e.state = ENEMY_ALIVE ∧ shot_in_hitbox m g e

instance (m : Libm) (g : World) (e : Enemy) : Decidable (shot_candidate m g e) := by
  unfold shot_candidate
  infer_instance

/-- The value `dist = sqrtf(dx*dx + dy*dy)` of the shot loop, with `dx = enemies[i].x - px`
and `dy = enemies[i].y - py`. -/
def shot_dist (m : Libm) (g : World) (e : Enemy) : ℚ :=
  m.sqrtf ((e.x - g.px) * (e.x - g.px) + (e.y - g.py) * (e.y - g.py))

/-- The initial value `1e9f` of `bestDist`. -/
def BEST_DIST_INIT : ℚ := 1000000000

/-- The shot loop from index `i` on, over the enemies not yet visited: the final values
of `best` and `bestDist`. -/
def shot_scan (m : Libm) (g : World) : List Enemy → Int → Int × ℚ → Int × ℚ
  | [], _, acc => acc
  | e :: rest, i, acc =>
    if e.state ≠ ENEMY_ALIVE then shot_scan m g rest (i + 1) acc
    else if shot_in_hitbox m g e then
      if shot_dist m g e < acc.2 then shot_scan m g rest (i + 1) (i, shot_dist m g e)
      else shot_scan m g rest (i + 1) acc
    else shot_scan m g rest (i + 1) acc

/-- The value of `best` after the shot loop. -/
def shot_best (m : Libm) (g : World) : Int := (shot_scan m g g.enemies 0 (-1, BEST_DIST_INIT)).1

/-- The shot resolution block of the PLAYING frame. -/
def shot_resolution (m : Libm) (g : World) : World :=
  if g.shot_fired ≠ 0 then
    if shot_best m g ≥ 0 then damage_enemy (shot_best m g) (weapon_damage g.current_weapon) g
    else g
  else g

/-- The simulation part of a PLAYING frame of `game_loop`, up to the shot resolution. -/
def playing_updates (m : Libm) (dt : ℚ) (inp : Input) (g : World) : World :=
  shot_resolution m (update_items m (update_enemies m dt (update_player m dt inp g)))

/-- A run of PLAYING frames with the same `dt` and the same input. -/
def run_frames (m : Libm) (dt : ℚ) (inp : Input) : Nat → World → World
  | 0, g => g
  | n + 1, g => run_frames m dt inp n (playing_updates m dt inp g)

/-! ## A reference `Libm` for the evaluations

Rational stand-ins for the libm functions.  They are exact at the arguments used in the
evaluations below: square roots of squares of rationals, `cos 0 = 1`, `sin 0 = 0` and
`atan2(0, x) = 0` for `x > 0`. -/

/-- Newton iteration for the integer square root, from above. -/
def isqrt_iter : Nat → Nat → Nat → Nat
  | 0, _, x => x
  | fuel + 1, n, x => if (x + n / x) / 2 < x then isqrt_iter fuel n ((x + n / x) / 2) else x

/-- The integer square root (floor). -/
def isqrt (n : Nat) : Nat := if n = 0 then 0 else isqrt_iter 256 n n

/-- The square root of a rational, to six digits after the point; exact on squares. -/
def sqrt_ref (q : ℚ) : ℚ :=
  if q ≤ 0 then 0 else (isqrt (q.num.toNat * q.den * 10 ^ 12) : ℚ) / ((q.den : ℚ) * 10 ^ 6)

/-- The Taylor polynomial of the cosine of degree 32. -/
def cos_ref (x : ℚ) : ℚ :=
  (List.range 17).foldr (fun k acc => 1 - x * x / (((2 * (k : ℚ) + 1) * (2 * (k : ℚ) + 2))) * acc) 1

/-- The Taylor polynomial of the sine of degree 33. -/
def sin_ref (x : ℚ) : ℚ :=
  x * (List.range 17).foldr (fun k acc => 1 - x * x / (((2 * (k : ℚ) + 2) * (2 * (k : ℚ) + 3))) * acc) 1

/-- An approximation of the arctangent on `[-1, 1]` (error below 0.005). -/
def atan_unit (t : ℚ) : ℚ := t / (1 + 0.28 * t * t)

/-- An approximation of `atan2(y, x)` by quadrants. -/
def atan2_ref (y x : ℚ) : ℚ :=
  if x = 0 ∧ y = 0 then 0
  else if |y| ≤ |x| then
    if x > 0 then atan_unit (y / x)
    else if y ≥ 0 then atan_unit (y / x) + M_PI
    else atan_unit (y / x) - M_PI
  else if y > 0 then M_PI / 2 - atan_unit (x / y)
  else -M_PI / 2 - atan_unit (x / y)

/-- The reference libm. -/
def libm_ref : Libm := { sqrtf := sqrt_ref, cosf := cos_ref, sinf := sin_ref, atan2f := atan2_ref }

/-- The default key bindings of `config_set_defaults` (SDL scancodes). -/
def default_binds (a : Action) : Nat :=
  match a with
  | ACTION_MOVE_FORWARD => 26
  | ACTION_MOVE_BACK => 22
  | ACTION_STRAFE_LEFT => 4
  | ACTION_STRAFE_RIGHT => 7
  | ACTION_INTERACT => 8
  | ACTION_PAUSE => 41
  | ACTION_WEAPON_1 => 30
  | ACTION_WEAPON_2 => 31
  | ACTION_WEAPON_3 => 32
  | ACTION_WEAPON_4 => 33
  | ACTION_WEAPON_5 => 34

/-- An input with the default bindings, the given keys held down, and the mouse state. -/
def input_of (keys : List Nat) (mstate : Nat) : Input :=
  { k := fun sc => if sc ∈ keys then 1 else 0, binds := default_binds, mdx := 0, mstate := mstate }

/-! ## Predicates used in the statements -/

/-- A tile code that `load_map` can store: in `[0, 99]` and not the spawn code 8. -/
def loaded_tile (t : Int) : Prop := 0 ≤ t ∧ t ≤ 99 ∧ t ≠ 8

/-- The tile codes that `init_enemies` turns into enemies. -/
def is_enemy_tile (t : Int) : Prop := t = 9 ∨ t = 10 ∨ t = 12 ∨ t = 13

/-- A grid of `h` rows of `w` tiles each is allocated. -/
def grid_wf (w h : Int) (g : World) : Prop :=
  ∃ m, g.worldmap = some m ∧ m.length = h.toNat ∧ ∀ row ∈ m, row.length = w.toNat

/-- The state of the map globals that the loops of `load_map` maintain: a grid of `h`
rows of `w` tiles is allocated, `worldWidth = w`, `worldHeight = h`, and every tile is a
loadable code. -/
def map_loaded (w h : Int) (g : World) : Prop :=
  grid_wf w h g ∧ g.worldWidth = w ∧ g.worldHeight = h ∧ ∀ y x, loaded_tile (g.tile y x)

/-- A map file with tile code 18 inside a walled room. -/
def map_with_tile_18 : Int → Option (List Char) :=
  fun _ => some "2 2 2 2\n2 8 18 2\n2 2 2 2\n".toList

/-- The predicate of C2: `0 <= hp <= 100` and the three ammo pools non-negative. -/
def stats_ok (g : World) : Prop :=
  0 ≤ g.hp ∧ g.hp ≤ 100 ∧ 0 ≤ g.ammo_bullets ∧ 0 ≤ g.ammo_shells ∧ 0 ≤ g.ammo_energy

instance (g : World) : Decidable (stats_ok g) := by
  unfold stats_ok
  infer_instance

/-- The sequence `load_map`, `init_player`, `init_enemies`, `init_items` that
`begin_new_game` runs on the fresh globals. -/
def start_level (files : Int → Option (List Char)) (level : Int) : World :=
  init_items (init_enemies (init_player (load_map files level {}).1))

/-- A map file whose middle row starts with a floor tile on the west border; the player
spawns on the second tile of that row. -/
def map_open_west : Int → Option (List Char) :=
  fun _ => some "2 2 2 2\n0 8 0 2\n2 2 2 2\n".toList

/-- The same map with an enemy of kind 1 east of the spawn. -/
def map_open_west_enemy : Int → Option (List Char) :=
  fun _ => some "2 2 2 2\n0 8 9 2\n2 2 2 2\n".toList

/-- The specification's `want_fire`: the button held for SMG and plasma, a press edge for pistol,
shotgun and RRG. -/
def wants_fire_spec (inp : Input) (g : World) : Prop :=
  if g.current_weapon = WEAPON_SMG ∨ g.current_weapon = WEAPON_PLASMA then inp.mstate &&& 1 ≠ 0
  else inp.mstate &&& 1 ≠ 0 ∧ g.lastLMB = 0

instance (inp : Input) (g : World) : Decidable (wants_fire_spec inp g) := by
  unfold wants_fire_spec
  infer_instance

/-- The specification's ammo test: energy at least 5 for the RRG, the weapon's pool positive
otherwise (bullets for pistol and SMG, shells for the shotgun, energy for plasma). -/
def has_ammo_spec (g : World) : Prop :=
  if g.current_weapon = WEAPON_RRG then g.ammo_energy ≥ 5
  else if g.current_weapon = WEAPON_PLASMA then g.ammo_energy > 0
  else if g.current_weapon = WEAPON_SHOTGUN then g.ammo_shells > 0
  else g.ammo_bullets > 0

instance (g : World) : Decidable (has_ammo_spec g) := by
  unfold has_ammo_spec
  infer_instance

/-- The specification's fire condition, on the globals at the call of `update_player`; the
cooldown is the current weapon's, after the tick of this frame. -/
def fires_spec (dt : ℚ) (inp : Input) (g : World) : Prop :=
  wants_fire_spec inp g ∧ cooldown_tick (weapon_cd g g.current_weapon) dt ≤ 0 ∧ has_ammo_spec g

instance (dt : ℚ) (inp : Input) (g : World) : Decidable (fires_spec dt inp g) := by
  unfold fires_spec
  infer_instance

/-- The globals of a player killed in the previous frame: dead, hp 0, the initial ten
bullets, pistol in hand, all cooldowns at 0. -/
def dead_player : World := { hp := 0, player_dead := 1 }

/-- The globals with the view angle and the position replaced: all that the mouse-look
and movement sections of `update_player` can change. -/
def with_pos (g : World) (a x y : ℚ) : World := { g with angle := a, px := x, py := y }

/-- The globals `b` agree with `a` on the combat state: the shot flag, the recoil timer,
the ammo pools, the cooldowns, hp, the dead flag and the godmode flag. -/
def same_combat (a b : World) : Prop :=
  b.shot_fired = a.shot_fired ∧ b.gun_recoil_timer = a.gun_recoil_timer ∧
    b.ammo_bullets = a.ammo_bullets ∧ b.ammo_shells = a.ammo_shells ∧
    b.ammo_energy = a.ammo_energy ∧ b.cd_pistol = a.cd_pistol ∧ b.cd_shotgun = a.cd_shotgun ∧
    b.cd_smg = a.cd_smg ∧ b.cd_plasma = a.cd_plasma ∧ b.cd_rrg = a.cd_rrg ∧ b.hp = a.hp ∧
    b.player_dead = a.player_dead ∧ b.godmode_enabled = a.godmode_enabled

/-- Scenario 3 of the specification: the player at (1.5, 1.5) facing angle 0 with the
pistol, one enemy of kind 1 (hp 2) at (3.5, 1.5). -/
def shot_hit_scene : World :=
  { px := 1.5, py := 1.5, angle := 0,
    enemies := [{ x := 3.5, y := 1.5, state := ENEMY_ALIVE, kind := ENEMY_KIND1,
                  hp := hp_for_kind ENEMY_KIND1, touch_cooldown := 0, dying_timer := 0,
                  attack_timer := 0 }] }

/-- Scenario 3 at the moment of the shot: `update_player` has set `shot_fired`. -/
def shot_fired_scene : World := { shot_hit_scene with shot_fired := 1 }

/-- The same moment with the enemy two billion tiles ahead of the player, a position an
enemy can only have been given by a saved game. -/
def far_enemy_scene : World :=
  { px := 1.5, py := 1.5, angle := 0, shot_fired := 1,
    enemies := [{ x := 2000000001.5, y := 1.5, state := ENEMY_ALIVE, kind := ENEMY_KIND1,
                  hp := 2, touch_cooldown := 0, dying_timer := 0, attack_timer := 0 }] }

/-- The globals `b` agree with `a` on what the interaction section reads and writes,
apart from the position: the map, the key and escape flags, the enemies and `lastE`. -/
def same_scene (a b : World) : Prop :=
  b.worldmap = a.worldmap ∧ b.worldWidth = a.worldWidth ∧ b.worldHeight = a.worldHeight ∧
    b.hasKey = a.hasKey ∧ b.escaped = a.escaped ∧ b.enemies = a.enemies ∧ b.lastE = a.lastE

/-- The first test of the interaction loop body: a key tile within 0.7. -/
def picks_key (m : Libm) (g : World) (y x : Nat) : Prop :=
  g.tile y x = 1 ∧ tile_dist m g y x < 0.7

instance (m : Libm) (g : World) (y x : Nat) : Decidable (picks_key m g y x) := by
  unfold picks_key
  infer_instance

/-- The tests under which the interaction loop body opens a door: a door tile within
1.0, no boss alive, and the key in hand. -/
def opens_door (m : Libm) (g : World) (y x : Nat) : Prop :=
  g.tile y x = 3 ∧ tile_dist m g y x < 1.0 ∧ enemy_boss_alive g = 0 ∧ g.hasKey ≠ 0

instance (m : Libm) (g : World) (y x : Nat) : Decidable (opens_door m g y x) := by
  unfold opens_door
  infer_instance

/-- The globals of `update_player` when its interaction section starts. -/
def before_interaction (m : Libm) (dt : ℚ) (inp : Input) (g : World) : World :=
  player_weapon_switch inp (player_shooting dt inp
    (player_movement m dt inp (player_mouse_look inp (godmode_refresh g))))

/-- A room with a key tile at (1, 1) and an exit door at (2, 1), the player standing on
the key tile at (1.6, 1.5) without the key, no enemies, and `E` not yet held. -/
def key_and_door_scene : World :=
  { worldmap := some [[2, 2, 2, 2], [2, 1, 3, 2], [2, 2, 2, 2]], worldWidth := 4, worldHeight := 3,
    px := 1.6, py := 1.5 }

/-- A room with an exit door at (2, 1), the player at (1.6, 1.5) holding the key, no
enemies, and the player dead. -/
def dead_at_door_scene : World :=
  { worldmap := some [[2, 2, 2, 2], [2, 0, 3, 2], [2, 2, 2, 2]], worldWidth := 4, worldHeight := 3,
    px := 1.6, py := 1.5, hasKey := 1, hp := 0, player_dead := 1 }

/-- The room of `dead_at_door_scene` with the player alive and holding the key. -/
def alive_at_door_scene : World :=
  { worldmap := some [[2, 2, 2, 2], [2, 0, 3, 2], [2, 2, 2, 2]], worldWidth := 4, worldHeight := 3,
    px := 1.6, py := 1.5, hasKey := 1 }

/-- The specification's condition for a pickup: the item is not collected and lies within 0.7 of
the player. -/
def collectable (m : Libm) (g : World) (it : Item) : Prop :=
  it.collected = 0 ∧ item_dist m g it < 0.7

instance (m : Libm) (g : World) (it : Item) : Decidable (collectable m g it) := by
  unfold collectable
  infer_instance

/-- An item after `update_items`, by the specification: marked collected if it was collectable. -/
def collect (m : Libm) (g : World) (it : Item) : Item :=
  if collectable m g it then { it with collected := 1 } else it

/-- The effects of a list of picked-up items, applied in order. -/
def apply_effects (its : List Item) (g : World) : World :=
  its.foldl (fun a it => item_effect it.type a) g

/-- Godmode on, with the player marked dead at hp 0, no bullets left, and an alive
final boss standing on the player with its attack ready. -/
def godmode_scene : World :=
  { godmode_enabled := 1, hp := 0, player_dead := 1, ammo_bullets := 0, px := 1.5, py := 1.5,
    enemies := [{ x := 1.5, y := 1.5, state := ENEMY_ALIVE, kind := ENEMY_FINALBOSS, hp := 60,
                  touch_cooldown := 0, dying_timer := 0, attack_timer := 0 }] }

/-! ## The enemy sprites (`render.c`) -/

/-- The constant `(float)M_PI`: the single-precision value nearest to pi. -/
def M_PI_F : ℚ := 3.1415927410125732421875

/-- The loop `while (dir > (float)M_PI) dir -= 2.0f * (float)M_PI;` of the sprite pass,
run for at most `fuel` iterations. -/
def sprite_wrap_above : Nat → ℚ → ℚ
  | 0, dir => dir
  | fuel + 1, dir => if dir > M_PI_F then sprite_wrap_above fuel (dir - 2.0 * M_PI_F) else dir

/-- The loop `while (dir < -(float)M_PI) dir += 2.0f * (float)M_PI;` of the sprite pass,
run for at most `fuel` iterations. -/
def sprite_wrap_below : Nat → ℚ → ℚ
  | 0, dir => dir
  | fuel + 1, dir => if dir < -M_PI_F then sprite_wrap_below fuel (dir + 2.0 * M_PI_F) else dir

/-- The two normalisation loops of the sprite pass, each with enough fuel to reach its
exit test. -/
def sprite_dir (dir : ℚ) : ℚ :=
  sprite_wrap_below (⌈-(sprite_wrap_above (⌈dir / (2 * M_PI_F)⌉.toNat + 1) dir) / (2 * M_PI_F)⌉.toNat + 1)
    (sprite_wrap_above (⌈dir / (2 * M_PI_F)⌉.toNat + 1) dir)

/-- The loop `while (t < dist)` of `is_visible_to_player`, from the current `t` on, run
for at most `fuel` iterations: the value returned by the function. -/
def visible_march (g : World) (tx ty vx vy dist : ℚ) : Nat → ℚ → Int
  | 0, _ => 1
  | fuel + 1, t =>
    if t < dist then
      if truncf (g.px + vx * t) < 0 ∨ truncf (g.py + vy * t) < 0
          ∨ truncf (g.px + vx * t) ≥ g.worldWidth ∨ truncf (g.py + vy * t) ≥ g.worldHeight then 0
      else if truncf (g.px + vx * t) = truncf tx ∧ truncf (g.py + vy * t) = truncf ty then 1
      else if g.tile (truncf (g.py + vy * t)).toNat (truncf (g.px + vx * t)).toNat ≥ 2 then 0
      else visible_march g tx ty vx vy dist fuel (t + 0.05)
    else 1

/-- The function `is_visible_to_player(tx, ty)`.  The march adds `step = 0.05` to `t`
until `t >= dist`, so `⌈dist / 0.05⌉ + 1` iterations reach the exit test. -/
def is_visible_to_player (m : Libm) (g : World) (tx ty : ℚ) : Int :=
  let dx := tx - g.px
  let dy := ty - g.py
  let dist := m.sqrtf (dx * dx + dy * dy)
  if dist ≤ 0 then 1
  else
    let invDist := 1.0 / dist
    visible_march g tx ty (dx * invDist) (dy * invDist) dist (⌈dist / 0.05⌉.toNat + 1) 0

/-- The enemy textures of `render.c`, as handles; `none` is a `NULL` texture. -/
structure EnemyTextures where
  texEnemy1 : Option Nat := none
  texEnemy1Die : Option Nat := none
  texEnemy1Attack : Option Nat := none
  texEnemy2 : Option Nat := none
  texEnemy2Die : Option Nat := none
  texEnemy2Attack : Option Nat := none
  texMiniboss1 : Option Nat := none
  texMiniboss1Die : Option Nat := none
  texMiniboss1Attack : Option Nat := none
  texFinalboss : Option Nat := none
  texFinalbossDie : Option Nat := none
  texFinalbossAttack : Option Nat := none

/-- The three textures `base`, `die`, `atk` chosen by the `switch (e->kind)` of
`enemy_tex_for`. -/
def enemy_tex_set (t : EnemyTextures) (k : EnemyKind) : Option Nat × Option Nat × Option Nat :=
  match k with
  | ENEMY_KIND1 => (t.texEnemy1, t.texEnemy1Die, t.texEnemy1Attack)
  | ENEMY_KIND2 => (t.texEnemy2, t.texEnemy2Die, t.texEnemy2Attack)
  | ENEMY_MINIBOSS1 => (t.texMiniboss1, t.texMiniboss1Die, t.texMiniboss1Attack)
  | ENEMY_FINALBOSS => (t.texFinalboss, t.texFinalbossDie, t.texFinalbossAttack)

/-- The function `enemy_tex_for`: the texture stored in `*out`. -/
def enemy_tex_for (t : EnemyTextures) (e : Enemy) : Option Nat :=
  let base := (enemy_tex_set t e.kind).1
  let die := (enemy_tex_set t e.kind).2.1
  let atk := (enemy_tex_set t e.kind).2.2
  if e.state = ENEMY_DYING then (if die ≠ none then die else base)
  else if e.state = ENEMY_ALIVE ∧ e.attack_timer > 0 then (if atk ≠ none then atk else base)
  else base

/-- The function `enemy_sprite_base_size`. -/
def enemy_sprite_base_size (e : Enemy) : ℚ :=
  match e.kind with
  | ENEMY_MINIBOSS1 => 260.0
  | ENEMY_FINALBOSS => 320.0
  | _ => 160.0

/-- A call `SDL_RenderCopy(r, tex, NULL, &(SDL_Rect){x, y, w, h})`. -/
structure RenderCopy where
  tex : Nat
  x : Int
  y : Int
  w : Int
  h : Int
  deriving DecidableEq

/-- The body of the loop of `draw_enemies` for one enemy: the `SDL_RenderCopy` call it
makes, or `none` when the iteration ends at a `continue`. -/
def draw_enemy (m : Libm) (t : EnemyTextures) (g : World) (e : Enemy) : Option RenderCopy :=
  if e.state = ENEMY_DEAD then none
  else
    let dx := e.x - g.px
    let dy := e.y - g.py
    let dir := sprite_dir (m.atan2f dy dx - g.angle)
    if |dir| ≥ FOV / 2 then none
    else
      let sx := (dir + FOV / 2.0) / FOV * (W : ℚ)
      let dist0 := m.sqrtf (dx * dx + dy * dy)
      let dist := if dist0 < 0.01 then 0.01 else dist0
      if is_visible_to_player m g e.x e.y = 0 then none
      else
        let size := enemy_sprite_base_size e / dist
        match enemy_tex_for t e with
        | none => none
        | some T =>
          some { tex := T, x := truncf (sx - size / 2), y := truncf (((Int.tdiv H 2 : Int) : ℚ) - size / 2),
                 w := truncf size, h := truncf size }

/-- The function `draw_enemies`: the `SDL_RenderCopy` calls it makes, in order. -/
def draw_enemies (m : Libm) (t : EnemyTextures) (g : World) : List RenderCopy :=
  g.enemies.filterMap (draw_enemy m t g)

/-- A world whose player is dead, without godmode, standing in a room with other state
away from the defaults. -/
def dead_player_scene : World :=
  { worldmap := some [[2, 2, 2, 2], [2, 0, 3, 2], [2, 2, 2, 2]], worldWidth := 4, worldHeight := 3,
    px := 1.6, py := 1.5, angle := 1, hasKey := 1, hp := 0, player_dead := 1, ammo_bullets := 7,
    hasShotgun := 1, current_weapon := WEAPON_SHOTGUN, cd_shotgun := 0.5, player_damage_timer := 0.2 }

/-- A world with a dead enemy right in front of the player, who has just fired. -/
def dead_enemy_scene : World :=
  { worldmap := some [[2, 2, 2, 2], [2, 0, 0, 2], [2, 2, 2, 2]], worldWidth := 4, worldHeight := 3,
    px := 1.5, py := 1.5, shot_fired := 1,
    enemies := [{ x := 2.5, y := 1.5, state := ENEMY_DEAD, kind := ENEMY_KIND1, hp := 0,
                  touch_cooldown := 0, dying_timer := 0, attack_timer := 0 }] }

/-! ## Saved games (`savegame.h`, `savegame.c`) -/

def SAVEGAME_VERSION : Int := 3

/-- The struct `SaveGame`.  A C array is a list: entry `i` of the array is `getD i 0` of
the list, so a list shorter than the array stands for the array padded with zeros, and
the defaults are the record after `memset(&sg, 0, sizeof sg)`. -/
structure SaveGame where
  version : Int := 0
  level : Int := 0
  px : ℚ := 0
  py : ℚ := 0
  angle : ℚ := 0
  hp : Int := 0
  ammo_bullets : Int := 0
  ammo_shells : Int := 0
  ammo_energy : Int := 0
  hasKey : Int := 0
  hasShotgun : Int := 0
  hasSMG : Int := 0
  hasPlasma : Int := 0
  hasRRG : Int := 0
  weapon : Int := 0
  godmode : Int := 0
  sensitivity : ℚ := 0
  enemy_count : Int := 0
  enemy_x : List ℚ := []
  enemy_y : List ℚ := []
  enemy_kind : List Int := []
  enemy_state : List Int := []
  enemy_hp : List Int := []
  enemy_dying_timer : List ℚ := []
  item_count : Int := 0
  item_x : List ℚ := []
  item_y : List ℚ := []
  item_type : List Int := []
  item_collected : List Int := []

/-- The directory `DATA/saves`: the content of `save<n>.json` for each slot (`none` when
the file does not exist) and whether `fopen(path, "wb")` succeeds for it. -/
structure Disk where
  file : Int → Option (List Char) := fun _ => none
  writable : Int → Bool := fun _ => true

/-- The clamp of `slot` to `1..3` done by `build_save_path`. -/
def clamp_slot (slot : Int) : Int := if slot < 1 then 1 else if slot > 3 then 3 else slot

/-- The decimal digits of `n`, most significant first, produced from the last digit
backwards; `fuel` bounds the number of digits. -/
def dec_digits_aux : Nat → Nat → List Char → List Char
  | 0, _, acc => acc
  | fuel + 1, n, acc =>
    if n / 10 = 0 then Char.ofNat (48 + n % 10) :: acc
    else dec_digits_aux fuel (n / 10) (Char.ofNat (48 + n % 10) :: acc)

/-- The decimal digits of a natural number, as `printf` writes them. -/
def dec_digits (n : Nat) : List Char := dec_digits_aux (n + 1) n []

/-- The text written by `fprintf(fp, "%d", n)`. -/
def fmt_d (n : Int) : List Char := (if n < 0 then ['-'] else []) ++ dec_digits n.natAbs

/-- Rounding of a non-negative rational to the nearest integer, ties to even: the
rounding `printf` applies to the digits it drops. -/
def round_half_even (q : ℚ) : Int :=
  if q - ⌊q⌋ < 1 / 2 then ⌊q⌋
  else if q - ⌊q⌋ > 1 / 2 then ⌊q⌋ + 1
  else if ⌊q⌋ % 2 = 0 then ⌊q⌋ else ⌊q⌋ + 1

/-- The six digits after the decimal point: `k < 1000000` padded with zeros on the left. -/
def pad6 (k : Nat) : List Char := List.replicate (6 - (dec_digits k).length) '0' ++ dec_digits k

/-- The text written by `fprintf(fp, "%.6f", q)`: sign, integer part, point, six digits.
The sign is that of `q` (a negative value that rounds to zero prints as `-0.000000`). -/
def fmt_f6 (q : ℚ) : List Char :=
  (if q < 0 then ['-'] else []) ++ dec_digits ((round_half_even (|q| * 1000000)).toNat / 1000000) ++
    ['.'] ++ pad6 ((round_half_even (|q| * 1000000)).toNat % 1000000)

/-- The exponent part of a decimal floating literal at the head of `s`: the exponent and
the rest of the string; without digits after `e` nothing is consumed. -/
def strtof_exponent (s : List Char) : Int × List Char :=
  if s.head? = some 'e' ∨ s.head? = some 'E' then
    if (skip_sign s.tail).takeWhile Char.isDigit = [] then (0, s)
    else
      (if s.tail.head? = some '-' then - digits_value ((skip_sign s.tail).takeWhile Char.isDigit)
        else digits_value ((skip_sign s.tail).takeWhile Char.isDigit),
        (skip_sign s.tail).dropWhile Char.isDigit)
  else (0, s)

/-- The fraction part of a decimal floating literal at the head of `s`: the digits after
the point and the rest of the string. -/
def strtof_fraction (s : List Char) : List Char × List Char :=
  if s.head? = some '.' then (s.tail.takeWhile Char.isDigit, s.tail.dropWhile Char.isDigit)
  else ([], s)

/-- The libc `strtof(s, &end)` on decimal text: `none` when no conversion is performed
(`end == s`), otherwise the value and the rest of the string at `end`.  The value is the
exact rational (a C `float` is a rational here, so the rounding to single precision is
not represented); the hexadecimal, `inf` and `nan` forms, which `savegame_write` never
prints for a finite value, are read as no conversion. -/
def strtof (s : List Char) : Option (ℚ × List Char) :=
  let s1 := skip_sign (s.dropWhile isspace)
  let ip := s1.takeWhile Char.isDigit
  let fr := strtof_fraction (s1.dropWhile Char.isDigit)
  if ip = [] ∧ fr.1 = [] then none
  else
    some ((if (s.dropWhile isspace).head? = some '-' then -1 else 1) *
        (((digits_value ip : Int) : ℚ) + ((digits_value fr.1 : Int) : ℚ) / (10 : ℚ) ^ fr.1.length) *
        (10 : ℚ) ^ (strtof_exponent fr.2).1,
      (strtof_exponent fr.2).2)

/-- The libc `strstr(hay, needle)`: the string from the first occurrence of `needle` on. -/
def strstr : List Char → List Char → Option (List Char)
  | [], needle => if needle = [] then some [] else none
  | c :: hay, needle =>
    if needle.isPrefixOf (c :: hay) then some (c :: hay) else strstr hay needle

/-- The libc `strchr(s, c)` for a character other than NUL: the string from the first
occurrence of `c` on. -/
def strchr (s : List Char) (c : Char) : Option (List Char) :=
  if s.dropWhile (fun a => a ≠ c) = [] then none else some (s.dropWhile (fun a => a ≠ c))

/-- The pattern built by `snprintf(pat, sizeof pat, "\"%s\"", key)`: the key in double
quotes. -/
def json_key (key : String) : List Char := [Char.ofNat 34] ++ key.toList ++ [Char.ofNat 34]

/-- The function `json_find_number`: the string at `*out_num`, `none` for return 0. -/
def json_find_number (buf : List Char) (key : String) : Option (List Char) :=
  match strstr buf (json_key key) with
  | none => none
  | some p =>
    match strchr p ':' with
    | none => none
    | some q => some (q.tail.dropWhile is_ws)

/-- The function `json_get_int`: the return value and the new `*out`, from the old `*out`.
The value is the mathematical one: `errno` and the cast `(int)v` only come into play for
a literal outside the range of `long` or `int`, which `savegame_write` never prints. -/
def json_get_int (buf : List Char) (key : String) (out : Int) : Int × Int :=
  match json_find_number buf key with
  | none => (0, out)
  | some p =>
    match strtol p with
    | none => (0, out)
    | some (v, _) => (1, v)

/-- The function `json_get_float`: the return value and the new `*out`. -/
def json_get_float (buf : List Char) (key : String) (out : ℚ) : Int × ℚ :=
  match json_find_number buf key with
  | none => (0, out)
  | some p =>
    match strtof p with
    | none => (0, out)
    | some (v, _) => (1, v)

/-- The separators skipped between the entries of an array. -/
def json_sep (c : Char) : Bool := c = ' ' || c = '\t' || c = '\r' || c = '\n' || c = ','

/-- The loop `while (*p && n < max)` of `json_parse_int_array`: the entries stored, with
`k = max - n` entries still allowed. -/
def parse_int_items : Nat → List Char → List Int
  | 0, _ => []
  | k + 1, p =>
    if p = [] then []
    else if (p.dropWhile json_sep).head? = some ']' then []
    else
      match strtol (p.dropWhile json_sep) with
      | none => []
      | some (v, e) => v :: parse_int_items k e

/-- The loop `while (*p && n < max)` of `json_parse_float_array`. -/
def parse_float_items : Nat → List Char → List ℚ
  | 0, _ => []
  | k + 1, p =>
    if p = [] then []
    else if (p.dropWhile json_sep).head? = some ']' then []
    else
      match strtof (p.dropWhile json_sep) with
      | none => []
      | some (v, e) => v :: parse_float_items k e

/-- The function `json_parse_int_array`: the entries stored at the head of `out`; the
return value is their number. -/
def json_parse_int_array (buf : List Char) (key : String) (max : Int) : List Int :=
  if max ≤ 0 then []
  else
    match strstr buf (json_key key) with
    | none => []
    | some p =>
      match strchr p '[' with
      | none => []
      | some q => parse_int_items max.toNat q.tail

/-- The function `json_parse_float_array`. -/
def json_parse_float_array (buf : List Char) (key : String) (max : Int) : List ℚ :=
  if max ≤ 0 then []
  else
    match strstr buf (json_key key) with
    | none => []
    | some p =>
      match strchr p '[' with
      | none => []
      | some q => parse_float_items max.toNat q.tail

/-- A line `  "key": value,` of the save file. -/
def json_line (key : String) (value : List Char) : List Char :=
  "  ".toList ++ json_key key ++ ": ".toList ++ value ++ ",\n".toList

/-- The entries of an array as the loops of `savegame_write` print them: separated by
a comma and a space. -/
def json_items : List (List Char) → List Char
  | [] => []
  | [v] => v
  | v :: rest => v ++ ", ".toList ++ json_items rest

/-- The entries `0 .. min(count, max) - 1` of a C array, each printed with `fmt`: what
the loop `for (i = 0; i < count && i < max; i++)` visits. -/
def saved_entries {α : Type} [Zero α] (count : Int) (max : Nat) (a : List α)
    (fmt : α → List Char) : List (List Char) :=
  (List.range (min count.toNat max)).map (fun i => fmt (a.getD i 0))

/-- An array of the save file, up to and including the closing bracket. -/
def json_array (key : String) (entries : List (List Char)) : List Char :=
  "  ".toList ++ json_key key ++ ": [".toList ++ json_items entries ++ "]".toList

/-- The text written by the `fprintf` calls of `savegame_write`. -/
def savegame_text (g : SaveGame) : List Char :=
  "\x7b\n".toList ++
  json_line "version" (fmt_d (if g.version ≤ 0 then SAVEGAME_VERSION else g.version)) ++
  json_line "level" (fmt_d g.level) ++
  json_line "px" (fmt_f6 g.px) ++
  json_line "py" (fmt_f6 g.py) ++
  json_line "angle" (fmt_f6 g.angle) ++
  json_line "hp" (fmt_d g.hp) ++
  json_line "ammo" (fmt_d g.ammo_bullets) ++
  json_line "ammo_bullets" (fmt_d g.ammo_bullets) ++
  json_line "ammo_shells" (fmt_d g.ammo_shells) ++
  json_line "ammo_energy" (fmt_d g.ammo_energy) ++
  json_line "hasKey" (fmt_d g.hasKey) ++
  json_line "hasShotgun" (fmt_d g.hasShotgun) ++
  json_line "hasSMG" (fmt_d g.hasSMG) ++
  json_line "hasPlasma" (fmt_d g.hasPlasma) ++
  json_line "hasRRG" (fmt_d g.hasRRG) ++
  json_line "weapon" (fmt_d g.weapon) ++
  json_line "godmode" (fmt_d g.godmode) ++
  json_line "sens" (fmt_f6 g.sensitivity) ++
  json_line "enemy_count" (fmt_d g.enemy_count) ++
  json_array "enemy_x" (saved_entries g.enemy_count MAX_ENEMIES g.enemy_x fmt_f6) ++ ",\n".toList ++
  json_array "enemy_y" (saved_entries g.enemy_count MAX_ENEMIES g.enemy_y fmt_f6) ++ ",\n".toList ++
  json_array "enemy_kind" (saved_entries g.enemy_count MAX_ENEMIES g.enemy_kind fmt_d) ++ ",\n".toList ++
  json_array "enemy_state" (saved_entries g.enemy_count MAX_ENEMIES g.enemy_state fmt_d) ++ ",\n".toList ++
  json_array "enemy_hp" (saved_entries g.enemy_count MAX_ENEMIES g.enemy_hp fmt_d) ++ ",\n".toList ++
  json_array "enemy_dying_timer" (saved_entries g.enemy_count MAX_ENEMIES g.enemy_dying_timer fmt_f6) ++
    ",\n".toList ++
  json_line "item_count" (fmt_d g.item_count) ++
  json_array "item_x" (saved_entries g.item_count MAX_ITEMS g.item_x fmt_f6) ++ ",\n".toList ++
  json_array "item_y" (saved_entries g.item_count MAX_ITEMS g.item_y fmt_f6) ++ ",\n".toList ++
  json_array "item_type" (saved_entries g.item_count MAX_ITEMS g.item_type fmt_d) ++ ",\n".toList ++
  json_array "item_collected" (saved_entries g.item_count MAX_ITEMS g.item_collected fmt_d) ++
    "\n".toList ++
  "\x7d\n".toList

/-- The function `savegame_write(slot, in)`: the directory afterwards and the return
value. -/
def savegame_write (slot : Int) (g : SaveGame) (d : Disk) : Disk × Int :=
  if slot < 1 ∨ slot > 3 then (d, -1)
  else if d.writable (clamp_slot slot) = false then (d, -1)
  else
    ({ d with file := fun n => if n = clamp_slot slot then some (savegame_text g) else d.file n }, 0)

/-- The clamp of a count read from a save file to `0..max`. -/
def clamp_count (c : Int) (max : Nat) : Int := if c < 0 then 0 else if c > max then max else c

/-- The function `savegame_read(slot, out)`: the record `*out` and the return value.
The string functions see the file up to its first NUL byte. -/
def savegame_read (slot : Int) (d : Disk) : SaveGame × Int :=
  match d.file (clamp_slot slot) with
  | none => ({}, -1)
  | some content =>
    if content = [] then ({}, -1)
    else
      let buf := c_string content
      let ec := clamp_count (json_get_int buf "enemy_count" 0).2 MAX_ENEMIES
      let ic := clamp_count (json_get_int buf "item_count" 0).2 MAX_ITEMS
      ({ version := (json_get_int buf "version" 1).2
         level := (json_get_int buf "level" 1).2
         px := (json_get_float buf "px" 3.0).2
         py := (json_get_float buf "py" 3.0).2
         angle := (json_get_float buf "angle" 0.0).2
         hp := (json_get_int buf "hp" 100).2
         ammo_bullets :=
           if (json_get_int buf "ammo_bullets" 10).1 = 0 then (json_get_int buf "ammo" 10).2
           else (json_get_int buf "ammo_bullets" 10).2
         ammo_shells := (json_get_int buf "ammo_shells" 0).2
         ammo_energy := (json_get_int buf "ammo_energy" 0).2
         hasKey := (json_get_int buf "hasKey" 0).2
         hasShotgun := (json_get_int buf "hasShotgun" 0).2
         hasSMG := (json_get_int buf "hasSMG" 0).2
         hasPlasma := (json_get_int buf "hasPlasma" 0).2
         hasRRG := (json_get_int buf "hasRRG" 0).2
         weapon := (json_get_int buf "weapon" 0).2
         godmode := (json_get_int buf "godmode" 0).2
         sensitivity := (json_get_float buf "sens" 0.0035).2
         enemy_count := ec
         enemy_x := json_parse_float_array buf "enemy_x" ec
         enemy_y := json_parse_float_array buf "enemy_y" ec
         enemy_kind :=
           if (json_parse_int_array buf "enemy_kind" ec).length ≤ 0 then List.replicate ec.toNat 0
           else json_parse_int_array buf "enemy_kind" ec
         enemy_state := json_parse_int_array buf "enemy_state" ec
         enemy_hp := json_parse_int_array buf "enemy_hp" ec
         enemy_dying_timer := json_parse_float_array buf "enemy_dying_timer" ec
         item_count := ic
         item_x := json_parse_float_array buf "item_x" ic
         item_y := json_parse_float_array buf "item_y" ic
         item_type := json_parse_int_array buf "item_type" ic
         item_collected := json_parse_int_array buf "item_collected" ic }, 0)

/-! ## The session (`game.c`) -/

inductive GameState where
  | STATE_MENU
  | STATE_EPISODE_SELECT
  | STATE_OPTIONS
  | STATE_PAUSED
  | STATE_LOADMENU
  | STATE_SAVEMENU
  | STATE_PLAYING
  | STATE_CUTSCENE
  | STATE_END
  deriving DecidableEq, Repr

open GameState

/-- The globals of the program: those of `map.c`, `player.c`, `enemy.c` and `items.c` in
`world`, and the file-level statics of `game.c` that drive the session, with their C
initialisers.  Of the menu cursors only `slot_selection`, which selects the slot that is
loaded or saved, is represented; the other cursors, the notices, the fonts and
`slot_meta` (what the menus display) are not. -/
structure Game where
  world : World := {}
  state : GameState := STATE_MENU
  currentLevel : Int := 1
  active_slot : Int := 1
  cutscene_index : Int := 0
  cheat_buf : List Char := List.replicate 16 (Char.ofNat 0)
  cheat_len : Int := 0
  slot_selection : Int := 0
  slot_return_state : GameState := STATE_MENU

/-- The cast `(int)w` of a `WeaponType`. -/
def WeaponType.code (w : WeaponType) : Int :=
  match w with
  | WEAPON_PISTOL => 0
  | WEAPON_SHOTGUN => 1
  | WEAPON_SMG => 2
  | WEAPON_PLASMA => 3
  | WEAPON_RRG => 4

/-- The cast `(WeaponType)w` for `w` in `0..4`. -/
def weapon_of_int (w : Int) : WeaponType :=
  if w = 1 then WEAPON_SHOTGUN
  else if w = 2 then WEAPON_SMG
  else if w = 3 then WEAPON_PLASMA
  else if w = 4 then WEAPON_RRG
  else WEAPON_PISTOL

/-- The cast `(EnemyKind)k` for `k` in `0..3`. -/
def enemy_kind_of_int (k : Int) : EnemyKind :=
  if k = 1 then ENEMY_KIND2
  else if k = 2 then ENEMY_MINIBOSS1
  else if k = 3 then ENEMY_FINALBOSS
  else ENEMY_KIND1

/-- The cast `(EnemyState)st` for `st` in `0..2`. -/
def enemy_state_of_int (st : Int) : EnemyState :=
  if st = 1 then ENEMY_DYING
  else if st = 2 then ENEMY_DEAD
  else ENEMY_ALIVE

/-- The C idiom `v ? 1 : 0`. -/
def flag (v : Int) : Int := if v ≠ 0 then 1 else 0

/-- The record `sg` that `save_progress_to_slot` fills in before it calls
`savegame_write`. -/
def save_progress_record (s : Game) : SaveGame :=
  { version := SAVEGAME_VERSION
    level := s.currentLevel
    px := 0.0
    py := 0.0
    angle := 0.0
    hp := 100
    ammo_bullets := s.world.ammo_bullets
    ammo_shells := s.world.ammo_shells
    ammo_energy := s.world.ammo_energy
    hasKey := 0
    hasShotgun := flag s.world.hasShotgun
    hasSMG := flag s.world.hasSMG
    hasPlasma := flag s.world.hasPlasma
    hasRRG := flag s.world.hasRRG
    weapon := s.world.current_weapon.code
    godmode := flag s.world.godmode_enabled
    sensitivity := s.world.mouse_sensitivity
    enemy_count := 0
    item_count := 0 }

/-- The function `save_progress_to_slot(slot)`: the globals, the directory and the return
value. -/
def save_progress_to_slot (slot : Int) (s : Game) (d : Disk) : (Game × Disk) × Int :=
  if (savegame_write slot (save_progress_record s) d).2 ≠ 0 then ((s, d), -1)
  else (({ s with active_slot := slot }, (savegame_write slot (save_progress_record s) d).1), 0)

/-- The flag `ok` of `apply_player_pos_safely` after its tests. -/
def pos_ok (g : World) (nx ny : ℚ) : Bool :=
  let ok1 := if g.worldmap = none ∨ g.worldWidth ≤ 0 ∨ g.worldHeight ≤ 0 then false else true
  let ok2 := if nx < 0.1 ∨ ny < 0.1 then false else ok1
  let ok3 := if nx ≥ (g.worldWidth : ℚ) - 0.1 ∨ ny ≥ (g.worldHeight : ℚ) - 0.1 then false else ok2
  if ok3 then
    if truncf nx < 0 ∨ truncf ny < 0 ∨ truncf nx ≥ g.worldWidth ∨ truncf ny ≥ g.worldHeight then false
    else if g.tile (truncf ny).toNat (truncf nx).toNat ≥ 2 then false
    else ok3
  else ok3

/-- The normalisation of `angle` at the end of `apply_player_pos_safely`. -/
def wrap_angle (a : ℚ) : ℚ :=
  let a1 := if a ≥ two_pi ∨ a ≤ -two_pi then fmodf a two_pi else a
  if a1 < 0 then a1 + two_pi else a1

/-- The function `apply_player_pos_safely(in_x, in_y, in_angle)`. -/
def apply_player_pos_safely (in_x in_y in_angle : ℚ) (g : World) : World :=
  { g with
    px := if pos_ok g in_x in_y then in_x else g.player_spawn_x
    py := if pos_ok g in_x in_y then in_y else g.player_spawn_y
    angle := wrap_angle (if pos_ok g in_x in_y then in_angle else 0.0) }

/-- The function `sanitize_weapon(w)`. -/
def sanitize_weapon (w : Int) (g : World) : WeaponType :=
  let w1 := if w < 0 then 0 else w
  let w2 := if w1 > 4 then 0 else w1
  let ww := weapon_of_int w2
  if ww = WEAPON_SHOTGUN ∧ g.hasShotgun = 0 then WEAPON_PISTOL
  else if ww = WEAPON_SMG ∧ g.hasSMG = 0 then WEAPON_PISTOL
  else if ww = WEAPON_PLASMA ∧ g.hasPlasma = 0 then WEAPON_PISTOL
  else if ww = WEAPON_RRG ∧ g.hasRRG = 0 then WEAPON_PISTOL
  else ww

/-- The body of the loop of `load_slot_and_enter` that restores enemy `i`. -/
def restore_enemy (sg : SaveGame) (i : Nat) (e : Enemy) : Enemy :=
  let k0 := sg.enemy_kind.getD i 0
  let k1 := if k0 < 0 then 0 else k0
  let k := if k1 > 3 then 0 else k1
  let st0 := sg.enemy_state.getD i 0
  let st1 := if st0 < 0 then 0 else st0
  let st := if st1 > 2 then 2 else st1
  { e with
    x := sg.enemy_x.getD i 0
    y := sg.enemy_y.getD i 0
    kind := enemy_kind_of_int k
    state := enemy_state_of_int st
    hp := if sg.enemy_hp.getD i 0 < 0 then 0 else sg.enemy_hp.getD i 0
    touch_cooldown := 0.0
    attack_timer := 0.0
    dying_timer := if enemy_state_of_int st ≠ ENEMY_DYING then 0.0 else sg.enemy_dying_timer.getD i 0 }

/-- The bound `nE` of the enemy restore loop. -/
def restore_enemy_count (sg : SaveGame) (enemy_count : Nat) : Int :=
  let n1 := if sg.enemy_count > enemy_count then (enemy_count : Int) else sg.enemy_count
  if n1 > MAX_ENEMIES then MAX_ENEMIES else n1

/-- The enemy restore loop `for (i = 0; i < nE; i++)` of `load_slot_and_enter`. -/
def restore_enemies (sg : SaveGame) (es : List Enemy) : List Enemy :=
  es.enum.map (fun p => if (p.1 : Int) < restore_enemy_count sg es.length then restore_enemy sg p.1 p.2 else p.2)

/-- The inner loop of the item restore, from the current `li` on: the first item of the
saved type within `0.1` of the saved position takes the saved `collected` flag. -/
def restore_item (stype : Int) (sx sy : ℚ) (scol : Int) : List Item → List Item
  | [] => []
  | it :: rest =>
    if it.type.code ≠ stype then it :: restore_item stype sx sy scol rest
    else if (it.x - sx) * (it.x - sx) + (it.y - sy) * (it.y - sy) < 0.01 then
      { it with collected := scol } :: rest
    else it :: restore_item stype sx sy scol rest

/-- The item restore loop `for (si = 0; si < nI; si++)` of `load_slot_and_enter`. -/
def restore_items (sg : SaveGame) (its : List Item) : List Item :=
  (List.range (if sg.item_count > MAX_ITEMS then MAX_ITEMS else sg.item_count.toNat)).foldl
    (fun acc si =>
      restore_item (sg.item_type.getD si 0) (sg.item_x.getD si 0) (sg.item_y.getD si 0)
        (flag (sg.item_collected.getD si 0)) acc) its

/-- The two calls `if (load_map(level) != 0) { level = fallback; load_map(level); }`
after `free_map()`: the level kept (`keep` when the first call failed) and the globals. -/
def load_map_or (files : Int → Option (List Char)) (level keep : Int) (g : World) : Int × World :=
  if (load_map files level (free_map g)).2 ≠ 0 then
    (keep, (load_map files 1 (load_map files level (free_map g)).1).1)
  else (level, (load_map files level (free_map g)).1)

/-- The progression part of `load_slot_and_enter`: the globals before `free_map()`. -/
def load_progress (sg : SaveGame) (g : World) : World :=
  { g with
    mouse_sensitivity :=
      if sg.sensitivity > 0.0001 ∧ sg.sensitivity < 0.05 then sg.sensitivity else g.mouse_sensitivity
    hasShotgun := flag sg.hasShotgun
    hasSMG := flag sg.hasSMG
    hasPlasma := flag sg.hasPlasma
    hasRRG := flag sg.hasRRG
    godmode_enabled := flag sg.godmode
    ammo_bullets := if sg.ammo_bullets < 0 then 0 else sg.ammo_bullets
    ammo_shells := if sg.ammo_shells < 0 then 0 else sg.ammo_shells
    ammo_energy := if sg.ammo_energy < 0 then 0 else sg.ammo_energy }

/-- The value of `hp` restored by `load_slot_and_enter`: `sg.hp` clamped to `0..100`. -/
def load_hp (sg : SaveGame) : Int := if sg.hp < 0 then 0 else if sg.hp > 100 then 100 else sg.hp

/-- The part of `load_slot_and_enter` after the three `init` calls: the player core
state, the position, the enemies and the items. -/
def load_restore (sg : SaveGame) (g : World) : World :=
  let g1 : World :=
    { g with
      hp := load_hp sg
      hasKey := flag sg.hasKey
      escaped := 0
      player_dead := if load_hp sg ≤ 0 then 1 else 0
      player_damage_timer := 0.0
      gun_recoil_timer := 0
      shot_fired := 0 }
  let g2 := apply_player_pos_safely sg.px sg.py sg.angle g1
  { g2 with enemies := restore_enemies sg g2.enemies, items := restore_items sg g2.items }

/-- The function `load_slot_and_enter(slot)`: the globals and the return value.  `files`
gives the map files as for `load_map`. -/
def load_slot_and_enter (files : Int → Option (List Char)) (slot : Int) (s : Game) (d : Disk) :
    Game × Int :=
  if (savegame_read slot d).2 ≠ 0 then (s, -1)
  else
    let sg := (savegame_read slot d).1
    let level := if sg.level < 1 ∨ sg.level > 9 then 1 else sg.level
    let g1 := load_progress sg s.world
    let g2 : World := { g1 with current_weapon := sanitize_weapon sg.weapon g1 }
    let r := load_map_or files level 1 g2
    let g3 := load_restore sg (init_items (init_enemies (init_player r.2)))
    ({ s with
       world :=
         show_message (if slot = 1 then "LOADED SAVE 1" else if slot = 2 then "LOADED SAVE 2"
           else "LOADED SAVE 3") g3
       currentLevel := r.1
       active_slot := slot
       state := STATE_PLAYING }, 0)

/-- The assignments of `begin_new_game` to the globals of `player.c` before `free_map()`:
the progression is reset. -/
def reset_progress (g : World) : World :=
  { g with
    ammo_bullets := 10
    ammo_shells := 0
    ammo_energy := 0
    hasShotgun := 0
    hasSMG := 0
    hasPlasma := 0
    hasRRG := 0
    current_weapon := WEAPON_PISTOL
    hasKey := 0
    escaped := 0
    player_dead := 0
    player_damage_timer := 0.0
    gun_recoil_timer := 0
    shot_fired := 0
    hp := 100
    godmode_enabled := 0 }

/-- The function `begin_new_game(startLevel)`. -/
def begin_new_game (files : Int → Option (List Char)) (startLevel : Int) (s : Game) : Game :=
  let level := if startLevel < 1 then 1 else if startLevel > 9 then 9 else startLevel
  { s with
    currentLevel := level
    active_slot := 1
    cutscene_index := 0
    cheat_len := 0
    cheat_buf := s.cheat_buf.set 0 (Char.ofNat 0)
    world := init_items (init_enemies (init_player (load_map_or files level level (reset_progress s.world)).2))
    state := STATE_PLAYING }

/-- The first statement of `cheat_feed_char`: an upper-case letter is made lower-case. -/
def cheat_lower (c : Char) : Char :=
  if 'A' ≤ c ∧ c ≤ 'Z' then Char.ofNat (c.toNat - 'A'.toNat + 'a'.toNat) else c

/-- The `if`/`else` of `cheat_feed_char` that stores the letter: appended while fewer
than 15 letters are held, otherwise the buffer is shifted left by one (`memmove`) and the
letter stored at index 14. -/
def cheat_store (c : Char) (s : Game) : Game :=
  if s.cheat_len < 16 - 1 then
    { s with
      cheat_buf := (s.cheat_buf.set s.cheat_len.toNat c).set (s.cheat_len + 1).toNat (Char.ofNat 0)
      cheat_len := s.cheat_len + 1 }
  else
    { s with
      cheat_buf :=
        (((s.cheat_buf.drop 1).take (16 - 2) ++ s.cheat_buf.drop (16 - 2)).set (16 - 2) c).set (16 - 1)
          (Char.ofNat 0)
      cheat_len :=
        (c_string ((((s.cheat_buf.drop 1).take (16 - 2) ++ s.cheat_buf.drop (16 - 2)).set (16 - 2) c).set
          (16 - 1) (Char.ofNat 0))).length }

/-- The body of `if (strstr(cheat_buf, "godmod") != NULL)`: godmode is enabled (with
its message when it was off) and the buffer is cleared. -/
def cheat_trigger (s : Game) : Game :=
  { s with
    world :=
      if s.world.godmode_enabled = 0 then
        show_message "GODMODE ENABLED" { s.world with godmode_enabled := 1 }
      else s.world
    cheat_len := 0
    cheat_buf := s.cheat_buf.set 0 (Char.ofNat 0) }

/-- The function `cheat_feed_char(c)`. -/
def cheat_feed_char (c : Char) (s : Game) : Game :=
  if cheat_lower c < 'a' ∨ cheat_lower c > 'z' then s
  else if (cheat_store (cheat_lower c) s).cheat_len ≥ 6 then
    if strstr (c_string (cheat_store (cheat_lower c) s).cheat_buf) "godmod".toList ≠ none then
      cheat_trigger (cheat_store (cheat_lower c) s)
    else cheat_store (cheat_lower c) s
  else cheat_store (cheat_lower c) s

/-- The loop `for (i = 0; e.text.text[i]; i++) cheat_feed_char(e.text.text[i]);` of the
`SDL_TEXTINPUT` event. -/
def cheat_feed (text : List Char) (s : Game) : Game :=
  text.foldl (fun acc c => cheat_feed_char c acc) s

def SDL_SCANCODE_ESCAPE : Nat := 41

/-- The resets that follow the three `init` calls when the next level is loaded from the
cutscene. -/
def level_resets (g : World) : World :=
  { g with
    hasKey := 0
    escaped := 0
    player_dead := 0
    player_damage_timer := 0.0
    gun_recoil_timer := 0
    shot_fired := 0
    hp := 100 }

/-- The branch `state == STATE_CUTSCENE` of the key-down handler of `game_loop`, for the
scancode `sc`: Escape leads to the menu, any other key loads the next level. -/
def cutscene_key (files : Int → Option (List Char)) (sc : Nat) (s : Game) : Game :=
  if sc = SDL_SCANCODE_ESCAPE then { s with state := STATE_MENU }
  else
    { s with
      currentLevel := (load_map_or files s.currentLevel 1 s.world).1
      world :=
        level_resets
          (init_items (init_enemies (init_player (load_map_or files s.currentLevel 1 s.world).2)))
      state := STATE_PLAYING }

/-- The block `if (escaped) { ... }` at the end of a PLAYING frame of `game_loop`. -/
def level_completion (s : Game) (d : Disk) : Game × Disk :=
  if s.world.escaped ≠ 0 then
    if s.currentLevel < 9 then
      ({ (save_progress_to_slot s.active_slot
            { s with
              world := { s.world with escaped := 0 }
              cutscene_index := s.currentLevel
              currentLevel := s.currentLevel + 1 } d).1.1 with state := STATE_CUTSCENE },
        (save_progress_to_slot s.active_slot
            { s with
              world := { s.world with escaped := 0 }
              cutscene_index := s.currentLevel
              currentLevel := s.currentLevel + 1 } d).1.2)
    else ({ s with world := { s.world with escaped := 0 }, state := STATE_END }, d)
  else (s, d)

/-- The simulation step of one iteration of `game_loop`: the block under
`if (state == STATE_PLAYING)`. -/
def playing_frame (m : Libm) (dt : ℚ) (inp : Input) (s : Game) (d : Disk) : Game × Disk :=
  if s.state = STATE_PLAYING then
    level_completion { s with world := playing_updates m dt inp s.world } d
  else (s, d)

/-! ## Predicates on the progression -/

/-- The current weapon is the pistol or a weapon whose possession flag is set. -/
def weapon_ok (g : World) : Prop :=
  g.current_weapon = WEAPON_PISTOL ∨ (g.current_weapon = WEAPON_SHOTGUN ∧ g.hasShotgun ≠ 0) ∨
    (g.current_weapon = WEAPON_SMG ∧ g.hasSMG ≠ 0) ∨
    (g.current_weapon = WEAPON_PLASMA ∧ g.hasPlasma ≠ 0) ∨
    (g.current_weapon = WEAPON_RRG ∧ g.hasRRG ≠ 0)

instance (g : World) : Decidable (weapon_ok g) := by
  unfold weapon_ok
  infer_instance

/-- The possession flag tested by the weapon-switch section for a weapon key (the pistol
has none: key 1 is always permitted). -/
def possessed (g : World) (w : WeaponType) : Prop :=
  match w with
  | WEAPON_PISTOL => True
  | WEAPON_SHOTGUN => g.hasShotgun ≠ 0
  | WEAPON_SMG => g.hasSMG ≠ 0
  | WEAPON_PLASMA => g.hasPlasma ≠ 0
  | WEAPON_RRG => g.hasRRG ≠ 0

/-- A press of the key of weapon `w` in this frame: the key is down now (`curr[i]`) and
was not down at the previous call (`!lastWep[i]`). -/
def weapon_key_pressed (inp : Input) (g : World) (w : WeaponType) : Prop :=
  match w with
  | WEAPON_PISTOL => key_int inp ACTION_WEAPON_1 ≠ 0 ∧ g.lastWep0 = 0
  | WEAPON_SHOTGUN => key_int inp ACTION_WEAPON_2 ≠ 0 ∧ g.lastWep1 = 0
  | WEAPON_SMG => key_int inp ACTION_WEAPON_3 ≠ 0 ∧ g.lastWep2 = 0
  | WEAPON_PLASMA => key_int inp ACTION_WEAPON_4 ≠ 0 ∧ g.lastWep3 = 0
  | WEAPON_RRG => key_int inp ACTION_WEAPON_5 ≠ 0 ∧ g.lastWep4 = 0

/-- The globals `b` agree with `a` on the arsenal: the four possession flags and the
current weapon. -/
def same_arsenal (a b : World) : Prop :=
  b.hasShotgun = a.hasShotgun ∧ b.hasSMG = a.hasSMG ∧ b.hasPlasma = a.hasPlasma ∧
    b.hasRRG = a.hasRRG ∧ b.current_weapon = a.current_weapon

/-- The globals `b` agree with `a` on the progression carried from level to level: the
four possession flags, the current weapon, the three ammo pools, the mouse sensitivity
and the godmode flag. -/
def same_progress (a b : World) : Prop :=
  same_arsenal a b ∧ b.ammo_bullets = a.ammo_bullets ∧ b.ammo_shells = a.ammo_shells ∧
    b.ammo_energy = a.ammo_energy ∧ b.mouse_sensitivity = a.mouse_sensitivity ∧
    b.godmode_enabled = a.godmode_enabled

/-- A player holding the plasma gun, with the shotgun and the plasma gun possessed, the
key held and little hp left. -/
def armed_player : World :=
  { hasShotgun := 1, hasPlasma := 1, current_weapon := WEAPON_PLASMA, ammo_bullets := 4,
    ammo_shells := 7, ammo_energy := 30, hp := 12, hasKey := 1, mouse_sensitivity := 0.004,
    godmode_enabled := 0 }

/-- A directory whose slot 2 holds the save written from a record that names the RRG as
the weapon while only the shotgun is possessed. -/
def disk_with_rrg_save : Disk :=
  (savegame_write 2 { version := 3, level := 1, hp := 50, hasShotgun := 1, weapon := 4 } {}).1

/-- The map files of a game whose level 1 is a closed room with the spawn tile. -/
def one_room : Int → Option (List Char) :=
  fun n => if n = 1 then some "2 2 2 2\n2 8 0 2\n2 2 2 2\n".toList else none

/-- A session in PLAYING on level 1 with autosave slot 1: the player stands alive at the
exit door and holds the key. -/
def at_exit_session : Game :=
  { world := alive_at_door_scene, state := STATE_PLAYING, currentLevel := 1, active_slot := 1 }

/-- The states of the session reachable as far as the cheat buffer is concerned: the C
initialiser of `cheat_buf` and `cheat_len`, a call of `cheat_feed_char`, the reset done
by `begin_new_game`, and any change of the other globals. -/
inductive cheat_reachable : Game → Prop
  | init (s : Game) :
      s.cheat_buf = List.replicate 16 (Char.ofNat 0) → s.cheat_len = 0 → cheat_reachable s
  | feed (c : Char) (s : Game) : cheat_reachable s → cheat_reachable (cheat_feed_char c s)
  | reset (s : Game) :
      cheat_reachable s →
        cheat_reachable { s with cheat_len := 0, cheat_buf := s.cheat_buf.set 0 (Char.ofNat 0) }
  | other (s s2 : Game) :
      s2.cheat_buf = s.cheat_buf → s2.cheat_len = s.cheat_len → cheat_reachable s → cheat_reachable s2

/-- The cheat buffer is well formed: 16 bytes holding a C string of `cheat_len` (at most
15) characters in which `godmod` does not occur. -/
def cheat_inv (s : Game) : Prop :=
  s.cheat_buf.length = 16 ∧ s.cheat_len = ((c_string s.cheat_buf).length : Int) ∧
    (c_string s.cheat_buf).length ≤ 15 ∧ ¬ "godmod".toList <:+: c_string s.cheat_buf

/-! ## The rows of a map file, as the specification describes them -/

/-- The lines of a map file that hold a row: those with a character other than space,
tab, carriage return and newline. -/
def nonblank_lines (lines : List (List Char)) : List (List Char) :=
  lines.filter (fun line => !is_blank line)

/-- The value stored for a token value: the spawn code 8 is stored as 0. -/
def stored_tile (v : Int) : Int := if v = 8 then 0 else v

/-- The `n` tiles of a row read from the text `p`: the values of the successive tokens,
each stored with `stored_tile`, and wall (2) where the tokens have run out. -/
def row_tiles : Nat → List Char → List Int
  | 0, _ => []
  | n + 1, p => stored_tile (parse_next_int p 2).2.1 :: row_tiles n (parse_next_int p 2).2.2
/-- A map file with an unparseable token, a blank line, the spawn code, a negative
number, a number above 99 and a short last row. -/
def ragged_map : Int → Option (List Char) :=
  fun n => if n = 1 then some "1 x 5\n\n3 8 -1\n7 100".toList else none

/-- The lines of a text file as the specification counts them: each line ends after its
newline character, and the last line may lack one. -/
def text_lines : List Char → List (List Char)
  | [] => []
  | c :: s =>
    if c = '\n' then [c] :: text_lines s
    else
      match text_lines s with
      | [] => [[c]]
      | l :: ls => (c :: l) :: ls

/-- A map file whose single line has 2049 characters: a tile, 2046 spaces, a second
tile and the newline. -/
def long_line_map : Int → Option (List Char) :=
  fun n => if n = 1 then some ('1' :: List.replicate 2046 ' ' ++ ['1', '\n']) else none

/-! ## Predicates on the text of a save file -/

/-- A decimal digit character. -/
def is_dec (c : Char) : Prop := ∃ k, k < 10 ∧ c = Char.ofNat (48 + k)

/-- The value that `savegame_read` gets back for a float written with `%.6f`: the value
rounded to six decimals. -/
def round6 (q : ℚ) : ℚ :=
  (if q < 0 then -1 else 1) * (((round_half_even (|q| * 1000000)).toNat : ℚ) / 1000000)
/-- The pattern and the text differ at some position before either of them ends. -/
def mismatch : List Char → List Char → Bool
  | p :: ps, c :: cs => p != c || mismatch ps cs
  | _, _ => false

/-- No occurrence of the pattern starts inside the text `seg`, whatever follows it. -/
def no_start (pat : List Char) : List Char → Bool
  | [] => true
  | c :: cs => mismatch pat (c :: cs) && no_start pat cs

/-- An entry of the save file: two spaces, the key in quotes, a colon and a space, and
the body (the value and what follows it up to the end of the line). -/
def render_entry (e : String × List Char) : List Char :=
  "  ".toList ++ json_key e.1 ++ ": ".toList ++ e.2

/-- The text of a list of entries. -/
def render_entries : List (String × List Char) → List Char
  | [] => []
  | e :: es => render_entry e ++ render_entries es

/-- The body of an array entry: the bracketed items and the end of the line. -/
def array_body (items : List (List Char)) (eol : String) : List Char :=
  "[".toList ++ json_items items ++ "]".toList ++ eol.toList

/-- The entries of the save file written for a record, in order. -/
def save_entries (g : SaveGame) : List (String × List Char) :=
  [("version", fmt_d (if g.version ≤ 0 then SAVEGAME_VERSION else g.version) ++ ",\n".toList),
   ("level", fmt_d g.level ++ ",\n".toList),
   ("px", fmt_f6 g.px ++ ",\n".toList),
   ("py", fmt_f6 g.py ++ ",\n".toList),
   ("angle", fmt_f6 g.angle ++ ",\n".toList),
   ("hp", fmt_d g.hp ++ ",\n".toList),
   ("ammo", fmt_d g.ammo_bullets ++ ",\n".toList),
   ("ammo_bullets", fmt_d g.ammo_bullets ++ ",\n".toList),
   ("ammo_shells", fmt_d g.ammo_shells ++ ",\n".toList),
   ("ammo_energy", fmt_d g.ammo_energy ++ ",\n".toList),
   ("hasKey", fmt_d g.hasKey ++ ",\n".toList),
   ("hasShotgun", fmt_d g.hasShotgun ++ ",\n".toList),
   ("hasSMG", fmt_d g.hasSMG ++ ",\n".toList),
   ("hasPlasma", fmt_d g.hasPlasma ++ ",\n".toList),
   ("hasRRG", fmt_d g.hasRRG ++ ",\n".toList),
   ("weapon", fmt_d g.weapon ++ ",\n".toList),
   ("godmode", fmt_d g.godmode ++ ",\n".toList),
   ("sens", fmt_f6 g.sensitivity ++ ",\n".toList),
   ("enemy_count", fmt_d g.enemy_count ++ ",\n".toList),
   ("enemy_x", array_body (saved_entries g.enemy_count MAX_ENEMIES g.enemy_x fmt_f6) ",\n"),
   ("enemy_y", array_body (saved_entries g.enemy_count MAX_ENEMIES g.enemy_y fmt_f6) ",\n"),
   ("enemy_kind", array_body (saved_entries g.enemy_count MAX_ENEMIES g.enemy_kind fmt_d) ",\n"),
   ("enemy_state", array_body (saved_entries g.enemy_count MAX_ENEMIES g.enemy_state fmt_d) ",\n"),
   ("enemy_hp", array_body (saved_entries g.enemy_count MAX_ENEMIES g.enemy_hp fmt_d) ",\n"),
   ("enemy_dying_timer",
     array_body (saved_entries g.enemy_count MAX_ENEMIES g.enemy_dying_timer fmt_f6) ",\n"),
   ("item_count", fmt_d g.item_count ++ ",\n".toList),
   ("item_x", array_body (saved_entries g.item_count MAX_ITEMS g.item_x fmt_f6) ",\n"),
   ("item_y", array_body (saved_entries g.item_count MAX_ITEMS g.item_y fmt_f6) ",\n"),
   ("item_type", array_body (saved_entries g.item_count MAX_ITEMS g.item_type fmt_d) ",\n"),
   ("item_collected", array_body (saved_entries g.item_count MAX_ITEMS g.item_collected fmt_d) "\n")]

/-- The keys of the save file, in the order written. -/
def save_keys : List String :=
  ["version", "level", "px", "py", "angle", "hp", "ammo", "ammo_bullets", "ammo_shells",
   "ammo_energy", "hasKey", "hasShotgun", "hasSMG", "hasPlasma", "hasRRG", "weapon", "godmode",
   "sens", "enemy_count", "enemy_x", "enemy_y", "enemy_kind", "enemy_state", "enemy_hp",
   "enemy_dying_timer", "item_count", "item_x", "item_y", "item_type", "item_collected"]

/-- The key `k` can be found behind the first `i` entries of the save file: no occurrence
of the quoted key starts in the opening line or in the key part of an earlier entry, and
the quoted key holds neither a colon nor an opening bracket. -/
def key_found (k : String) (i : Nat) : Bool :=
  no_start (json_key k) "\x7b\n".toList &&
    (save_keys.take i).all
      (fun k2 => no_start (json_key k) ("  ".toList ++ json_key k2 ++ ": ".toList)) &&
    (json_key k).all (fun c => c != ':' && c != '[') &&
    save_keys.get? i == some k
/-- A character that is neither the double quote nor NUL. -/
def plain (c : Char) : Prop := c ≠ Char.ofNat 34 ∧ c ≠ Char.ofNat 0
/-- The record that `savegame_read` gets from the file that `savegame_write` wrote for
the record `g`, as the code of the two functions determines it: the integers as written
(a version that is not positive is written as `SAVEGAME_VERSION`), the floats rounded to
six decimals, the counts clamped to the array sizes, and of each array the entries below
the clamped count. -/
def read_back (g : SaveGame) : SaveGame :=
  { version := if g.version ≤ 0 then SAVEGAME_VERSION else g.version
    level := g.level
    px := round6 g.px
    py := round6 g.py
    angle := round6 g.angle
    hp := g.hp
    ammo_bullets := g.ammo_bullets
    ammo_shells := g.ammo_shells
    ammo_energy := g.ammo_energy
    hasKey := g.hasKey
    hasShotgun := g.hasShotgun
    hasSMG := g.hasSMG
    hasPlasma := g.hasPlasma
    hasRRG := g.hasRRG
    weapon := g.weapon
    godmode := g.godmode
    sensitivity := round6 g.sensitivity
    enemy_count := clamp_count g.enemy_count MAX_ENEMIES
    enemy_x :=
      (List.range (clamp_count g.enemy_count MAX_ENEMIES).toNat).map (fun j => round6 (g.enemy_x.getD j 0))
    enemy_y :=
      (List.range (clamp_count g.enemy_count MAX_ENEMIES).toNat).map (fun j => round6 (g.enemy_y.getD j 0))
    enemy_kind :=
      (List.range (clamp_count g.enemy_count MAX_ENEMIES).toNat).map (fun j => g.enemy_kind.getD j 0)
    enemy_state :=
      (List.range (clamp_count g.enemy_count MAX_ENEMIES).toNat).map (fun j => g.enemy_state.getD j 0)
    enemy_hp :=
      (List.range (clamp_count g.enemy_count MAX_ENEMIES).toNat).map (fun j => g.enemy_hp.getD j 0)
    enemy_dying_timer :=
      (List.range (clamp_count g.enemy_count MAX_ENEMIES).toNat).map
        (fun j => round6 (g.enemy_dying_timer.getD j 0))
    item_count := clamp_count g.item_count MAX_ITEMS
    item_x :=
      (List.range (clamp_count g.item_count MAX_ITEMS).toNat).map (fun j => round6 (g.item_x.getD j 0))
    item_y :=
      (List.range (clamp_count g.item_count MAX_ITEMS).toNat).map (fun j => round6 (g.item_y.getD j 0))
    item_type :=
      (List.range (clamp_count g.item_count MAX_ITEMS).toNat).map (fun j => g.item_type.getD j 0)
    item_collected :=
      (List.range (clamp_count g.item_count MAX_ITEMS).toNat).map (fun j => g.item_collected.getD j 0) }
/-- A save record of a game in progress on level 2: two enemies and one item. -/
def sample_save : SaveGame :=
  { version := 3, level := 2, px := 1.5, py := 2.25, angle := 3.25, hp := 77, ammo_bullets := 5,
    ammo_shells := 4, hasKey := 1, hasShotgun := 1, weapon := 1, sensitivity := 0.0035,
    enemy_count := 2, enemy_x := [1.5, 2.25], enemy_y := [3, 4], enemy_kind := [0, 3],
    enemy_state := [0, 1], enemy_hp := [2, 0], enemy_dying_timer := [0, 0.45],
    item_count := 1, item_x := [1 / 3], item_y := [2 / 3], item_type := [5], item_collected := [1] }

/-! ## Scenes and predicates for the view angle, the melee attack and the session -/

/-- A player one mouse motion away from a full turn: angle 6, motion 1000 at sensitivity
0.0025. -/
def turning_player : World := { angle := 6, mouse_sensitivity := 0.0025 }

/-- The test of the melee attack of `update_enemies` for an enemy that is ALIVE at the
head of the loop body: the player is not dead, the distance computed at the head of the
body is below the melee range of the kind, and the touch cooldown after its decrement
is not positive. -/
def attacks (m : Libm) (dt : ℚ) (g : World) (e : Enemy) : Prop :=
  g.player_dead = 0 ∧ enemy_dist m g e < attack_range_for_kind e.kind ∧
    (tick_touch_cooldown dt e).touch_cooldown ≤ 0

instance (m : Libm) (dt : ℚ) (g : World) (e : Enemy) : Decidable (attacks m dt g e) := by
  unfold attacks
  infer_instance

/-- A player with 10 hp at (1.5, 1.5) and an enemy of kind 1 at (1.9, 1.5) whose touch
cooldown is 0.1. -/
def melee_scene : World :=
  { px := 1.5, py := 1.5, hp := 10,
    enemies := [{ x := 1.9, y := 1.5, state := ENEMY_ALIVE, kind := ENEMY_KIND1,
                  hp := hp_for_kind ENEMY_KIND1, touch_cooldown := 0.1, dying_timer := 0,
                  attack_timer := 0 }] }

/-- The globals after `load_map(1)` of the closed room: a 4 x 3 map whose only floor
tiles are (1, 1), the spawn, and (2, 1). -/
def room_loaded : World := (load_map one_room 1 {}).1

/-- The whitespace-separated tokens of a line, as the description of the map format
counts them: the maximal runs of characters other than space, tab, carriage return and
newline. -/
def ws_tokens (line : List Char) : List (List Char) :=
  (line.splitOnP is_ws).filter (fun t => t ≠ [])

/-- The map files of a game whose level 1 is the single row `1 5x 1`: three
whitespace-separated tokens, the second a number with a letter glued to it. -/
def glued_token_map : Int → Option (List Char) :=
  fun n => if n = 1 then some "1 5x 1\n".toList else none

/-- The closed room with the player at the spawn point (1.5, 1.5) facing east, 15 hp
left, the pistol and 10 bullets, and a miniboss half a tile ahead with its touch cooldown
run out. -/
def last_stand_scene : World :=
  { room_loaded with
    px := 1.5, py := 1.5, angle := 0, hp := 15, ammo_bullets := 10, current_weapon := WEAPON_PISTOL,
    enemies := [{ x := 2.0, y := 1.5, state := ENEMY_ALIVE, kind := ENEMY_MINIBOSS1,
                  hp := hp_for_kind ENEMY_MINIBOSS1, touch_cooldown := 0, dying_timer := 0,
                  attack_timer := 0 }] }

/-! ## The key sprites (`render.c`) -/

/-- The body of the nested loop of `draw_keys` at cell `(x, y)`: the `SDL_RenderCopy`
call it makes with the key texture `texKey`, or `none` when it makes none. -/
def draw_key (m : Libm) (texKey : Nat) (g : World) (y x : Nat) : Option RenderCopy :=
  if g.tile y x ≠ 1 then none
  else
    let dx := (x : ℚ) + 0.5 - g.px
    let dy := (y : ℚ) + 0.5 - g.py
    let dir := sprite_dir (m.atan2f dy dx - g.angle)
    if |dir| < FOV / 2 then
      let sx := (dir + FOV / 2) / FOV * (W : ℚ)
      let size := 80.0 / m.sqrtf (dx * dx + dy * dy)
      some { tex := texKey, x := truncf (sx - size / 2), y := truncf (((Int.tdiv H 2 : Int) : ℚ) - size / 2),
             w := truncf size, h := truncf size }
    else none

/-- The function `draw_keys`: the `SDL_RenderCopy` calls it makes, in order; `texKey` is
the key texture, `none` when it is `NULL`. -/
def draw_keys (m : Libm) (texKey : Option Nat) (g : World) : List RenderCopy :=
  match texKey with
  | none => []
  | some T =>
    if g.worldmap = none ∨ g.worldWidth ≤ 0 ∨ g.worldHeight ≤ 0 then []
    else
      (cells g.worldWidth.toNat g.worldHeight.toNat).filterMap (fun c => draw_key m T g c.1 c.2)

/-- A corridor with a wall tile between the player, at (1.5, 1.5) facing east, and a key
tile at column 3; an enemy stands on the key tile. -/
def key_behind_wall_scene : World :=
  { worldmap := some [[2, 2, 2, 2, 2], [2, 0, 2, 1, 2], [2, 2, 2, 2, 2]], worldWidth := 5,
    worldHeight := 3, px := 1.5, py := 1.5, angle := 0,
    enemies := [{ x := 3.5, y := 1.5, state := ENEMY_ALIVE, kind := ENEMY_KIND1, hp := 2,
                  touch_cooldown := 0, dying_timer := 0, attack_timer := 0 }] }

/-! ## The wall projector (`render.c`, `draw_world`) -/

/-- The constant `MAX_DIST` of `render.c`. -/
def MAX_DIST : ℚ := 30.0

/-- The per-column values of `draw_world` that the DDA loop reads and does not write:
the ray direction, the distances between grid lines along the ray and the step signs. -/
structure Ray where
  rayDirX : ℚ
  rayDirY : ℚ
  deltaDistX : ℚ
  deltaDistY : ℚ
  stepX : Int
  stepY : Int

/-- The variables of the DDA loop of `draw_world`. -/
structure Dda where
  mapX : Int
  mapY : Int
  sideDistX : ℚ
  sideDistY : ℚ
  hit : Int
  side : Int
  tile : Int
  perpWallDist : ℚ
  deriving DecidableEq

/-- The ray of screen column `sx`: direction, `deltaDist` and step signs, as computed at
the head of the column loop (`1e30f` stands in for an infinite `deltaDist`). -/
def ray_of (m : Libm) (g : World) (sx : Int) : Ray :=
  let rayAngle := g.angle - FOV * 0.5 + ((sx : ℚ) / (W : ℚ)) * FOV
  let rayDirX := m.cosf rayAngle
  let rayDirY := m.sinf rayAngle
  { rayDirX := rayDirX
    rayDirY := rayDirY
    deltaDistX := if rayDirX = 0 then 1e30 else |1.0 / rayDirX|
    deltaDistY := if rayDirY = 0 then 1e30 else |1.0 / rayDirY|
    stepX := if rayDirX < 0 then -1 else 1
    stepY := if rayDirY < 0 then -1 else 1 }

/-- The loop variables before the first iteration: the tile of the player, the initial
side distances, `hit = 0`, `side = 0`, `tile = 0` and `perpWallDist = MAX_DIST`. -/
def dda_init (g : World) (r : Ray) : Dda :=
  { mapX := truncf g.px
    mapY := truncf g.py
    sideDistX :=
      if r.rayDirX < 0 then (g.px - (truncf g.px : ℚ)) * r.deltaDistX
      else ((truncf g.px : ℚ) + 1.0 - g.px) * r.deltaDistX
    sideDistY :=
      if r.rayDirY < 0 then (g.py - (truncf g.py : ℚ)) * r.deltaDistY
      else ((truncf g.py : ℚ) + 1.0 - g.py) * r.deltaDistY
    hit := 0
    side := 0
    tile := 0
    perpWallDist := MAX_DIST }

/-- The step of the DDA: the first `if`/`else` of the loop body moves one tile along the
axis with the smaller side distance. -/
def dda_advance (r : Ray) (s : Dda) : Dda :=
  if s.sideDistX < s.sideDistY then
    { s with sideDistX := s.sideDistX + r.deltaDistX, mapX := s.mapX + r.stepX, side := 0 }
  else
    { s with sideDistY := s.sideDistY + r.deltaDistY, mapY := s.mapY + r.stepY, side := 1 }

/-- The perpendicular distance computed when a solid tile is reached, with its clamp
`if (perpWallDist <= 0.0f) perpWallDist = 0.001f;`. -/
def perp_dist (g : World) (r : Ray) (s : Dda) : ℚ :=
  let p :=
    if s.side = 0 then
      ((s.mapX : ℚ) - g.px + (1.0 - (r.stepX : ℚ)) * 0.5) / (if r.rayDirX = 0 then 1e-6 else r.rayDirX)
    else
      ((s.mapY : ℚ) - g.py + (1.0 - (r.stepY : ℚ)) * 0.5) / (if r.rayDirY = 0 then 1e-6 else r.rayDirY)
  if p ≤ 0 then 0.001 else p

/-- The test `if (tile >= 2)` of the loop body on the tile just entered, which lies
inside the map: a solid tile sets `hit` and the clamped perpendicular distance. -/
def dda_hit_test (g : World) (r : Ray) (s : Dda) : Dda :=
  if g.tile s.mapY.toNat s.mapX.toNat ≥ 2 then
    { s with tile := g.tile s.mapY.toNat s.mapX.toNat, hit := 1, perpWallDist := perp_dist g r s }
  else { s with tile := g.tile s.mapY.toNat s.mapX.toNat }

/-- The last test of the loop body: the ray is given up beyond `MAX_DIST`. -/
def dda_range_test (r : Ray) (s : Dda) : Dda :=
  if (if s.side = 0 then s.sideDistX - r.deltaDistX else s.sideDistY - r.deltaDistY) > MAX_DIST then
    { s with hit := 1, tile := 0 }
  else s

/-- The body of the loop `while (!hit)` of `draw_world`: the step, the bounds test (a
ray that leaves the map counts as a wall at `MAX_DIST`), the hit test and the range
test.  Both `break`s are taken with `hit = 1`, so the loop ends exactly when the body
leaves `hit` set. -/
def dda_body (g : World) (r : Ray) (s : Dda) : Dda :=
  if (dda_advance r s).mapX < 0 ∨ (dda_advance r s).mapY < 0 ∨ (dda_advance r s).mapX ≥ g.worldWidth
      ∨ (dda_advance r s).mapY ≥ g.worldHeight then
    { dda_advance r s with tile := 2, hit := 1, perpWallDist := MAX_DIST }
  else dda_range_test r (dda_hit_test g r (dda_advance r s))

/-- The loop `while (!hit)` of `draw_world`, run for at most `fuel` iterations: the
variables at the exit of the loop, or `none` when `fuel` iterations do not reach it. -/
def dda_loop (g : World) (r : Ray) : Nat → Dda → Option Dda
  | 0, s => if s.hit ≠ 0 then some s else none
  | fuel + 1, s => if s.hit ≠ 0 then some s else dda_loop g r fuel (dda_body g r s)

/-- The number of steps that the ray can still take inside the map from tile
`(mapX, mapY)`: the tiles ahead along each axis in the direction of its step. -/
def dda_room (g : World) (r : Ray) (s : Dda) : Int :=
  (if r.stepX = 1 then g.worldWidth - 1 - s.mapX else s.mapX) +
    (if r.stepY = 1 then g.worldHeight - 1 - s.mapY else s.mapY)

/-- The wall slice of a column: the perpendicular distance used for its height and the
clamped span `y1`, `y2` of the destination rectangle `(sx, y1, 1, y2 - y1)`. -/
structure WallSlice where
  perp : ℚ
  y1 : Int
  y2 : Int
  deriving DecidableEq

/-- The part of the column loop after the DDA: `none` when the column is filled with
ceiling and floor only (`tile < 2 || perpWallDist > MAX_DIST`), otherwise the slice. -/
def wall_slice (s : Dda) : Option WallSlice :=
  if s.tile < 2 ∨ s.perpWallDist > MAX_DIST then none
  else
    let h := 240.0 / s.perpWallDist
    let y1 := truncf (((Int.tdiv H 2 : Int) : ℚ) - h / 2)
    let y2 := truncf (((Int.tdiv H 2 : Int) : ℚ) + h / 2)
    some { perp := s.perpWallDist, y1 := if y1 < 0 then 0 else y1, y2 := if y2 > H then H else y2 }

/-- The wall slice that `draw_world` computes for screen column `sx`, with the DDA loop
given `fuel` iterations: `none` when the loop does not end within them, `some none` when
the column shows no wall.  `draw_world` returns before the column loop when no map is
loaded or a dimension is not positive. -/
def draw_column (m : Libm) (g : World) (sx : Int) (fuel : Nat) : Option (Option WallSlice) :=
  (dda_loop g (ray_of m g sx) fuel (dda_init g (ray_of m g sx))).map wall_slice

/-- A one-tile room with the player half a thousandth of a tile from its east wall,
facing east. -/
def near_wall_scene : World :=
  { worldmap := some [[2, 2, 2], [2, 0, 2], [2, 2, 2]], worldWidth := 3, worldHeight := 3,
    px := 1.9995, py := 1.5, angle := 0 }

/-- The one-tile room with the player at its centre, facing east. -/
def mid_room_scene : World := { near_wall_scene with px := 1.5 }

/-! ## The slot menus (`game.c`) -/

/-- The cast `(int)k` of an `EnemyKind`. -/
def EnemyKind.code (k : EnemyKind) : Int :=
  match k with
  | ENEMY_KIND1 => 0
  | ENEMY_KIND2 => 1
  | ENEMY_MINIBOSS1 => 2
  | ENEMY_FINALBOSS => 3

/-- The cast `(int)st` of an `EnemyState`. -/
def EnemyState.code (st : EnemyState) : Int :=
  match st with
  | ENEMY_ALIVE => 0
  | ENEMY_DYING => 1
  | ENEMY_DEAD => 2

/-- The function `snapshot_current(&sg)`: the record filled from the globals, with the
first `min(enemy_count, MAX_ENEMIES)` enemies and `min(item_count, MAX_ITEMS)` items. -/
def snapshot_current (s : Game) : SaveGame :=
  { version := SAVEGAME_VERSION
    level := s.currentLevel
    px := s.world.px
    py := s.world.py
    angle := s.world.angle
    hp := s.world.hp
    ammo_bullets := s.world.ammo_bullets
    ammo_shells := s.world.ammo_shells
    ammo_energy := s.world.ammo_energy
    hasKey := s.world.hasKey
    hasShotgun := s.world.hasShotgun
    hasSMG := s.world.hasSMG
    hasPlasma := s.world.hasPlasma
    hasRRG := s.world.hasRRG
    weapon := s.world.current_weapon.code
    godmode := flag s.world.godmode_enabled
    sensitivity := s.world.mouse_sensitivity
    enemy_count := ((s.world.enemies.take MAX_ENEMIES).length : Int)
    enemy_x := (s.world.enemies.take MAX_ENEMIES).map (fun e => e.x)
    enemy_y := (s.world.enemies.take MAX_ENEMIES).map (fun e => e.y)
    enemy_kind := (s.world.enemies.take MAX_ENEMIES).map (fun e => e.kind.code)
    enemy_state := (s.world.enemies.take MAX_ENEMIES).map (fun e => e.state.code)
    enemy_hp := (s.world.enemies.take MAX_ENEMIES).map (fun e => e.hp)
    enemy_dying_timer := (s.world.enemies.take MAX_ENEMIES).map (fun e => e.dying_timer)
    item_count := ((s.world.items.take MAX_ITEMS).length : Int)
    item_x := (s.world.items.take MAX_ITEMS).map (fun it => it.x)
    item_y := (s.world.items.take MAX_ITEMS).map (fun it => it.y)
    item_type := (s.world.items.take MAX_ITEMS).map (fun it => it.type.code)
    item_collected := (s.world.items.take MAX_ITEMS).map (fun it => flag it.collected) }

/-- The function `save_current_to_slot(slot)`: the globals, the directory and the return
value. -/
def save_current_to_slot (slot : Int) (s : Game) (d : Disk) : (Game × Disk) × Int :=
  if (savegame_write slot (snapshot_current s) d).2 ≠ 0 then ((s, d), -1)
  else (({ s with active_slot := slot }, (savegame_write slot (snapshot_current s) d).1), 0)

def SDL_SCANCODE_RETURN : Nat := 40

def SDL_SCANCODE_DOWN : Nat := 81

def SDL_SCANCODE_UP : Nat := 82

/-- The cursor after `if (slot_selection > 0) slot_selection--;`. -/
def slot_up (s : Game) : Game :=
  { s with slot_selection := if s.slot_selection > 0 then s.slot_selection - 1 else s.slot_selection }

/-- The cursor after `if (slot_selection < 3) slot_selection++;`. -/
def slot_down (s : Game) : Game :=
  { s with slot_selection := if s.slot_selection < 3 then s.slot_selection + 1 else s.slot_selection }

/-- The branch `state == STATE_LOADMENU` of the key-down handler of `game_loop`, for the
scancode `sc`: the cursor keys, Escape and the entry "back" (cursor 3) return to the
menu that opened the load menu, Return on a slot calls
`load_slot_and_enter(slot_selection + 1)`. -/
def loadmenu_key (files : Int → Option (List Char)) (sc : Nat) (s : Game) (d : Disk) : Game :=
  if sc = SDL_SCANCODE_UP then slot_up s
  else if sc = SDL_SCANCODE_DOWN then slot_down s
  else if sc = SDL_SCANCODE_ESCAPE then { s with state := s.slot_return_state }
  else if sc = SDL_SCANCODE_RETURN then
    if s.slot_selection = 3 then { s with state := s.slot_return_state }
    else (load_slot_and_enter files (s.slot_selection + 1) s d).1
  else s

/-- The branch `state == STATE_SAVEMENU` of the key-down handler of `game_loop`: as the
load menu, with Return on a slot calling `save_current_to_slot(slot_selection + 1)` and
returning to the opening menu when the save succeeded. -/
def savemenu_key (sc : Nat) (s : Game) (d : Disk) : Game × Disk :=
  if sc = SDL_SCANCODE_UP then (slot_up s, d)
  else if sc = SDL_SCANCODE_DOWN then (slot_down s, d)
  else if sc = SDL_SCANCODE_ESCAPE then ({ s with state := s.slot_return_state }, d)
  else if sc = SDL_SCANCODE_RETURN then
    if s.slot_selection = 3 then ({ s with state := s.slot_return_state }, d)
    else if (save_current_to_slot (s.slot_selection + 1) s d).2 = 0 then
      ({ (save_current_to_slot (s.slot_selection + 1) s d).1.1 with
          state := (save_current_to_slot (s.slot_selection + 1) s d).1.1.slot_return_state },
        (save_current_to_slot (s.slot_selection + 1) s d).1.2)
    else (save_current_to_slot (s.slot_selection + 1) s d).1
  else (s, d)

/-- The states of the session reachable as far as the current level, the autosave slot
and the slot cursor are concerned: the C initialisers, `begin_new_game` with any start
level, a key in the load menu (which loads any saved game) or in the save menu, a
PLAYING frame with its level-completion transition, a key in the cutscene, and any
other assignment, which leaves `currentLevel` and `active_slot` alone and either leaves
the slot cursor alone or sets it to 0 (the main menu and the pause menu, when they open
a slot menu). -/
inductive session_reachable : Game → Prop
  | init (s : Game) :
      s.currentLevel = 1 → s.active_slot = 1 → s.slot_selection = 0 → session_reachable s
  | new_game (files : Int → Option (List Char)) (startLevel : Int) (s : Game) :
      session_reachable s → session_reachable (begin_new_game files startLevel s)
  | load_key (files : Int → Option (List Char)) (sc : Nat) (s : Game) (d : Disk) :
      session_reachable s → session_reachable (loadmenu_key files sc s d)
  | save_key (sc : Nat) (s : Game) (d : Disk) :
      session_reachable s → session_reachable (savemenu_key sc s d).1
  | frame (m : Libm) (dt : ℚ) (inp : Input) (s : Game) (d : Disk) :
      session_reachable s → session_reachable (playing_frame m dt inp s d).1
  | cutscene (files : Int → Option (List Char)) (sc : Nat) (s : Game) :
      session_reachable s → session_reachable (cutscene_key files sc s)
  | other (s s2 : Game) :
      s2.currentLevel = s.currentLevel → s2.active_slot = s.active_slot →
        (s2.slot_selection = s.slot_selection ∨ s2.slot_selection = 0) →
        session_reachable s → session_reachable s2

/-- The session invariant: the current level is one of 1..9, the autosave slot one of
1..3 and the slot cursor one of 0..3. -/
def session_inv (s : Game) : Prop :=
  (1 ≤ s.currentLevel ∧ s.currentLevel ≤ 9) ∧ (1 ≤ s.active_slot ∧ s.active_slot ≤ 3) ∧
    (0 ≤ s.slot_selection ∧ s.slot_selection ≤ 3)

/-- The map files of a game whose level 1 has the second row `2 5x 0 2`: four
whitespace-separated tokens, the second a number with a letter glued to it. -/
def glued_row_map : Int → Option (List Char) :=
  fun n => if n = 1 then some "2 2 2 2\n2 5x 0 2\n2 2 2 2\n".toList else none

/-- A float field reads back within the tolerance of the round trip: the value read is
within 1e-4 of the saved value, and so is every value at least as near to the value read
as the saved value is (such as the single-precision number nearest to the value read,
when the saved value is a single-precision number). -/
def reads_within (saved read : ℚ) : Prop :=
  |read - saved| ≤ 0.0001 ∧ ∀ x : ℚ, |x - read| ≤ |saved - read| → |x - saved| ≤ 0.0001

/-- No ammo pool is so large that the `int` addition of a pickup (3 bullets, 4 shells,
10 energy) leaves the range of `int`. -/
def pools_fit (g : World) : Prop :=
  g.ammo_bullets + 3 ≤ INT_MAX ∧ g.ammo_shells + 4 ≤ INT_MAX ∧ g.ammo_energy + 10 ≤ INT_MAX

instance (g : World) : Decidable (pools_fit g) := by
  unfold pools_fit
  infer_instance

/-- The map files of a game whose level 1 is a closed room with the spawn tile and a box
of bullets (tile 5) next to it. -/
def bullets_room : Int → Option (List Char) :=
  fun n => if n = 1 then some "2 2 2 2\n2 8 5 2\n2 2 2 2\n".toList else none

/-- A directory whose slot 1 holds a save of level 1 with 2147483647 bullets and the
player at (2.0, 1.5), half a tile from the centre of the bullets tile. -/
def overfull_disk : Disk :=
  (savegame_write 1
    { version := 3, level := 1, px := 2.0, py := 1.5, hp := 100, ammo_bullets := 2147483647 } {}).1

/-- The value `v` lies in the range of a 32-bit `int`. -/
def is_int (v : Int) : Prop := -2147483648 ≤ v ∧ v ≤ INT_MAX

/-- The enemy that `init_enemies` stores for an enemy tile of kind `k` at column `x` of
row `y`: alive at the centre of the tile, with the hit points of its kind. -/
def spawned_enemy (y x : Nat) (k : EnemyKind) : Enemy :=
  { x := (x : ℚ) + 0.5, y := (y : ℚ) + 0.5, state := ENEMY_ALIVE, kind := k,
    hp := hp_for_kind k, touch_cooldown := 0, dying_timer := 0, attack_timer := 0 }

/-- The item that `init_items` stores for an item tile of type `t` at column `x` of row
`y`: not collected, at the centre of the tile. -/
def spawned_item (y x : Nat) (t : ItemType) : Item :=
  { x := (x : ℚ) + 0.5, y := (y : ℚ) + 0.5, type := t, collected := 0 }

/-- A map file with an enemy tile of kind 1 and a box of bullets inside a walled room. -/
def map_with_entities : Int → Option (List Char) :=
  fun _ => some "2 2 2 2 2\n2 8 9 5 2\n2 2 2 2 2\n".toList

/-! # Properties -/

/-! ## The tile grid -/

theorem tileAt_setTile (m : List (List Int)) (y x y2 x2 : Nat) (v : Int) :
    tileAt (setTile m y x v) y2 x2 =
      if y2 = y ∧ x2 = x ∧ y < m.length ∧ x < (m.getD y []).length then v else tileAt m y2 x2 := by
  unfold tileAt setTile
  simp only [List.getD_eq_getElem?_getD, List.getElem?_set]
  by_cases hy : y = y2
  · subst hy
    by_cases hl : y < m.length
    · simp only [hl, if_true, Option.getD_some, List.getElem?_set, true_and]
      by_cases hx : x = x2
      · subst hx
        by_cases hxl : x < (m[y]?.getD []).length
        · simp [hxl]
        · have : (m[y]?.getD [])[x]? = none := List.getElem?_eq_none (by omega)
          simp [hxl, this]
      · have hx2 : ¬ x2 = x := fun h => hx h.symm
        simp [hx, hx2]
    · have : m[y]? = none := List.getElem?_eq_none (by omega)
      simp [hl, this]
  · have hy2 : ¬ y2 = y := fun h => hy h.symm
    simp [hy, hy2]

theorem tileAt_setTile_cases (m : List (List Int)) (y x y2 x2 : Nat) (v : Int) :
    tileAt (setTile m y x v) y2 x2 = tileAt m y2 x2 ∨
      (tileAt (setTile m y x v) y2 x2 = v ∧ y2 = y ∧ x2 = x) := by
  rw [tileAt_setTile]
  split
  · rename_i h
    exact Or.inr ⟨rfl, h.1, h.2.1⟩
  · exact Or.inl rfl

theorem tileAt_ne_zero_inrange (m : List (List Int)) (y x : Nat) (h : tileAt m y x ≠ 0) :
    y < m.length ∧ x < (m.getD y []).length := by
  unfold tileAt at h
  simp only [List.getD_eq_getElem?_getD] at h ⊢
  by_cases hy : y < m.length
  · refine ⟨hy, ?_⟩
    by_contra hx
    have : (m[y]?.getD [])[x]? = none := List.getElem?_eq_none (by omega)
    simp [this] at h
  · have : m[y]? = none := List.getElem?_eq_none (by omega)
    simp [this] at h

theorem setTile_setTile (m : List (List Int)) (y x : Nat) (a b : Int) :
    setTile (setTile m y x a) y x b = setTile m y x b := by
  unfold setTile
  by_cases hy : y < m.length
  · simp [List.getD_eq_getElem?_getD, List.getElem?_set, hy, List.set_set]
  · rw [List.set_eq_of_length_le (by omega : m.length ≤ y)]

theorem World.tile_setTile_cases (g : World) (y x y2 x2 : Nat) (v : Int) :
    (g.setTile y x v).tile y2 x2 = g.tile y2 x2 ∨
      ((g.setTile y x v).tile y2 x2 = v ∧ y2 = y ∧ x2 = x) := by
  unfold World.setTile World.tile
  cases hm : g.worldmap with
  | none => simp [hm]
  | some m => simpa using tileAt_setTile_cases m y x y2 x2 v

theorem World.tile_setTile_self (g : World) (y x : Nat) (v : Int) (h : g.tile y x ≠ 0) :
    (g.setTile y x v).tile y x = v := by
  unfold World.setTile World.tile at *
  cases hm : g.worldmap with
  | none => simp [hm] at h
  | some m =>
    simp only [hm] at h ⊢
    rw [tileAt_setTile, if_pos ⟨rfl, rfl, tileAt_ne_zero_inrange m y x h⟩]

theorem mem_row_cells (y k : Nat) (c : Nat × Nat) : c ∈ row_cells y k ↔ c.1 = y ∧ c.2 < k := by
  induction k with
  | zero => simp [row_cells]
  | succ k ih =>
    simp only [row_cells, List.mem_append, ih, List.mem_singleton]
    constructor
    · rintro (⟨h1, h2⟩ | h)
      · exact ⟨h1, by omega⟩
      · subst h
        exact ⟨rfl, by simp⟩
    · rintro ⟨h1, h2⟩
      by_cases hk : c.2 = k
      · right
        exact Prod.ext h1 hk
      · left
        exact ⟨h1, by omega⟩

theorem mem_cells (w h : Nat) (c : Nat × Nat) : c ∈ cells w h ↔ c.1 < h ∧ c.2 < w := by
  induction h with
  | zero => simp [cells]
  | succ n ih =>
    simp only [cells, List.mem_append, ih, mem_row_cells]
    constructor
    · rintro (⟨h1, h2⟩ | ⟨h1, h2⟩)
      · exact ⟨by omega, h2⟩
      · exact ⟨by omega, h2⟩
    · rintro ⟨h1, h2⟩
      by_cases hk : c.1 = n
      · exact Or.inr ⟨hk, h2⟩
      · exact Or.inl ⟨by omega, h2⟩

/-- An invariant of the loop body at every cell is an invariant of the nested loop. -/
theorem for_tiles_invariant (I : World → Prop) (h w : Nat) (body : World → Nat → Nat → World)
    (step : ∀ g y x, y < h → x < w → I g → I (body g y x)) (g : World) (h0 : I g) :
    I (for_tiles h w body g) := by
  unfold for_tiles
  have key : ∀ (cs : List (Nat × Nat)), (∀ c ∈ cs, c.1 < h ∧ c.2 < w) → ∀ g, I g →
      I (cs.foldl (fun acc c => body acc c.1 c.2) g) := by
    intro cs
    induction cs with
    | nil => intro _ g hg; simpa using hg
    | cons c cs ih =>
      intro hc g hg
      simp only [List.foldl_cons]
      apply ih (fun c2 hc2 => hc c2 (List.mem_cons_of_mem _ hc2))
      exact step g c.1 c.2 (hc c (List.mem_cons_self _ _)).1 (hc c (List.mem_cons_self _ _)).2 hg
  exact key _ (fun c hc => (mem_cells w h c).1 hc) g h0

/-- If the body establishes `Q` at cell `(y0, x0)` and every later step keeps it, the
nested loop ends with `Q`, given a loop invariant `I`. -/
theorem for_tiles_visit (I Q : World → Prop) (h w : Nat) (body : World → Nat → Nat → World)
    (y0 x0 : Nat) (hy : y0 < h) (hx : x0 < w)
    (step : ∀ g y x, y < h → x < w → I g → I (body g y x))
    (est : ∀ g, I g → Q (body g y0 x0))
    (keep : ∀ g y x, y < h → x < w → I g → Q g → Q (body g y x))
    (g : World) (h0 : I g) : Q (for_tiles h w body g) := by
  unfold for_tiles
  have keepAll : ∀ (cs : List (Nat × Nat)), (∀ c ∈ cs, c.1 < h ∧ c.2 < w) → ∀ g, I g → Q g →
      Q (cs.foldl (fun acc c => body acc c.1 c.2) g) := by
    intro cs
    induction cs with
    | nil => intro _ g _ hq; simpa using hq
    | cons c cs ih =>
      intro hc g hg hq
      simp only [List.foldl_cons]
      have hc0 := hc c (List.mem_cons_self _ _)
      exact ih (fun c2 hc2 => hc c2 (List.mem_cons_of_mem _ hc2)) _
        (step g c.1 c.2 hc0.1 hc0.2 hg) (keep g c.1 c.2 hc0.1 hc0.2 hg hq)
  have key : ∀ (cs : List (Nat × Nat)), (∀ c ∈ cs, c.1 < h ∧ c.2 < w) → (y0, x0) ∈ cs →
      ∀ g, I g → Q (cs.foldl (fun acc c => body acc c.1 c.2) g) := by
    intro cs
    induction cs with
    | nil => intro _ hm; simp at hm
    | cons c cs ih =>
      intro hc hm g hg
      simp only [List.foldl_cons]
      have hc0 := hc c (List.mem_cons_self _ _)
      have hcs : ∀ c2 ∈ cs, c2.1 < h ∧ c2.2 < w := fun c2 hc2 => hc c2 (List.mem_cons_of_mem _ hc2)
      by_cases hmem : (y0, x0) ∈ cs
      · exact ih hcs hmem _ (step g c.1 c.2 hc0.1 hc0.2 hg)
      · have hceq : c = (y0, x0) := by
          rcases List.mem_cons.1 hm with h1 | h1
          · exact h1.symm
          · exact absurd h1 hmem
        subst hceq
        exact keepAll cs hcs _ (step g y0 x0 hy hx hg) (est g hg)
  exact key _ (fun c hc => (mem_cells w h c).1 hc) ((mem_cells w h (y0, x0)).2 ⟨hy, hx⟩) g h0

/-! ## Loading a map -/

theorem fgets_chars_length (n : Nat) : ∀ s : List Char, s ≠ [] →
    (fgets_chars (n + 1) s).2.length < s.length := by
  induction n with
  | zero =>
    intro s hs
    cases s with
    | nil => exact absurd rfl hs
    | cons c t =>
      simp only [fgets_chars]
      split <;> simp
  | succ n ih =>
    intro s hs
    cases s with
    | nil => exact absurd rfl hs
    | cons c t =>
      rw [fgets_chars]
      split
      · simp
      · simp only [List.length_cons]
        cases t with
        | nil => simp [fgets_chars]
        | cons d u =>
          have := ih (d :: u) (by simp)
          simp only [List.length_cons] at this ⊢
          omega

/-- The loop `while (fgets(...))` reads the whole file within the fuel `file.length`:
any fuel at least the length of the unread part gives the same lines. -/
theorem fgets_lines_fuel (size : Nat) (hsize : 2 ≤ size) (f1 : Nat) :
    ∀ (f2 : Nat) (s : List Char), s.length ≤ f1 → s.length ≤ f2 →
      fgets_lines size f1 s = fgets_lines size f2 s := by
  induction f1 with
  | zero =>
    intro f2 s h1 _
    have hs : s = [] := List.length_eq_zero.1 (by omega)
    subst hs
    cases f2 <;> simp [fgets_lines]
  | succ n ih =>
    intro f2 s h1 h2
    by_cases hs : s = []
    · subst hs
      cases f2 <;> simp [fgets_lines]
    · have hpos : 0 < s.length := List.length_pos.2 hs
      obtain ⟨k, hk⟩ : ∃ k, f2 = k + 1 := ⟨f2 - 1, by omega⟩
      subst hk
      obtain ⟨j, hj⟩ : ∃ j, size - 1 = j + 1 := ⟨size - 2, by omega⟩
      simp only [fgets_lines, if_neg hs]
      have hlt := fgets_chars_length j s hs
      rw [hj]
      rw [ih k (fgets_chars (j + 1) s).2 (by omega) (by omega)]

theorem dropWhile_length_le (p : Char → Bool) (l : List Char) :
    (l.dropWhile p).length ≤ l.length := by
  induction l with
  | nil => simp
  | cons c t ih =>
    simp only [List.dropWhile_cons]
    split
    · simp only [List.length_cons]
      omega
    · simp

theorem dropWhile_head_false (p : Char → Bool) (l : List Char) (c : Char) (t : List Char)
    (h : l.dropWhile p = c :: t) : p c = false := by
  induction l with
  | nil => simp at h
  | cons d u ih =>
    simp only [List.dropWhile_cons] at h
    split at h
    · exact ih h
    · rename_i hd
      simp only [List.cons.injEq] at h
      rw [← h.1]
      simpa using hd

theorem takeWhile_ne_nil_drop (p : Char → Bool) (l : List Char) (h : l.takeWhile p ≠ []) :
    (l.dropWhile p).length < l.length := by
  have h1 := congrArg List.length (List.takeWhile_append_dropWhile p l)
  rw [List.length_append] at h1
  have h2 : 0 < (l.takeWhile p).length := List.length_pos.2 h
  omega

/-- A successful `parse_next_int` moves the read position forward. -/
theorem parse_next_int_consumes (p : List Char) (out : Int) (h : (parse_next_int p out).1 ≠ 0) :
    (parse_next_int p out).2.2.length < p.length := by
  unfold parse_next_int at h ⊢
  simp only at h ⊢
  have hp1 := dropWhile_length_le is_ws p
  by_cases he : p.dropWhile is_ws = []
  · rw [if_pos he] at h
    simp at h
  · rw [if_neg he]
    cases hst : strtol (p.dropWhile is_ws) with
    | none =>
      simp only
      cases hd : p.dropWhile is_ws with
      | nil => exact absurd hd he
      | cons c t =>
        have hc := dropWhile_head_false is_ws p c t hd
        have ht := dropWhile_length_le (fun c => !is_ws c) t
        rw [hd] at hp1
        simp only [List.dropWhile_cons, hc, Bool.not_false, if_true]
        simp only [List.length_cons] at hp1
        omega
    | some r =>
      obtain ⟨v, e⟩ := r
      simp only
      unfold strtol at hst
      by_cases hds : (skip_sign ((p.dropWhile is_ws).dropWhile isspace)).takeWhile Char.isDigit = []
      · rw [if_pos hds] at hst
        simp at hst
      · rw [if_neg hds] at hst
        simp only [Option.some.injEq, Prod.mk.injEq] at hst
        rw [← hst.2]
        have h3 := takeWhile_ne_nil_drop Char.isDigit _ hds
        have h4 := dropWhile_length_le isspace (p.dropWhile is_ws)
        have h5 : (skip_sign ((p.dropWhile is_ws).dropWhile isspace)).length ≤
            ((p.dropWhile is_ws).dropWhile isspace).length := by
          unfold skip_sign
          split
          · simp
          · exact le_refl _
        omega

/-- The column count of the first pass does not depend on the fuel once the fuel exceeds
the length of the string: the loop `while (parse_next_int(&scan, &tmp)) cols++` ends. -/
theorem count_cols_fuel (f1 : Nat) :
    ∀ (f2 : Nat) (scan : List Char) (cols : Int), scan.length < f1 → scan.length < f2 →
      count_cols f1 scan cols = count_cols f2 scan cols := by
  induction f1 with
  | zero => intro f2 scan cols h1 _; omega
  | succ n ih =>
    intro f2 scan cols h1 h2
    obtain ⟨k, hk⟩ : ∃ k, f2 = k + 1 := ⟨f2 - 1, by omega⟩
    subst hk
    simp only [count_cols]
    by_cases hc : (parse_next_int scan 0).1 ≠ 0
    · rw [if_pos hc, if_pos hc]
      have := parse_next_int_consumes scan 0 hc
      exact ih k _ _ (by omega) (by omega)
    · rw [if_neg hc, if_neg hc]

theorem parse_next_int_range (p : List Char) (out : Int) (h : 0 ≤ out ∧ out ≤ 99) :
    0 ≤ (parse_next_int p out).2.1 ∧ (parse_next_int p out).2.1 ≤ 99 := by
  unfold parse_next_int
  simp only
  split
  · exact h
  · split
    · simp
    · rename_i v e _
      simp only
      split
      · simp
      · omega

theorem grid_wf_setTile (w h : Int) (g : World) (y x : Nat) (v : Int) (hg : grid_wf w h g) :
    grid_wf w h (g.setTile y x v) := by
  obtain ⟨m, hm, hl, hr⟩ := hg
  refine ⟨setTile m y x v, by simp [World.setTile, hm], ?_, ?_⟩
  · simp [setTile, hl]
  · intro row hrow
    unfold setTile at hrow
    by_cases hy : y < m.length
    · rcases List.mem_or_eq_of_mem_set hrow with h1 | h1
      · exact hr row h1
      · rw [h1, List.length_set, List.getD_eq_getElem _ _ hy]
        exact hr _ (List.getElem_mem _)
    · rw [List.set_eq_of_length_le (by omega)] at hrow
      exact hr row hrow

theorem map_loaded_congr (w h : Int) (g g2 : World) (h1 : g2.worldmap = g.worldmap)
    (h2 : g2.worldWidth = g.worldWidth) (h3 : g2.worldHeight = g.worldHeight)
    (hg : map_loaded w h g) : map_loaded w h g2 := by
  obtain ⟨⟨m, hm, hl, hr⟩, b, c, d⟩ := hg
  refine ⟨⟨m, by rw [h1, hm], hl, hr⟩, by rw [h2, b], by rw [h3, c], ?_⟩
  intro y x
  have : g2.tile y x = g.tile y x := by simp [World.tile, h1]
  rw [this]
  exact d y x

theorem grid_wf_inrange (w h : Int) (g : World) (y x : Nat) (hg : grid_wf w h g)
    (ht : g.tile y x ≠ 0) : y < h.toNat ∧ x < w.toNat := by
  obtain ⟨m, hm, hl, hr⟩ := hg
  simp only [World.tile, hm] at ht
  have := tileAt_ne_zero_inrange m y x ht
  refine ⟨by omega, ?_⟩
  rw [List.getD_eq_getElem _ _ this.1] at this
  have h2 := hr _ (List.getElem_mem this.1)
  omega

theorem World.setTile_dims (g : World) (y x : Nat) (v : Int) :
    (g.setTile y x v).worldWidth = g.worldWidth ∧ (g.setTile y x v).worldHeight = g.worldHeight := by
  unfold World.setTile
  cases hm : g.worldmap <;> simp

theorem map_loaded_setTile (w h : Int) (g : World) (y x : Nat) (v : Int) (hv : loaded_tile v)
    (hg : map_loaded w h g) : map_loaded w h (g.setTile y x v) := by
  obtain ⟨h1, h2, h3, h4⟩ := hg
  refine ⟨grid_wf_setTile w h g y x v h1, ?_, ?_, ?_⟩
  · rw [(World.setTile_dims g y x v).1, h2]
  · rw [(World.setTile_dims g y x v).2, h3]
  · intro y2 x2
    rcases World.tile_setTile_cases g y x y2 x2 v with h5 | h5
    · rw [h5]; exact h4 y2 x2
    · rw [h5.1]; exact hv

/-- One iteration of the column loop of the third pass keeps the grid loadable: the
value stored is in range, and a stored 8 is overwritten by 0. -/
theorem map_loaded_fill_step (w h : Int) (g : World) (y x : Nat) (v : Int) (sx sy : ℚ)
    (hv : 0 ≤ v ∧ v ≤ 99) (hg : map_loaded w h g) :
    map_loaded w h
      (if v = 8 then
        World.setTile { g.setTile y x v with player_spawn_x := sx, player_spawn_y := sy } y x 0
      else g.setTile y x v) := by
  by_cases h8 : v = 8
  · rw [if_pos h8]
    have e : World.setTile { g.setTile y x v with player_spawn_x := sx, player_spawn_y := sy } y x 0
        = { g.setTile y x 0 with player_spawn_x := sx, player_spawn_y := sy } := by
      unfold World.setTile
      cases hm : g.worldmap with
      | none => simp [hm]
      | some m => simp [hm, setTile_setTile]
    rw [e]
    have := map_loaded_setTile w h g y x 0 ⟨le_refl _, by norm_num, by norm_num⟩ hg
    exact this
  · rw [if_neg h8]
    exact map_loaded_setTile w h g y x v ⟨hv.1, hv.2, h8⟩ hg

theorem map_loaded_fill_row (w h : Int) (y : Nat) (n : Nat) :
    ∀ (x : Nat) (p : List Char) (g : World), map_loaded w h g → map_loaded w h (fill_row y n x p g) := by
  induction n with
  | zero => intro x p g hg; simpa [fill_row] using hg
  | succ n ih =>
    intro x p g hg
    simp only [fill_row]
    apply ih
    exact map_loaded_fill_step w h g y x _ _ _ (parse_next_int_range p 2 (by norm_num)) hg

theorem map_loaded_third_pass (w h : Int) (lines : List (List Char)) :
    ∀ (y : Nat) (g : World), map_loaded w h g → map_loaded w h (third_pass lines y g).2 := by
  induction lines with
  | nil => intro y g hg; simpa [third_pass] using hg
  | cons line rest ih =>
    intro y g hg
    simp only [third_pass]
    split
    · split
      · exact ih y g hg
      · exact ih (y + 1) _ (map_loaded_fill_row w h y _ 0 _ g hg)
    · exact hg

theorem map_loaded_pad_rows (w h : Int) (y : Nat) (g : World) (hg : map_loaded w h g) :
    map_loaded w h (pad_rows y g) := by
  unfold pad_rows
  have inner : ∀ (xs : List Nat) (r : Nat) (a : World), map_loaded w h a →
      map_loaded w h (xs.foldl (fun a x => a.setTile r x 2) a) := by
    intro xs
    induction xs with
    | nil => intro r a ha; simpa using ha
    | cons x xs ih =>
      intro r a ha
      simp only [List.foldl_cons]
      exact ih r _ (map_loaded_setTile w h a r x 2 ⟨by norm_num, by norm_num, by norm_num⟩ ha)
  have outer : ∀ (rs xs : List Nat) (a : World), map_loaded w h a →
      map_loaded w h (rs.foldl (fun acc r => xs.foldl (fun a x => a.setTile r x 2) acc) a) := by
    intro rs
    induction rs with
    | nil => intro xs a ha; simpa using ha
    | cons r rs ih =>
      intro xs a ha
      simp only [List.foldl_cons]
      exact ih xs _ (inner xs r a ha)
  exact outer _ _ g hg

theorem map_loaded_load_rows (lines : List (List Char)) (g : World) :
    map_loaded g.worldWidth g.worldHeight (load_rows lines g) := by
  have h0 : map_loaded g.worldWidth g.worldHeight (alloc_map g) := by
    refine ⟨⟨_, rfl, by simp, ?_⟩, rfl, rfl, ?_⟩
    · intro row hrow
      rw [List.eq_of_mem_replicate hrow]
      simp
    intro y x
    have : tileAt (List.replicate g.worldHeight.toNat
        (List.replicate g.worldWidth.toNat (0 : Int))) y x = 0 := by
      unfold tileAt
      simp only [List.getD_eq_getElem?_getD, List.getElem?_replicate]
      split
      · simp only [Option.getD_some, List.getElem?_replicate]
        split <;> simp
      · simp
    simp only [World.tile, alloc_map, this]
    exact ⟨le_refl _, by norm_num, by norm_num⟩
  exact map_loaded_pad_rows _ _ _ _ (map_loaded_third_pass _ _ lines 0 _ h0)

/-- A successful `load_map` leaves an allocated grid of positive dimensions in which
every tile is a loadable code. -/
theorem load_map_loaded (files : Int → Option (List Char)) (level : Int) (g : World)
    (h : (load_map files level g).2 = 0) :
    map_loaded (load_map files level g).1.worldWidth (load_map files level g).1.worldHeight
        (load_map files level g).1 ∧
      0 < (load_map files level g).1.worldWidth ∧ 0 < (load_map files level g).1.worldHeight := by
  unfold load_map at h ⊢
  cases hf : files (clamp_level level) with
  | none => simp [hf] at h
  | some file =>
    simp only [hf] at h ⊢
    by_cases hdim : (load_dims (file_lines file) g).worldWidth ≤ 0 ∨
        (load_dims (file_lines file) g).worldHeight ≤ 0
    · rw [if_pos hdim] at h
      simp at h
    · rw [if_neg hdim]
      have hl := map_loaded_load_rows (file_lines file) (load_dims (file_lines file) g)
      have hdim2 := not_or.1 hdim
      show map_loaded (load_rows (file_lines file) (load_dims (file_lines file) g)).worldWidth
          (load_rows (file_lines file) (load_dims (file_lines file) g)).worldHeight
          { load_rows (file_lines file) (load_dims (file_lines file) g) with
            map_current_level := clamp_level level } ∧
        0 < (load_rows (file_lines file) (load_dims (file_lines file) g)).worldWidth ∧
        0 < (load_rows (file_lines file) (load_dims (file_lines file) g)).worldHeight
      rw [hl.2.1, hl.2.2.1]
      exact ⟨map_loaded_congr _ _ _ _ rfl rfl rfl hl, by omega, by omega⟩

/-! ## Spawning entities from tiles -/

/-- A loop body that only clears tiles, never lowers a counter, and leaves a tile of
class `code` at its own cell only when the counter has reached `cap`: after the loop over
`cs`, a tile of class `code` at a visited cell means the counter has reached `cap`. -/
theorem fold_cells_cap (body : World → Nat → Nat → World) (code : Int → Prop) (cnt : World → Nat)
    (cap : Nat) (hcode0 : ¬ code 0)
    (htile : ∀ g y x y2 x2, (body g y x).tile y2 x2 = g.tile y2 x2 ∨ (body g y x).tile y2 x2 = 0)
    (hcnt : ∀ g y x, cnt g ≤ cnt (body g y x))
    (hcell : ∀ g y x, code ((body g y x).tile y x) → cap ≤ cnt (body g y x)) :
    ∀ (cs : List (Nat × Nat)) (g : World),
      (∀ y x, (cs.foldl (fun acc c => body acc c.1 c.2) g).tile y x = g.tile y x ∨
          (cs.foldl (fun acc c => body acc c.1 c.2) g).tile y x = 0) ∧
        cnt g ≤ cnt (cs.foldl (fun acc c => body acc c.1 c.2) g) ∧
        ∀ c ∈ cs, code ((cs.foldl (fun acc c => body acc c.1 c.2) g).tile c.1 c.2) →
          cap ≤ cnt (cs.foldl (fun acc c => body acc c.1 c.2) g) := by
  intro cs
  induction cs with
  | nil => intro g; simp
  | cons c cs ih =>
    intro g
    simp only [List.foldl_cons]
    obtain ⟨i1, i2, i3⟩ := ih (body g c.1 c.2)
    refine ⟨?_, le_trans (hcnt g c.1 c.2) i2, ?_⟩
    · intro y x
      rcases i1 y x with h1 | h1
      · rcases htile g c.1 c.2 y x with h2 | h2
        · left; rw [h1, h2]
        · right; rw [h1, h2]
      · right; exact h1
    · intro c2 hc2 hcode
      rcases List.mem_cons.1 hc2 with h1 | h1
      · subst h1
        rcases i1 c2.1 c2.2 with h2 | h2
        · rw [h2] at hcode
          exact le_trans (hcell g c2.1 c2.2 hcode) i2
        · rw [h2] at hcode
          exact absurd hcode hcode0
      · exact i3 c2 h1 hcode

theorem enemy_kind_of_tile_none (t : Int) : enemy_kind_of_tile t = none ↔ ¬ is_enemy_tile t := by
  unfold enemy_kind_of_tile is_enemy_tile
  constructor
  · intro h
    split_ifs at h
    omega
  · intro h
    split_ifs <;> first | rfl | omega

theorem item_type_of_tile_none (t : Int) : item_type_of_tile t = none ↔ is_item_tile t = false := by
  unfold item_type_of_tile is_item_tile
  constructor
  · intro h
    split_ifs at h
    simp
    omega
  · intro h
    simp at h
    split_ifs <;> first | rfl | omega

theorem World.tile_congr (g g2 : World) (h : g2.worldmap = g.worldmap) (y x : Nat) :
    g2.tile y x = g.tile y x := by
  simp [World.tile, h]

theorem init_enemies_cell_tile (g : World) (y x y2 x2 : Nat) :
    (init_enemies_cell g y x).tile y2 x2 = g.tile y2 x2 ∨ (init_enemies_cell g y x).tile y2 x2 = 0 := by
  unfold init_enemies_cell
  split
  · split
    · rename_i kind _ _
      rcases World.tile_setTile_cases (push_enemy g {
          x := (x : ℚ) + 0.5, y := (y : ℚ) + 0.5, state := ENEMY_ALIVE, kind := kind,
          hp := hp_for_kind kind, touch_cooldown := 0, dying_timer := 0,
          attack_timer := 0 }) y x y2 x2 0 with h | h
      · left
        rw [h]
        rfl
      · right
        exact h.1
    · exact Or.inl rfl
  · exact Or.inl rfl

theorem World.setTile_enemies (g : World) (y x : Nat) (v : Int) :
    (g.setTile y x v).enemies = g.enemies := by
  unfold World.setTile
  cases g.worldmap <;> rfl

theorem World.setTile_items (g : World) (y x : Nat) (v : Int) :
    (g.setTile y x v).items = g.items := by
  unfold World.setTile
  cases g.worldmap <;> rfl

theorem init_enemies_cell_count (g : World) (y x : Nat) :
    g.enemies.length ≤ (init_enemies_cell g y x).enemies.length ∧
      (g.enemies.length ≤ MAX_ENEMIES → (init_enemies_cell g y x).enemies.length ≤ MAX_ENEMIES) := by
  unfold init_enemies_cell
  split
  · split
    · rw [World.setTile_enemies]
      simp only [push_enemy, List.length_append, List.length_singleton]
      omega
    · exact ⟨le_refl _, id⟩
  · exact ⟨le_refl _, id⟩

theorem init_enemies_cell_self (g : World) (y x : Nat)
    (h : is_enemy_tile ((init_enemies_cell g y x).tile y x)) :
    MAX_ENEMIES ≤ (init_enemies_cell g y x).enemies.length := by
  unfold init_enemies_cell at h ⊢
  cases hk : enemy_kind_of_tile (g.tile y x) with
  | none =>
    simp only [hk] at h ⊢
    exact absurd h ((enemy_kind_of_tile_none _).1 hk)
  | some kind =>
    simp only [hk] at h ⊢
    by_cases hc : g.enemies.length < MAX_ENEMIES
    · rw [if_pos hc] at h
      have hne : g.tile y x ≠ 0 := by
        intro h0
        rw [h0] at hk
        simp [enemy_kind_of_tile] at hk
      rw [World.tile_setTile_self (push_enemy g _) y x 0 hne] at h
      simp [is_enemy_tile] at h
    · rw [if_neg hc]
      omega

theorem init_enemies_cell_frame (w h : Int) (g : World) (y x : Nat) (hg : map_loaded w h g) :
    map_loaded w h (init_enemies_cell g y x) ∧ (init_enemies_cell g y x).items = g.items := by
  unfold init_enemies_cell
  split
  · split
    · refine ⟨map_loaded_setTile w h _ y x 0 ⟨le_refl _, by norm_num, by norm_num⟩
        (map_loaded_congr w h g _ rfl rfl rfl hg), ?_⟩
      rw [World.setTile_items]
      rfl
    · exact ⟨hg, rfl⟩
  · exact ⟨hg, rfl⟩

/-- What `init_enemies` does to a loaded map: the grid keeps its shape, tiles are kept or
cleared, at most `MAX_ENEMIES` enemies exist, and an enemy tile is left only when the
array is full. -/
theorem init_enemies_spec (w h : Int) (g : World) (hg : map_loaded w h g) (hw : 0 < w) (hh : 0 < h) :
    map_loaded w h (init_enemies g) ∧ (init_enemies g).items = g.items ∧
      (∀ y x, (init_enemies g).tile y x = g.tile y x ∨ (init_enemies g).tile y x = 0) ∧
      (init_enemies g).enemies.length ≤ MAX_ENEMIES ∧
      ∀ y x, is_enemy_tile ((init_enemies g).tile y x) →
        (init_enemies g).enemies.length = MAX_ENEMIES := by
  obtain ⟨hwf, hW, hH, ht⟩ := hg
  have hg0 : map_loaded w h { g with enemies := [] } := map_loaded_congr w h g _ rfl rfl rfl ⟨hwf, hW, hH, ht⟩
  have hnone : ¬ (({ g with enemies := [] } : World).worldmap = none ∨
      ({ g with enemies := [] } : World).worldWidth ≤ 0 ∨
      ({ g with enemies := [] } : World).worldHeight ≤ 0) := by
    obtain ⟨m, hm, _, _⟩ := hwf
    simp only [hm, hW, hH]
    simp
    omega
  have hunf : init_enemies g = for_tiles h.toNat w.toNat init_enemies_cell { g with enemies := [] } := by
    unfold init_enemies
    simp only
    rw [if_neg hnone]
    simp only [hW, hH]
  rw [hunf]
  have hinv := for_tiles_invariant
    (fun a => (map_loaded w h a ∧ a.items = g.items) ∧ a.enemies.length ≤ MAX_ENEMIES)
    h.toNat w.toNat init_enemies_cell
    (fun a y x _ _ ha => ⟨⟨(init_enemies_cell_frame w h a y x ha.1.1).1,
      (init_enemies_cell_frame w h a y x ha.1.1).2.trans ha.1.2⟩,
      (init_enemies_cell_count a y x).2 ha.2⟩)
    { g with enemies := [] } ⟨⟨hg0, rfl⟩, by simp⟩
  have hcap := fold_cells_cap init_enemies_cell is_enemy_tile (fun a => a.enemies.length) MAX_ENEMIES
    (by simp [is_enemy_tile]) init_enemies_cell_tile
    (fun a y x => (init_enemies_cell_count a y x).1) init_enemies_cell_self
    (cells w.toNat h.toNat) { g with enemies := [] }
  unfold for_tiles at hinv ⊢
  refine ⟨hinv.1.1, hinv.1.2, ?_, hinv.2, ?_⟩
  · intro y x
    rcases hcap.1 y x with h1 | h1
    · left; exact h1.trans rfl
    · right; exact h1
  · intro y x hcode
    have hne : ((cells w.toNat h.toNat).foldl (fun acc c => init_enemies_cell acc c.1 c.2)
        { g with enemies := [] }).tile y x ≠ 0 := by
      intro h0
      rw [h0] at hcode
      simp [is_enemy_tile] at hcode
    have hr := grid_wf_inrange w h _ y x hinv.1.1.1 hne
    have := hcap.2.2 (y, x) ((mem_cells _ _ _).2 hr) hcode
    exact le_antisymm hinv.2 this

theorem init_items_cell_tile (g : World) (y x y2 x2 : Nat) :
    (init_items_cell g y x).tile y2 x2 = g.tile y2 x2 ∨ (init_items_cell g y x).tile y2 x2 = 0 := by
  unfold init_items_cell
  split
  · split
    · rename_i t _ _
      rcases World.tile_setTile_cases (push_item g
          { x := (x : ℚ) + 0.5, y := (y : ℚ) + 0.5, type := t, collected := 0 }) y x y2 x2 0 with h | h
      · left
        rw [h]
        rfl
      · right
        exact h.1
    · exact Or.inl rfl
  · exact Or.inl rfl

theorem init_items_cell_count (g : World) (y x : Nat) :
    g.items.length ≤ (init_items_cell g y x).items.length ∧
      (g.items.length ≤ MAX_ITEMS → (init_items_cell g y x).items.length ≤ MAX_ITEMS) := by
  unfold init_items_cell
  split
  · split
    · rename_i hc
      rw [World.setTile_items]
      simp only [push_item, List.length_append, List.length_singleton]
      omega
    · exact ⟨le_refl _, id⟩
  · exact ⟨le_refl _, id⟩

theorem init_items_cell_self (g : World) (y x : Nat)
    (h : is_item_tile ((init_items_cell g y x).tile y x) = true) :
    MAX_ITEMS ≤ (init_items_cell g y x).items.length := by
  unfold init_items_cell at h ⊢
  cases hk : item_type_of_tile (g.tile y x) with
  | none =>
    simp only [hk] at h ⊢
    rw [(item_type_of_tile_none _).1 hk] at h
    exact absurd h (by simp)
  | some t =>
    simp only [hk] at h ⊢
    by_cases hc : is_item_tile (g.tile y x) = true ∧ g.items.length < MAX_ITEMS
    · rw [if_pos hc] at h
      have hne : g.tile y x ≠ 0 := by
        intro h0
        rw [h0] at hk
        simp [item_type_of_tile] at hk
      rw [World.tile_setTile_self (push_item g _) y x 0 hne] at h
      simp [is_item_tile] at h
    · rw [if_neg hc]
      rw [if_neg hc] at h
      have : ¬ g.items.length < MAX_ITEMS := fun hlt => hc ⟨h, hlt⟩
      omega

theorem init_items_cell_frame (w h : Int) (g : World) (y x : Nat) (hg : map_loaded w h g) :
    map_loaded w h (init_items_cell g y x) ∧ (init_items_cell g y x).enemies = g.enemies := by
  unfold init_items_cell
  split
  · split
    · refine ⟨map_loaded_setTile w h _ y x 0 ⟨le_refl _, by norm_num, by norm_num⟩
        (map_loaded_congr w h g _ rfl rfl rfl hg), ?_⟩
      rw [World.setTile_enemies]
      rfl
    · exact ⟨hg, rfl⟩
  · exact ⟨hg, rfl⟩

/-- What `init_items` does to a loaded map: the grid keeps its shape, the enemies are
untouched, tiles are kept or cleared, at most `MAX_ITEMS` items exist, and an item tile
is left only when the array is full. -/
theorem init_items_spec (w h : Int) (g : World) (hg : map_loaded w h g) :
    map_loaded w h (init_items g) ∧ (init_items g).enemies = g.enemies ∧
      (∀ y x, (init_items g).tile y x = g.tile y x ∨ (init_items g).tile y x = 0) ∧
      (init_items g).items.length ≤ MAX_ITEMS ∧
      ∀ y x, is_item_tile ((init_items g).tile y x) = true →
        (init_items g).items.length = MAX_ITEMS := by
  obtain ⟨hwf, hW, hH, ht⟩ := hg
  have hg0 : map_loaded w h { g with items := [] } := map_loaded_congr w h g _ rfl rfl rfl ⟨hwf, hW, hH, ht⟩
  have hnone : ¬ (({ g with items := [] } : World).worldmap = none) := by
    obtain ⟨m, hm, _, _⟩ := hwf
    simp [hm]
  have hunf : init_items g = for_tiles h.toNat w.toNat init_items_cell { g with items := [] } := by
    unfold init_items
    simp only
    rw [if_neg hnone]
    simp only [hW, hH]
  rw [hunf]
  have hinv := for_tiles_invariant
    (fun a => (map_loaded w h a ∧ a.enemies = g.enemies) ∧ a.items.length ≤ MAX_ITEMS)
    h.toNat w.toNat init_items_cell
    (fun a y x _ _ ha => ⟨⟨(init_items_cell_frame w h a y x ha.1.1).1,
      (init_items_cell_frame w h a y x ha.1.1).2.trans ha.1.2⟩,
      (init_items_cell_count a y x).2 ha.2⟩)
    { g with items := [] } ⟨⟨hg0, rfl⟩, by simp⟩
  have hcap := fold_cells_cap init_items_cell (fun t => is_item_tile t = true)
    (fun a => a.items.length) MAX_ITEMS
    (by simp [is_item_tile]) init_items_cell_tile
    (fun a y x => (init_items_cell_count a y x).1) init_items_cell_self
    (cells w.toNat h.toNat) { g with items := [] }
  unfold for_tiles at hinv ⊢
  refine ⟨hinv.1.1, hinv.1.2, ?_, hinv.2, ?_⟩
  · intro y x
    rcases hcap.1 y x with h1 | h1
    · left; exact h1.trans rfl
    · right; exact h1
  · intro y x hcode
    have hne : ((cells w.toNat h.toNat).foldl (fun acc c => init_items_cell acc c.1 c.2)
        { g with items := [] }).tile y x ≠ 0 := by
      intro h0
      rw [h0] at hcode
      simp [is_item_tile] at hcode
    have hr := grid_wf_inrange w h _ y x hinv.1.1.1 hne
    have := hcap.2.2 (y, x) ((mem_cells _ _ _).2 hr) hcode
    exact le_antisymm hinv.2 this

/-! ## The invariant on hp and ammunition -/

theorem stats_ok_congr (g g2 : World) (h1 : g2.hp = g.hp) (h2 : g2.ammo_bullets = g.ammo_bullets)
    (h3 : g2.ammo_shells = g.ammo_shells) (h4 : g2.ammo_energy = g.ammo_energy)
    (hg : stats_ok g) : stats_ok g2 := by
  unfold stats_ok at *
  rw [h1, h2, h3, h4]
  exact hg

theorem World.setTile_stats (g : World) (y x : Nat) (v : Int) :
    (g.setTile y x v).hp = g.hp ∧ (g.setTile y x v).ammo_bullets = g.ammo_bullets ∧
      (g.setTile y x v).ammo_shells = g.ammo_shells ∧ (g.setTile y x v).ammo_energy = g.ammo_energy := by
  unfold World.setTile
  cases g.worldmap <;> simp

theorem stats_ok_weapon_consume_ammo (g : World) (w : WeaponType) (hg : stats_ok g) :
    stats_ok (weapon_consume_ammo g w) := by
  unfold weapon_consume_ammo
  split
  · exact hg
  · unfold stats_ok at *
    cases w <;> simp only <;> split_ifs <;> omega

theorem set_weapon_cd_stats (g : World) (w : WeaponType) (v : ℚ) :
    (set_weapon_cd g w v).hp = g.hp ∧ (set_weapon_cd g w v).ammo_bullets = g.ammo_bullets ∧
      (set_weapon_cd g w v).ammo_shells = g.ammo_shells ∧
      (set_weapon_cd g w v).ammo_energy = g.ammo_energy := by
  cases w <;> simp [set_weapon_cd]

theorem stats_ok_player_shooting (dt : ℚ) (inp : Input) (g : World) (hg : stats_ok g) :
    stats_ok (player_shooting dt inp g) := by
  unfold player_shooting
  have h0 : stats_ok (shooting_prepare dt g) := hg
  split
  · have h1 := stats_ok_weapon_consume_ammo (shooting_prepare dt g)
      (shooting_prepare dt g).current_weapon h0
    have h2 := set_weapon_cd_stats
      { weapon_consume_ammo (shooting_prepare dt g) (shooting_prepare dt g).current_weapon with
        gun_recoil_timer := recoil_frames (shooting_prepare dt g).current_weapon, shot_fired := 1 }
      (shooting_prepare dt g).current_weapon (cd_reset (shooting_prepare dt g).current_weapon)
    exact stats_ok_congr _ _ h2.1 h2.2.1 h2.2.2.1 h2.2.2.2 h1
  · exact hg

theorem stats_ok_interact_cell (m : Libm) (g : World) (y x : Nat) (hg : stats_ok g) :
    stats_ok (interact_cell m g y x) := by
  have hs := World.setTile_stats g y x 0
  unfold interact_cell
  simp only
  split
  · exact stats_ok_congr g _ hs.1 hs.2.1 hs.2.2.1 hs.2.2.2 hg
  · split
    · split
      · exact hg
      · split
        · exact stats_ok_congr g _ hs.1 hs.2.1 hs.2.2.1 hs.2.2.2 hg
        · exact hg
    · exact hg

theorem stats_ok_player_interaction (m : Libm) (inp : Input) (g : World) (hg : stats_ok g) :
    stats_ok (player_interaction m inp g) := by
  unfold player_interaction
  simp only
  split
  · split
    · exact for_tiles_invariant stats_ok _ _ (interact_cell m)
        (fun a y x _ _ ha => stats_ok_interact_cell m a y x ha) g hg
    · exact hg
  · exact hg

theorem stats_ok_player_movement (m : Libm) (dt : ℚ) (inp : Input) (g : World) (hg : stats_ok g) :
    stats_ok (player_movement m dt inp g) := by
  unfold player_movement
  simp only
  split
  · split
    · split
      · exact hg
      · exact hg
    · exact hg
  · exact hg

theorem stats_ok_player_damage_fx (dt : ℚ) (g : World) (hg : stats_ok g) :
    stats_ok (player_damage_fx dt g) := by
  unfold player_damage_fx
  split
  · exact hg
  · exact hg

theorem stats_ok_godmode_refresh (g : World) (hg : stats_ok g) : stats_ok (godmode_refresh g) := by
  unfold godmode_refresh
  split
  · exact ⟨by norm_num, le_refl _, hg.2.2⟩
  · exact hg

theorem stats_ok_update_player (m : Libm) (dt : ℚ) (inp : Input) (g : World) (hg : stats_ok g) :
    stats_ok (update_player m dt inp g) := by
  unfold update_player
  split
  · exact stats_ok_godmode_refresh g hg
  · unfold player_sections
    apply stats_ok_player_damage_fx
    apply stats_ok_player_interaction
    have h2 : stats_ok (player_shooting dt inp (player_movement m dt inp
        (player_mouse_look inp (godmode_refresh g)))) := by
      apply stats_ok_player_shooting
      apply stats_ok_player_movement
      exact stats_ok_godmode_refresh g hg
    exact h2

theorem attack_damage_pos (k : EnemyKind) : 0 < attack_damage_for_kind k := by
  cases k <;> simp [attack_damage_for_kind]

theorem stats_ok_hurt_player (g : World) (dmg : Int) (hd : 0 < dmg) (hg : stats_ok g) :
    stats_ok (hurt_player g dmg) := by
  unfold stats_ok hurt_player at *
  simp only
  split_ifs <;> omega

theorem stats_ok_enemy_attack (g : World) (e : Enemy) (dist : ℚ) (hg : stats_ok g) :
    stats_ok (enemy_attack g e dist).2 := by
  unfold enemy_attack
  split
  · simp only
    split
    · exact stats_ok_hurt_player g _ (attack_damage_pos _) hg
    · exact hg
  · exact hg

theorem stats_ok_update_enemy (m : Libm) (dt : ℚ) (g : World) (e : Enemy) (hg : stats_ok g) :
    stats_ok (update_enemy m dt g e).2 := by
  unfold update_enemy
  split
  · exact hg
  · split
    · exact hg
    · exact stats_ok_enemy_attack g _ _ hg

theorem stats_ok_update_enemies_from (m : Libm) (dt : ℚ) (es : List Enemy) :
    ∀ g, stats_ok g → stats_ok (update_enemies_from m dt es g).2 := by
  induction es with
  | nil => intro g hg; exact hg
  | cons e es ih =>
    intro g hg
    simp only [update_enemies_from]
    exact ih _ (stats_ok_update_enemy m dt g e hg)

theorem stats_ok_update_enemies (m : Libm) (dt : ℚ) (g : World) (hg : stats_ok g) :
    stats_ok (update_enemies m dt g) := by
  unfold update_enemies
  exact stats_ok_congr _ _ rfl rfl rfl rfl (stats_ok_update_enemies_from m dt g.enemies g hg)

theorem wrap_int_id (v : Int) (h1 : -2147483648 ≤ v) (h2 : v ≤ INT_MAX) : wrap_int v = v := by
  unfold wrap_int
  unfold INT_MAX at h2
  omega

theorem stats_ok_item_effect (t : ItemType) (g : World) (hg : stats_ok g) (hf : pools_fit g) :
    stats_ok (item_effect t g) ∧ pools_fit (item_effect t g) := by
  unfold stats_ok at hg
  unfold pools_fit at hf
  have e1 := wrap_int_id (g.ammo_bullets + 3) (by omega) hf.1
  have e2 := wrap_int_id (g.hp + 10) (by omega) (by unfold INT_MAX; omega)
  have e3 := wrap_int_id (g.ammo_shells + 4) (by omega) hf.2.1
  have e4 := wrap_int_id (g.ammo_energy + 10) (by omega) hf.2.2
  unfold INT_MAX at hf
  unfold stats_ok pools_fit item_effect show_message INT_MAX
  cases t <;> simp only [e1, e2, e3, e4] <;> first | exact ⟨hg, hf⟩ | (split_ifs <;> omega)

theorem stats_ok_update_item (m : Libm) (g : World) (it : Item) (hg : stats_ok g)
    (hf : pools_fit g) : stats_ok (update_item m g it).2 ∧ pools_fit (update_item m g it).2 := by
  unfold update_item
  split
  · exact ⟨hg, hf⟩
  · split
    · exact ⟨hg, hf⟩
    · exact stats_ok_item_effect _ g hg hf

theorem stats_ok_update_items_from (m : Libm) (its : List Item) :
    ∀ g, stats_ok g → pools_fit g →
      stats_ok (update_items_from m its g).2 ∧ pools_fit (update_items_from m its g).2 := by
  induction its with
  | nil => intro g hg hf; exact ⟨hg, hf⟩
  | cons it its ih =>
    intro g hg hf
    simp only [update_items_from]
    exact ih _ (stats_ok_update_item m g it hg hf).1 (stats_ok_update_item m g it hg hf).2

theorem stats_ok_update_items (m : Libm) (g : World) (hg : stats_ok g) (hf : pools_fit g) :
    stats_ok (update_items m g) ∧ pools_fit (update_items m g) := by
  unfold update_items
  exact ⟨stats_ok_congr _ _ rfl rfl rfl rfl (stats_ok_update_items_from m g.items g hg hf).1,
    (stats_ok_update_items_from m g.items g hg hf).2⟩

/-- The predicate `0 <= hp <= 100` with the three ammo pools non-negative is preserved by
`update_player` and `update_enemies`, for every `dt`, input, map and entity set, and by
`update_items` when no pool is so large that the `int` addition of a pickup leaves the
range of `int`; the pools then still are that small. -/
theorem stats_ok_preserved (m : Libm) (dt : ℚ) (inp : Input) (g : World) (hg : stats_ok g)
    (hf : pools_fit g) :
    stats_ok (update_player m dt inp g) ∧ stats_ok (update_enemies m dt g) ∧
      stats_ok (update_items m g) ∧ pools_fit (update_items m g) :=
  ⟨stats_ok_update_player m dt inp g hg, stats_ok_update_enemies m dt g hg,
    stats_ok_update_items m g hg hf⟩

/-- An instance of `stats_ok_preserved`: the initial globals and each step from them. -/
theorem stats_ok_preserved_witness :
    stats_ok ({} : World) ∧ pools_fit ({} : World) ∧
      (stats_ok (update_player libm_ref (1 / 60) (input_of [26] 1) {}) ∧
        stats_ok (update_enemies libm_ref (1 / 60) {}) ∧ stats_ok (update_items libm_ref {}) ∧
        pools_fit (update_items libm_ref {})) :=
  ⟨by decide, by decide,
    stats_ok_preserved libm_ref (1 / 60) (input_of [26] 1) {} (by decide) (by decide)⟩

/-- C2, evaluated on a loaded save: the save in slot 1 holds 2147483647 bullets, which
`load_slot_and_enter` restores as they are (only a negative pool is clamped), and places
the player half a tile from a box of bullets.  The predicate holds after the load; the
first `update_items` picks the box up, the `int` addition `ammo_bullets += 3` leaves the
range of `int`, the cap at 999 does not fire, and the pool is negative, also at the end
of the first PLAYING frame. -/
theorem pickup_overflow_breaks_invariant :
    (load_slot_and_enter bullets_room 1 {} overfull_disk).2 = 0 ∧
      (load_slot_and_enter bullets_room 1 {} overfull_disk).1.world.ammo_bullets = INT_MAX ∧
      stats_ok (load_slot_and_enter bullets_room 1 {} overfull_disk).1.world ∧
      (update_items libm_ref (load_slot_and_enter bullets_room 1 {} overfull_disk).1.world).ammo_bullets
        = -2147483646 ∧
      ¬ stats_ok (update_items libm_ref (load_slot_and_enter bullets_room 1 {} overfull_disk).1.world) ∧
      ¬ stats_ok (playing_updates libm_ref 0.02 (input_of [] 0)
        (load_slot_and_enter bullets_room 1 {} overfull_disk).1.world) := by
  refine ⟨by decide!, by decide!, by decide!, by decide!, by decide!, by decide!⟩

/-! ## Movement and the bounds test -/

/-- The movement section changes the position only to the candidate, and only when the
tile addressed by the truncated candidate is inside the map and walkable. -/
theorem player_movement_accepts (m : Libm) (dt : ℚ) (inp : Input) (g : World)
    (h : (player_movement m dt inp g).px ≠ g.px ∨ (player_movement m dt inp g).py ≠ g.py) :
    (player_movement m dt inp g).px = (player_candidate m dt inp g).1 ∧
      (player_movement m dt inp g).py = (player_candidate m dt inp g).2 ∧
      0 ≤ truncf (player_candidate m dt inp g).1 ∧
      truncf (player_candidate m dt inp g).1 < g.worldWidth ∧
      0 ≤ truncf (player_candidate m dt inp g).2 ∧
      truncf (player_candidate m dt inp g).2 < g.worldHeight ∧
      g.tile (truncf (player_candidate m dt inp g).2).toNat
        (truncf (player_candidate m dt inp g).1).toNat < 2 := by
  unfold player_movement at h ⊢
  simp only at h ⊢
  cases hm : g.worldmap with
  | none => simp [hm] at h
  | some grid =>
    simp only [hm] at h ⊢
    split at h
    · rename_i hb
      split at h
      · rename_i ht
        rw [if_pos hb, if_pos ht]
        simp only [World.tile, hm]
        exact ⟨trivial, trivial, hb.1, hb.2.2.1, hb.2.1, hb.2.2.2, ht⟩
      · simp at h
    · simp at h

/-- The chase movement on a loaded map changes the position only to one whose truncated
coordinates address a tile inside the map with a value below 2: each axis is tested on
its own, the X axis against the current row and the Y axis against the column reached. -/
theorem enemy_chase_accepts (dt : ℚ) (g : World) (e : Enemy) (dx dy dist : ℚ)
    (grid : List (List Int)) (hm : g.worldmap = some grid)
    (hw : g.worldWidth > 0) (hh : g.worldHeight > 0)
    (hmove : (enemy_chase dt g e dx dy dist).x ≠ e.x ∨ (enemy_chase dt g e dx dy dist).y ≠ e.y) :
    0 ≤ truncf (enemy_chase dt g e dx dy dist).x ∧
      truncf (enemy_chase dt g e dx dy dist).x < g.worldWidth ∧
      0 ≤ truncf (enemy_chase dt g e dx dy dist).y ∧
      truncf (enemy_chase dt g e dx dy dist).y < g.worldHeight ∧
      tileAt grid (truncf (enemy_chase dt g e dx dy dist).y).toNat
        (truncf (enemy_chase dt g e dx dy dist).x).toNat < 2 := by
  unfold enemy_chase at hmove ⊢
  simp only [hm] at hmove ⊢
  by_cases h1 : dist > 0.01
  · rw [if_pos h1] at hmove ⊢
    by_cases h2 : dist > attack_range_for_kind e.kind * 0.9
    · rw [if_pos h2, if_pos ⟨hw, hh⟩] at hmove ⊢
      by_cases hA : truncf (e.x + dx * (1 / dist) * (dt * move_speed_for_kind e.kind)) ≥ 0 ∧
          truncf (e.x + dx * (1 / dist) * (dt * move_speed_for_kind e.kind)) < g.worldWidth ∧
          truncf e.y ≥ 0 ∧ truncf e.y < g.worldHeight ∧
          tileAt grid (truncf e.y).toNat
            (truncf (e.x + dx * (1 / dist) * (dt * move_speed_for_kind e.kind))).toNat < 2
      · rw [if_pos hA] at hmove ⊢
        simp only at hmove ⊢
        split
        · rename_i hB
          exact ⟨hB.1, hB.2.1, hB.2.2.1, hB.2.2.2.1, hB.2.2.2.2⟩
        · exact ⟨hA.1, hA.2.1, hA.2.2.1, hA.2.2.2.1, hA.2.2.2.2⟩
      · rw [if_neg hA] at hmove ⊢
        split
        · rename_i hB
          exact ⟨hB.1, hB.2.1, hB.2.2.1, hB.2.2.2.1, hB.2.2.2.2⟩
        · rename_i hB
          rw [if_neg hB] at hmove
          simp at hmove
    · rw [if_neg h2] at hmove
      simp at hmove
  · rw [if_neg h1] at hmove
    simp at hmove

/-- C4 evaluation: on a map with a floor tile on the west border, a new game followed by
four frames of 0.25 s with the back key held puts the player at `x = -1/2`, a position
whose tile column `floor(x) = -1` is outside the map; the fourth frame accepted the
candidate `(-1/2, 3/2)` from `(0, 3/2)`. -/
theorem player_leaves_map :
    (load_map map_open_west 1 {}).2 = 0 ∧
      (run_frames libm_ref (1 / 4) (input_of [22] 0) 3 (start_level map_open_west 1)).px = 0 ∧
      (run_frames libm_ref (1 / 4) (input_of [22] 0) 4 (start_level map_open_west 1)).px = -1 / 2 ∧
      (run_frames libm_ref (1 / 4) (input_of [22] 0) 4 (start_level map_open_west 1)).py = 3 / 2 ∧
      ⌊(run_frames libm_ref (1 / 4) (input_of [22] 0) 4 (start_level map_open_west 1)).px⌋ = -1 := by
  decide!

/-- C3 evaluation: on the same map with an enemy of kind 1, the player backs out of the
map in four frames of 0.25 s and the enemy follows; in frame 17 `update_enemies` moves
the alive enemy from `x = 1/10` to `x = -1/20`, a position whose tile column
`floor(x) = -1` is outside the map. -/
theorem enemy_leaves_map :
    (load_map map_open_west_enemy 1 {}).2 = 0 ∧
      (run_frames libm_ref (1 / 4) (input_of [22] 0) 16 (start_level map_open_west_enemy 1)).enemies.map
          (fun e => (e.x, e.y, e.state)) = [(1 / 10, 3 / 2, ENEMY_ALIVE)] ∧
      (run_frames libm_ref (1 / 4) (input_of [22] 0) 17 (start_level map_open_west_enemy 1)).enemies.map
          (fun e => (e.x, e.y, e.state)) = [(-1 / 20, 3 / 2, ENEMY_ALIVE)] ∧
      ⌊(-1 / 20 : ℚ)⌋ = -1 := by
  decide!

/-! ## Shooting -/

theorem want_fire_iff (inp : Input) (g : World) : want_fire inp g ≠ 0 ↔ wants_fire_spec inp g := by
  unfold want_fire wants_fire_spec currLMB require_edge
  cases hw : g.current_weapon <;> simp

theorem weapon_has_ammo_iff (g : World) (hgod : g.godmode_enabled = 0) :
    weapon_has_ammo g g.current_weapon ≠ 0 ↔ has_ammo_spec g := by
  unfold weapon_has_ammo has_ammo_spec
  cases hw : g.current_weapon <;> simp [hgod]

theorem fire_test_iff (dt : ℚ) (inp : Input) (g : World) (hgod : g.godmode_enabled = 0) :
    fire_test inp (shooting_prepare dt g) ↔ fires_spec dt inp g := by
  have e1 : want_fire inp (shooting_prepare dt g) = want_fire inp g := rfl
  have e2 : weapon_has_ammo (shooting_prepare dt g) (shooting_prepare dt g).current_weapon
      = weapon_has_ammo g g.current_weapon := rfl
  have e3 : weapon_cd (shooting_prepare dt g) (shooting_prepare dt g).current_weapon
      = cooldown_tick (weapon_cd g g.current_weapon) dt := by
    show weapon_cd (shooting_prepare dt g) g.current_weapon = _
    cases g.current_weapon <;> rfl
  unfold fire_test fires_spec
  rw [e1, e2, e3, want_fire_iff, weapon_has_ammo_iff g hgod]

/-- The shooting section on its own: when the fire condition holds it sets `shot_fired`,
the recoil timer and the cooldown and takes the ammunition; otherwise it clears
`shot_fired` and leaves the pools alone. -/
theorem player_shooting_rule (dt : ℚ) (inp : Input) (g : World) (hgod : g.godmode_enabled = 0) :
    (fires_spec dt inp g →
      (player_shooting dt inp g).shot_fired = 1 ∧
      (player_shooting dt inp g).gun_recoil_timer = recoil_frames g.current_weapon ∧
      weapon_cd (player_shooting dt inp g) g.current_weapon = cd_reset g.current_weapon ∧
      (player_shooting dt inp g).ammo_bullets = g.ammo_bullets -
        (if g.current_weapon = WEAPON_PISTOL ∨ g.current_weapon = WEAPON_SMG then 1 else 0) ∧
      (player_shooting dt inp g).ammo_shells = g.ammo_shells -
        (if g.current_weapon = WEAPON_SHOTGUN then 1 else 0) ∧
      (player_shooting dt inp g).ammo_energy = g.ammo_energy -
        (if g.current_weapon = WEAPON_PLASMA then 1 else if g.current_weapon = WEAPON_RRG then 5 else 0)) ∧
    (¬ fires_spec dt inp g →
      (player_shooting dt inp g).shot_fired = 0 ∧
      (player_shooting dt inp g).ammo_bullets = g.ammo_bullets ∧
      (player_shooting dt inp g).ammo_shells = g.ammo_shells ∧
      (player_shooting dt inp g).ammo_energy = g.ammo_energy) := by
  have hc := fire_test_iff dt inp g hgod
  unfold player_shooting
  constructor
  · intro hf
    rw [if_pos (hc.2 hf)]
    obtain ⟨_, _, hammo⟩ := hf
    unfold has_ammo_spec at hammo
    have hgod2 : (shooting_prepare dt g).godmode_enabled = 0 := hgod
    have hcw2 : (shooting_prepare dt g).current_weapon = g.current_weapon := rfl
    have hb : (shooting_prepare dt g).ammo_bullets = g.ammo_bullets := rfl
    have hs : (shooting_prepare dt g).ammo_shells = g.ammo_shells := rfl
    have he : (shooting_prepare dt g).ammo_energy = g.ammo_energy := rfl
    unfold fire_weapon weapon_consume_ammo
    rw [hcw2]
    cases hcw : g.current_weapon <;> simp [hcw] at hammo <;>
      simp [hgod2, set_weapon_cd, weapon_cd, hb, hs, he] <;> omega
  · intro hf
    rw [if_neg (fun h => hf (hc.1 h))]
    exact ⟨rfl, rfl, rfl, rfl⟩

theorem same_combat_refl (a : World) : same_combat a a :=
  ⟨rfl, rfl, rfl, rfl, rfl, rfl, rfl, rfl, rfl, rfl, rfl, rfl, rfl⟩

theorem same_combat_trans (a b c : World) (h1 : same_combat a b) (h2 : same_combat b c) :
    same_combat a c := by
  unfold same_combat at *
  obtain ⟨a1, a2, a3, a4, a5, a6, a7, a8, a9, a10, a11, a12, a13⟩ := h1
  obtain ⟨b1, b2, b3, b4, b5, b6, b7, b8, b9, b10, b11, b12, b13⟩ := h2
  exact ⟨b1.trans a1, b2.trans a2, b3.trans a3, b4.trans a4, b5.trans a5, b6.trans a6,
    b7.trans a7, b8.trans a8, b9.trans a9, b10.trans a10, b11.trans a11, b12.trans a12,
    b13.trans a13⟩

theorem same_combat_setTile (g : World) (y x : Nat) (v : Int) : same_combat g (g.setTile y x v) := by
  unfold World.setTile
  cases g.worldmap
  · exact same_combat_refl g
  · exact same_combat_refl g

theorem same_combat_interact_cell (m : Libm) (g : World) (y x : Nat) :
    same_combat g (interact_cell m g y x) := by
  have hs := same_combat_setTile g y x 0
  unfold interact_cell
  simp only
  split
  · exact hs
  · split
    · split
      · exact same_combat_refl g
      · split
        · exact hs
        · exact same_combat_refl g
    · exact same_combat_refl g

theorem same_combat_player_interaction (m : Libm) (inp : Input) (g : World) :
    same_combat g (player_interaction m inp g) := by
  unfold player_interaction
  simp only
  split
  · split
    · exact for_tiles_invariant (fun a => same_combat g a) _ _ (interact_cell m)
        (fun a y x _ _ ha => same_combat_trans g a _ ha (same_combat_interact_cell m a y x))
        g (same_combat_refl g)
    · exact same_combat_refl g
  · exact same_combat_refl g

theorem same_combat_player_damage_fx (dt : ℚ) (g : World) : same_combat g (player_damage_fx dt g) := by
  unfold player_damage_fx
  split
  · exact same_combat_refl g
  · exact same_combat_refl g

/-- The sections of `update_player` that follow the shooting section leave the combat
state as the shooting section set it. -/
theorem same_combat_after_shooting (m : Libm) (dt : ℚ) (inp : Input) (g : World) :
    same_combat g (player_damage_fx dt (player_interaction m inp (player_weapon_switch inp g))) :=
  same_combat_trans _ _ _
    (same_combat_trans g (player_weapon_switch inp g) _ (same_combat_refl g)
      (same_combat_player_interaction m inp _))
    (same_combat_player_damage_fx dt _)

/-- The mouse-look and movement sections only replace the angle and the position. -/
theorem movement_eq_with_pos (m : Libm) (dt : ℚ) (inp : Input) (g : World) :
    player_movement m dt inp (player_mouse_look inp g) =
      with_pos g (player_movement m dt inp (player_mouse_look inp g)).angle
        (player_movement m dt inp (player_mouse_look inp g)).px
        (player_movement m dt inp (player_mouse_look inp g)).py := by
  unfold player_movement
  simp only
  split
  · split
    · split
      · rfl
      · rfl
    · rfl
  · rfl

/-- The function `update_player` on a living player without godmode. -/
theorem update_player_alive (m : Libm) (dt : ℚ) (inp : Input) (g : World)
    (hgod : g.godmode_enabled = 0) (halive : g.player_dead = 0) :
    update_player m dt inp g = player_sections m dt inp g := by
  have h1 : godmode_refresh g = g := by
    unfold godmode_refresh
    rw [if_neg (by simp [hgod])]
  unfold update_player
  rw [h1, if_neg (by simp [halive])]

theorem weapon_cd_congr (a b : World) (h : same_combat a b) (w : WeaponType) :
    weapon_cd b w = weapon_cd a w := by
  obtain ⟨_, _, _, _, _, c1, c2, c3, c4, c5, _⟩ := h
  cases w <;> simp [weapon_cd, c1, c2, c3, c4, c5]

/-- C5 (as the code has it): without godmode and with the player not dead,
`update_player` fires exactly when `want_fire` holds (a press edge for pistol, shotgun
and RRG, the button held for SMG and plasma), the current weapon's cooldown after this
frame's tick is `<= 0` and the weapon has ammo (energy `>= 5` for the RRG, pool `> 0`
otherwise).  On fire `shot_fired = 1`, the recoil timer is 6/10/3/4/14, the cooldown is
0.55/0.95/0.12/0.16/0.90 and the weapon's pool loses its cost (5 for the RRG, 1
otherwise), the other pools being unchanged; otherwise `shot_fired = 0` and the three
pools are unchanged. -/
theorem fire_rule (m : Libm) (dt : ℚ) (inp : Input) (g : World)
    (hgod : g.godmode_enabled = 0) (halive : g.player_dead = 0) :
    (fires_spec dt inp g →
      (update_player m dt inp g).shot_fired = 1 ∧
      (update_player m dt inp g).gun_recoil_timer =
        (match g.current_weapon with
          | WEAPON_PISTOL => 6 | WEAPON_SHOTGUN => 10 | WEAPON_SMG => 3
          | WEAPON_PLASMA => 4 | WEAPON_RRG => 14) ∧
      weapon_cd (update_player m dt inp g) g.current_weapon =
        (match g.current_weapon with
          | WEAPON_PISTOL => 0.55 | WEAPON_SHOTGUN => 0.95 | WEAPON_SMG => 0.12
          | WEAPON_PLASMA => 0.16 | WEAPON_RRG => 0.90) ∧
      (update_player m dt inp g).ammo_bullets = g.ammo_bullets -
        (if g.current_weapon = WEAPON_PISTOL ∨ g.current_weapon = WEAPON_SMG then 1 else 0) ∧
      (update_player m dt inp g).ammo_shells = g.ammo_shells -
        (if g.current_weapon = WEAPON_SHOTGUN then 1 else 0) ∧
      (update_player m dt inp g).ammo_energy = g.ammo_energy -
        (if g.current_weapon = WEAPON_PLASMA then 1 else if g.current_weapon = WEAPON_RRG then 5 else 0)) ∧
    (¬ fires_spec dt inp g →
      (update_player m dt inp g).shot_fired = 0 ∧
      (update_player m dt inp g).ammo_bullets = g.ammo_bullets ∧
      (update_player m dt inp g).ammo_shells = g.ammo_shells ∧
      (update_player m dt inp g).ammo_energy = g.ammo_energy) := by
  rw [update_player_alive m dt inp g hgod halive]
  unfold player_sections
  have hpost := same_combat_after_shooting m dt inp
    (player_shooting dt inp (player_movement m dt inp (player_mouse_look inp g)))
  have hcd := weapon_cd_congr _ _ hpost g.current_weapon
  obtain ⟨p1, p2, p3, p4, p5, _⟩ := hpost
  rw [hcd, p1, p2, p3, p4, p5]
  rw [movement_eq_with_pos m dt inp g]
  have hrule := player_shooting_rule dt inp
    (with_pos g (player_movement m dt inp (player_mouse_look inp g)).angle
      (player_movement m dt inp (player_mouse_look inp g)).px
      (player_movement m dt inp (player_mouse_look inp g)).py) hgod
  have hrec : recoil_frames g.current_weapon =
      (match g.current_weapon with
        | WEAPON_PISTOL => 6 | WEAPON_SHOTGUN => 10 | WEAPON_SMG => 3
        | WEAPON_PLASMA => 4 | WEAPON_RRG => 14) := by
    cases g.current_weapon <;> rfl
  have hres : cd_reset g.current_weapon =
      (match g.current_weapon with
        | WEAPON_PISTOL => (0.55 : ℚ) | WEAPON_SHOTGUN => 0.95 | WEAPON_SMG => 0.12
        | WEAPON_PLASMA => 0.16 | WEAPON_RRG => 0.90) := by
    cases g.current_weapon <;> rfl
  rw [← hrec, ← hres]
  exact hrule

/-- C5 witness: a living player with the pistol, ten bullets and a fresh left click. -/
theorem fire_rule_witness :
    fires_spec (1 / 60) (input_of [] 1) {} ∧
      (update_player libm_ref (1 / 60) (input_of [] 1) {}).shot_fired = 1 ∧
      (update_player libm_ref (1 / 60) (input_of [] 1) {}).ammo_bullets = 9 :=
  ⟨by decide!,
    ((fire_rule libm_ref (1 / 60) (input_of [] 1) {} rfl rfl).1 (by decide!)).1,
    ((fire_rule libm_ref (1 / 60) (input_of [] 1) {} rfl rfl).1 (by decide!)).2.2.2.1⟩

/-- C5 counterexample: godmode is off, the left button has just been pressed, the pistol
cooldown is 0 and ten bullets are left, so the specified fire condition holds; the player
is dead, `update_player` returns at once, and no shot is fired and no bullet is taken. -/
theorem dead_player_does_not_fire :
    dead_player.godmode_enabled = 0 ∧ fires_spec (1 / 60) (input_of [] 1) dead_player ∧
      (update_player libm_ref (1 / 60) (input_of [] 1) dead_player).shot_fired = 0 ∧
      (update_player libm_ref (1 / 60) (input_of [] 1) dead_player).ammo_bullets = 10 := by
  decide!

/-! ## Damage to enemies -/

/-- The function `damage_enemy` once its guards pass: entry `i` is replaced. -/
theorem damage_enemy_alive (g : World) (i : Nat) (e : Enemy) (d : Int)
    (hi : g.enemies.get? i = some e) (ha : e.state = ENEMY_ALIVE) (hd : 0 < d) :
    damage_enemy (i : Int) d g = { g with enemies := g.enemies.set i (damaged e d) } := by
  have hlt : i < g.enemies.length := by
    rw [List.get?_eq_getElem?] at hi
    exact (List.getElem?_eq_some_iff.1 hi).1
  unfold damage_enemy
  rw [if_neg (by omega), if_neg (by omega)]
  simp only [Int.toNat_ofNat, hi]
  rw [if_neg (by simp [ha])]

/-- C6: for a valid index `i`, an alive enemy `e` at that index and a damage `d > 0`,
`damage_enemy(i, d)` replaces that entry alone; the new entry has hp `e.hp - d`; if that
is `<= 0` it is DYING with `dying_timer` 0.85 for a miniboss or final boss and 0.45
otherwise, and if it is `> 0` the entry differs from `e` only in hp and stays ALIVE.
Every other entry and the number of enemies are unchanged. -/
theorem damage_enemy_spec (g : World) (i : Nat) (e : Enemy) (d : Int)
    (hi : g.enemies.get? i = some e) (ha : e.state = ENEMY_ALIVE) (hd : 0 < d) :
    (damage_enemy (i : Int) d g).enemies.length = g.enemies.length ∧
      (∀ j, j ≠ i → (damage_enemy (i : Int) d g).enemies.get? j = g.enemies.get? j) ∧
      ∃ e2, (damage_enemy (i : Int) d g).enemies.get? i = some e2 ∧
        e2.hp = e.hp - d ∧ e2.kind = e.kind ∧ e2.x = e.x ∧ e2.y = e.y ∧
        (e.hp - d ≤ 0 → e2.state = ENEMY_DYING ∧
          e2.dying_timer =
            (if e.kind = ENEMY_MINIBOSS1 ∨ e.kind = ENEMY_FINALBOSS then 0.85 else 0.45)) ∧
        (0 < e.hp - d → e2 = { e with hp := e.hp - d } ∧ e2.state = ENEMY_ALIVE) := by
  have hlt : i < g.enemies.length := by
    rw [List.get?_eq_getElem?] at hi
    exact (List.getElem?_eq_some_iff.1 hi).1
  have hunf := damage_enemy_alive g i e d hi ha hd
  rw [hunf]
  refine ⟨by simp, ?_, ?_⟩
  · intro j hj
    simp only [List.get?_eq_getElem?]
    rw [List.getElem?_set_ne (fun h => hj h.symm)]
  · refine ⟨_, by simp only [List.get?_eq_getElem?]; exact List.getElem?_set_self hlt, ?_⟩
    unfold damaged
    by_cases hle : e.hp - d ≤ 0
    · rw [if_pos hle]
      exact ⟨rfl, rfl, rfl, rfl, fun _ => ⟨rfl, rfl⟩, fun h => absurd h (by omega)⟩
    · rw [if_neg hle]
      exact ⟨rfl, rfl, rfl, rfl, fun h => absurd h hle, fun _ => ⟨rfl, ha⟩⟩

/-- C6 witness (scenario 3): an enemy of kind 1 has hp 2; the first pistol hit leaves it
ALIVE with hp 1, the second makes it DYING with `dying_timer` 0.45. -/
theorem damage_enemy_spec_witness :
    (∃ e2, (damage_enemy 0 (weapon_damage WEAPON_PISTOL) shot_hit_scene).enemies.get? 0 = some e2 ∧
        e2.hp = 2 - 1) ∧
      (damage_enemy 0 1 shot_hit_scene).enemies.map (fun e => (e.hp, e.state)) = [(1, ENEMY_ALIVE)] ∧
      (damage_enemy 0 1 (damage_enemy 0 1 shot_hit_scene)).enemies.map
        (fun e => (e.hp, e.state, e.dying_timer)) = [(0, ENEMY_DYING, 0.45)] :=
  ⟨(damage_enemy_spec shot_hit_scene 0 _ 1 rfl rfl (by decide)).2.2.imp
      (fun _ h => ⟨h.1, h.2.1⟩),
    by decide!, by decide!⟩

/-! ## Shot resolution -/

theorem M_PI_pos : 0 < M_PI := by
  unfold M_PI
  norm_num

/-- With fuel at least `dir / (2 * M_PI)` the first normalisation loop reaches its exit
test `dir <= M_PI`. -/
theorem wrap_above_le (fuel : Nat) : ∀ dir : ℚ, dir / (2 * M_PI) ≤ fuel → wrap_above fuel dir ≤ M_PI := by
  have hp := M_PI_pos
  induction fuel with
  | zero =>
    intro dir h
    simp only [wrap_above]
    have : dir ≤ 0 := by
      have h2 : dir / (2 * M_PI) ≤ 0 := by simpa using h
      rcases div_nonpos_iff.1 h2 with h3 | h3
      · linarith
      · exact h3.1
    linarith
  | succ n ih =>
    intro dir h
    simp only [wrap_above]
    split
    · apply ih
      have : (dir - 2 * M_PI) / (2 * M_PI) = dir / (2 * M_PI) - 1 := by
        field_simp
      rw [this]
      push_cast at h
      linarith
    · linarith

/-- With fuel at least `-dir / (2 * M_PI)` the second normalisation loop reaches its exit
test `dir >= -M_PI`, and it keeps `dir <= M_PI`. -/
theorem wrap_below_ge (fuel : Nat) : ∀ dir : ℚ, -dir / (2 * M_PI) ≤ fuel → dir ≤ M_PI →
    -M_PI ≤ wrap_below fuel dir ∧ wrap_below fuel dir ≤ M_PI := by
  have hp := M_PI_pos
  induction fuel with
  | zero =>
    intro dir h hle
    simp only [wrap_below]
    have : 0 ≤ dir := by
      have h2 : -dir / (2 * M_PI) ≤ 0 := by simpa using h
      rcases div_nonpos_iff.1 h2 with h3 | h3
      · linarith
      · linarith [h3.1]
    exact ⟨by linarith, hle⟩
  | succ n ih =>
    intro dir h hle
    simp only [wrap_below]
    split
    · apply ih
      · have : -(dir + 2 * M_PI) / (2 * M_PI) = -dir / (2 * M_PI) - 1 := by
          field_simp
          ring
        rw [this]
        push_cast at h
        linarith
      · linarith
    · exact ⟨by linarith, hle⟩

/-- The two normalisation loops of the shot loop terminate within the fuel given, with
`dir` in `[-M_PI, M_PI]`. -/
theorem normalize_dir_range (dir : ℚ) : -M_PI ≤ normalize_dir dir ∧ normalize_dir dir ≤ M_PI := by
  unfold normalize_dir
  have h1 : wrap_above (⌈dir / (2 * M_PI)⌉.toNat + 1) dir ≤ M_PI := by
    apply wrap_above_le
    push_cast
    have := Int.le_ceil (dir / (2 * M_PI))
    have h2 : (⌈dir / (2 * M_PI)⌉ : ℚ) ≤ ((⌈dir / (2 * M_PI)⌉.toNat : ℕ) : ℚ) := by
      have := Int.self_le_toNat ⌈dir / (2 * M_PI)⌉
      exact_mod_cast this
    linarith
  apply wrap_below_ge _ _ _ h1
  push_cast
  set d1 := wrap_above (⌈dir / (2 * M_PI)⌉.toNat + 1) dir
  have := Int.le_ceil (-d1 / (2 * M_PI))
  have h2 : (⌈-d1 / (2 * M_PI)⌉ : ℚ) ≤ ((⌈-d1 / (2 * M_PI)⌉.toNat : ℕ) : ℚ) := by
    have := Int.self_le_toNat ⌈-d1 / (2 * M_PI)⌉
    exact_mod_cast this
  linarith

/-- The shot loop: `bestDist` only decreases, ends at most at the distance of every
candidate visited, and `best` is either untouched or the index of a candidate whose
distance is the final `bestDist` and lies below the initial one. -/
theorem shot_scan_spec (m : Libm) (g : World) (es : List Enemy) :
    ∀ (i0 : Int) (acc : Int × ℚ),
      (shot_scan m g es i0 acc).2 ≤ acc.2 ∧
      (∀ e ∈ es, shot_candidate m g e → (shot_scan m g es i0 acc).2 ≤ shot_dist m g e) ∧
      (shot_scan m g es i0 acc = acc ∨
        ∃ (k : Nat) (e : Enemy), es.get? k = some e ∧ shot_candidate m g e ∧
          shot_scan m g es i0 acc = (i0 + k, shot_dist m g e) ∧ shot_dist m g e < acc.2) := by
  induction es with
  | nil =>
    intro i0 acc
    simp [shot_scan]
  | cons e rest ih =>
    intro i0 acc
    simp only [shot_scan]
    have shift : ∀ (acc2 : Int × ℚ) (r : Int × ℚ),
        (∃ (k : Nat) (e2 : Enemy), rest.get? k = some e2 ∧ shot_candidate m g e2 ∧
          r = (i0 + 1 + k, shot_dist m g e2) ∧ shot_dist m g e2 < acc2.2) →
        acc2.2 ≤ acc.2 →
        ∃ (k : Nat) (e2 : Enemy), (e :: rest).get? k = some e2 ∧ shot_candidate m g e2 ∧
          r = (i0 + k, shot_dist m g e2) ∧ shot_dist m g e2 < acc.2 := by
      rintro acc2 r ⟨k, e2, h1, h2, h3, h4⟩ hle
      refine ⟨k + 1, e2, by simpa using h1, h2, ?_, lt_of_lt_of_le h4 hle⟩
      rw [h3]
      push_cast
      congr 1
      ring
    by_cases ha : e.state ≠ ENEMY_ALIVE
    · rw [if_pos ha]
      obtain ⟨i1, i2, i3⟩ := ih (i0 + 1) acc
      refine ⟨i1, ?_, ?_⟩
      · intro e2 he2 hc
        rcases List.mem_cons.1 he2 with h | h
        · subst h
          exact absurd hc.1 ha
        · exact i2 e2 h hc
      · rcases i3 with h | h
        · exact Or.inl h
        · exact Or.inr (shift acc _ h (le_refl _))
    · rw [if_neg ha]
      by_cases hb : shot_in_hitbox m g e
      · rw [if_pos hb]
        have hcand : shot_candidate m g e := ⟨not_not.1 ha, hb⟩
        by_cases hd : shot_dist m g e < acc.2
        · rw [if_pos hd]
          obtain ⟨i1, i2, i3⟩ := ih (i0 + 1) (i0, shot_dist m g e)
          simp only at i1 i3
          refine ⟨le_trans i1 (le_of_lt hd), ?_, ?_⟩
          · intro e2 he2 hc
            rcases List.mem_cons.1 he2 with h | h
            · subst h
              exact i1
            · exact i2 e2 h hc
          · right
            rcases i3 with h | h
            · refine ⟨0, e, by simp, hcand, ?_, hd⟩
              rw [h]
              simp
            · exact shift (i0, shot_dist m g e) _ h (le_of_lt hd)
        · rw [if_neg hd]
          obtain ⟨i1, i2, i3⟩ := ih (i0 + 1) acc
          refine ⟨i1, ?_, ?_⟩
          · intro e2 he2 hc
            rcases List.mem_cons.1 he2 with h | h
            · subst h
              exact le_trans i1 (not_lt.1 hd)
            · exact i2 e2 h hc
          · rcases i3 with h | h
            · exact Or.inl h
            · exact Or.inr (shift acc _ h (le_refl _))
      · rw [if_neg hb]
        obtain ⟨i1, i2, i3⟩ := ih (i0 + 1) acc
        refine ⟨i1, ?_, ?_⟩
        · intro e2 he2 hc
          rcases List.mem_cons.1 he2 with h | h
          · subst h
            exact absurd hc.2 hb
          · exact i2 e2 h hc
        · rcases i3 with h | h
          · exact Or.inl h
          · exact Or.inr (shift acc _ h (le_refl _))

theorem weapon_damage_pos (w : WeaponType) : 0 < weapon_damage w := by
  cases w <;> simp [weapon_damage]

/-- The candidates of the shot loop in the specification's words: alive, direction within half
the field of view, and the projected column inside the centred square of side 200
(pistol, SMG, plasma), 280 (shotgun) or 230 (RRG); the row `H / 2` is always inside. -/
theorem shot_candidate_iff (m : Libm) (g : World) (e : Enemy) :
    shot_candidate m g e ↔
      e.state = ENEMY_ALIVE ∧ |shot_dir m g e| < 3 / 10 ∧
        400 - (match g.current_weapon with
          | WEAPON_SHOTGUN => (280 : ℚ) | WEAPON_RRG => 230 | _ => 200) / 2 ≤ shot_sx (shot_dir m g e) ∧
        shot_sx (shot_dir m g e) ≤ 400 + (match g.current_weapon with
          | WEAPON_SHOTGUN => (280 : ℚ) | WEAPON_RRG => 230 | _ => 200) / 2 := by
  have hW : Int.tdiv W 2 = 400 := by decide
  have hH : Int.tdiv H 2 = 300 := by decide
  have hF : FOV * 0.5 = 3 / 10 := by unfold FOV; norm_num
  unfold shot_candidate shot_in_hitbox
  rw [hW, hH, hF]
  cases hw : g.current_weapon
  · have h1 : weapon_hitbox_size WEAPON_PISTOL = 200 := by decide
    have h2 : Int.tdiv 200 2 = 100 := by decide
    simp only [h1, h2]
    norm_num
  · have h1 : weapon_hitbox_size WEAPON_SHOTGUN = 280 := by decide
    have h2 : Int.tdiv 280 2 = 140 := by decide
    simp only [h1, h2]
    norm_num
  · have h1 : weapon_hitbox_size WEAPON_SMG = 200 := by decide
    have h2 : Int.tdiv 200 2 = 100 := by decide
    simp only [h1, h2]
    norm_num
  · have h1 : weapon_hitbox_size WEAPON_PLASMA = 200 := by decide
    have h2 : Int.tdiv 200 2 = 100 := by decide
    simp only [h1, h2]
    norm_num
  · have h1 : weapon_hitbox_size WEAPON_RRG = 230 := by decide
    have h2 : Int.tdiv 230 2 = 115 := by decide
    simp only [h1, h2]
    norm_num

/-- C7 (as the code has it): when `shot_fired` is set, shot resolution damages at most
one enemy.  Either no candidate (alive, within half the field of view, projected into
the weapon's hitbox square) is nearer than the initial `bestDist = 1e9` and nothing
changes, or the enemy hit is a candidate of minimal distance among all candidates, its
distance is below `1e9`, and it alone is changed, by `damage_enemy` with the weapon's
damage (1 pistol and SMG, 2 shotgun and plasma, 12 RRG). -/
theorem shot_resolution_spec (m : Libm) (g : World) (h : g.shot_fired ≠ 0) :
    weapon_damage g.current_weapon =
        (match g.current_weapon with
          | WEAPON_PISTOL => 1 | WEAPON_SMG => 1 | WEAPON_SHOTGUN => 2
          | WEAPON_PLASMA => 2 | WEAPON_RRG => 12) ∧
      (((∀ e ∈ g.enemies, shot_candidate m g e → BEST_DIST_INIT ≤ shot_dist m g e) ∧
          shot_resolution m g = g) ∨
        ∃ (k : Nat) (e : Enemy), g.enemies.get? k = some e ∧ shot_candidate m g e ∧
          shot_dist m g e < BEST_DIST_INIT ∧
          (∀ e2 ∈ g.enemies, shot_candidate m g e2 → shot_dist m g e ≤ shot_dist m g e2) ∧
          shot_resolution m g = damage_enemy (k : Int) (weapon_damage g.current_weapon) g ∧
          (shot_resolution m g).enemies =
            g.enemies.set k (damaged e (weapon_damage g.current_weapon))) := by
  refine ⟨by cases g.current_weapon <;> rfl, ?_⟩
  obtain ⟨_, s2, s3⟩ := shot_scan_spec m g g.enemies 0 (-1, BEST_DIST_INIT)
  unfold shot_resolution
  rw [if_pos h]
  unfold shot_best
  rcases s3 with h3 | ⟨k, e, hk, hc, hr, hlt⟩
  · left
    rw [h3] at s2 ⊢
    exact ⟨s2, by simp⟩
  · right
    rw [hr] at s2 ⊢
    simp only [zero_add] at s2 ⊢
    have hkk : ((k : Int) ≥ 0) := by omega
    rw [if_pos hkk]
    refine ⟨k, e, hk, hc, hlt, s2, rfl, ?_⟩
    rw [damage_enemy_alive g k e _ hk hc.1 (weapon_damage_pos _)]

/-- C7 witness (scenario 3): the enemy straight ahead at distance 2 is the candidate
hit, and the pistol takes its hp from 2 to 1. -/
theorem shot_resolution_spec_witness :
    shot_fired_scene.shot_fired ≠ 0 ∧
      weapon_damage shot_fired_scene.current_weapon = 1 ∧
      (shot_resolution libm_ref shot_fired_scene).enemies.map (fun e => (e.hp, e.state)) =
        [(1, ENEMY_ALIVE)] :=
  ⟨by decide, (shot_resolution_spec libm_ref shot_fired_scene (by decide)).1, by decide!⟩

/-- C7 counterexample: a single alive enemy straight ahead, projected to the centre of
the hitbox, at distance 2e9: it is the candidate of minimal distance, yet
`dist < bestDist` with `bestDist = 1e9` fails and no enemy is damaged. -/
theorem far_enemy_not_hit :
    far_enemy_scene.shot_fired = 1 ∧
      (∀ e ∈ far_enemy_scene.enemies, shot_candidate libm_ref far_enemy_scene e) ∧
      far_enemy_scene.enemies.map (fun e => shot_sx (shot_dir libm_ref far_enemy_scene e)) = [400] ∧
      far_enemy_scene.enemies.map (fun e => shot_dist libm_ref far_enemy_scene e) = [2000000000] ∧
      (shot_resolution libm_ref far_enemy_scene).enemies = far_enemy_scene.enemies := by
  decide!

/-! ## Interaction with the exit door -/

/-- The function `enemy_boss_alive` returns 1 exactly when an alive miniboss or final
boss is among the enemies, and 0 otherwise. -/
theorem boss_alive_from_spec (es : List Enemy) :
    (boss_alive_from es = 1 ↔
      ∃ e ∈ es, e.state = ENEMY_ALIVE ∧ (e.kind = ENEMY_MINIBOSS1 ∨ e.kind = ENEMY_FINALBOSS)) ∧
      (boss_alive_from es = 0 ∨ boss_alive_from es = 1) := by
  induction es with
  | nil => simp [boss_alive_from]
  | cons e rest ih =>
    simp only [boss_alive_from]
    by_cases ha : e.state ≠ ENEMY_ALIVE
    · rw [if_pos ha]
      refine ⟨?_, ih.2⟩
      rw [ih.1]
      constructor
      · rintro ⟨e2, h1, h2⟩
        exact ⟨e2, List.mem_cons_of_mem _ h1, h2⟩
      · rintro ⟨e2, h1, h2⟩
        rcases List.mem_cons.1 h1 with h | h
        · subst h
          exact absurd h2.1 ha
        · exact ⟨e2, h, h2⟩
    · rw [if_neg ha]
      by_cases hk : e.kind = ENEMY_MINIBOSS1 ∨ e.kind = ENEMY_FINALBOSS
      · rw [if_pos hk]
        exact ⟨⟨fun _ => ⟨e, List.mem_cons_self _ _, not_not.1 ha, hk⟩, fun _ => rfl⟩, Or.inr rfl⟩
      · rw [if_neg hk]
        refine ⟨?_, ih.2⟩
        rw [ih.1]
        constructor
        · rintro ⟨e2, h1, h2⟩
          exact ⟨e2, List.mem_cons_of_mem _ h1, h2⟩
        · rintro ⟨e2, h1, h2⟩
          rcases List.mem_cons.1 h1 with h | h
          · subst h
            exact absurd h2.2 hk
          · exact ⟨e2, h, h2⟩

theorem World.setTile_frame (g : World) (y x : Nat) (v : Int) :
    (g.setTile y x v).px = g.px ∧ (g.setTile y x v).py = g.py ∧
      (g.setTile y x v).hasKey = g.hasKey ∧ (g.setTile y x v).escaped = g.escaped ∧
      (g.setTile y x v).enemies = g.enemies := by
  unfold World.setTile
  cases g.worldmap <;> simp

theorem World.tile_setTile_of_ne_zero (g : World) (y x y2 x2 : Nat) (v : Int) (h : g.tile y x ≠ 0) :
    (g.setTile y x v).tile y2 x2 = if y2 = y ∧ x2 = x then v else g.tile y2 x2 := by
  unfold World.setTile World.tile at *
  cases hm : g.worldmap with
  | none => simp [hm] at h
  | some grid =>
    simp only [hm] at h ⊢
    rw [tileAt_setTile]
    have hr := tileAt_ne_zero_inrange grid y x h
    by_cases hc : y2 = y ∧ x2 = x
    · rw [if_pos ⟨hc.1, hc.2, hr.1, hr.2⟩, if_pos hc]
    · rw [if_neg (fun hh => hc ⟨hh.1, hh.2.1⟩), if_neg hc]

/-- One iteration of the interaction loop, field by field: it sets `hasKey` when it picks
up a key, sets `escaped` when it opens a door, clears its own tile in both cases, and
leaves the position and the enemies alone. -/
theorem interact_cell_eq (m : Libm) (g : World) (y x : Nat) :
    (interact_cell m g y x).hasKey = (if picks_key m g y x then 1 else g.hasKey) ∧
      (interact_cell m g y x).escaped = (if opens_door m g y x then 1 else g.escaped) ∧
      (∀ y2 x2, (interact_cell m g y x).tile y2 x2 =
        if (picks_key m g y x ∨ opens_door m g y x) ∧ y2 = y ∧ x2 = x then 0 else g.tile y2 x2) ∧
      (interact_cell m g y x).px = g.px ∧ (interact_cell m g y x).py = g.py ∧
      (interact_cell m g y x).enemies = g.enemies := by
  have hf := World.setTile_frame g y x 0
  unfold picks_key opens_door interact_cell
  simp only
  by_cases h1 : g.tile y x = 1 ∧ tile_dist m g y x < 0.7
  · have hne : g.tile y x ≠ 0 := by rw [h1.1]; norm_num
    have h3 : ¬ (g.tile y x = 3 ∧ tile_dist m g y x < 1.0 ∧ enemy_boss_alive g = 0 ∧ g.hasKey ≠ 0) := by
      rw [h1.1]; norm_num
    rw [if_pos h1, if_pos h1, if_neg h3]
    refine ⟨rfl, hf.2.2.2.1, ?_, hf.1, hf.2.1, hf.2.2.2.2⟩
    intro y2 x2
    have := World.tile_setTile_of_ne_zero g y x y2 x2 0 hne
    by_cases hc : y2 = y ∧ x2 = x
    · rw [if_pos ⟨Or.inl h1, hc⟩]
      rw [if_pos hc] at this
      exact this
    · rw [if_neg (fun hh => hc hh.2)]
      rw [if_neg hc] at this
      exact this
  · rw [if_neg h1, if_neg h1]
    by_cases h2 : g.tile y x = 3 ∧ tile_dist m g y x < 1.0
    · rw [if_pos h2]
      by_cases h3 : enemy_boss_alive g ≠ 0
      · have h4 : ¬ (g.tile y x = 3 ∧ tile_dist m g y x < 1.0 ∧ enemy_boss_alive g = 0 ∧ g.hasKey ≠ 0) :=
          fun hh => h3 hh.2.2.1
        rw [if_pos h3, if_neg h4]
        refine ⟨rfl, rfl, ?_, rfl, rfl, rfl⟩
        intro y2 x2
        rw [if_neg (fun hh => hh.1.elim h1 h4)]
        rfl
      · rw [if_neg h3]
        by_cases h5 : g.hasKey ≠ 0
        · have hne : g.tile y x ≠ 0 := by rw [h2.1]; norm_num
          have h4 : g.tile y x = 3 ∧ tile_dist m g y x < 1.0 ∧ enemy_boss_alive g = 0 ∧ g.hasKey ≠ 0 :=
            ⟨h2.1, h2.2, not_not.1 h3, h5⟩
          rw [if_pos h5, if_pos h4]
          refine ⟨hf.2.2.1, rfl, ?_, hf.1, hf.2.1, hf.2.2.2.2⟩
          intro y2 x2
          have := World.tile_setTile_of_ne_zero g y x y2 x2 0 hne
          by_cases hc : y2 = y ∧ x2 = x
          · rw [if_pos ⟨Or.inr h4, hc⟩]
            rw [if_pos hc] at this
            exact this
          · rw [if_neg (fun hh => hc hh.2)]
            rw [if_neg hc] at this
            exact this
        · have h4 : ¬ (g.tile y x = 3 ∧ tile_dist m g y x < 1.0 ∧ enemy_boss_alive g = 0 ∧ g.hasKey ≠ 0) :=
            fun hh => h5 hh.2.2.2
          rw [if_neg h5, if_neg h4]
          refine ⟨rfl, rfl, ?_, rfl, rfl, rfl⟩
          intro y2 x2
          rw [if_neg (fun hh => hh.1.elim h1 h4)]
          rfl
    · have h4 : ¬ (g.tile y x = 3 ∧ tile_dist m g y x < 1.0 ∧ enemy_boss_alive g = 0 ∧ g.hasKey ≠ 0) :=
        fun hh => h2 ⟨hh.1, hh.2.1⟩
      rw [if_neg h2, if_neg h4]
      refine ⟨rfl, rfl, ?_, rfl, rfl, rfl⟩
      intro y2 x2
      rw [if_neg (fun hh => hh.1.elim h1 h4)]

theorem tile_dist_congr (m : Libm) (a b : World) (h1 : b.px = a.px) (h2 : b.py = a.py) (y x : Nat) :
    tile_dist m b y x = tile_dist m a y x := by
  unfold tile_dist
  rw [h1, h2]

theorem enemy_boss_alive_congr (a b : World) (h : b.enemies = a.enemies) :
    enemy_boss_alive b = enemy_boss_alive a := by
  unfold enemy_boss_alive
  rw [h]

/-- The interaction loop with a boss alive: the door at `(y, x)` and `escaped` stay. -/
theorem interact_loop_boss (m : Libm) (g : World) (y x : Nat) (h w : Nat)
    (hboss : enemy_boss_alive g ≠ 0) (hdoor : g.tile y x = 3) :
    (for_tiles h w (interact_cell m) g).tile y x = 3 ∧
      (for_tiles h w (interact_cell m) g).escaped = g.escaped := by
  have hinv := for_tiles_invariant
    (fun a => enemy_boss_alive a ≠ 0 ∧ a.tile y x = 3 ∧ a.escaped = g.escaped) h w (interact_cell m)
    (fun a y2 x2 _ _ ha => by
      obtain ⟨a1, a2, a3⟩ := ha
      obtain ⟨_, e2, e3, _, _, e6⟩ := interact_cell_eq m a y2 x2
      have hod : ¬ opens_door m a y2 x2 := fun hh => a1 hh.2.2.1
      refine ⟨by rw [enemy_boss_alive_congr a _ e6]; exact a1, ?_, ?_⟩
      · rw [e3 y x, if_neg]
        · exact a2
        · rintro ⟨hpk | hpk, hy, hx⟩
          · subst hy; subst hx
            have := hpk.1
            rw [a2] at this
            exact absurd this (by norm_num)
          · exact hod hpk
      · rw [e2, if_neg hod]
        exact a3)
    g ⟨hboss, hdoor, rfl⟩
  exact ⟨hinv.2.1, hinv.2.2⟩

/-- The interaction loop with no boss alive and the key in hand: the door at `(y, x)`
within 1.0 of the player is cleared and `escaped` is set. -/
theorem interact_loop_key (m : Libm) (g : World) (y x : Nat) (h w : Nat) (hy : y < h) (hx : x < w)
    (hboss : enemy_boss_alive g = 0) (hkey : g.hasKey ≠ 0) (hdoor : g.tile y x = 3)
    (hnear : tile_dist m g y x < 1) :
    (for_tiles h w (interact_cell m) g).tile y x = 0 ∧
      (for_tiles h w (interact_cell m) g).escaped = 1 := by
  apply for_tiles_visit
    (fun a => enemy_boss_alive a = 0 ∧ a.hasKey ≠ 0 ∧ a.px = g.px ∧ a.py = g.py ∧
      (a.tile y x = 3 ∨ (a.tile y x = 0 ∧ a.escaped = 1)))
    (fun a => a.tile y x = 0 ∧ a.escaped = 1) h w (interact_cell m) y x hy hx
  · intro a y2 x2 _ _ ha
    obtain ⟨a1, a2, a3, a4, a5⟩ := ha
    obtain ⟨e1, e2, e3, e4, e5, e6⟩ := interact_cell_eq m a y2 x2
    refine ⟨by rw [enemy_boss_alive_congr a _ e6]; exact a1, ?_, e4.trans a3, e5.trans a4, ?_⟩
    · rw [e1]
      split
      · norm_num
      · exact a2
    · rw [e3 y x, e2]
      by_cases hc : (picks_key m a y2 x2 ∨ opens_door m a y2 x2) ∧ y = y2 ∧ x = x2
      · rw [if_pos hc]
        obtain ⟨hc1, hc2, hc3⟩ := hc
        subst hc2; subst hc3
        right
        refine ⟨rfl, ?_⟩
        rcases hc1 with hpk | hod
        · rcases a5 with a5 | a5
          · have := hpk.1
            rw [a5] at this
            exact absurd this (by norm_num)
          · have := hpk.1
            rw [a5.1] at this
            exact absurd this (by norm_num)
        · rw [if_pos hod]
      · rw [if_neg hc]
        rcases a5 with a5 | a5
        · exact Or.inl a5
        · right
          refine ⟨a5.1, ?_⟩
          split
          · rfl
          · exact a5.2
  · intro a ha
    obtain ⟨a1, a2, a3, a4, a5⟩ := ha
    obtain ⟨_, e2, e3, _, _, _⟩ := interact_cell_eq m a y x
    rw [e3 y x, e2]
    rcases a5 with a5 | a5
    · have hod : opens_door m a y x := by
        refine ⟨a5, ?_, a1, a2⟩
        rw [tile_dist_congr m g a a3 a4]
        norm_num
        exact hnear
      rw [if_pos ⟨Or.inr hod, rfl, rfl⟩, if_pos hod]
      exact ⟨rfl, rfl⟩
    · have hpk : ¬ picks_key m a y x := by
        intro hh
        have := hh.1
        rw [a5.1] at this
        exact absurd this (by norm_num)
      have hod : ¬ opens_door m a y x := by
        intro hh
        have := hh.1
        rw [a5.1] at this
        exact absurd this (by norm_num)
      rw [if_neg (fun hh => hh.1.elim hpk hod), if_neg hod]
      exact a5
  · intro a y2 x2 _ _ _ hq
    obtain ⟨_, e2, e3, _, _, _⟩ := interact_cell_eq m a y2 x2
    rw [e3 y x, e2]
    refine ⟨?_, ?_⟩
    · split
      · rfl
      · exact hq.1
    · split
      · rfl
      · exact hq.2
  · exact ⟨hboss, hkey, rfl, rfl, Or.inl hdoor⟩

/-- The interaction loop with no boss alive, no key in hand and no key tile within 0.7
of the player: the door at `(y, x)` and `escaped` stay. -/
theorem interact_loop_no_key (m : Libm) (g : World) (y x : Nat) (h w : Nat)
    (hkey : g.hasKey = 0) (hdoor : g.tile y x = 3)
    (hnokey : ∀ y2 x2, g.tile y2 x2 = 1 → ¬ tile_dist m g y2 x2 < 0.7) :
    (for_tiles h w (interact_cell m) g).tile y x = 3 ∧
      (for_tiles h w (interact_cell m) g).escaped = g.escaped := by
  have hinv := for_tiles_invariant
    (fun a => a.hasKey = 0 ∧ a.px = g.px ∧ a.py = g.py ∧
      (∀ y2 x2, a.tile y2 x2 = 1 → g.tile y2 x2 = 1) ∧ a.tile y x = 3 ∧ a.escaped = g.escaped)
    h w (interact_cell m)
    (fun a y2 x2 _ _ ha => by
      obtain ⟨a1, a2, a3, a4, a5, a6⟩ := ha
      obtain ⟨e1, e2, e3, e4, e5, _⟩ := interact_cell_eq m a y2 x2
      have hpk : ¬ picks_key m a y2 x2 := by
        intro hh
        apply hnokey y2 x2 (a4 y2 x2 hh.1)
        rw [← tile_dist_congr m g a a2 a3]
        exact hh.2
      have hod : ¬ opens_door m a y2 x2 := fun hh => hh.2.2.2 a1
      refine ⟨by rw [e1, if_neg hpk]; exact a1, e4.trans a2, e5.trans a3, ?_, ?_, ?_⟩
      · intro y3 x3 h3
        rw [e3 y3 x3, if_neg (fun hh => hh.1.elim hpk hod)] at h3
        exact a4 y3 x3 h3
      · rw [e3 y x, if_neg (fun hh => hh.1.elim hpk hod)]
        exact a5
      · rw [e2, if_neg hod]
        exact a6)
    g ⟨hkey, rfl, rfl, fun _ _ h => h, hdoor, rfl⟩
  exact ⟨hinv.2.2.2.2.1, hinv.2.2.2.2.2⟩

theorem same_scene_refl (a : World) : same_scene a a := ⟨rfl, rfl, rfl, rfl, rfl, rfl, rfl⟩

theorem fire_weapon_scene (g : World) :
    same_scene g (fire_weapon g) ∧ (fire_weapon g).px = g.px ∧ (fire_weapon g).py = g.py := by
  unfold fire_weapon set_weapon_cd weapon_consume_ammo
  cases hw : g.current_weapon <;> simp only <;> split <;>
    exact ⟨⟨rfl, rfl, rfl, rfl, rfl, rfl, rfl⟩, rfl, rfl⟩

theorem player_shooting_scene (dt : ℚ) (inp : Input) (g : World) :
    same_scene g (player_shooting dt inp g) ∧ (player_shooting dt inp g).px = g.px ∧
      (player_shooting dt inp g).py = g.py := by
  unfold player_shooting
  split
  · exact fire_weapon_scene (shooting_prepare dt g)
  · exact ⟨same_scene_refl g, rfl, rfl⟩

theorem godmode_refresh_scene (g : World) :
    same_scene g (godmode_refresh g) ∧ (godmode_refresh g).px = g.px ∧
      (godmode_refresh g).py = g.py := by
  unfold godmode_refresh
  split
  · exact ⟨same_scene_refl g, rfl, rfl⟩
  · exact ⟨same_scene_refl g, rfl, rfl⟩

/-- The sections of `update_player` before the interaction leave the map, the key and
escape flags, the enemies and `lastE` as they were. -/
theorem before_interaction_scene (m : Libm) (dt : ℚ) (inp : Input) (g : World) :
    same_scene g (before_interaction m dt inp g) := by
  unfold before_interaction
  have h0 := (godmode_refresh_scene g).1
  have h1 := movement_eq_with_pos m dt inp (godmode_refresh g)
  have h2 := (player_shooting_scene dt inp
    (player_movement m dt inp (player_mouse_look inp (godmode_refresh g)))).1
  rw [h1] at h2 ⊢
  obtain ⟨a1, a2, a3, a4, a5, a6, a7⟩ := h0
  obtain ⟨b1, b2, b3, b4, b5, b6, b7⟩ := h2
  exact ⟨b1.trans a1, b2.trans a2, b3.trans a3, b4.trans a4, b5.trans a5, b6.trans a6,
    b7.trans a7⟩

theorem player_damage_fx_frame (dt : ℚ) (g : World) :
    (player_damage_fx dt g).worldmap = g.worldmap ∧ (player_damage_fx dt g).escaped = g.escaped ∧
      (player_damage_fx dt g).px = g.px ∧ (player_damage_fx dt g).py = g.py := by
  unfold player_damage_fx
  split
  · exact ⟨rfl, rfl, rfl, rfl⟩
  · exact ⟨rfl, rfl, rfl, rfl⟩

/-- The interaction loop leaves the position alone. -/
theorem interact_loop_pos (m : Libm) (g : World) (h w : Nat) :
    (for_tiles h w (interact_cell m) g).px = g.px ∧ (for_tiles h w (interact_cell m) g).py = g.py :=
  for_tiles_invariant (fun a => a.px = g.px ∧ a.py = g.py) h w (interact_cell m)
    (fun a y2 x2 _ _ ha =>
      ⟨(interact_cell_eq m a y2 x2).2.2.2.1.trans ha.1,
        (interact_cell_eq m a y2 x2).2.2.2.2.1.trans ha.2⟩)
    g ⟨rfl, rfl⟩

theorem player_interaction_pos (m : Libm) (inp : Input) (g : World) :
    (player_interaction m inp g).px = g.px ∧ (player_interaction m inp g).py = g.py := by
  unfold player_interaction
  simp only
  split
  · split
    · exact interact_loop_pos m g _ _
    · exact ⟨rfl, rfl⟩
  · exact ⟨rfl, rfl⟩

/-- The function `update_player` when it does not return early. -/
theorem update_player_running (m : Libm) (dt : ℚ) (inp : Input) (g : World)
    (hrun : (godmode_refresh g).player_dead = 0) :
    update_player m dt inp g =
      player_damage_fx dt (player_interaction m inp (before_interaction m dt inp g)) := by
  unfold update_player
  rw [if_neg (by simp [hrun])]
  rfl

/-- The interaction section on an interact press with a map loaded. -/
theorem player_interaction_press (m : Libm) (inp : Input) (g : World)
    (hpress : KEYDOWN inp (inp.binds ACTION_INTERACT) = true) (hlast : g.lastE = 0)
    (hmap : g.worldmap ≠ none) :
    (player_interaction m inp g).worldmap =
        (for_tiles g.worldHeight.toNat g.worldWidth.toNat (interact_cell m) g).worldmap ∧
      (player_interaction m inp g).escaped =
        (for_tiles g.worldHeight.toNat g.worldWidth.toNat (interact_cell m) g).escaped := by
  unfold player_interaction
  simp only
  have hk : key_int inp ACTION_INTERACT ≠ 0 := by
    unfold key_int
    rw [if_pos hpress]
    norm_num
  rw [if_pos ⟨hk, hlast⟩, if_pos hmap]
  exact ⟨rfl, rfl⟩

/-- C8 (as the code has it): on an interact press (the interact key down, `lastE` clear)
with an exit-door tile whose centre is within 1.0 of the player's position after this
frame's movement: with a boss alive the door tile and `escaped` are unchanged; with no
boss alive and `hasKey` set, when `update_player` does not return early (the player is
not dead, or godmode is on), the door tile becomes 0 and `escaped` becomes 1; with no boss
alive, `hasKey` clear and no key tile within 0.7 of the player, both are unchanged.
`enemy_boss_alive` returns 1 exactly when an alive miniboss or final boss exists among
the enemies, and 0 otherwise. -/
theorem interact_door (m : Libm) (dt : ℚ) (inp : Input) (g : World) (y x : Nat)
    (hpress : KEYDOWN inp (inp.binds ACTION_INTERACT) = true) (hlast : g.lastE = 0)
    (hy : (y : Int) < g.worldHeight) (hx : (x : Int) < g.worldWidth)
    (hdoor : g.tile y x = 3)
    (hnear : tile_dist m (update_player m dt inp g) y x < 1) :
    (enemy_boss_alive g ≠ 0 →
        (update_player m dt inp g).tile y x = 3 ∧ (update_player m dt inp g).escaped = g.escaped) ∧
      (enemy_boss_alive g = 0 → g.hasKey ≠ 0 → (godmode_refresh g).player_dead = 0 →
        (update_player m dt inp g).tile y x = 0 ∧ (update_player m dt inp g).escaped = 1) ∧
      (enemy_boss_alive g = 0 → g.hasKey = 0 →
        (∀ y2 x2, g.tile y2 x2 = 1 → ¬ tile_dist m (update_player m dt inp g) y2 x2 < 0.7) →
        (update_player m dt inp g).tile y x = 3 ∧ (update_player m dt inp g).escaped = g.escaped) ∧
      (enemy_boss_alive g = 1 ↔
        ∃ e ∈ g.enemies, e.state = ENEMY_ALIVE ∧
          (e.kind = ENEMY_MINIBOSS1 ∨ e.kind = ENEMY_FINALBOSS)) ∧
      (enemy_boss_alive g = 0 ∨ enemy_boss_alive g = 1) := by
  have hbs := boss_alive_from_spec g.enemies
  by_cases hrun : (godmode_refresh g).player_dead = 0
  · -- the sections run
    obtain ⟨s1, s2, s3, s4, s5, s6, s7⟩ := before_interaction_scene m dt inp g
    have hupd := update_player_running m dt inp g hrun
    rw [hupd] at hnear ⊢
    have hfx := player_damage_fx_frame dt (player_interaction m inp (before_interaction m dt inp g))
    have hpos := player_interaction_pos m inp (before_interaction m dt inp g)
    have hmap : (before_interaction m dt inp g).worldmap ≠ none := by
      rw [s1]
      intro hnone
      simp [World.tile, hnone] at hdoor
    have hpr := player_interaction_press m inp (before_interaction m dt inp g) hpress
      (s7.trans hlast) hmap
    have htile : ∀ y2 x2, (player_damage_fx dt (player_interaction m inp
        (before_interaction m dt inp g))).tile y2 x2 =
        (for_tiles (before_interaction m dt inp g).worldHeight.toNat
          (before_interaction m dt inp g).worldWidth.toNat (interact_cell m)
          (before_interaction m dt inp g)).tile y2 x2 :=
      fun y2 x2 => World.tile_congr _ _ (hfx.1.trans hpr.1) y2 x2
    have hdist : ∀ y2 x2, tile_dist m (player_damage_fx dt (player_interaction m inp
        (before_interaction m dt inp g))) y2 x2 = tile_dist m (before_interaction m dt inp g) y2 x2 :=
      fun y2 x2 => tile_dist_congr m _ _ (hfx.2.2.1.trans hpos.1) (hfx.2.2.2.trans hpos.2) y2 x2
    have hdoor2 : (before_interaction m dt inp g).tile y x = 3 := by
      rw [World.tile_congr _ _ s1]; exact hdoor
    have hboss2 := enemy_boss_alive_congr g _ s6
    rw [htile y x, hfx.2.1, hpr.2]
    rw [hdist y x] at hnear
    refine ⟨?_, ?_, ?_, hbs⟩
    · intro hb
      rw [← s5]
      exact interact_loop_boss m _ y x _ _ (by rw [hboss2]; exact hb) hdoor2
    · intro hb hk _
      exact interact_loop_key m _ y x _ _ (by rw [s3]; omega) (by rw [s2]; omega)
        (by rw [hboss2]; exact hb) (by rw [s4]; exact hk) hdoor2 hnear
    · intro _ hk hno
      rw [← s5]
      apply interact_loop_no_key m _ y x _ _ (by rw [s4]; exact hk) hdoor2
      intro y2 x2 h1
      rw [← hdist y2 x2]
      exact hno y2 x2 (by rw [← World.tile_congr _ _ s1]; exact h1)
  · -- early return
    have hupd : update_player m dt inp g = godmode_refresh g := by
      unfold update_player
      rw [if_pos hrun]
    obtain ⟨⟨s1, _, _, _, s5, _, _⟩, _⟩ := godmode_refresh_scene g
    rw [hupd, World.tile_congr _ _ s1, s5]
    exact ⟨fun _ => ⟨hdoor, rfl⟩, fun _ _ h => absurd h hrun, fun _ _ _ => ⟨hdoor, rfl⟩, hbs⟩

/-- C8 witness: the player alive at the door with the key and no enemies; the press
clears the door and sets `escaped`. -/
theorem interact_door_witness :
    (update_player libm_ref (1 / 60) (input_of [8] 0) alive_at_door_scene).tile 1 2 = 0 ∧
      (update_player libm_ref (1 / 60) (input_of [8] 0) alive_at_door_scene).escaped = 1 :=
  (interact_door libm_ref (1 / 60) (input_of [8] 0) alive_at_door_scene 1 2
    (by decide) (by decide) (by decide) (by decide) (by decide!) (by decide!)).2.1
    (by decide) (by decide) (by decide)

/-- C8 counterexample: (1) no boss, `hasKey` clear, the player on a key tile next to the
door: one press picks up the key and opens the door, so the door tile and `escaped`
change although `hasKey` was not set; (2) no boss, `hasKey` set, the player dead: the
press is ignored and the door stays closed. -/
theorem door_press_counterexamples :
    (enemy_boss_alive key_and_door_scene = 0 ∧ key_and_door_scene.hasKey = 0 ∧
      key_and_door_scene.tile 1 2 = 3 ∧
      tile_dist libm_ref (update_player libm_ref (1 / 60) (input_of [8] 0) key_and_door_scene) 1 2 < 1 ∧
      (update_player libm_ref (1 / 60) (input_of [8] 0) key_and_door_scene).tile 1 2 = 0 ∧
      (update_player libm_ref (1 / 60) (input_of [8] 0) key_and_door_scene).escaped = 1) ∧
    (enemy_boss_alive dead_at_door_scene = 0 ∧ dead_at_door_scene.hasKey = 1 ∧
      dead_at_door_scene.tile 1 2 = 3 ∧
      tile_dist libm_ref (update_player libm_ref (1 / 60) (input_of [8] 0) dead_at_door_scene) 1 2 < 1 ∧
      (update_player libm_ref (1 / 60) (input_of [8] 0) dead_at_door_scene).tile 1 2 = 3 ∧
      (update_player libm_ref (1 / 60) (input_of [8] 0) dead_at_door_scene).escaped = 0) := by
  decide!

/-! ## Item pickups -/

theorem item_effect_pos (t : ItemType) (g : World) :
    (item_effect t g).px = g.px ∧ (item_effect t g).py = g.py := by
  cases t <;> exact ⟨rfl, rfl⟩

theorem collectable_congr (m : Libm) (a b : World) (h1 : b.px = a.px) (h2 : b.py = a.py) (it : Item) :
    collectable m b it ↔ collectable m a it := by
  unfold collectable item_dist
  rw [h1, h2]

theorem update_item_eq (m : Libm) (g : World) (it : Item) :
    update_item m g it =
      (collect m g it, if collectable m g it then item_effect it.type g else g) := by
  unfold update_item collect collectable
  by_cases h1 : it.collected ≠ 0
  · rw [if_pos h1, if_neg (fun hh => h1 hh.1), if_neg (fun hh => h1 hh.1)]
  · rw [if_neg h1]
    by_cases h2 : item_dist m g it ≥ 0.7
    · rw [if_pos h2, if_neg (fun hh => absurd hh.2 (not_lt.2 h2)),
        if_neg (fun hh => absurd hh.2 (not_lt.2 h2))]
    · rw [if_neg h2, if_pos ⟨not_not.1 h1, not_le.1 h2⟩, if_pos ⟨not_not.1 h1, not_le.1 h2⟩]

/-- The loop of `update_items`: every collectable item is marked, and the effects of the
collectable items are applied in order; collectability is judged from the player's
position, which no effect changes. -/
theorem update_items_from_eq (m : Libm) (g0 : World) (its : List Item) :
    ∀ a : World, a.px = g0.px → a.py = g0.py →
      update_items_from m its a =
        (its.map (collect m g0), apply_effects (its.filter (fun it => collectable m g0 it)) a) := by
  induction its with
  | nil => intro a _ _; rfl
  | cons it rest ih =>
    intro a h1 h2
    have hc := collectable_congr m g0 a h1 h2 it
    simp only [update_items_from, update_item_eq]
    have hcol : collect m a it = collect m g0 it := by
      unfold collect
      by_cases h : collectable m g0 it
      · rw [if_pos h, if_pos (hc.2 h)]
      · rw [if_neg h, if_neg (fun hh => h (hc.1 hh))]
    by_cases h : collectable m g0 it
    · rw [if_pos (hc.2 h)]
      rw [ih (item_effect it.type a) ((item_effect_pos it.type a).1.trans h1)
        ((item_effect_pos it.type a).2.trans h2)]
      simp only [List.map_cons, hcol, List.filter_cons, h, decide_True, if_true]
      rfl
    · rw [if_neg (fun hh => h (hc.1 hh))]
      rw [ih a h1 h2]
      simp only [List.map_cons, hcol, List.filter_cons, h, decide_False]
      rfl

/-- What `update_items` does: it marks every item that is not collected and lies within
0.7 of the player as collected and leaves every other item as it is; the globals are those
obtained by applying the effects of the picked-up items in order, and nothing else
changes.  When the `int` addition stays in the range of `int`, the effect of bullets is
`ammo_bullets = min(ammo_bullets + 3, 999)`, of a medkit `hp = min(hp + 10, 100)`, of
shells `ammo_shells = min(ammo_shells + 4, 999)`, of energy
`ammo_energy = min(ammo_energy + 10, 999)`; a weapon item sets that weapon's possession
flag and makes it the current weapon (each also sets the HUD message). -/
theorem update_items_spec (m : Libm) (g : World) :
    update_items m g =
        { apply_effects (g.items.filter (fun it => collectable m g it)) g with
          items := g.items.map (collect m g) } ∧
      (∀ it, collect m g it =
        if it.collected = 0 ∧ item_dist m g it < 0.7 then { it with collected := 1 } else it) ∧
      (∀ a : World,
        (is_int (a.ammo_bullets + 3) →
          item_effect ITEM_BULLETS a =
            { a with ammo_bullets := min (a.ammo_bullets + 3) 999, message_text := "BULLETS +3" }) ∧
        (is_int (a.hp + 10) →
          item_effect ITEM_MEDKIT a =
            { a with hp := min (a.hp + 10) 100, message_text := "MEDKIT +10" }) ∧
        (is_int (a.ammo_shells + 4) →
          item_effect ITEM_SHELLS a =
            { a with ammo_shells := min (a.ammo_shells + 4) 999, message_text := "SHELLS +4" }) ∧
        (is_int (a.ammo_energy + 10) →
          item_effect ITEM_ENERGY a =
            { a with ammo_energy := min (a.ammo_energy + 10) 999, message_text := "ENERGY +10" }) ∧
        item_effect ITEM_SHOTGUN a =
          { a with hasShotgun := 1, current_weapon := WEAPON_SHOTGUN,
                   message_text := "SHOTGUN ACQUIRED" } ∧
        item_effect ITEM_SMG a =
          { a with hasSMG := 1, current_weapon := WEAPON_SMG, message_text := "SMG ACQUIRED" } ∧
        item_effect ITEM_PLASMA a =
          { a with hasPlasma := 1, current_weapon := WEAPON_PLASMA,
                   message_text := "PLASMA ACQUIRED" } ∧
        item_effect ITEM_RRG a =
          { a with hasRRG := 1, current_weapon := WEAPON_RRG, message_text := "RRG ACQUIRED" }) := by
  refine ⟨?_, fun it => rfl, ?_⟩
  · unfold update_items
    rw [update_items_from_eq m g g.items g rfl rfl]
  · intro a
    have hmin : ∀ (v c : Int), (if v > c then c else v) = min v c := by
      intro v c
      by_cases h : v > c
      · rw [if_pos h, min_eq_right (le_of_lt h)]
      · rw [if_neg h, min_eq_left (not_lt.1 h)]
    refine ⟨fun h => ?_, fun h => ?_, fun h => ?_, fun h => ?_, rfl, rfl, rfl, rfl⟩
    · simp only [item_effect, show_message, hmin, wrap_int_id _ h.1 h.2]
    · simp only [item_effect, show_message, hmin, wrap_int_id _ h.1 h.2]
    · simp only [item_effect, show_message, hmin, wrap_int_id _ h.1 h.2]
    · simp only [item_effect, show_message, hmin, wrap_int_id _ h.1 h.2]

/-- C9, evaluated on a loaded save: the save in slot 1 holds 2147483647 bullets and
places the player half a tile from a box of bullets.  `update_items` marks the box
collected, but the pool is not `min(ammo_bullets + 3, 999) = 999`: the `int` addition
`ammo_bullets += 3` leaves the range of `int` before the cap is tested, the cap does not
fire, and the pool ends at -2147483646. -/
theorem pickup_overflow_misses_cap :
    (load_slot_and_enter bullets_room 1 {} overfull_disk).1.world.ammo_bullets = 2147483647 ∧
      (load_slot_and_enter bullets_room 1 {} overfull_disk).1.world.items =
        [{ x := 2.5, y := 1.5, type := ITEM_BULLETS, collected := 0 }] ∧
      collectable libm_ref (load_slot_and_enter bullets_room 1 {} overfull_disk).1.world
        { x := 2.5, y := 1.5, type := ITEM_BULLETS, collected := 0 } ∧
      (update_items libm_ref (load_slot_and_enter bullets_room 1 {} overfull_disk).1.world).items =
        [{ x := 2.5, y := 1.5, type := ITEM_BULLETS, collected := 1 }] ∧
      (update_items libm_ref (load_slot_and_enter bullets_room 1 {} overfull_disk).1.world).ammo_bullets
        = -2147483646 ∧
      min ((load_slot_and_enter bullets_room 1 {} overfull_disk).1.world.ammo_bullets + 3) 999 = 999 := by
  refine ⟨by decide!, by decide!, by decide!, by decide!, by decide!, by decide!⟩

/-! ## Godmode -/

theorem weapon_consume_ammo_godmode (g : World) (w : WeaponType) (hgod : g.godmode_enabled ≠ 0) :
    weapon_consume_ammo g w = g := by
  unfold weapon_consume_ammo
  rw [if_pos hgod]

theorem fire_test_godmode (dt : ℚ) (inp : Input) (g : World) (hgod : g.godmode_enabled ≠ 0) :
    fire_test inp (shooting_prepare dt g) ↔
      wants_fire_spec inp g ∧ cooldown_tick (weapon_cd g g.current_weapon) dt ≤ 0 := by
  have e1 : want_fire inp (shooting_prepare dt g) = want_fire inp g := rfl
  have e2 : weapon_has_ammo (shooting_prepare dt g) (shooting_prepare dt g).current_weapon = 1 := by
    unfold weapon_has_ammo
    rw [if_pos (show (shooting_prepare dt g).godmode_enabled ≠ 0 from hgod)]
  have e3 : weapon_cd (shooting_prepare dt g) (shooting_prepare dt g).current_weapon
      = cooldown_tick (weapon_cd g g.current_weapon) dt := by
    show weapon_cd (shooting_prepare dt g) g.current_weapon = _
    cases g.current_weapon <;> rfl
  unfold fire_test
  rw [e1, e2, e3, want_fire_iff]
  constructor
  · intro h
    exact ⟨h.1, h.2.1⟩
  · intro h
    exact ⟨h.1, h.2, by norm_num⟩

/-- The shooting section under godmode: it fires on `want_fire` and a cooldown `<= 0`
whatever the pools hold, and leaves the pools, hp and the dead flag alone. -/
theorem player_shooting_godmode (dt : ℚ) (inp : Input) (g : World) (hgod : g.godmode_enabled ≠ 0) :
    ((player_shooting dt inp g).shot_fired = 1 ↔
        wants_fire_spec inp g ∧ cooldown_tick (weapon_cd g g.current_weapon) dt ≤ 0) ∧
      (player_shooting dt inp g).ammo_bullets = g.ammo_bullets ∧
      (player_shooting dt inp g).ammo_shells = g.ammo_shells ∧
      (player_shooting dt inp g).ammo_energy = g.ammo_energy ∧
      (player_shooting dt inp g).hp = g.hp ∧
      (player_shooting dt inp g).player_dead = g.player_dead := by
  have hc := fire_test_godmode dt inp g hgod
  unfold player_shooting
  by_cases hf : fire_test inp (shooting_prepare dt g)
  · rw [if_pos hf]
    unfold fire_weapon
    rw [weapon_consume_ammo_godmode _ _ (show (shooting_prepare dt g).godmode_enabled ≠ 0 from hgod)]
    have hfr : ∀ (a : World) (w : WeaponType) (v : ℚ),
        (set_weapon_cd a w v).shot_fired = a.shot_fired ∧
        (set_weapon_cd a w v).ammo_bullets = a.ammo_bullets ∧
        (set_weapon_cd a w v).ammo_shells = a.ammo_shells ∧
        (set_weapon_cd a w v).ammo_energy = a.ammo_energy ∧
        (set_weapon_cd a w v).hp = a.hp ∧ (set_weapon_cd a w v).player_dead = a.player_dead := by
      intro a w v
      cases w <;> exact ⟨rfl, rfl, rfl, rfl, rfl, rfl⟩
    obtain ⟨f1, f2, f3, f4, f5, f6⟩ := hfr
      { shooting_prepare dt g with
        gun_recoil_timer := recoil_frames (shooting_prepare dt g).current_weapon, shot_fired := 1 }
      (shooting_prepare dt g).current_weapon (cd_reset (shooting_prepare dt g).current_weapon)
    exact ⟨⟨fun _ => hc.1 hf, fun _ => f1⟩, f2, f3, f4, f5, f6⟩
  · rw [if_neg hf]
    refine ⟨⟨fun h => ?_, fun h => absurd (hc.2 h) hf⟩, rfl, rfl, rfl, rfl, rfl⟩
    have : (0 : Int) = 1 := h
    exact absurd this (by norm_num)

theorem enemy_attack_godmode (g : World) (e : Enemy) (dist : ℚ) (hgod : g.godmode_enabled ≠ 0) :
    (enemy_attack g e dist).2 = g := by
  unfold enemy_attack
  rw [if_neg hgod]
  split
  · rfl
  · rfl

theorem update_enemies_from_godmode (m : Libm) (dt : ℚ) (es : List Enemy) (g : World)
    (hgod : g.godmode_enabled ≠ 0) : (update_enemies_from m dt es g).2 = g := by
  induction es with
  | nil => rfl
  | cons e rest ih =>
    simp only [update_enemies_from]
    have h1 : (update_enemy m dt g e).2 = g := by
      unfold update_enemy
      split
      · rfl
      · split
        · rfl
        · exact enemy_attack_godmode g _ _ hgod
    rw [h1]
    exact ih

/-- C10: while godmode is enabled, for every input and `dt`: `update_player` sets hp to
100 and clears `player_dead`; it fires exactly when `want_fire` holds and the current
weapon's cooldown after the tick is `<= 0`, whatever the ammo pools hold, and leaves the
three pools unchanged; and `update_enemies` changes neither hp nor `player_dead` (it
changes nothing but the enemies). -/
theorem godmode_rules (m : Libm) (dt : ℚ) (inp : Input) (g : World) (hgod : g.godmode_enabled ≠ 0) :
    (update_player m dt inp g).hp = 100 ∧ (update_player m dt inp g).player_dead = 0 ∧
      ((update_player m dt inp g).shot_fired = 1 ↔
        wants_fire_spec inp g ∧ cooldown_tick (weapon_cd g g.current_weapon) dt ≤ 0) ∧
      (update_player m dt inp g).ammo_bullets = g.ammo_bullets ∧
      (update_player m dt inp g).ammo_shells = g.ammo_shells ∧
      (update_player m dt inp g).ammo_energy = g.ammo_energy ∧
      (update_enemies m dt g).hp = g.hp ∧ (update_enemies m dt g).player_dead = g.player_dead ∧
      update_enemies m dt g = { g with enemies := (update_enemies m dt g).enemies } := by
  have hg0 : godmode_refresh g = { g with player_dead := 0, hp := 100 } := by
    unfold godmode_refresh
    rw [if_pos hgod]
  have hrun : (godmode_refresh g).player_dead = 0 := by rw [hg0]
  have hupd : update_player m dt inp g = player_sections m dt inp (godmode_refresh g) := by
    unfold update_player
    rw [if_neg (by simp [hrun])]
  have hen : update_enemies m dt g = { g with enemies := (update_enemies m dt g).enemies } := by
    unfold update_enemies
    simp only [update_enemies_from_godmode m dt g.enemies g hgod]
  refine ⟨?_, ?_, ?_, ?_, ?_, ?_, by rw [hen], by rw [hen], hen⟩ <;>
  · rw [hupd]
    unfold player_sections
    obtain ⟨p1, _, p3, p4, p5, _, _, _, _, _, p11, p12, _⟩ := same_combat_after_shooting m dt inp
      (player_shooting dt inp (player_movement m dt inp (player_mouse_look inp (godmode_refresh g))))
    rw [movement_eq_with_pos m dt inp (godmode_refresh g)] at p1 p3 p4 p5 p11 p12 ⊢
    obtain ⟨q1, q2, q3, q4, q5, q6⟩ := player_shooting_godmode dt inp
      (with_pos (godmode_refresh g)
        (player_movement m dt inp (player_mouse_look inp (godmode_refresh g))).angle
        (player_movement m dt inp (player_mouse_look inp (godmode_refresh g))).px
        (player_movement m dt inp (player_mouse_look inp (godmode_refresh g))).py)
      (by rw [hg0]; exact hgod)
    first
      | (rw [p11, q5, hg0]; rfl)
      | (rw [p12, q6, hg0]; rfl)
      | (rw [p1, q1, hg0]; exact Iff.rfl)
      | (rw [p3, q2, hg0]; rfl)
      | (rw [p4, q3, hg0]; rfl)
      | (rw [p5, q4, hg0]; rfl)

/-- C10 witness: godmode on, the player marked dead at hp 0, no bullets, a fresh left
click, and a final boss in melee range with its attack ready: `update_player` restores
hp 100 and fires without ammunition, and the boss then attacks without lowering hp. -/
theorem godmode_rules_witness :
    godmode_scene.godmode_enabled ≠ 0 ∧
      (update_player libm_ref (1 / 60) (input_of [] 1) godmode_scene).hp = 100 ∧
      (update_player libm_ref (1 / 60) (input_of [] 1) godmode_scene).shot_fired = 1 ∧
      (update_player libm_ref (1 / 60) (input_of [] 1) godmode_scene).ammo_bullets = 0 ∧
      (update_enemies libm_ref (1 / 60)
        (update_player libm_ref (1 / 60) (input_of [] 1) godmode_scene)).hp = 100 ∧
      (update_enemies libm_ref (1 / 60)
        (update_player libm_ref (1 / 60) (input_of [] 1) godmode_scene)).enemies.map
          (fun e => e.attack_timer) = [0.22] :=
  ⟨by decide, (godmode_rules libm_ref (1 / 60) (input_of [] 1) godmode_scene (by decide)).1,
    by decide!, by decide!, by decide!, by decide!⟩

/-! ## The dead player and dead enemies -/

/-- C11: when `player_dead` is set and godmode is off, `update_player` returns at
`if (player_dead) return;` and leaves every global as it was, for every `dt`, keyboard
snapshot and mouse input: position, angle, hp, the ammo pools, the current weapon, the
possession flags, the key and escaped flags, the cooldowns, the damage timer and the map
(and the enemies, the items and the edge-detection statics as well). -/
theorem update_player_dead_noop (m : Libm) (dt : ℚ) (inp : Input) (g : World)
    (hdead : g.player_dead ≠ 0) (hgod : g.godmode_enabled = 0) :
    update_player m dt inp g = g := by
  have h0 : godmode_refresh g = g := by
    unfold godmode_refresh
    rw [if_neg (by simp [hgod])]
  unfold update_player
  rw [h0, if_pos hdead]

/-- C11 witness: a dead player holding the shotgun with a running cooldown and damage
timer, with forward, weapon-2 and the mouse button pressed: nothing changes. -/
theorem update_player_dead_noop_witness :
    dead_player_scene.player_dead ≠ 0 ∧ dead_player_scene.godmode_enabled = 0 ∧
      update_player libm_ref 0.25 (input_of [26, 31] 1) dead_player_scene = dead_player_scene :=
  ⟨by decide, by decide,
    update_player_dead_noop libm_ref 0.25 (input_of [26, 31] 1) dead_player_scene (by decide) (by decide)⟩

theorem player_interaction_enemies (m : Libm) (inp : Input) (g : World) :
    (player_interaction m inp g).enemies = g.enemies := by
  unfold player_interaction
  simp only
  split
  · split
    · exact for_tiles_invariant (fun a => a.enemies = g.enemies) _ _ (interact_cell m)
        (fun a y2 x2 _ _ ha => (interact_cell_eq m a y2 x2).2.2.2.2.2.trans ha) g rfl
    · rfl
  · rfl

theorem player_damage_fx_enemies (dt : ℚ) (g : World) :
    (player_damage_fx dt g).enemies = g.enemies := by
  unfold player_damage_fx
  split
  · rfl
  · rfl

/-- The function `update_player` never writes to the enemies. -/
theorem update_player_enemies (m : Libm) (dt : ℚ) (inp : Input) (g : World) :
    (update_player m dt inp g).enemies = g.enemies := by
  have h0 : (godmode_refresh g).enemies = g.enemies := (godmode_refresh_scene g).1.2.2.2.2.2.1
  unfold update_player
  split
  · exact h0
  · have h1 := (before_interaction_scene m dt inp g).2.2.2.2.2.1
    have h2 := player_interaction_enemies m inp (before_interaction m dt inp g)
    have h3 := player_damage_fx_enemies dt (player_interaction m inp (before_interaction m dt inp g))
    exact h3.trans (h2.trans h1)

theorem item_effect_enemies (t : ItemType) (g : World) : (item_effect t g).enemies = g.enemies := by
  cases t <;> rfl

theorem update_items_from_enemies (m : Libm) (its : List Item) :
    ∀ g : World, (update_items_from m its g).2.enemies = g.enemies := by
  induction its with
  | nil => intro g; rfl
  | cons it rest ih =>
    intro g
    simp only [update_items_from]
    rw [ih]
    unfold update_item
    split
    · rfl
    · split
      · rfl
      · exact item_effect_enemies it.type g

/-- The function `update_items` never writes to the enemies. -/
theorem update_items_enemies (m : Libm) (g : World) : (update_items m g).enemies = g.enemies := by
  unfold update_items
  exact update_items_from_enemies m g.items g

/-- The loop of `update_enemies` skips an entry in state `ENEMY_DEAD`. -/
theorem update_enemies_from_dead (m : Libm) (dt : ℚ) (es : List Enemy) :
    ∀ (g : World) (i : Nat) (e : Enemy), es.get? i = some e → e.state = ENEMY_DEAD →
      (update_enemies_from m dt es g).1.get? i = some e := by
  induction es with
  | nil => intro g i e h; simp at h
  | cons e0 rest ih =>
    intro g i e h hd
    cases i with
    | zero =>
      simp only [List.get?_cons_zero, Option.some.injEq] at h
      subst h
      simp only [update_enemies_from, List.get?_cons_zero, Option.some.injEq]
      unfold update_enemy
      rw [if_pos hd]
    | succ k =>
      simp only [List.get?_cons_succ] at h
      simp only [update_enemies_from, List.get?_cons_succ]
      exact ih _ k e h hd

/-- The function `damage_enemy` leaves an entry in state `ENEMY_DEAD` as it is, whatever
the index and the damage. -/
theorem damage_enemy_dead (g : World) (i : Nat) (e : Enemy) (j dmg : Int)
    (hi : g.enemies.get? i = some e) (hd : e.state = ENEMY_DEAD) :
    (damage_enemy j dmg g).enemies.get? i = some e := by
  unfold damage_enemy
  split
  · exact hi
  · split
    · exact hi
    · split
      · exact hi
      · rename_i e2 he2
        split
        · exact hi
        · rename_i halive
          have hne : j.toNat ≠ i := by
            intro hji
            rw [hji, hi] at he2
            simp only [Option.some.injEq] at he2
            rw [← he2, hd] at halive
            simp at halive
          show (g.enemies.set j.toNat (damaged e2 dmg)).get? i = some e
          rw [List.get?_eq_getElem?, List.getElem?_set_ne hne, ← List.get?_eq_getElem?]
          exact hi

/-- The shot loop never ends with `best` at the index of an entry in state `ENEMY_DEAD`. -/
theorem shot_best_not_dead (m : Libm) (g : World) (i : Nat) (e : Enemy)
    (hi : g.enemies.get? i = some e) (hd : e.state = ENEMY_DEAD) : shot_best m g ≠ (i : Int) := by
  obtain ⟨_, _, s3⟩ := shot_scan_spec m g g.enemies 0 (-1, BEST_DIST_INIT)
  unfold shot_best
  rcases s3 with h3 | ⟨k, e2, hk, hc, hr, _⟩
  · rw [h3]
    simp only
    omega
  · rw [hr]
    simp only [zero_add]
    intro hki
    have hki2 : k = i := by exact_mod_cast hki
    rw [hki2, hi] at hk
    simp only [Option.some.injEq] at hk
    rw [← hk] at hc
    rw [hc.1] at hd
    simp at hd

/-- A PLAYING frame leaves an entry in state `ENEMY_DEAD` as it is. -/
theorem playing_updates_dead (m : Libm) (dt : ℚ) (inp : Input) (g : World) (i : Nat) (e : Enemy)
    (hi : g.enemies.get? i = some e) (hd : e.state = ENEMY_DEAD) :
    (playing_updates m dt inp g).enemies.get? i = some e := by
  unfold playing_updates
  have h1 : (update_enemies m dt (update_player m dt inp g)).enemies.get? i = some e := by
    unfold update_enemies
    simp only
    apply update_enemies_from_dead m dt _ _ i e _ hd
    rw [update_player_enemies]
    exact hi
  have h2 : (update_items m (update_enemies m dt (update_player m dt inp g))).enemies.get? i
      = some e := by
    rw [update_items_enemies]
    exact h1
  unfold shot_resolution
  split
  · split
    · exact damage_enemy_dead _ i e _ _ h2 hd
    · exact h2
  · exact h2

/-- C18: an enemy in state `ENEMY_DEAD` at index `i` is never changed.  `update_enemies`
(for every `dt`) and `damage_enemy` (for every index `j` and damage) leave the entry
as it is: position, state, hp, kind and the three timers.  The shot loop never ends with
`best = i`, and shot resolution leaves the entry as it is.  The body of the loop of
`draw_enemies` ends at its first `continue` and issues no `SDL_RenderCopy` for it.  So
the entry is the same after any number of PLAYING frames. -/
theorem dead_enemy_unchanged (m : Libm) (t : EnemyTextures) (g : World) (i : Nat) (e : Enemy)
    (hi : g.enemies.get? i = some e) (hd : e.state = ENEMY_DEAD) :
    (∀ dt : ℚ, (update_enemies m dt g).enemies.get? i = some e) ∧
      (∀ j dmg : Int, (damage_enemy j dmg g).enemies.get? i = some e) ∧
      shot_best m g ≠ (i : Int) ∧
      (shot_resolution m g).enemies.get? i = some e ∧
      draw_enemy m t g e = none ∧
      (∀ (dt : ℚ) (inp : Input) (n : Nat), (run_frames m dt inp n g).enemies.get? i = some e) := by
  refine ⟨?_, ?_, shot_best_not_dead m g i e hi hd, ?_, ?_, ?_⟩
  · intro dt
    unfold update_enemies
    exact update_enemies_from_dead m dt _ _ i e hi hd
  · intro j dmg
    exact damage_enemy_dead g i e j dmg hi hd
  · unfold shot_resolution
    split
    · split
      · exact damage_enemy_dead g i e _ _ hi hd
      · exact hi
    · exact hi
  · unfold draw_enemy
    rw [if_pos hd]
  · intro dt inp n
    induction n generalizing g with
    | zero => exact hi
    | succ k ih =>
      simp only [run_frames]
      exact ih (playing_updates m dt inp g) (playing_updates_dead m dt inp g i e hi hd)

/-- C18 witness: a dead enemy one tile ahead of a player who has just fired. -/
theorem dead_enemy_unchanged_witness :
    dead_enemy_scene.enemies.get? 0 = some
        { x := 2.5, y := 1.5, state := ENEMY_DEAD, kind := ENEMY_KIND1, hp := 0,
          touch_cooldown := 0, dying_timer := 0, attack_timer := 0 } ∧
      shot_best libm_ref dead_enemy_scene ≠ ((0 : Nat) : Int) ∧
      draw_enemies libm_ref { texEnemy1 := some 1 } dead_enemy_scene = [] :=
  ⟨rfl,
    (dead_enemy_unchanged libm_ref { texEnemy1 := some 1 } dead_enemy_scene 0
      { x := 2.5, y := 1.5, state := ENEMY_DEAD, kind := ENEMY_KIND1, hp := 0,
        touch_cooldown := 0, dying_timer := 0, attack_timer := 0 } rfl rfl).2.2.1,
    by decide!⟩

/-! ## The weapon invariant and the progression -/

theorem same_arsenal_refl (a : World) : same_arsenal a a := ⟨rfl, rfl, rfl, rfl, rfl⟩

theorem same_arsenal_trans (a b c : World) (h1 : same_arsenal a b) (h2 : same_arsenal b c) :
    same_arsenal a c :=
  ⟨h2.1.trans h1.1, h2.2.1.trans h1.2.1, h2.2.2.1.trans h1.2.2.1, h2.2.2.2.1.trans h1.2.2.2.1,
    h2.2.2.2.2.trans h1.2.2.2.2⟩

theorem same_progress_refl (a : World) : same_progress a a :=
  ⟨same_arsenal_refl a, rfl, rfl, rfl, rfl, rfl⟩

theorem same_progress_trans (a b c : World) (h1 : same_progress a b) (h2 : same_progress b c) :
    same_progress a c :=
  ⟨same_arsenal_trans a b c h1.1 h2.1, h2.2.1.trans h1.2.1, h2.2.2.1.trans h1.2.2.1,
    h2.2.2.2.1.trans h1.2.2.2.1, h2.2.2.2.2.1.trans h1.2.2.2.2.1, h2.2.2.2.2.2.trans h1.2.2.2.2.2⟩

theorem weapon_ok_congr (a b : World) (h : same_arsenal a b) (ha : weapon_ok a) : weapon_ok b := by
  obtain ⟨h1, h2, h3, h4, h5⟩ := h
  unfold weapon_ok at ha ⊢
  rw [h1, h2, h3, h4, h5]
  exact ha

theorem same_progress_setTile (g : World) (y x : Nat) (v : Int) : same_progress g (g.setTile y x v) := by
  unfold World.setTile
  cases g.worldmap
  · exact same_progress_refl g
  · exact ⟨⟨rfl, rfl, rfl, rfl, rfl⟩, rfl, rfl, rfl, rfl, rfl⟩

theorem same_progress_fill_row (y : Nat) (n : Nat) :
    ∀ (x : Nat) (p : List Char) (g : World), same_progress g (fill_row y n x p g) := by
  induction n with
  | zero => intro x p g; exact same_progress_refl g
  | succ k ih =>
    intro x p g
    simp only [fill_row]
    refine same_progress_trans _ _ _ ?_ (ih _ _ _)
    split
    · exact same_progress_trans _ _ _ (same_progress_setTile g y x _)
        (same_progress_trans _
          { g.setTile y x (parse_next_int p 2).2.1 with
            player_spawn_x := (x : ℚ) + 0.5, player_spawn_y := (y : ℚ) + 0.5 } _
          ⟨⟨rfl, rfl, rfl, rfl, rfl⟩, rfl, rfl, rfl, rfl, rfl⟩ (same_progress_setTile _ y x 0))
    · exact same_progress_setTile g y x _

theorem same_progress_third_pass (lines : List (List Char)) :
    ∀ (y : Nat) (g : World), same_progress g (third_pass lines y g).2 := by
  induction lines with
  | nil => intro y g; exact same_progress_refl g
  | cons line rest ih =>
    intro y g
    simp only [third_pass]
    split
    · split
      · exact ih y g
      · exact same_progress_trans _ _ _ (same_progress_fill_row y _ 0 _ g) (ih _ _)
    · exact same_progress_refl g

theorem same_progress_foldl {α : Type} (f : World → α → World)
    (hf : ∀ a x, same_progress a (f a x)) (l : List α) :
    ∀ g : World, same_progress g (l.foldl f g) := by
  induction l with
  | nil => intro g; exact same_progress_refl g
  | cons x rest ih =>
    intro g
    simp only [List.foldl_cons]
    exact same_progress_trans _ _ _ (hf g x) (ih _)

theorem same_progress_pad_rows (y : Nat) (g : World) : same_progress g (pad_rows y g) := by
  unfold pad_rows
  apply same_progress_foldl
  intro a r
  apply same_progress_foldl
  intro b x
  exact same_progress_setTile b r x 2

/-- The function `load_map` leaves the progression alone, whether it succeeds or fails. -/
theorem same_progress_load_map (files : Int → Option (List Char)) (level : Int) (g : World) :
    same_progress g (load_map files level g).1 := by
  unfold load_map
  split
  · exact ⟨⟨rfl, rfl, rfl, rfl, rfl⟩, rfl, rfl, rfl, rfl, rfl⟩
  · rename_i file _
    have h1 : same_progress g (load_dims (file_lines file) g) :=
      ⟨⟨rfl, rfl, rfl, rfl, rfl⟩, rfl, rfl, rfl, rfl, rfl⟩
    simp only
    split
    · exact h1
    · have h2 : same_progress (load_dims (file_lines file) g)
          (alloc_map (load_dims (file_lines file) g)) :=
        ⟨⟨rfl, rfl, rfl, rfl, rfl⟩, rfl, rfl, rfl, rfl, rfl⟩
      have h3 := same_progress_third_pass (file_lines file) 0 (alloc_map (load_dims (file_lines file) g))
      have h4 := same_progress_pad_rows (third_pass (file_lines file) 0
        (alloc_map (load_dims (file_lines file) g))).1 (third_pass (file_lines file) 0
        (alloc_map (load_dims (file_lines file) g))).2
      have h5 : same_progress g (load_rows (file_lines file) (load_dims (file_lines file) g)) :=
        same_progress_trans _ _ _ h1 (same_progress_trans _ _ _ h2 (same_progress_trans _ _ _ h3 h4))
      exact same_progress_trans _ _ _ h5 ⟨⟨rfl, rfl, rfl, rfl, rfl⟩, rfl, rfl, rfl, rfl, rfl⟩

theorem same_progress_load_map_or (files : Int → Option (List Char)) (level keep : Int) (g : World) :
    same_progress g (load_map_or files level keep g).2 := by
  have h0 : same_progress g (free_map g) := ⟨⟨rfl, rfl, rfl, rfl, rfl⟩, rfl, rfl, rfl, rfl, rfl⟩
  have h1 := same_progress_load_map files level (free_map g)
  unfold load_map_or
  split
  · exact same_progress_trans _ _ _ h0 (same_progress_trans _ _ _ h1 (same_progress_load_map files 1 _))
  · exact same_progress_trans _ _ _ h0 h1

theorem same_progress_init_enemies (g : World) : same_progress g (init_enemies g) := by
  have h0 : same_progress g { g with enemies := [] } := ⟨⟨rfl, rfl, rfl, rfl, rfl⟩, rfl, rfl, rfl, rfl, rfl⟩
  unfold init_enemies
  simp only
  split
  · exact h0
  · refine for_tiles_invariant (fun a => same_progress g a) _ _ init_enemies_cell ?_ _ h0
    intro a y x _ _ ha
    refine same_progress_trans _ _ _ ha ?_
    unfold init_enemies_cell
    split
    · split
      · exact same_progress_trans _ (push_enemy a _) _ ⟨⟨rfl, rfl, rfl, rfl, rfl⟩, rfl, rfl, rfl, rfl, rfl⟩
          (same_progress_setTile _ y x 0)
      · exact same_progress_refl a
    · exact same_progress_refl a

theorem same_progress_init_items (g : World) : same_progress g (init_items g) := by
  have h0 : same_progress g { g with items := [] } := ⟨⟨rfl, rfl, rfl, rfl, rfl⟩, rfl, rfl, rfl, rfl, rfl⟩
  unfold init_items
  simp only
  split
  · exact h0
  · refine for_tiles_invariant (fun a => same_progress g a) _ _ init_items_cell ?_ _ h0
    intro a y x _ _ ha
    refine same_progress_trans _ _ _ ha ?_
    unfold init_items_cell
    split
    · split
      · exact same_progress_trans _ (push_item a _) _ ⟨⟨rfl, rfl, rfl, rfl, rfl⟩, rfl, rfl, rfl, rfl, rfl⟩
          (same_progress_setTile _ y x 0)
      · exact same_progress_refl a
    · exact same_progress_refl a

/-- The function `init_player` makes the current weapon valid, from any globals. -/
theorem weapon_ok_init_player (g : World) : weapon_ok (init_player g) := by
  have h : init_player_weapon g = WEAPON_PISTOL ∨
      (init_player_weapon g = WEAPON_SHOTGUN ∧ g.hasShotgun ≠ 0) ∨
      (init_player_weapon g = WEAPON_SMG ∧ g.hasSMG ≠ 0) ∨
      (init_player_weapon g = WEAPON_PLASMA ∧ g.hasPlasma ≠ 0) ∨
      (init_player_weapon g = WEAPON_RRG ∧ g.hasRRG ≠ 0) := by
    unfold init_player_weapon
    cases hw : g.current_weapon <;> by_cases h1 : g.hasShotgun = 0 <;> by_cases h2 : g.hasSMG = 0 <;>
      by_cases h3 : g.hasPlasma = 0 <;> by_cases h4 : g.hasRRG = 0 <;> simp [h1, h2, h3, h4]
  exact h

/-- The function `init_player` keeps the possession flags, the sensitivity and godmode,
and keeps an ammo pool that is not negative. -/
theorem init_player_progress (g : World) :
    (init_player g).hasShotgun = g.hasShotgun ∧ (init_player g).hasSMG = g.hasSMG ∧
      (init_player g).hasPlasma = g.hasPlasma ∧ (init_player g).hasRRG = g.hasRRG ∧
      (init_player g).mouse_sensitivity = g.mouse_sensitivity ∧
      (init_player g).godmode_enabled = g.godmode_enabled ∧
      (init_player g).ammo_bullets = (if g.ammo_bullets < 0 then 0 else g.ammo_bullets) ∧
      (init_player g).ammo_shells = (if g.ammo_shells < 0 then 0 else g.ammo_shells) ∧
      (init_player g).ammo_energy = (if g.ammo_energy < 0 then 0 else g.ammo_energy) :=
  ⟨rfl, rfl, rfl, rfl, rfl, rfl, rfl, rfl, rfl⟩

theorem switched_weapon_ok (inp : Input) (g : World) (hg : weapon_ok g) :
    switched_weapon inp g = WEAPON_PISTOL ∨
      (switched_weapon inp g = WEAPON_SHOTGUN ∧ g.hasShotgun ≠ 0) ∨
      (switched_weapon inp g = WEAPON_SMG ∧ g.hasSMG ≠ 0) ∨
      (switched_weapon inp g = WEAPON_PLASMA ∧ g.hasPlasma ≠ 0) ∨
      (switched_weapon inp g = WEAPON_RRG ∧ g.hasRRG ≠ 0) := by
  unfold weapon_ok at hg
  unfold switched_weapon
  simp only
  by_cases c4 : key_int inp ACTION_WEAPON_5 ≠ 0 ∧ g.lastWep4 = 0 ∧ g.hasRRG ≠ 0
  · rw [if_pos c4]
    exact Or.inr (Or.inr (Or.inr (Or.inr ⟨rfl, c4.2.2⟩)))
  · rw [if_neg c4]
    by_cases c3 : key_int inp ACTION_WEAPON_4 ≠ 0 ∧ g.lastWep3 = 0 ∧ g.hasPlasma ≠ 0
    · rw [if_pos c3]
      exact Or.inr (Or.inr (Or.inr (Or.inl ⟨rfl, c3.2.2⟩)))
    · rw [if_neg c3]
      by_cases c2 : key_int inp ACTION_WEAPON_3 ≠ 0 ∧ g.lastWep2 = 0 ∧ g.hasSMG ≠ 0
      · rw [if_pos c2]
        exact Or.inr (Or.inr (Or.inl ⟨rfl, c2.2.2⟩))
      · rw [if_neg c2]
        by_cases c1 : key_int inp ACTION_WEAPON_2 ≠ 0 ∧ g.lastWep1 = 0 ∧ g.hasShotgun ≠ 0
        · rw [if_pos c1]
          exact Or.inr (Or.inl ⟨rfl, c1.2.2⟩)
        · rw [if_neg c1]
          by_cases c0 : key_int inp ACTION_WEAPON_1 ≠ 0 ∧ g.lastWep0 = 0
          · rw [if_pos c0]
            exact Or.inl rfl
          · rw [if_neg c0]
            exact hg

/-- The weapon-switch section when every weapon key pressed in this frame is one of the
keys 2..5 for a weapon not possessed: the current weapon is unchanged. -/
theorem switched_weapon_not_possessed (inp : Input) (g : World)
    (h : ∀ w, weapon_key_pressed inp g w → ¬ possessed g w) :
    switched_weapon inp g = g.current_weapon := by
  have c0 : ¬ (key_int inp ACTION_WEAPON_1 ≠ 0 ∧ g.lastWep0 = 0) :=
    fun hh => h WEAPON_PISTOL hh trivial
  have c1 : ¬ (key_int inp ACTION_WEAPON_2 ≠ 0 ∧ g.lastWep1 = 0 ∧ g.hasShotgun ≠ 0) :=
    fun hh => h WEAPON_SHOTGUN ⟨hh.1, hh.2.1⟩ hh.2.2
  have c2 : ¬ (key_int inp ACTION_WEAPON_3 ≠ 0 ∧ g.lastWep2 = 0 ∧ g.hasSMG ≠ 0) :=
    fun hh => h WEAPON_SMG ⟨hh.1, hh.2.1⟩ hh.2.2
  have c3 : ¬ (key_int inp ACTION_WEAPON_4 ≠ 0 ∧ g.lastWep3 = 0 ∧ g.hasPlasma ≠ 0) :=
    fun hh => h WEAPON_PLASMA ⟨hh.1, hh.2.1⟩ hh.2.2
  have c4 : ¬ (key_int inp ACTION_WEAPON_5 ≠ 0 ∧ g.lastWep4 = 0 ∧ g.hasRRG ≠ 0) :=
    fun hh => h WEAPON_RRG ⟨hh.1, hh.2.1⟩ hh.2.2
  unfold switched_weapon
  simp only
  rw [if_neg c4, if_neg c3, if_neg c2, if_neg c1, if_neg c0]

/-- The weapon-switch section on a press of key 1, when every other weapon key pressed
in this frame is for a weapon not possessed: the pistol is selected, whatever the
possession flags. -/
theorem switched_weapon_key1 (inp : Input) (g : World)
    (h1 : weapon_key_pressed inp g WEAPON_PISTOL)
    (h : ∀ w, w ≠ WEAPON_PISTOL → weapon_key_pressed inp g w → ¬ possessed g w) :
    switched_weapon inp g = WEAPON_PISTOL := by
  have c0 : key_int inp ACTION_WEAPON_1 ≠ 0 ∧ g.lastWep0 = 0 := h1
  have c1 : ¬ (key_int inp ACTION_WEAPON_2 ≠ 0 ∧ g.lastWep1 = 0 ∧ g.hasShotgun ≠ 0) :=
    fun hh => h WEAPON_SHOTGUN (by decide) ⟨hh.1, hh.2.1⟩ hh.2.2
  have c2 : ¬ (key_int inp ACTION_WEAPON_3 ≠ 0 ∧ g.lastWep2 = 0 ∧ g.hasSMG ≠ 0) :=
    fun hh => h WEAPON_SMG (by decide) ⟨hh.1, hh.2.1⟩ hh.2.2
  have c3 : ¬ (key_int inp ACTION_WEAPON_4 ≠ 0 ∧ g.lastWep3 = 0 ∧ g.hasPlasma ≠ 0) :=
    fun hh => h WEAPON_PLASMA (by decide) ⟨hh.1, hh.2.1⟩ hh.2.2
  have c4 : ¬ (key_int inp ACTION_WEAPON_5 ≠ 0 ∧ g.lastWep4 = 0 ∧ g.hasRRG ≠ 0) :=
    fun hh => h WEAPON_RRG (by decide) ⟨hh.1, hh.2.1⟩ hh.2.2
  unfold switched_weapon
  simp only
  rw [if_neg c4, if_neg c3, if_neg c2, if_neg c1, if_pos c0]

theorem same_arsenal_fire_weapon (g : World) : same_arsenal g (fire_weapon g) := by
  unfold fire_weapon set_weapon_cd weapon_consume_ammo
  cases hw : g.current_weapon <;> simp only <;> split <;> exact ⟨rfl, rfl, rfl, rfl, hw.symm ▸ rfl⟩

theorem same_arsenal_player_shooting (dt : ℚ) (inp : Input) (g : World) :
    same_arsenal g (player_shooting dt inp g) := by
  unfold player_shooting
  split
  · exact same_arsenal_fire_weapon (shooting_prepare dt g)
  · exact same_arsenal_refl g

theorem same_arsenal_interact_cell (m : Libm) (g : World) (y x : Nat) :
    same_arsenal g (interact_cell m g y x) := by
  have hs := (same_progress_setTile g y x 0).1
  unfold interact_cell
  simp only
  split
  · exact hs
  · split
    · split
      · exact same_arsenal_refl g
      · split
        · exact hs
        · exact same_arsenal_refl g
    · exact same_arsenal_refl g

theorem same_arsenal_player_interaction (m : Libm) (inp : Input) (g : World) :
    same_arsenal g (player_interaction m inp g) := by
  unfold player_interaction
  simp only
  split
  · split
    · exact for_tiles_invariant (fun a => same_arsenal g a) _ _ (interact_cell m)
        (fun a y2 x2 _ _ ha => same_arsenal_trans _ _ _ ha (same_arsenal_interact_cell m a y2 x2))
        g (same_arsenal_refl g)
    · exact same_arsenal_refl g
  · exact same_arsenal_refl g

theorem same_arsenal_player_damage_fx (dt : ℚ) (g : World) :
    same_arsenal g (player_damage_fx dt g) := by
  unfold player_damage_fx
  split
  · exact same_arsenal_refl g
  · exact same_arsenal_refl g

theorem weapon_ok_player_weapon_switch (inp : Input) (g : World) (hg : weapon_ok g) :
    weapon_ok (player_weapon_switch inp g) :=
  switched_weapon_ok inp g hg

/-- The function `update_player` keeps the current weapon valid. -/
theorem weapon_ok_update_player (m : Libm) (dt : ℚ) (inp : Input) (g : World) (hg : weapon_ok g) :
    weapon_ok (update_player m dt inp g) := by
  have h0 : same_arsenal g (godmode_refresh g) := by
    unfold godmode_refresh
    split
    · exact same_arsenal_refl g
    · exact same_arsenal_refl g
  unfold update_player
  split
  · exact weapon_ok_congr _ _ h0 hg
  · unfold player_sections
    have h1 : same_arsenal (godmode_refresh g)
        (player_movement m dt inp (player_mouse_look inp (godmode_refresh g))) := by
      rw [movement_eq_with_pos]
      exact same_arsenal_refl _
    have h2 := same_arsenal_player_shooting dt inp
      (player_movement m dt inp (player_mouse_look inp (godmode_refresh g)))
    have h3 := weapon_ok_player_weapon_switch inp _
      (weapon_ok_congr _ _ (same_arsenal_trans _ _ _ (same_arsenal_trans _ _ _ h0 h1) h2) hg)
    exact weapon_ok_congr _ _ (same_arsenal_player_damage_fx dt _)
      (weapon_ok_congr _ _ (same_arsenal_player_interaction m inp _) h3)

theorem weapon_ok_item_effect (t : ItemType) (g : World) (hg : weapon_ok g) :
    weapon_ok (item_effect t g) := by
  cases t
  · exact weapon_ok_congr g _ ⟨rfl, rfl, rfl, rfl, rfl⟩ hg
  · exact weapon_ok_congr g _ ⟨rfl, rfl, rfl, rfl, rfl⟩ hg
  · exact Or.inr (Or.inl ⟨rfl, one_ne_zero⟩)
  · exact Or.inr (Or.inr (Or.inl ⟨rfl, one_ne_zero⟩))
  · exact weapon_ok_congr g _ ⟨rfl, rfl, rfl, rfl, rfl⟩ hg
  · exact weapon_ok_congr g _ ⟨rfl, rfl, rfl, rfl, rfl⟩ hg
  · exact Or.inr (Or.inr (Or.inr (Or.inl ⟨rfl, one_ne_zero⟩)))
  · exact Or.inr (Or.inr (Or.inr (Or.inr ⟨rfl, one_ne_zero⟩)))

theorem weapon_ok_update_items_from (m : Libm) (its : List Item) :
    ∀ g : World, weapon_ok g → weapon_ok (update_items_from m its g).2 := by
  induction its with
  | nil => intro g hg; exact hg
  | cons it rest ih =>
    intro g hg
    simp only [update_items_from]
    apply ih
    unfold update_item
    split
    · exact hg
    · split
      · exact hg
      · exact weapon_ok_item_effect it.type g hg

/-- The function `update_items` keeps the current weapon valid. -/
theorem weapon_ok_update_items (m : Libm) (g : World) (hg : weapon_ok g) :
    weapon_ok (update_items m g) :=
  weapon_ok_update_items_from m g.items g hg

/-- The function `sanitize_weapon` returns the pistol or a weapon whose flag is set. -/
theorem sanitize_weapon_ok (w : Int) (g : World) :
    weapon_ok { g with current_weapon := sanitize_weapon w g } := by
  have h : sanitize_weapon w g = WEAPON_PISTOL ∨
      (sanitize_weapon w g = WEAPON_SHOTGUN ∧ g.hasShotgun ≠ 0) ∨
      (sanitize_weapon w g = WEAPON_SMG ∧ g.hasSMG ≠ 0) ∨
      (sanitize_weapon w g = WEAPON_PLASMA ∧ g.hasPlasma ≠ 0) ∨
      (sanitize_weapon w g = WEAPON_RRG ∧ g.hasRRG ≠ 0) := by
    unfold sanitize_weapon
    simp only
    cases hw : weapon_of_int (if (if w < 0 then 0 else w) > 4 then 0 else if w < 0 then 0 else w) <;>
      by_cases h1 : g.hasShotgun = 0 <;> by_cases h2 : g.hasSMG = 0 <;>
      by_cases h3 : g.hasPlasma = 0 <;> by_cases h4 : g.hasRRG = 0 <;> simp [h1, h2, h3, h4]
  exact h

/-- The function `init_player` leaves a valid current weapon as it is. -/
theorem init_player_weapon_of_ok (g : World) (hg : weapon_ok g) :
    init_player_weapon g = g.current_weapon := by
  unfold weapon_ok at hg
  unfold init_player_weapon
  rcases hg with h | ⟨h, hf⟩ | ⟨h, hf⟩ | ⟨h, hf⟩ | ⟨h, hf⟩
  · simp [h]
  · simp [h, hf]
  · simp [h, hf]
  · simp [h, hf]
  · simp [h, hf]

theorem same_arsenal_load_restore (sg : SaveGame) (g : World) :
    same_arsenal g (load_restore sg g) :=
  ⟨rfl, rfl, rfl, rfl, rfl⟩

theorem same_arsenal_show_message (msg : String) (g : World) :
    same_arsenal g (show_message msg g) :=
  ⟨rfl, rfl, rfl, rfl, rfl⟩

/-- The calls of `load_slot_and_enter` after `init_player` leave the arsenal alone. -/
theorem load_chain_arsenal (msg : String) (sg : SaveGame) (g : World) :
    same_arsenal (init_player g)
      (show_message msg (load_restore sg (init_items (init_enemies (init_player g))))) := by
  have h1 := (same_progress_init_enemies (init_player g)).1
  have h2 := (same_progress_init_items (init_enemies (init_player g))).1
  have h3 := same_arsenal_load_restore sg (init_items (init_enemies (init_player g)))
  have h4 := same_arsenal_show_message msg
    (load_restore sg (init_items (init_enemies (init_player g))))
  exact same_arsenal_trans _ _ _ (same_arsenal_trans _ _ _ (same_arsenal_trans _ _ _ h1 h2) h3) h4

/-- The globals after a successful `load_slot_and_enter`. -/
theorem load_slot_world (files : Int → Option (List Char)) (slot : Int) (s s2 : Game) (d : Disk)
    (h : load_slot_and_enter files slot s d = (s2, 0)) :
    ∃ msg : String, s2.world = show_message msg (load_restore (savegame_read slot d).1
      (init_items (init_enemies (init_player
        (load_map_or files
          (if (savegame_read slot d).1.level < 1 ∨ (savegame_read slot d).1.level > 9 then 1
            else (savegame_read slot d).1.level) 1
          { load_progress (savegame_read slot d).1 s.world with
            current_weapon := sanitize_weapon (savegame_read slot d).1.weapon
              (load_progress (savegame_read slot d).1 s.world) }).2)))) := by
  unfold load_slot_and_enter at h
  split at h
  · simp only [Prod.mk.injEq] at h
    omega
  · simp only [Prod.mk.injEq, and_true] at h
    rw [← h]
    exact ⟨_, rfl⟩

/-- C19 (as the code has it): the current weapon is always the pistol or a weapon whose
possession flag is set.  From globals `g` with this property, the weapon-switch section of `update_player`
and `update_player` as a whole keep it, and so does `update_items`.  In the weapon-switch
section, when every weapon key pressed in the frame is one of the keys 2..5 for a weapon
not possessed, the current weapon is unchanged; a press of key 1 selects the pistol,
whatever the possession flags, when no key of a possessed weapon is pressed with it.
From any globals `g0` and session `s`, the property holds after `init_player`, after
`begin_new_game` (for every start level and map files) and for the value returned by
`sanitize_weapon` (for every saved weapon value `w`); after a successful
`load_slot_and_enter` it holds and the current weapon is the one `sanitize_weapon`
returned for the saved value on the restored possession flags. -/
theorem weapon_invariant (m : Libm) (dt : ℚ) (inp : Input) (files : Int → Option (List Char))
    (g g0 : World) (s : Game) (d : Disk) (level slot w : Int) (hg : weapon_ok g) :
    weapon_ok (player_weapon_switch inp g) ∧ weapon_ok (update_player m dt inp g) ∧
      ((∀ k, weapon_key_pressed inp g k → ¬ possessed g k) →
        (player_weapon_switch inp g).current_weapon = g.current_weapon) ∧
      (weapon_key_pressed inp g WEAPON_PISTOL →
        (∀ k, k ≠ WEAPON_PISTOL → weapon_key_pressed inp g k → ¬ possessed g k) →
        (player_weapon_switch inp g).current_weapon = WEAPON_PISTOL) ∧
      weapon_ok (update_items m g) ∧
      weapon_ok (init_player g0) ∧
      weapon_ok (begin_new_game files level s).world ∧
      weapon_ok { g0 with current_weapon := sanitize_weapon w g0 } ∧
      (∀ s2, load_slot_and_enter files slot s d = (s2, 0) →
        weapon_ok s2.world ∧
          s2.world.current_weapon = sanitize_weapon (savegame_read slot d).1.weapon
            (load_progress (savegame_read slot d).1 s.world)) := by
  refine ⟨weapon_ok_player_weapon_switch inp g hg, weapon_ok_update_player m dt inp g hg,
    switched_weapon_not_possessed inp g, switched_weapon_key1 inp g,
    weapon_ok_update_items m g hg, weapon_ok_init_player g0, ?_, sanitize_weapon_ok w g0, ?_⟩
  · exact weapon_ok_congr _ _
      (same_arsenal_trans _ _ _ (same_progress_init_enemies _).1 (same_progress_init_items _).1)
      (weapon_ok_init_player _)
  · intro s2 h
    obtain ⟨msg, hw⟩ := load_slot_world files slot s s2 d h
    rw [hw]
    have hsan := sanitize_weapon_ok (savegame_read slot d).1.weapon
      (load_progress (savegame_read slot d).1 s.world)
    have hmap := (same_progress_load_map_or files
      (if (savegame_read slot d).1.level < 1 ∨ (savegame_read slot d).1.level > 9 then 1
        else (savegame_read slot d).1.level) 1
      { load_progress (savegame_read slot d).1 s.world with
        current_weapon := sanitize_weapon (savegame_read slot d).1.weapon
          (load_progress (savegame_read slot d).1 s.world) }).1
    have hok := weapon_ok_congr _ _ hmap hsan
    have hrest := load_chain_arsenal msg (savegame_read slot d).1
      (load_map_or files
        (if (savegame_read slot d).1.level < 1 ∨ (savegame_read slot d).1.level > 9 then 1
          else (savegame_read slot d).1.level) 1
        { load_progress (savegame_read slot d).1 s.world with
          current_weapon := sanitize_weapon (savegame_read slot d).1.weapon
            (load_progress (savegame_read slot d).1 s.world) }).2
    refine ⟨weapon_ok_congr _ _ hrest (weapon_ok_init_player _), ?_⟩
    rw [hrest.2.2.2.2]
    show init_player_weapon _ = _
    rw [init_player_weapon_of_ok _ hok]
    exact hmap.2.2.2.2

/-- C19 witness: the player holds the plasma gun and has the shotgun.  With key 3 (SMG,
not possessed) pressed the weapon stays the plasma gun; with key 1 alone pressed the
pistol is selected. -/
theorem weapon_invariant_witness :
    weapon_ok armed_player ∧ weapon_ok (player_weapon_switch (input_of [32] 0) armed_player) ∧
      (player_weapon_switch (input_of [32] 0) armed_player).current_weapon = WEAPON_PLASMA ∧
      weapon_key_pressed (input_of [30] 0) armed_player WEAPON_PISTOL ∧
      (player_weapon_switch (input_of [30] 0) armed_player).current_weapon = WEAPON_PISTOL :=
  ⟨by decide,
    (weapon_invariant libm_ref 0.25 (input_of [32] 0) one_room armed_player armed_player {} {} 1 1 4
      (by decide)).1,
    (weapon_invariant libm_ref 0.25 (input_of [32] 0) one_room armed_player armed_player {} {} 1 1 4
      (by decide)).2.2.1 (by intro k hk; cases k <;> simp [weapon_key_pressed, possessed, key_int, KEYDOWN, input_of, default_binds, armed_player] at hk ⊢),
    by simp [weapon_key_pressed, possessed, key_int, KEYDOWN, input_of, default_binds, armed_player],
    (weapon_invariant libm_ref 0.25 (input_of [30] 0) one_room armed_player armed_player {} {} 1 1 4
      (by decide)).2.2.2.1 (by simp [weapon_key_pressed, possessed, key_int, KEYDOWN, input_of, default_binds, armed_player])
      (by intro k hne hk; cases k <;> simp [weapon_key_pressed, possessed, key_int, KEYDOWN, input_of, default_binds, armed_player] at hne hk ⊢)⟩

/-- C19 counterexample: the player holds the plasma gun and has the shotgun; key 1 and
key 2 are pressed in the same frame.  The five tests of the weapon-switch section run in
order, so the pistol selected by key 1 is replaced by the shotgun: key 1 does not always
select the pistol. -/
theorem key1_with_key2_selects_shotgun :
    weapon_ok armed_player ∧
      weapon_key_pressed (input_of [30, 31] 0) armed_player WEAPON_PISTOL ∧
      (player_weapon_switch (input_of [30, 31] 0) armed_player).current_weapon = WEAPON_SHOTGUN ∧
      (update_player libm_ref 0.25 (input_of [30, 31] 0) armed_player).current_weapon
        = WEAPON_SHOTGUN ∧
      (player_weapon_switch (input_of [30, 31] 0) armed_player).current_weapon ≠ WEAPON_PISTOL := by
  refine ⟨by decide, by simp [weapon_key_pressed, possessed, key_int, KEYDOWN, input_of, default_binds, armed_player],
    by decide!, by decide!, by decide!⟩

/-- C20: loading the next level from the cutscene (any key but Escape: `free_map`,
`load_map` with its fall-back to level 1, `init_player`, `init_enemies`, `init_items` and
the resets that follow) leaves the four weapon possession flags, the mouse sensitivity
and godmode unchanged, leaves each ammo pool unchanged when it is not negative (a
negative pool becomes 0), sets hp to 100, clears `hasKey`, `escaped` and `player_dead`,
and enters PLAYING. -/
theorem next_level_keeps_progress (files : Int → Option (List Char)) (sc : Nat) (s : Game)
    (hsc : sc ≠ SDL_SCANCODE_ESCAPE) :
    (cutscene_key files sc s).world.hasShotgun = s.world.hasShotgun ∧
      (cutscene_key files sc s).world.hasSMG = s.world.hasSMG ∧
      (cutscene_key files sc s).world.hasPlasma = s.world.hasPlasma ∧
      (cutscene_key files sc s).world.hasRRG = s.world.hasRRG ∧
      (cutscene_key files sc s).world.ammo_bullets =
        (if s.world.ammo_bullets < 0 then 0 else s.world.ammo_bullets) ∧
      (cutscene_key files sc s).world.ammo_shells =
        (if s.world.ammo_shells < 0 then 0 else s.world.ammo_shells) ∧
      (cutscene_key files sc s).world.ammo_energy =
        (if s.world.ammo_energy < 0 then 0 else s.world.ammo_energy) ∧
      (cutscene_key files sc s).world.mouse_sensitivity = s.world.mouse_sensitivity ∧
      (cutscene_key files sc s).world.godmode_enabled = s.world.godmode_enabled ∧
      (cutscene_key files sc s).world.hp = 100 ∧
      (cutscene_key files sc s).world.hasKey = 0 ∧
      (cutscene_key files sc s).world.escaped = 0 ∧
      (cutscene_key files sc s).world.player_dead = 0 ∧
      (cutscene_key files sc s).state = STATE_PLAYING := by
  unfold cutscene_key
  rw [if_neg hsc]
  have hmap := same_progress_load_map_or files s.currentLevel 1 s.world
  have hp := init_player_progress (load_map_or files s.currentLevel 1 s.world).2
  have he := same_progress_init_enemies (init_player (load_map_or files s.currentLevel 1 s.world).2)
  have hi := same_progress_init_items
    (init_enemies (init_player (load_map_or files s.currentLevel 1 s.world).2))
  have h := same_progress_trans _ _ _ he hi
  obtain ⟨⟨a1, a2, a3, a4, _⟩, a6, a7, a8, a9, a10⟩ := h
  obtain ⟨⟨b1, b2, b3, b4, _⟩, b6, b7, b8, b9, b10⟩ := hmap
  obtain ⟨c1, c2, c3, c4, c5, c6, c7, c8, c9⟩ := hp
  refine ⟨?_, ?_, ?_, ?_, ?_, ?_, ?_, ?_, ?_, rfl, rfl, rfl, rfl, rfl⟩
  · exact a1.trans (c1.trans b1)
  · exact a2.trans (c2.trans b2)
  · exact a3.trans (c3.trans b3)
  · exact a4.trans (c4.trans b4)
  · exact a6.trans (c7.trans (by rw [b6]))
  · exact a7.trans (c8.trans (by rw [b7]))
  · exact a8.trans (c9.trans (by rw [b8]))
  · exact a9.trans (c5.trans b9)
  · exact a10.trans (c6.trans b10)

/-- C20 witness: the player finished level 1 with the shotgun and the plasma gun, 12 hp
and the key; the return key (scancode 40) is pressed in the cutscene. -/
theorem next_level_keeps_progress_witness :
    (40 : Nat) ≠ SDL_SCANCODE_ESCAPE ∧
      (cutscene_key one_room 40 { world := armed_player, state := STATE_CUTSCENE }).world.hp = 100 ∧
      (cutscene_key one_room 40 { world := armed_player, state := STATE_CUTSCENE }).world.hasKey = 0 ∧
      (cutscene_key one_room 40 { world := armed_player, state := STATE_CUTSCENE }).world.hasPlasma = 1 :=
  ⟨by decide,
    (next_level_keeps_progress one_room 40 { world := armed_player, state := STATE_CUTSCENE }
      (by decide)).2.2.2.2.2.2.2.2.2.1,
    (next_level_keeps_progress one_room 40 { world := armed_player, state := STATE_CUTSCENE }
      (by decide)).2.2.2.2.2.2.2.2.2.2.1,
    (next_level_keeps_progress one_room 40 { world := armed_player, state := STATE_CUTSCENE }
      (by decide)).2.2.1⟩

/-! ## Level completion and the progress save -/

/-- C14: the record that `save_progress_to_slot` hands to `savegame_write` has
`px = py = angle = 0`, `hp = 100`, `hasKey = 0`, `enemy_count = 0` and `item_count = 0`
(and no array entries), the save version 3, `level` equal to the current level, the three
ammo pools, the sensitivity and the weapon (as its number 0..4) equal to the player's
current values, and the four possession flags and godmode as 0/1, for every state of the
session; the function writes this record and no other to the slot. -/
theorem save_progress_record_spec (s : Game) (slot : Int) (d : Disk) :
    (save_progress_record s).px = 0 ∧ (save_progress_record s).py = 0 ∧
      (save_progress_record s).angle = 0 ∧ (save_progress_record s).hp = 100 ∧
      (save_progress_record s).hasKey = 0 ∧ (save_progress_record s).enemy_count = 0 ∧
      (save_progress_record s).item_count = 0 ∧
      (save_progress_record s).version = 3 ∧
      (save_progress_record s).level = s.currentLevel ∧
      (save_progress_record s).ammo_bullets = s.world.ammo_bullets ∧
      (save_progress_record s).ammo_shells = s.world.ammo_shells ∧
      (save_progress_record s).ammo_energy = s.world.ammo_energy ∧
      (save_progress_record s).weapon =
        (match s.world.current_weapon with
          | WEAPON_PISTOL => 0 | WEAPON_SHOTGUN => 1 | WEAPON_SMG => 2
          | WEAPON_PLASMA => 3 | WEAPON_RRG => 4) ∧
      (save_progress_record s).godmode = (if s.world.godmode_enabled ≠ 0 then 1 else 0) ∧
      (save_progress_record s).sensitivity = s.world.mouse_sensitivity ∧
      (save_progress_record s).hasShotgun = (if s.world.hasShotgun ≠ 0 then 1 else 0) ∧
      (save_progress_record s).hasSMG = (if s.world.hasSMG ≠ 0 then 1 else 0) ∧
      (save_progress_record s).hasPlasma = (if s.world.hasPlasma ≠ 0 then 1 else 0) ∧
      (save_progress_record s).hasRRG = (if s.world.hasRRG ≠ 0 then 1 else 0) ∧
      (save_progress_record s).enemy_x = [] ∧ (save_progress_record s).enemy_y = [] ∧
      (save_progress_record s).enemy_kind = [] ∧ (save_progress_record s).enemy_state = [] ∧
      (save_progress_record s).enemy_hp = [] ∧ (save_progress_record s).enemy_dying_timer = [] ∧
      (save_progress_record s).item_x = [] ∧ (save_progress_record s).item_y = [] ∧
      (save_progress_record s).item_type = [] ∧ (save_progress_record s).item_collected = [] ∧
      (save_progress_to_slot slot s d).1.2 = (savegame_write slot (save_progress_record s) d).1 ∧
      (save_progress_to_slot slot s d).2 = (savegame_write slot (save_progress_record s) d).2 := by
  have hw : (save_progress_record s).weapon =
      (match s.world.current_weapon with
        | WEAPON_PISTOL => 0 | WEAPON_SHOTGUN => 1 | WEAPON_SMG => 2
        | WEAPON_PLASMA => 3 | WEAPON_RRG => 4) := by
    show s.world.current_weapon.code = _
    cases s.world.current_weapon <;> rfl
  have hd : (save_progress_to_slot slot s d).1.2 = (savegame_write slot (save_progress_record s) d).1 ∧
      (save_progress_to_slot slot s d).2 = (savegame_write slot (save_progress_record s) d).2 := by
    unfold save_progress_to_slot
    by_cases h : (savegame_write slot (save_progress_record s) d).2 ≠ 0
    · rw [if_pos h]
      refine ⟨?_, ?_⟩
      · unfold savegame_write at h ⊢
        split
        · rfl
        · split
          · rfl
          · rename_i h1 h2
            rw [if_neg h1, if_neg h2] at h
            simp at h
      · unfold savegame_write at h ⊢
        split
        · rfl
        · split
          · rfl
          · rename_i h1 h2
            rw [if_neg h1, if_neg h2] at h
            simp at h
    · rw [if_neg h]
      exact ⟨rfl, (not_not.1 h).symm⟩
  have h0 : (0.0 : ℚ) = 0 := by norm_num
  exact ⟨h0, h0, h0, rfl, rfl, rfl, rfl, rfl, rfl, rfl, rfl, rfl, hw, rfl, rfl, rfl, rfl, rfl, rfl,
    rfl, rfl, rfl, rfl, rfl, rfl, rfl, rfl, rfl, rfl, hd.1, hd.2⟩

/-- The function `savegame_write` on a slot of 1..3 whose file can be written. -/
theorem savegame_write_ok (slot : Int) (g : SaveGame) (d : Disk) (h1 : 1 ≤ slot) (h3 : slot ≤ 3)
    (hw : d.writable slot = true) :
    savegame_write slot g d =
      ({ d with file := fun n => if n = slot then some (savegame_text g) else d.file n }, 0) := by
  have hc : clamp_slot slot = slot := by
    unfold clamp_slot
    rw [if_neg (by omega), if_neg (by omega)]
  unfold savegame_write
  rw [if_neg (by omega), hc, hw]
  simp

theorem save_progress_to_slot_session (slot : Int) (s : Game) (d : Disk) :
    (save_progress_to_slot slot s d).1.1.world = s.world ∧
      (save_progress_to_slot slot s d).1.1.currentLevel = s.currentLevel ∧
      (save_progress_to_slot slot s d).1.1.cutscene_index = s.cutscene_index ∧
      (save_progress_to_slot slot s d).1.1.state = s.state ∧
      (save_progress_to_slot s.active_slot s d).1.1.active_slot = s.active_slot := by
  unfold save_progress_to_slot
  refine ⟨?_, ?_, ?_, ?_, ?_⟩ <;> split <;> rfl

/-- C13: a frame in state PLAYING, with `w` the globals at the end of the frame's updates
(`update_player`, `update_enemies`, `update_items`, shot resolution).  If `escaped` is set
in `w` and the current level `L` is below 9, the session is in CUTSCENE with
`cutscene_index = L` and current level `L + 1`, `escaped` is 0 and nothing else of `w` has
changed, and the save directory is the one left by `save_progress_to_slot(active_slot)`
called with the level already `L + 1`: when the active slot is one of 1..3 and its file
can be written, that file holds the progress record of level `L + 1`.  If `escaped` is
set and `L = 9`, the session is in END, the level is still 9, `escaped` is 0 and nothing
is saved.  If `escaped` is not set, the state stays PLAYING, the level and the save
directory are unchanged. -/
theorem playing_frame_completion (m : Libm) (dt : ℚ) (inp : Input) (s : Game) (d : Disk)
    (hs : s.state = STATE_PLAYING) :
    ((playing_updates m dt inp s.world).escaped ≠ 0 ∧ s.currentLevel < 9 →
        (playing_frame m dt inp s d).1.state = STATE_CUTSCENE ∧
        (playing_frame m dt inp s d).1.cutscene_index = s.currentLevel ∧
        (playing_frame m dt inp s d).1.currentLevel = s.currentLevel + 1 ∧
        (playing_frame m dt inp s d).1.world = { playing_updates m dt inp s.world with escaped := 0 } ∧
        (playing_frame m dt inp s d).1.active_slot = s.active_slot ∧
        (playing_frame m dt inp s d).2 =
          (save_progress_to_slot s.active_slot
            { s with
              world := { playing_updates m dt inp s.world with escaped := 0 }
              cutscene_index := s.currentLevel
              currentLevel := s.currentLevel + 1 } d).1.2 ∧
        (1 ≤ s.active_slot ∧ s.active_slot ≤ 3 ∧ d.writable s.active_slot = true →
          (playing_frame m dt inp s d).2.file s.active_slot =
            some (savegame_text (save_progress_record
              { s with
                world := playing_updates m dt inp s.world
                currentLevel := s.currentLevel + 1 })))) ∧
      ((playing_updates m dt inp s.world).escaped ≠ 0 ∧ s.currentLevel = 9 →
        (playing_frame m dt inp s d).1.state = STATE_END ∧
        (playing_frame m dt inp s d).1.currentLevel = 9 ∧
        (playing_frame m dt inp s d).1.world = { playing_updates m dt inp s.world with escaped := 0 } ∧
        (playing_frame m dt inp s d).2 = d) ∧
      ((playing_updates m dt inp s.world).escaped = 0 →
        (playing_frame m dt inp s d).1.state = STATE_PLAYING ∧
        (playing_frame m dt inp s d).1.currentLevel = s.currentLevel ∧
        (playing_frame m dt inp s d).1.world = playing_updates m dt inp s.world ∧
        (playing_frame m dt inp s d).2 = d) := by
  unfold playing_frame
  rw [if_pos hs]
  refine ⟨?_, ?_, ?_⟩
  · rintro ⟨he, hl⟩
    unfold level_completion
    have he2 : ({ s with world := playing_updates m dt inp s.world } : Game).world.escaped ≠ 0 := he
    have hl2 : ({ s with world := playing_updates m dt inp s.world } : Game).currentLevel < 9 := hl
    rw [if_pos he2, if_pos hl2]
    have hq := save_progress_to_slot_session s.active_slot
      { s with
        world := { playing_updates m dt inp s.world with escaped := 0 }
        cutscene_index := s.currentLevel
        currentLevel := s.currentLevel + 1 } d
    refine ⟨rfl, hq.2.2.1, hq.2.1, hq.1, hq.2.2.2.2, rfl, ?_⟩
    rintro ⟨h1, h3, hw⟩
    show (save_progress_to_slot s.active_slot _ d).1.2.file s.active_slot = _
    rw [save_progress_to_slot, savegame_write_ok s.active_slot _ d h1 h3 hw]
    simp only [ne_eq, not_true_eq_false, if_false, if_true]
    rfl
  · rintro ⟨he, hl⟩
    unfold level_completion
    have he2 : ({ s with world := playing_updates m dt inp s.world } : Game).world.escaped ≠ 0 := he
    have hl2 : ¬ ({ s with world := playing_updates m dt inp s.world } : Game).currentLevel < 9 := by
      show ¬ s.currentLevel < 9
      omega
    rw [if_pos he2, if_neg hl2]
    exact ⟨rfl, hl, rfl, rfl⟩
  · intro he
    unfold level_completion
    have he2 : ¬ ({ s with world := playing_updates m dt inp s.world } : Game).world.escaped ≠ 0 := by
      show ¬ (playing_updates m dt inp s.world).escaped ≠ 0
      simp [he]
    rw [if_neg he2]
    exact ⟨hs, rfl, rfl, rfl⟩

/-- C13 witness (scenario 4 of the specification): on level 1 the player opens the exit
door with the key; the session enters CUTSCENE with index 1 and level 2, and slot 1 on
disk reports level 2, hp 100 and no enemies or items. -/
theorem playing_frame_completion_witness :
    at_exit_session.state = STATE_PLAYING ∧
      (playing_updates libm_ref 0.02 (input_of [8] 0) at_exit_session.world).escaped ≠ 0 ∧
      (playing_frame libm_ref 0.02 (input_of [8] 0) at_exit_session {}).1.state = STATE_CUTSCENE ∧
      (playing_frame libm_ref 0.02 (input_of [8] 0) at_exit_session {}).1.cutscene_index = 1 ∧
      (playing_frame libm_ref 0.02 (input_of [8] 0) at_exit_session {}).1.currentLevel = 2 ∧
      (savegame_read 1 (playing_frame libm_ref 0.02 (input_of [8] 0) at_exit_session {}).2).1.level = 2 ∧
      (savegame_read 1 (playing_frame libm_ref 0.02 (input_of [8] 0) at_exit_session {}).2).1.hp = 100 ∧
      (savegame_read 1 (playing_frame libm_ref 0.02 (input_of [8] 0) at_exit_session {}).2).1.enemy_count = 0 ∧
      (savegame_read 1 (playing_frame libm_ref 0.02 (input_of [8] 0) at_exit_session {}).2).1.item_count = 0 :=
  ⟨rfl, by decide!,
    ((playing_frame_completion libm_ref 0.02 (input_of [8] 0) at_exit_session {} rfl).1
      ⟨by decide!, by decide⟩).1,
    ((playing_frame_completion libm_ref 0.02 (input_of [8] 0) at_exit_session {} rfl).1
      ⟨by decide!, by decide⟩).2.1,
    ((playing_frame_completion libm_ref 0.02 (input_of [8] 0) at_exit_session {} rfl).1
      ⟨by decide!, by decide⟩).2.2.1,
    by decide!, by decide!, by decide!, by decide!⟩

/-! ## The cheat buffer -/

/-- The libc `strstr` finds the needle exactly when it occurs in the string. -/
theorem strstr_ne_none_iff (needle : List Char) :
    ∀ hay : List Char, strstr hay needle ≠ none ↔ needle <:+: hay := by
  intro hay
  induction hay with
  | nil =>
    unfold strstr
    by_cases h : needle = []
    · simp [h]
    · simp [h]
  | cons c hay ih =>
    unfold strstr
    rw [List.infix_cons_iff]
    by_cases h : needle.isPrefixOf (c :: hay) = true
    · rw [if_pos h]
      simp only [ne_eq, reduceCtorEq, not_false_eq_true, true_iff]
      exact Or.inl (List.isPrefixOf_iff_prefix.1 h)
    · rw [if_neg h, ih]
      constructor
      · exact Or.inr
      · rintro (h2 | h2)
        · exact absurd (List.isPrefixOf_iff_prefix.2 h2) h
        · exact h2

theorem c_string_mem (buf : List Char) : ∀ a ∈ c_string buf, a ≠ Char.ofNat 0 := by
  intro a ha
  unfold c_string at ha
  have := List.mem_takeWhile_imp ha
  simpa using this

theorem c_string_split (buf : List Char) (h : (c_string buf).length < buf.length) :
    ∃ rest, buf = c_string buf ++ Char.ofNat 0 :: rest := by
  have h1 : buf = c_string buf ++ buf.dropWhile (fun c => c ≠ Char.ofNat 0) := by
    unfold c_string
    exact (List.takeWhile_append_dropWhile _ buf).symm
  cases hd : buf.dropWhile (fun c => c ≠ Char.ofNat 0) with
  | nil =>
    rw [hd, List.append_nil] at h1
    rw [← h1] at h
    omega
  | cons a rest =>
    have ha := dropWhile_head_false _ buf a rest hd
    have ha2 : a = Char.ofNat 0 := by simpa using ha
    refine ⟨rest, ?_⟩
    rw [← ha2, ← hd]
    exact h1

theorem c_string_append (str rest : List Char) (h : ∀ a ∈ str, a ≠ Char.ofNat 0) :
    c_string (str ++ Char.ofNat 0 :: rest) = str := by
  unfold c_string
  rw [List.takeWhile_append_of_pos (by simpa using h)]
  simp
/-- The buffer after `cheat_store`: the C string held grows by the letter, after losing
its first character when 15 are already held. -/
theorem cheat_store_string (c : Char) (s : Game) (hc : c ≠ Char.ofNat 0)
    (hlen : s.cheat_buf.length = 16) (hn : s.cheat_len = ((c_string s.cheat_buf).length : Int))
    (h15 : (c_string s.cheat_buf).length ≤ 15) :
    (cheat_store c s).cheat_buf.length = 16 ∧
      c_string (cheat_store c s).cheat_buf =
        (if (c_string s.cheat_buf).length < 15 then c_string s.cheat_buf ++ [c]
          else (c_string s.cheat_buf).tail ++ [c]) ∧
      (cheat_store c s).cheat_len = ((c_string (cheat_store c s).cheat_buf).length : Int) ∧
      (cheat_store c s).world = s.world := by
  obtain ⟨rest, hb⟩ := c_string_split s.cheat_buf (by omega)
  have hmem := c_string_mem s.cheat_buf
  generalize hstr : c_string s.cheat_buf = str at *
  have hrest : rest.length + str.length = 15 := by
    have := congrArg List.length hb
    rw [hlen] at this
    simp at this
    omega
  unfold cheat_store
  by_cases hlt : str.length < 15
  · have h1 : s.cheat_len < 16 - 1 := by omega
    rw [if_pos h1, if_pos hlt]
    simp only
    have e1 : s.cheat_len.toNat = str.length := by omega
    have e2 : (s.cheat_len + 1).toNat = str.length + 1 := by omega
    rw [e1, e2]
    cases rest with
    | nil => simp at hrest; omega
    | cons r rest2 =>
      have hbuf : ((s.cheat_buf.set str.length c).set (str.length + 1) (Char.ofNat 0)) =
          (str ++ [c]) ++ Char.ofNat 0 :: rest2 := by
        rw [hb]
        simp
      rw [hbuf]
      have hm2 : ∀ a ∈ str ++ [c], a ≠ Char.ofNat 0 := by
        intro a ha
        rcases List.mem_append.1 ha with h | h
        · exact hmem a h
        · simp at h
          rw [h]
          exact hc
      rw [c_string_append _ _ hm2]
      refine ⟨?_, rfl, ?_, trivial⟩
      · simp at hrest ⊢
        omega
      · simp
        omega
  · have h1 : ¬ s.cheat_len < 16 - 1 := by omega
    rw [if_neg h1, if_neg hlt]
    simp only
    have hl : str.length = 15 := by omega
    have hr : rest = [] := by
      apply List.eq_nil_of_length_eq_zero
      omega
    cases str with
    | nil => simp at hl
    | cons a str2 =>
      have hl2 : str2.length = 14 := by simpa using hl
      have hbuf : (((s.cheat_buf.drop 1).take (16 - 2) ++ s.cheat_buf.drop (16 - 2)).set (16 - 2) c).set
          (16 - 1) (Char.ofNat 0) = (str2 ++ [c]) ++ Char.ofNat 0 :: [] := by
        rw [hb, hr]
        have d1 : (a :: str2 ++ [Char.ofNat 0]).drop 1 = str2 ++ [Char.ofNat 0] := rfl
        have d2 : (str2 ++ [Char.ofNat 0]).take (16 - 2) = str2 := by
          rw [List.take_append_of_le_length (by omega)]
          exact List.take_of_length_le (by omega)
        have d3 : ∃ x, (a :: str2 ++ [Char.ofNat 0]).drop (16 - 2) = [x, Char.ofNat 0] := by
          have : (a :: str2 ++ [Char.ofNat 0]).drop (16 - 2) = (a :: str2).drop 14 ++ [Char.ofNat 0] := by
            show ((a :: str2) ++ [Char.ofNat 0]).drop 14 = _
            rw [List.drop_append_of_le_length (by simp; omega)]
          rw [this]
          have hlen1 : ((a :: str2).drop 14).length = 1 := by simp; omega
          match hx : (a :: str2).drop 14, hlen1 with
          | [x], _ => exact ⟨x, rfl⟩
        obtain ⟨x, d3⟩ := d3
        rw [d1, d2, d3]
        have e1 : (str2 ++ [x, Char.ofNat 0]).set (16 - 2) c = str2 ++ [c, Char.ofNat 0] := by
          rw [List.set_append_right _ _ (by omega)]
          have : 16 - 2 - str2.length = 0 := by omega
          rw [this]
          rfl
        rw [e1]
        rw [List.set_append_right _ _ (by omega)]
        have : 16 - 1 - str2.length = 1 := by omega
        rw [this]
        simp
      rw [hbuf]
      have hm2 : ∀ b ∈ str2 ++ [c], b ≠ Char.ofNat 0 := by
        intro b hb2
        rcases List.mem_append.1 hb2 with h | h
        · exact hmem b (List.mem_cons_of_mem _ h)
        · simp at h
          rw [h]
          exact hc
      rw [c_string_append _ _ hm2]
      refine ⟨?_, rfl, trivial, trivial⟩
      simp
      omega
/-- The word `godmod` has no border: a string that ends with a proper non-empty prefix
of it does not end with the word itself. -/
theorem godmod_not_suffix (v : List Char) :
    ¬ "godmod".toList <:+ v ++ ['g'] ∧ ¬ "godmod".toList <:+ v ++ ['g', 'o'] ∧
      ¬ "godmod".toList <:+ v ++ ['g', 'o', 'd'] ∧ ¬ "godmod".toList <:+ v ++ ['g', 'o', 'd', 'm'] ∧
      ¬ "godmod".toList <:+ v ++ ['g', 'o', 'd', 'm', 'o'] := by
  refine ⟨?_, ?_, ?_, ?_, ?_⟩ <;>
  · rw [← List.reverse_prefix]
    simp [List.cons_prefix_cons]

/-- Appending a proper prefix of `godmod` to a string without the word gives a string
without the word. -/
theorem godmod_absent (v : List Char) (hv : ¬ "godmod".toList <:+: v) :
    ¬ "godmod".toList <:+: v ++ ['g'] ∧ ¬ "godmod".toList <:+: v ++ ['g', 'o'] ∧
      ¬ "godmod".toList <:+: v ++ ['g', 'o', 'd'] ∧ ¬ "godmod".toList <:+: v ++ ['g', 'o', 'd', 'm'] ∧
      ¬ "godmod".toList <:+: v ++ ['g', 'o', 'd', 'm', 'o'] := by
  obtain ⟨s1, s2, s3, s4, s5⟩ := godmod_not_suffix v
  have h1 : ¬ "godmod".toList <:+: v ++ ['g'] := by
    rw [List.infix_concat_iff]
    exact fun h => h.elim s1 hv
  have h2 : ¬ "godmod".toList <:+: v ++ ['g', 'o'] := by
    have e : v ++ ['g', 'o'] = (v ++ ['g']) ++ ['o'] := by simp
    rw [e, List.infix_concat_iff, ← e]
    exact fun h => h.elim s2 h1
  have h3 : ¬ "godmod".toList <:+: v ++ ['g', 'o', 'd'] := by
    have e : v ++ ['g', 'o', 'd'] = (v ++ ['g', 'o']) ++ ['d'] := by simp
    rw [e, List.infix_concat_iff, ← e]
    exact fun h => h.elim s3 h2
  have h4 : ¬ "godmod".toList <:+: v ++ ['g', 'o', 'd', 'm'] := by
    have e : v ++ ['g', 'o', 'd', 'm'] = (v ++ ['g', 'o', 'd']) ++ ['m'] := by simp
    rw [e, List.infix_concat_iff, ← e]
    exact fun h => h.elim s4 h3
  have h5 : ¬ "godmod".toList <:+: v ++ ['g', 'o', 'd', 'm', 'o'] := by
    have e : v ++ ['g', 'o', 'd', 'm', 'o'] = (v ++ ['g', 'o', 'd', 'm']) ++ ['o'] := by simp
    rw [e, List.infix_concat_iff, ← e]
    exact fun h => h.elim s5 h4
  exact ⟨h1, h2, h3, h4, h5⟩

theorem cheat_letter_ne_nul (c : Char) (h : ¬ (c < 'a' ∨ c > 'z')) : c ≠ Char.ofNat 0 := by
  intro hc
  apply h
  left
  rw [hc]
  decide

/-- The function `cheat_feed_char` on a well-formed buffer, for a character that is a
letter after the case fold: with `t` the string held after the store, the buffer is
cleared and godmode is on when `godmod` occurs in `t`, and otherwise the buffer holds
`t` and the other globals are unchanged.  The buffer stays well formed. -/
theorem cheat_feed_char_string (c : Char) (s : Game) (hs : cheat_inv s)
    (hc : ¬ (cheat_lower c < 'a' ∨ cheat_lower c > 'z')) :
    cheat_inv (cheat_feed_char c s) ∧
      ("godmod".toList <:+:
          (if (c_string s.cheat_buf).length < 15 then c_string s.cheat_buf ++ [cheat_lower c]
            else (c_string s.cheat_buf).tail ++ [cheat_lower c]) →
        (cheat_feed_char c s).world.godmode_enabled =
            (if s.world.godmode_enabled = 0 then 1 else s.world.godmode_enabled) ∧
          (cheat_feed_char c s).cheat_len = 0 ∧
          c_string (cheat_feed_char c s).cheat_buf = []) ∧
      (¬ "godmod".toList <:+:
          (if (c_string s.cheat_buf).length < 15 then c_string s.cheat_buf ++ [cheat_lower c]
            else (c_string s.cheat_buf).tail ++ [cheat_lower c]) →
        c_string (cheat_feed_char c s).cheat_buf =
            (if (c_string s.cheat_buf).length < 15 then c_string s.cheat_buf ++ [cheat_lower c]
              else (c_string s.cheat_buf).tail ++ [cheat_lower c]) ∧
          (cheat_feed_char c s).world = s.world) := by
  obtain ⟨hlen, hn, h15, hno⟩ := hs
  obtain ⟨a1, a2, a3, a4⟩ := cheat_store_string (cheat_lower c) s (cheat_letter_ne_nul _ hc) hlen hn h15
  generalize ht : (if (c_string s.cheat_buf).length < 15 then c_string s.cheat_buf ++ [cheat_lower c]
    else (c_string s.cheat_buf).tail ++ [cheat_lower c]) = t at *
  have htl : t.length ≤ 15 := by
    rw [← ht]
    split
    · simp; omega
    · simp; omega
  unfold cheat_feed_char
  rw [if_neg hc]
  by_cases hin : "godmod".toList <:+: t
  · have h6 : (cheat_store (cheat_lower c) s).cheat_len ≥ 6 := by
      rw [a3, a2]
      have := hin.length_le
      simp at this
      omega
    have hstr : strstr (c_string (cheat_store (cheat_lower c) s).cheat_buf) "godmod".toList ≠ none := by
      rw [strstr_ne_none_iff, a2]
      exact hin
    rw [if_pos h6, if_pos hstr]
    have hnil : c_string ((cheat_store (cheat_lower c) s).cheat_buf.set 0 (Char.ofNat 0)) = [] := by
      cases hb : (cheat_store (cheat_lower c) s).cheat_buf with
      | nil => rw [hb] at a1; simp at a1
      | cons b rest => simp [c_string]
    have hgod : (cheat_trigger (cheat_store (cheat_lower c) s)).world.godmode_enabled =
        (if s.world.godmode_enabled = 0 then 1 else s.world.godmode_enabled) := by
      unfold cheat_trigger
      simp only
      rw [a4]
      by_cases hg : s.world.godmode_enabled = 0
      · rw [if_pos hg, if_pos hg]
        rfl
      · rw [if_neg hg, if_neg hg]
    have hb2 : (cheat_trigger (cheat_store (cheat_lower c) s)).cheat_buf =
        (cheat_store (cheat_lower c) s).cheat_buf.set 0 (Char.ofNat 0) := rfl
    have hl2 : (cheat_trigger (cheat_store (cheat_lower c) s)).cheat_len = 0 := rfl
    refine ⟨⟨?_, ?_, ?_, ?_⟩, fun _ => ⟨hgod, hl2, by rw [hb2]; exact hnil⟩, fun h => absurd hin h⟩
    · rw [hb2, List.length_set]
      exact a1
    · rw [hl2, hb2, hnil]
      rfl
    · rw [hb2, hnil]
      simp
    · rw [hb2, hnil]
      intro h
      have := h.length_le
      simp at this
  · have hstr : ¬ strstr (c_string (cheat_store (cheat_lower c) s).cheat_buf) "godmod".toList ≠ none := by
      rw [strstr_ne_none_iff, a2]
      exact hin
    have hres : (if (cheat_store (cheat_lower c) s).cheat_len ≥ 6 then
          if strstr (c_string (cheat_store (cheat_lower c) s).cheat_buf) "godmod".toList ≠ none then
            cheat_trigger (cheat_store (cheat_lower c) s)
          else cheat_store (cheat_lower c) s
        else cheat_store (cheat_lower c) s) = cheat_store (cheat_lower c) s := by
      rw [if_neg hstr]
      simp
    rw [hres]
    refine ⟨⟨a1, a3, ?_, ?_⟩, fun h => absurd h hin, fun _ => ⟨a2, a4⟩⟩
    · rw [a2]
      exact htl
    · rw [a2]
      exact hin
theorem cheat_inv_feed (c : Char) (s : Game) (hs : cheat_inv s) : cheat_inv (cheat_feed_char c s) := by
  by_cases hc : cheat_lower c < 'a' ∨ cheat_lower c > 'z'
  · unfold cheat_feed_char
    rw [if_pos hc]
    exact hs
  · exact (cheat_feed_char_string c s hs hc).1

theorem c_string_set_zero (buf : List Char) (h : buf.length = 16) :
    c_string (buf.set 0 (Char.ofNat 0)) = [] := by
  cases buf with
  | nil => simp at h
  | cons b rest => simp [c_string]

/-- Every reachable state of the cheat buffer is well formed. -/
theorem cheat_reachable_inv (s : Game) (h : cheat_reachable s) : cheat_inv s := by
  induction h with
  | init s hb hl =>
    have hc : c_string s.cheat_buf = [] := by
      rw [hb]
      rfl
    refine ⟨by rw [hb]; rfl, by rw [hl, hc]; rfl, by rw [hc]; simp, ?_⟩
    rw [hc]
    intro h
    have := h.length_le
    simp at this
  | feed c s _ ih => exact cheat_inv_feed c s ih
  | reset s _ ih =>
    have hc := c_string_set_zero s.cheat_buf ih.1
    refine ⟨by simp only [List.length_set]; exact ih.1, ?_, ?_, ?_⟩
    · show (0 : Int) = _
      rw [hc]
      rfl
    · show (c_string (s.cheat_buf.set 0 (Char.ofNat 0))).length ≤ 15
      rw [hc]
      simp
    · show ¬ "godmod".toList <:+: c_string (s.cheat_buf.set 0 (Char.ofNat 0))
      rw [hc]
      intro h
      have := h.length_le
      simp at this
  | other s s2 hb hl _ ih =>
    unfold cheat_inv
    rw [hb, hl]
    exact ih

/-- The string after the store, when the string before is `v ++ p` with `p` of at most
five characters: the shift, if any, takes its character from `v`. -/
theorem shifted_string (v p : List Char) (lc : Char) (h15 : (v ++ p).length ≤ 15)
    (hp : p.length ≤ 5) (hv : ¬ "godmod".toList <:+: v) :
    ∃ v2, (if (v ++ p).length < 15 then v ++ p ++ [lc] else (v ++ p).tail ++ [lc]) =
        v2 ++ (p ++ [lc]) ∧ ¬ "godmod".toList <:+: v2 := by
  by_cases h : (v ++ p).length < 15
  · rw [if_pos h]
    exact ⟨v, by simp, hv⟩
  · rw [if_neg h]
    cases v with
    | nil =>
      simp at h
      omega
    | cons a v2 =>
      refine ⟨v2, by simp, ?_⟩
      intro hin
      exact hv (hin.trans (List.suffix_cons a v2).isInfix)

/-- One character of a proper prefix of `godmod` fed to a well-formed buffer that ends
with the prefix so far: no trigger, the buffer ends with the longer prefix. -/
theorem cheat_step (c lc : Char) (s : Game) (v p : List Char) (hs : cheat_inv s)
    (hstr : c_string s.cheat_buf = v ++ p) (hv : ¬ "godmod".toList <:+: v) (hp : p.length ≤ 5)
    (hlc : cheat_lower c = lc) (hletter : ¬ (lc < 'a' ∨ lc > 'z'))
    (hq : ∀ v2, ¬ "godmod".toList <:+: v2 → ¬ "godmod".toList <:+: v2 ++ (p ++ [lc])) :
    cheat_inv (cheat_feed_char c s) ∧
      (∃ v2, c_string (cheat_feed_char c s).cheat_buf = v2 ++ (p ++ [lc]) ∧
        ¬ "godmod".toList <:+: v2) ∧
      (cheat_feed_char c s).world = s.world := by
  have hf := cheat_feed_char_string c s hs (by rw [hlc]; exact hletter)
  rw [hlc, hstr] at hf
  obtain ⟨v2, e, hv2⟩ := shifted_string v p lc (by rw [← hstr]; exact hs.2.2.1) hp hv
  rw [e] at hf
  have h := hf.2.2 (hq v2 hv2)
  exact ⟨hf.1, ⟨v2, h.1, hv2⟩, h.2⟩

theorem cheat_lower_cases (c lo up : Char) (h : c = lo ∨ c = up) (h1 : cheat_lower lo = lo)
    (h2 : cheat_lower up = lo) : cheat_lower c = lo := by
  rcases h with h | h
  · rw [h, h1]
  · rw [h, h2]

/-- C12: from every state of the cheat buffer reachable through `cheat_feed_char` (with
`godmode_enabled` a flag, 0 or 1, as every assignment of the program leaves it), feeding
the six characters g, o, d, m, o, d in that order, each in either case, leaves
`godmode_enabled = 1`, `cheat_len = 0` and `cheat_buf` the empty string after the sixth
character. -/
theorem godmod_cheat (s : Game) (c1 c2 c3 c4 c5 c6 : Char) (hs : cheat_reachable s)
    (hflag : s.world.godmode_enabled = 0 ∨ s.world.godmode_enabled = 1)
    (h1 : c1 = 'g' ∨ c1 = 'G') (h2 : c2 = 'o' ∨ c2 = 'O') (h3 : c3 = 'd' ∨ c3 = 'D')
    (h4 : c4 = 'm' ∨ c4 = 'M') (h5 : c5 = 'o' ∨ c5 = 'O') (h6 : c6 = 'd' ∨ c6 = 'D') :
    (cheat_feed [c1, c2, c3, c4, c5, c6] s).world.godmode_enabled = 1 ∧
      (cheat_feed [c1, c2, c3, c4, c5, c6] s).cheat_len = 0 ∧
      c_string (cheat_feed [c1, c2, c3, c4, c5, c6] s).cheat_buf = [] := by
  have l1 := cheat_lower_cases c1 'g' 'G' h1 (by decide) (by decide)
  have l2 := cheat_lower_cases c2 'o' 'O' h2 (by decide) (by decide)
  have l3 := cheat_lower_cases c3 'd' 'D' h3 (by decide) (by decide)
  have l4 := cheat_lower_cases c4 'm' 'M' h4 (by decide) (by decide)
  have l5 := cheat_lower_cases c5 'o' 'O' h5 (by decide) (by decide)
  have l6 := cheat_lower_cases c6 'd' 'D' h6 (by decide) (by decide)
  have i0 := cheat_reachable_inv s hs
  obtain ⟨i1, ⟨v1, e1, n1⟩, w1⟩ := cheat_step c1 'g' s (c_string s.cheat_buf) [] i0 (by simp) i0.2.2.2
    (by simp) l1 (by decide) (fun v2 hv2 => (godmod_absent v2 hv2).1)
  obtain ⟨i2, ⟨v2, e2, n2⟩, w2⟩ := cheat_step c2 'o' _ v1 ['g'] i1 (by simpa using e1) n1
    (by simp) l2 (by decide) (fun v2 hv2 => (godmod_absent v2 hv2).2.1)
  obtain ⟨i3, ⟨v3, e3, n3⟩, w3⟩ := cheat_step c3 'd' _ v2 ['g', 'o'] i2 (by simpa using e2) n2
    (by simp) l3 (by decide) (fun v2 hv2 => (godmod_absent v2 hv2).2.2.1)
  obtain ⟨i4, ⟨v4, e4, n4⟩, w4⟩ := cheat_step c4 'm' _ v3 ['g', 'o', 'd'] i3 (by simpa using e3) n3
    (by simp) l4 (by decide) (fun v2 hv2 => (godmod_absent v2 hv2).2.2.2.1)
  obtain ⟨i5, ⟨v5, e5, n5⟩, w5⟩ := cheat_step c5 'o' _ v4 ['g', 'o', 'd', 'm'] i4 (by simpa using e4) n4
    (by simp) l5 (by decide) (fun v2 hv2 => (godmod_absent v2 hv2).2.2.2.2)
  have hf := cheat_feed_char_string c6
    (cheat_feed_char c5 (cheat_feed_char c4 (cheat_feed_char c3 (cheat_feed_char c2
      (cheat_feed_char c1 s))))) i5 (by rw [l6]; decide)
  have e5b : c_string (cheat_feed_char c5 (cheat_feed_char c4 (cheat_feed_char c3 (cheat_feed_char c2
      (cheat_feed_char c1 s))))).cheat_buf = v5 ++ ['g', 'o', 'd', 'm', 'o'] := by simpa using e5
  rw [l6, e5b] at hf
  obtain ⟨v6, e6, _⟩ := shifted_string v5 ['g', 'o', 'd', 'm', 'o'] 'd'
    (by rw [← e5b]; exact i5.2.2.1) (by simp) n5
  rw [e6] at hf
  have hin : "godmod".toList <:+: v6 ++ (['g', 'o', 'd', 'm', 'o'] ++ ['d']) :=
    ⟨v6, [], by simp⟩
  obtain ⟨g1, g2, g3⟩ := hf.2.1 hin
  have hw : (cheat_feed_char c5 (cheat_feed_char c4 (cheat_feed_char c3 (cheat_feed_char c2
      (cheat_feed_char c1 s))))).world = s.world := by
    rw [w5, w4, w3, w2, w1]
  rw [hw] at g1
  refine ⟨?_, g2, g3⟩
  show (cheat_feed_char c6 _).world.godmode_enabled = 1
  rw [g1]
  rcases hflag with h | h
  · rw [if_pos h]
  · rw [if_neg (by rw [h]; decide), h]

/-- C12 witness: `GodMod` typed into a buffer that already holds `go`. -/
theorem godmod_cheat_witness :
    cheat_reachable (cheat_feed ['g', 'o'] {}) ∧
      (cheat_feed ['G', 'o', 'd', 'M', 'o', 'd'] (cheat_feed ['g', 'o'] {})).world.godmode_enabled = 1 ∧
      (cheat_feed ['G', 'o', 'd', 'M', 'o', 'd'] (cheat_feed ['g', 'o'] {})).cheat_len = 0 ∧
      c_string (cheat_feed ['G', 'o', 'd', 'M', 'o', 'd'] (cheat_feed ['g', 'o'] {})).cheat_buf = [] :=
  ⟨cheat_reachable.feed 'o' _ (cheat_reachable.feed 'g' _ (cheat_reachable.init {} rfl rfl)),
    godmod_cheat (cheat_feed ['g', 'o'] {}) 'G' 'o' 'd' 'M' 'o' 'd'
      (cheat_reachable.feed 'o' _ (cheat_reachable.feed 'g' _ (cheat_reachable.init {} rfl rfl)))
      (Or.inl (by decide)) (Or.inr rfl) (Or.inl rfl) (Or.inl rfl) (Or.inr rfl) (Or.inl rfl) (Or.inl rfl)⟩

/-! ## The rows stored by `load_map` -/

theorem World.tile_setTile_inrange (w h : Int) (g : World) (hg : grid_wf w h g) (y x y2 x2 : Nat)
    (v : Int) (hy : y < h.toNat) (hx : x < w.toNat) :
    (g.setTile y x v).tile y2 x2 = if y2 = y ∧ x2 = x then v else g.tile y2 x2 := by
  obtain ⟨m, hm, hl, hr⟩ := hg
  have hy2 : y < m.length := by omega
  have hx2 : x < (m.getD y []).length := by
    rw [List.getD_eq_getElem _ _ hy2, hr _ (List.getElem_mem hy2)]
    exact hx
  simp only [World.setTile, World.tile, hm, tileAt_setTile]
  by_cases hc : y2 = y ∧ x2 = x
  · rw [if_pos ⟨hc.1, hc.2, hy2, hx2⟩, if_pos hc]
  · rw [if_neg (fun hh => hc ⟨hh.1, hh.2.1⟩), if_neg hc]

theorem grid_wf_congr (w h : Int) (g g2 : World) (h1 : g2.worldmap = g.worldmap)
    (hg : grid_wf w h g) : grid_wf w h g2 := by
  obtain ⟨m, hm, hl, hr⟩ := hg
  exact ⟨m, h1.trans hm, hl, hr⟩

/-- One iteration of the column loop of the third pass: the cell takes the stored value
of the token, every other cell is unchanged. -/
theorem fill_step_tile (w h : Int) (g : World) (hg : grid_wf w h g) (y x : Nat) (v : Int)
    (sx sy : ℚ) (hy : y < h.toNat) (hx : x < w.toNat) :
    grid_wf w h
        (if v = 8 then
          World.setTile { g.setTile y x v with player_spawn_x := sx, player_spawn_y := sy } y x 0
        else g.setTile y x v) ∧
      ∀ y2 x2,
        (if v = 8 then
          World.setTile { g.setTile y x v with player_spawn_x := sx, player_spawn_y := sy } y x 0
        else g.setTile y x v).tile y2 x2 =
          if y2 = y ∧ x2 = x then stored_tile v else g.tile y2 x2 := by
  unfold stored_tile
  by_cases h8 : v = 8
  · rw [if_pos h8, if_pos h8]
    have e : World.setTile { g.setTile y x v with player_spawn_x := sx, player_spawn_y := sy } y x 0
        = { g.setTile y x 0 with player_spawn_x := sx, player_spawn_y := sy } := by
      unfold World.setTile
      cases hm : g.worldmap with
      | none => simp [hm]
      | some m => simp [hm, setTile_setTile]
    rw [e]
    refine ⟨grid_wf_congr w h (g.setTile y x 0) _ rfl (grid_wf_setTile w h g y x 0 hg), ?_⟩
    intro y2 x2
    exact (World.tile_congr (g.setTile y x 0)
      { g.setTile y x 0 with player_spawn_x := sx, player_spawn_y := sy } rfl y2 x2).trans
      (World.tile_setTile_inrange w h g hg y x y2 x2 0 hy hx)
  · rw [if_neg h8, if_neg h8]
    exact ⟨grid_wf_setTile w h g y x v hg, fun y2 x2 =>
      World.tile_setTile_inrange w h g hg y x y2 x2 v hy hx⟩

theorem fill_row_dims (y : Nat) (n : Nat) :
    ∀ (x : Nat) (p : List Char) (g : World),
      (fill_row y n x p g).worldWidth = g.worldWidth ∧
        (fill_row y n x p g).worldHeight = g.worldHeight := by
  induction n with
  | zero => intro x p g; exact ⟨rfl, rfl⟩
  | succ k ih =>
    intro x p g
    simp only [fill_row]
    refine ⟨(ih _ _ _).1.trans ?_, (ih _ _ _).2.trans ?_⟩
    · split
      · exact (World.setTile_dims _ y x 0).1.trans (World.setTile_dims g y x _).1
      · exact (World.setTile_dims g y x _).1
    · split
      · exact (World.setTile_dims _ y x 0).2.trans (World.setTile_dims g y x _).2
      · exact (World.setTile_dims g y x _).2

/-- The column loop of the third pass on row `y` from column `x0`: the `n` cells from
`x0` on take the tiles of the row text, every other cell is unchanged. -/
theorem fill_row_tile (w h : Int) (y : Nat) (hy : y < h.toNat) (n : Nat) :
    ∀ (x0 : Nat) (p : List Char) (g : World), grid_wf w h g → x0 + n ≤ w.toNat →
      grid_wf w h (fill_row y n x0 p g) ∧
        ∀ y2 x2, (fill_row y n x0 p g).tile y2 x2 =
          if y2 = y ∧ x0 ≤ x2 ∧ x2 < x0 + n then (row_tiles n p).getD (x2 - x0) 0
          else g.tile y2 x2 := by
  induction n with
  | zero =>
    intro x0 p g hg _
    refine ⟨hg, fun y2 x2 => ?_⟩
    rw [if_neg (by omega)]
    rfl
  | succ k ih =>
    intro x0 p g hg hle
    simp only [fill_row]
    obtain ⟨s1, s2⟩ := fill_step_tile w h g hg y x0 (parse_next_int p 2).2.1
      ((x0 : ℚ) + 0.5) ((y : ℚ) + 0.5) hy (by omega)
    obtain ⟨r1, r2⟩ := ih (x0 + 1) (parse_next_int p 2).2.2 _ s1 (by omega)
    refine ⟨r1, fun y2 x2 => ?_⟩
    rw [r2 y2 x2, s2 y2 x2]
    simp only [row_tiles]
    by_cases hyy : y2 = y
    · by_cases hx0 : x2 = x0
      · rw [if_neg (by omega), if_pos ⟨hyy, hx0⟩, if_pos ⟨hyy, by omega, by omega⟩]
        have : x2 - x0 = 0 := by omega
        rw [this]
        rfl
      · by_cases hin : x0 + 1 ≤ x2 ∧ x2 < x0 + 1 + k
        · rw [if_pos ⟨hyy, hin.1, hin.2⟩, if_pos ⟨hyy, by omega, by omega⟩]
          have : x2 - x0 = (x2 - (x0 + 1)) + 1 := by omega
          rw [this]
          rfl
        · rw [if_neg (fun hh => hin ⟨hh.2.1, hh.2.2⟩), if_neg (fun hh => hx0 hh.2),
            if_neg (fun hh => hin ⟨by omega, by omega⟩)]
    · rw [if_neg (fun hh => hyy hh.1), if_neg (fun hh => hyy hh.1), if_neg (fun hh => hyy hh.1)]
theorem nonblank_lines_cons (line : List Char) (rest : List (List Char)) :
    nonblank_lines (line :: rest) =
      if is_blank line then nonblank_lines rest else line :: nonblank_lines rest := by
  unfold nonblank_lines
  by_cases h : is_blank line = true
  · simp [List.filter_cons, h]
  · simp [List.filter_cons, h]

/-- The second pass counts the non-blank lines. -/
theorem second_pass_eq (lines : List (List Char)) :
    second_pass lines = ((nonblank_lines lines).length : Int) := by
  have gen : ∀ (ls : List (List Char)) (acc : Int),
      ls.foldl (fun h line => if is_blank line then h else h + 1) acc =
        acc + ((nonblank_lines ls).length : Int) := by
    intro ls
    induction ls with
    | nil => intro acc; simp [nonblank_lines]
    | cons line rest ih =>
      intro acc
      simp only [List.foldl_cons, nonblank_lines_cons]
      rw [ih]
      by_cases h : is_blank line = true
      · simp [h]
      · simp [h]
        omega
  unfold second_pass
  rw [gen]
  simp

/-- The third pass from row `y0` on: row `y0 + k` takes the tiles of the `k`-th
non-blank line, for as long as rows are left; every other row is unchanged. -/
theorem third_pass_tile (w h : Int) (lines : List (List Char)) :
    ∀ (y0 : Nat) (g : World), grid_wf w h g → g.worldWidth = w → g.worldHeight = h →
      grid_wf w h (third_pass lines y0 g).2 ∧ (third_pass lines y0 g).2.worldWidth = w ∧
        (third_pass lines y0 g).2.worldHeight = h ∧
        (third_pass lines y0 g).1 =
          (if (y0 : Int) < h then min (y0 + (nonblank_lines lines).length) h.toNat else y0) ∧
        ∀ y2 x2, (third_pass lines y0 g).2.tile y2 x2 =
          if y0 ≤ y2 ∧ y2 < y0 + (nonblank_lines lines).length ∧ y2 < h.toNat ∧ x2 < w.toNat then
            (row_tiles w.toNat (((nonblank_lines lines).getD (y2 - y0) []).dropWhile is_ws)).getD x2 0
          else g.tile y2 x2 := by
  induction lines with
  | nil =>
    intro y0 g hg hw hh
    refine ⟨hg, hw, hh, ?_, fun y2 x2 => ?_⟩
    · simp only [third_pass, nonblank_lines, List.filter_nil, List.length_nil, Nat.add_zero]
      split
      · omega
      · rfl
    · rw [if_neg (by simp only [nonblank_lines, List.filter_nil, List.length_nil]; omega)]
      rfl
  | cons line rest ih =>
    intro y0 g hg hw hh
    simp only [third_pass, nonblank_lines_cons]
    by_cases hy : (y0 : Int) < g.worldHeight
    · have hy2 : (y0 : Int) < h := by rw [← hh]; exact hy
      rw [if_pos hy]
      by_cases hb : is_blank line = true
      · rw [if_pos hb, if_pos hb]
        have := ih y0 g hg hw hh
        rw [if_pos hy2] at this
        rw [if_pos hy2]
        exact this
      · rw [if_neg hb, if_neg hb]
        obtain ⟨f1, f2⟩ := fill_row_tile w h y0 (by omega) w.toNat 0 (line.dropWhile is_ws) g hg
          (by omega)
        have fd := fill_row_dims y0 w.toNat 0 (line.dropWhile is_ws) g
        rw [hw]
        obtain ⟨i1, i2, i3, i4, i5⟩ := ih (y0 + 1) _ f1 (fd.1.trans hw) (fd.2.trans hh)
        refine ⟨i1, i2, i3, ?_, fun y2 x2 => ?_⟩
        · rw [i4, if_pos hy2]
          simp only [List.length_cons]
          split
          · push_cast
            omega
          · push_cast at *
            omega
        · rw [i5 y2 x2, f2 y2 x2]
          simp only [List.length_cons]
          by_cases hc : y0 + 1 ≤ y2 ∧ y2 < y0 + 1 + (nonblank_lines rest).length ∧ y2 < h.toNat ∧
              x2 < w.toNat
          · rw [if_pos hc, if_pos ⟨by omega, by omega, hc.2.2.1, hc.2.2.2⟩]
            have : y2 - y0 = (y2 - (y0 + 1)) + 1 := by omega
            rw [this]
            rfl
          · rw [if_neg hc]
            by_cases hc2 : y2 = y0 ∧ 0 ≤ x2 ∧ x2 < 0 + w.toNat
            · rw [if_pos hc2, if_pos ⟨by omega, by omega, by omega, by omega⟩]
              have : y2 - y0 = 0 := by omega
              rw [this]
              simp
            · rw [if_neg hc2, if_neg (by omega)]
    · have hy2 : ¬ (y0 : Int) < h := by rw [← hh]; exact hy
      rw [if_neg hy, if_neg hy2]
      refine ⟨hg, hw, hh, rfl, fun y2 x2 => ?_⟩
      rw [if_neg (by omega)]

theorem pad_rows_none (g : World) (y : Nat) (hy : g.worldHeight.toNat ≤ y) : pad_rows y g = g := by
  unfold pad_rows
  have : (List.range g.worldHeight.toNat).filter (fun r => decide (y ≤ r)) = [] := by
    rw [List.filter_eq_nil_iff]
    intro r hr
    have := List.mem_range.1 hr
    simp
    omega
  rw [this]
  rfl
theorem grid_wf_alloc_map (g : World) : grid_wf g.worldWidth g.worldHeight (alloc_map g) := by
  refine ⟨_, rfl, by simp, ?_⟩
  intro row hrow
  rw [List.eq_of_mem_replicate hrow]
  simp

/-- A successful `load_map`: the width is that of the first pass, the height the number
of non-blank lines, the grid has that shape, and row `y` holds the tiles of the `y`-th
non-blank line. -/
theorem load_map_rows (files : Int → Option (List Char)) (level : Int) (g : World)
    (file : List Char) (hf : files (clamp_level level) = some file)
    (h : (load_map files level g).2 = 0) :
    (load_map files level g).1.worldWidth = first_pass (file_lines file) ∧
      (load_map files level g).1.worldHeight = ((nonblank_lines (file_lines file)).length : Int) ∧
      grid_wf (load_map files level g).1.worldWidth (load_map files level g).1.worldHeight
        (load_map files level g).1 ∧
      ∀ y x, y < (nonblank_lines (file_lines file)).length →
        x < (load_map files level g).1.worldWidth.toNat →
        (load_map files level g).1.tile y x =
          (row_tiles (load_map files level g).1.worldWidth.toNat
            (((nonblank_lines (file_lines file)).getD y []).dropWhile is_ws)).getD x 0 := by
  unfold load_map at h ⊢
  simp only [hf] at h ⊢
  by_cases hdim : (load_dims (file_lines file) g).worldWidth ≤ 0 ∨
      (load_dims (file_lines file) g).worldHeight ≤ 0
  · rw [if_pos hdim] at h
    simp at h
  · rw [if_neg hdim]
    have hdim2 := not_or.1 hdim
    have hw1 : (load_dims (file_lines file) g).worldWidth = first_pass (file_lines file) := rfl
    have hh1 : (load_dims (file_lines file) g).worldHeight =
        ((nonblank_lines (file_lines file)).length : Int) := second_pass_eq (file_lines file)
    obtain ⟨t1, t2, t3, t4, t5⟩ := third_pass_tile (load_dims (file_lines file) g).worldWidth
      (load_dims (file_lines file) g).worldHeight (file_lines file) 0
      (alloc_map (load_dims (file_lines file) g)) (grid_wf_alloc_map _) rfl rfl
    have hpad : load_rows (file_lines file) (load_dims (file_lines file) g) =
        (third_pass (file_lines file) 0 (alloc_map (load_dims (file_lines file) g))).2 := by
      unfold load_rows
      apply pad_rows_none
      rw [t3, t4, if_pos (by push_cast; omega)]
      rw [hh1]
      simp
    show (load_rows (file_lines file) (load_dims (file_lines file) g)).worldWidth = _ ∧
      (load_rows (file_lines file) (load_dims (file_lines file) g)).worldHeight = _ ∧
      grid_wf (load_rows (file_lines file) (load_dims (file_lines file) g)).worldWidth
        (load_rows (file_lines file) (load_dims (file_lines file) g)).worldHeight
        { load_rows (file_lines file) (load_dims (file_lines file) g) with
          map_current_level := clamp_level level } ∧
      ∀ y x, y < (nonblank_lines (file_lines file)).length →
        x < (load_rows (file_lines file) (load_dims (file_lines file) g)).worldWidth.toNat →
        World.tile { load_rows (file_lines file) (load_dims (file_lines file) g) with
          map_current_level := clamp_level level } y x =
          (row_tiles (load_rows (file_lines file) (load_dims (file_lines file) g)).worldWidth.toNat
            (((nonblank_lines (file_lines file)).getD y []).dropWhile is_ws)).getD x 0
    rw [hpad, t2, t3]
    refine ⟨hw1, hh1, grid_wf_congr _ _ _ _ rfl t1, fun y x hy hx =>
      Eq.trans (World.tile_congr
        (third_pass (file_lines file) 0 (alloc_map (load_dims (file_lines file) g))).2 _ rfl y x) ?_⟩
    rw [t5 y x, if_pos ⟨by omega, by omega, by rw [hh1]; simpa using hy, hx⟩]
    rfl
theorem row_tiles_exhausted (n : Nat) :
    ∀ p : List Char, p.dropWhile is_ws = [] → row_tiles n p = List.replicate n 2 := by
  induction n with
  | zero => intro p _; rfl
  | succ k ih =>
    intro p hp
    have e : parse_next_int p 2 = (0, 2, []) := by
      unfold parse_next_int
      simp only [hp, if_true]
    simp only [row_tiles, e, List.replicate_succ]
    rw [ih [] rfl]
    rfl

/-- The grid after a successful `load_map` of the file `file`: it has `worldHeight`
rows of exactly `worldWidth` tiles each, and every tile is an integer in `[0, 99]` other
than 8.  Row `y` holds the tiles of the `y`-th non-blank line, read with successive calls
of `parse_next_int`: a call at which `strtol` converts nothing yields wall (2), a number that is negative or exceeds 99 yields wall (2), a number in `[0, 99]` yields
itself, the positions left when the tokens have run out are wall (2), and a tile 8 is
stored as 0. -/
theorem load_map_tiles (files : Int → Option (List Char)) (level : Int) (g : World)
    (file : List Char) (hf : files (clamp_level level) = some file)
    (h : (load_map files level g).2 = 0) :
    (∃ m, (load_map files level g).1.worldmap = some m ∧
        m.length = (load_map files level g).1.worldHeight.toNat ∧
        ∀ row ∈ m, row.length = (load_map files level g).1.worldWidth.toNat) ∧
      (∀ y x, 0 ≤ (load_map files level g).1.tile y x ∧ (load_map files level g).1.tile y x ≤ 99 ∧
        (load_map files level g).1.tile y x ≠ 8) ∧
      (∀ y x, y < (nonblank_lines (file_lines file)).length →
        x < (load_map files level g).1.worldWidth.toNat →
        (load_map files level g).1.tile y x =
          (row_tiles (load_map files level g).1.worldWidth.toNat
            (((nonblank_lines (file_lines file)).getD y []).dropWhile is_ws)).getD x 0) ∧
      (∀ p, p.dropWhile is_ws ≠ [] → strtol (p.dropWhile is_ws) = none →
        (parse_next_int p 2).2.1 = 2) ∧
      (∀ p v e, p.dropWhile is_ws ≠ [] → strtol (p.dropWhile is_ws) = some (v, e) →
        (v < 0 ∨ v > 99) → (parse_next_int p 2).2.1 = 2) ∧
      (∀ p v e, p.dropWhile is_ws ≠ [] → strtol (p.dropWhile is_ws) = some (v, e) →
        0 ≤ v → v ≤ 99 → (parse_next_int p 2).2.1 = v) ∧
      (∀ n p, p.dropWhile is_ws = [] → row_tiles n p = List.replicate n 2) ∧
      stored_tile 8 = 0 ∧ (∀ v, v ≠ 8 → stored_tile v = v) := by
  obtain ⟨_, _, r3, r4⟩ := load_map_rows files level g file hf h
  have hl := (load_map_loaded files level g h).1
  refine ⟨r3, hl.2.2.2, r4, ?_, ?_, ?_, row_tiles_exhausted, rfl, ?_⟩
  · intro p hp hs
    unfold parse_next_int
    simp only [hp, if_false, hs]
  · intro p v e hp hs hv
    unfold parse_next_int
    simp only [hp, if_false, hs, if_pos hv]
  · intro p v e hp hs h0 h99
    unfold parse_next_int
    simp only [hp, if_false, hs]
    rw [if_neg (by omega)]
  · intro v hv
    unfold stored_tile
    rw [if_neg hv]

/-- An instance of `load_map_tiles`: a file with a word that is not a number, a blank
line, the spawn code, a negative number, a number above 99 and a short last row. -/
theorem load_map_tiles_witness :
    ragged_map (clamp_level 1) = some "1 x 5\n\n3 8 -1\n7 100".toList ∧
      (load_map ragged_map 1 {}).2 = 0 ∧
      (load_map ragged_map 1 {}).1.worldmap = some [[1, 2, 5], [3, 0, 2], [7, 2, 2]] ∧
      (0 ≤ (load_map ragged_map 1 {}).1.tile 1 1 ∧ (load_map ragged_map 1 {}).1.tile 1 1 ≤ 99 ∧
        (load_map ragged_map 1 {}).1.tile 1 1 ≠ 8) :=
  ⟨rfl, by decide!, by decide!,
    (load_map_tiles ragged_map 1 {} "1 x 5\n\n3 8 -1\n7 100".toList rfl (by decide!)).2.1 1 1⟩

/-! ## The dimensions computed by `load_map` -/

theorem count_cols_ge (fuel : Nat) :
    ∀ (scan : List Char) (cols : Int), cols ≤ count_cols fuel scan cols := by
  induction fuel with
  | zero => intro scan cols; exact le_refl _
  | succ k ih =>
    intro scan cols
    simp only [count_cols]
    split
    · exact le_trans (by omega) (ih _ (cols + 1))
    · exact le_refl _

/-- The first pass finds at least one column when the file has a non-blank line. -/
theorem first_pass_pos (lines : List (List Char)) (h : nonblank_lines lines ≠ []) :
    1 ≤ first_pass lines := by
  induction lines with
  | nil => exact absurd rfl h
  | cons line rest ih =>
    rw [nonblank_lines_cons] at h
    simp only [first_pass]
    by_cases hb : is_blank line = true
    · rw [if_pos hb] at h ⊢
      exact ih h
    · rw [if_neg hb]
      have hne : line.dropWhile is_ws ≠ [] := by
        intro hh
        apply hb
        unfold is_blank
        simp [hh]
      have h1 : (parse_next_int (line.dropWhile is_ws) 0).1 ≠ 0 := by
        unfold parse_next_int
        have hd : (line.dropWhile is_ws).dropWhile is_ws = line.dropWhile is_ws := by
          cases hl : line.dropWhile is_ws with
          | nil => exact absurd hl hne
          | cons c t =>
            have := dropWhile_head_false is_ws line c t hl
            simp [List.dropWhile_cons, this]
        simp only [hd, hne, if_false]
        split <;> simp
      simp only [count_cols]
      rw [if_pos h1]
      exact le_trans (by norm_num) (count_cols_ge _ _ _)

theorem text_lines_ne_nil (c : Char) (s : List Char) : text_lines (c :: s) ≠ [] := by
  simp only [text_lines]
  split
  · simp
  · split <;> simp

/-- The libc `fgets` delivers the first line of the text when the line fits the buffer. -/
theorem fgets_chars_line :
    ∀ (s : List Char) (n : Nat) (l : List Char) (ls : List (List Char)),
      text_lines s = l :: ls → l.length ≤ n →
      (fgets_chars n s).1 = l ∧ text_lines (fgets_chars n s).2 = ls := by
  intro s
  induction s with
  | nil => intro n l ls h; simp [text_lines] at h
  | cons c s ih =>
    intro n l ls h hn
    simp only [text_lines] at h
    by_cases hc : c = '\n'
    · rw [if_pos hc] at h
      simp only [List.cons.injEq] at h
      obtain ⟨h1, h2⟩ := h
      cases n with
      | zero => rw [← h1] at hn; simp at hn
      | succ k =>
        simp only [fgets_chars, if_pos hc]
        exact ⟨h1, h2⟩
    · rw [if_neg hc] at h
      cases n with
      | zero =>
        exfalso
        split at h
        · simp only [List.cons.injEq] at h
          rw [← h.1] at hn
          simp at hn
        · simp only [List.cons.injEq] at h
          rw [← h.1] at hn
          simp at hn
      | succ k =>
        simp only [fgets_chars, if_neg hc]
        cases hs : text_lines s with
        | nil =>
          rw [hs] at h
          simp only [List.cons.injEq] at h
          have hnil : s = [] := by
            cases s with
            | nil => rfl
            | cons a t => exact absurd hs (text_lines_ne_nil a t)
          subst hnil
          have e : fgets_chars k ([] : List Char) = ([], []) := by
            cases k <;> rfl
          rw [e]
          exact ⟨h.1, by rw [← h.2]; rfl⟩
        | cons l2 ls2 =>
          rw [hs] at h
          simp only [List.cons.injEq] at h
          have hl2 : l2.length ≤ k := by
            rw [← h.1] at hn
            simp at hn
            omega
          obtain ⟨i1, i2⟩ := ih k l2 ls2 hs hl2
          exact ⟨by rw [i1]; exact h.1, by rw [i2]; exact h.2⟩

theorem c_string_of_no_nul (l : List Char) (h : ∀ c ∈ l, c ≠ Char.ofNat 0) : c_string l = l := by
  unfold c_string
  rw [List.takeWhile_eq_self_iff]
  intro c hc
  simpa using h c hc

theorem fgets_chars_split (n : Nat) :
    ∀ s : List Char, (fgets_chars n s).1 ++ (fgets_chars n s).2 = s := by
  induction n with
  | zero => intro s; rfl
  | succ k ih =>
    intro s
    cases s with
    | nil => rfl
    | cons c t =>
      simp only [fgets_chars]
      split
      · rfl
      · simp [ih t]

/-- The buffers delivered by the `fgets` loop are the lines of the text when the text has
no NUL byte and every line, its newline included, has at most `size - 1` characters. -/
theorem fgets_lines_text (size : Nat) (fuel : Nat) :
    ∀ s : List Char, s.length ≤ fuel → (∀ c ∈ s, c ≠ Char.ofNat 0) →
      (∀ l ∈ text_lines s, l.length ≤ size - 1) → fgets_lines size fuel s = text_lines s := by
  induction fuel with
  | zero =>
    intro s hs _ _
    have : s = [] := List.length_eq_zero.1 (by omega)
    subst this
    rfl
  | succ k ih =>
    intro s hs hnul hlen
    simp only [fgets_lines]
    cases s with
    | nil => rfl
    | cons c t =>
      rw [if_neg (by simp)]
      cases htl : text_lines (c :: t) with
      | nil => exact absurd htl (text_lines_ne_nil c t)
      | cons l ls =>
        have hl : l.length ≤ size - 1 := hlen l (by rw [htl]; simp)
        obtain ⟨f1, f2⟩ := fgets_chars_line (c :: t) (size - 1) l ls htl hl
        have hsplit := fgets_chars_split (size - 1) (c :: t)
        have hlpos : 0 < l.length := by
          cases l with
          | nil =>
            exfalso
            simp only [text_lines] at htl
            split at htl
            · simp at htl
            · split at htl <;> simp at htl
          | cons a b => simp
        have hrest_len : (fgets_chars (size - 1) (c :: t)).2.length ≤ k := by
          have := congrArg List.length hsplit
          rw [List.length_append, f1] at this
          simp only [List.length_cons] at this hs
          omega
        have hmem : ∀ x ∈ (fgets_chars (size - 1) (c :: t)).2, x ∈ c :: t := by
          intro x hx
          rw [← hsplit]
          exact List.mem_append_right _ hx
        have hmem1 : ∀ x ∈ l, x ∈ c :: t := by
          intro x hx
          rw [← hsplit, f1]
          exact List.mem_append_left _ hx
        rw [ih _ hrest_len (fun x hx => hnul x (hmem x hx))
          (fun l2 hl2 => hlen l2 (by rw [htl, ← f2]; exact List.mem_cons_of_mem _ hl2))]
        rw [f1, f2, c_string_of_no_nul l (fun x hx => hnul x (hmem1 x hx))]
/-- C17 (amended): `load_map` returns -1 with `worldmap` NULL if the map file cannot be
opened, or if none of the buffers read by `fgets` (at most 2047 characters each, up to
the first NUL byte) has a character other than space, tab, carriage return and newline.
Otherwise it returns 0 with `worldWidth >= 1`, a map loaded, and `worldHeight` equal to
the number of such non-blank buffers.  For a file without NUL bytes in which every line,
its newline included, has at most 2047 characters, the buffers are the lines of the file,
so that `worldHeight` is the number of non-blank lines. -/
theorem load_map_result (files : Int → Option (List Char)) (level : Int) (g : World) :
    (files (clamp_level level) = none →
        (load_map files level g).2 = -1 ∧ (load_map files level g).1.worldmap = none) ∧
      (∀ file, files (clamp_level level) = some file →
        (nonblank_lines (file_lines file) = [] →
          (load_map files level g).2 = -1 ∧ (load_map files level g).1.worldmap = none) ∧
        (nonblank_lines (file_lines file) ≠ [] →
          (load_map files level g).2 = 0 ∧ (load_map files level g).1.worldWidth ≥ 1 ∧
            (load_map files level g).1.worldmap ≠ none ∧
            (load_map files level g).1.worldHeight =
              ((nonblank_lines (file_lines file)).length : Int)) ∧
        ((∀ c ∈ file, c ≠ Char.ofNat 0) → (∀ l ∈ text_lines file, l.length ≤ 2047) →
          file_lines file = text_lines file ∧
            (nonblank_lines (text_lines file) ≠ [] →
              (load_map files level g).2 = 0 ∧
                (load_map files level g).1.worldHeight =
                  ((nonblank_lines (text_lines file)).length : Int)))) := by
  have part3 : ∀ file, files (clamp_level level) = some file →
      nonblank_lines (file_lines file) ≠ [] →
        (load_map files level g).2 = 0 ∧ (load_map files level g).1.worldWidth ≥ 1 ∧
          (load_map files level g).1.worldmap ≠ none ∧
          (load_map files level g).1.worldHeight =
            ((nonblank_lines (file_lines file)).length : Int) := by
    intro file hf hnb
    have hw := first_pass_pos (file_lines file) hnb
    have hh := second_pass_eq (file_lines file)
    have hlen : 0 < (nonblank_lines (file_lines file)).length := List.length_pos.2 hnb
    have hret : (load_map files level g).2 = 0 := by
      unfold load_map
      simp only [hf]
      have hdim : ¬ ((load_dims (file_lines file) g).worldWidth ≤ 0 ∨
          (load_dims (file_lines file) g).worldHeight ≤ 0) := by
        show ¬ (first_pass (file_lines file) ≤ 0 ∨ second_pass (file_lines file) ≤ 0)
        rw [hh]
        omega
      rw [if_neg hdim]
    obtain ⟨r1, r2, r3, _⟩ := load_map_rows files level g file hf hret
    refine ⟨hret, by rw [r1]; exact hw, ?_, r2⟩
    obtain ⟨m, hm, _, _⟩ := r3
    rw [hm]
    simp
  refine ⟨?_, ?_⟩
  · intro hf
    unfold load_map
    rw [hf]
    exact ⟨rfl, rfl⟩
  · intro file hf
    refine ⟨?_, part3 file hf, ?_⟩
    · intro hnb
      have hh := second_pass_eq (file_lines file)
      rw [hnb] at hh
      unfold load_map
      simp only [hf]
      have hdim : (load_dims (file_lines file) g).worldWidth ≤ 0 ∨
          (load_dims (file_lines file) g).worldHeight ≤ 0 := by
        right
        show second_pass (file_lines file) ≤ 0
        rw [hh]
        simp
      rw [if_pos hdim]
      exact ⟨by simp, rfl⟩
    · intro hnul hlen
      have e : file_lines file = text_lines file :=
        fgets_lines_text 2048 file.length file (le_refl _) hnul hlen
      refine ⟨e, fun hnb => ?_⟩
      rw [← e] at hnb ⊢
      exact ⟨(part3 file hf hnb).1, (part3 file hf hnb).2.2.2⟩

/-- C17 witness: a file of four lines, one of them blank. -/
theorem load_map_result_witness :
    ragged_map (clamp_level 1) = some "1 x 5\n\n3 8 -1\n7 100".toList ∧
      nonblank_lines (file_lines "1 x 5\n\n3 8 -1\n7 100".toList) ≠ [] ∧
      (text_lines "1 x 5\n\n3 8 -1\n7 100".toList).length = 4 ∧
      ((load_map ragged_map 1 {}).2 = 0 ∧ (load_map ragged_map 1 {}).1.worldWidth ≥ 1 ∧
        (load_map ragged_map 1 {}).1.worldmap ≠ none ∧
        (load_map ragged_map 1 {}).1.worldHeight =
          ((nonblank_lines (file_lines "1 x 5\n\n3 8 -1\n7 100".toList)).length : Int)) ∧
      (load_map ragged_map 1 {}).1.worldHeight = 3 :=
  ⟨rfl, by decide, by decide,
    ((load_map_result ragged_map 1 {}).2 "1 x 5\n\n3 8 -1\n7 100".toList rfl).2.1 (by decide),
    by decide!⟩

/-- C17 counterexample: a file whose only line has 2049 characters, a tile, 2046 spaces,
a second tile and the newline.  The file has one non-blank line with two tokens; `fgets`
delivers it in two buffers, and `load_map` returns 0 with `worldHeight = 2` and
`worldWidth = 1`. -/
theorem long_line_two_rows :
    long_line_map (clamp_level 1) = some ('1' :: List.replicate 2046 ' ' ++ ['1', '\n']) ∧
      (text_lines ('1' :: List.replicate 2046 ' ' ++ ['1', '\n'])).length = 1 ∧
      (nonblank_lines (text_lines ('1' :: List.replicate 2046 ' ' ++ ['1', '\n']))).length = 1 ∧
      (load_map long_line_map 1 {}).2 = 0 ∧
      (load_map long_line_map 1 {}).1.worldHeight = 2 ∧
      (load_map long_line_map 1 {}).1.worldWidth = 1 ∧
      (load_map long_line_map 1 {}).1.worldmap = some [[1], [1]] := by
  decide!

/-! ## Printing and parsing numbers -/

theorem is_dec_facts (c : Char) (h : is_dec c) :
    c.isDigit = true ∧ isspace c = false ∧ is_ws c = false ∧ json_sep c = false ∧ c ≠ '-' ∧
      c ≠ '+' ∧ c ≠ Char.ofNat 34 ∧ c ≠ Char.ofNat 0 ∧ c ≠ ']' ∧ c ≠ '.' ∧ c ≠ ':' ∧ c ≠ '[' ∧
      ((c.toNat - 48 : Nat) : Int) = ((c.toNat : Int) - 48) ∧ 48 ≤ c.toNat ∧ c.toNat < 58 := by
  obtain ⟨k, hk, rfl⟩ := h
  interval_cases k <;> decide

theorem is_dec_ofNat (k : Nat) (hk : k < 10) : (Char.ofNat (48 + k)).toNat - 48 = k := by
  interval_cases k <;> rfl

theorem digits_value_append (ds : List Char) (c : Char) :
    digits_value (ds ++ [c]) = digits_value ds * 10 + ((c.toNat - 48 : Nat) : Int) := by
  unfold digits_value
  rw [List.foldl_append]
  rfl

/-- The digits produced by `dec_digits_aux`: they are decimal digits, their value is the
number, and they are at most `d` when the number is below `10 ^ d`. -/
theorem dec_digits_aux_spec (fuel : Nat) :
    ∀ (n : Nat) (acc : List Char), n < fuel →
      ∃ ds, dec_digits_aux fuel n acc = ds ++ acc ∧ ds ≠ [] ∧ (∀ c ∈ ds, is_dec c) ∧
        digits_value ds = (n : Int) ∧ ∀ d, 1 ≤ d → n < 10 ^ d → ds.length ≤ d := by
  induction fuel with
  | zero => intro n acc h; omega
  | succ k ih =>
    intro n acc hn
    simp only [dec_digits_aux]
    have hmod : n % 10 < 10 := Nat.mod_lt _ (by norm_num)
    by_cases h0 : n / 10 = 0
    · rw [if_pos h0]
      have hlt : n < 10 := by omega
      refine ⟨[Char.ofNat (48 + n % 10)], rfl, by simp, ?_, ?_, ?_⟩
      · intro c hc
        simp only [List.mem_singleton] at hc
        exact ⟨n % 10, hmod, hc⟩
      · unfold digits_value
        simp only [List.foldl_cons, List.foldl_nil, zero_mul, zero_add]
        rw [is_dec_ofNat _ hmod]
        have : n % 10 = n := Nat.mod_eq_of_lt hlt
        rw [this]
      · intro d hd _
        simpa using hd
    · rw [if_neg h0]
      obtain ⟨ds, e, _, hdig, hval, hlen⟩ := ih (n / 10) (Char.ofNat (48 + n % 10) :: acc) (by omega)
      refine ⟨ds ++ [Char.ofNat (48 + n % 10)], by rw [e]; simp, by simp, ?_, ?_, ?_⟩
      · intro c hc
        rcases List.mem_append.1 hc with h | h
        · exact hdig c h
        · simp only [List.mem_singleton] at h
          exact ⟨n % 10, hmod, h⟩
      · rw [digits_value_append, hval, is_dec_ofNat _ hmod]
        have := Nat.div_add_mod n 10
        push_cast
        omega
      · intro d hd hnd
        have hd2 : 2 ≤ d := by
          by_contra hc
          have : d = 1 := by omega
          subst this
          simp at hnd
          omega
        have : n / 10 < 10 ^ (d - 1) := by
          rw [Nat.div_lt_iff_lt_mul (by norm_num)]
          have : 10 ^ (d - 1) * 10 = 10 ^ d := by
            rw [← pow_succ]
            congr 1
            omega
          omega
        have := hlen (d - 1) (by omega) this
        simp only [List.length_append, List.length_singleton]
        omega

theorem dec_digits_spec (n : Nat) :
    dec_digits n ≠ [] ∧ (∀ c ∈ dec_digits n, is_dec c) ∧ digits_value (dec_digits n) = (n : Int) ∧
      ∀ d, 1 ≤ d → n < 10 ^ d → (dec_digits n).length ≤ d := by
  obtain ⟨ds, e, h1, h2, h3, h4⟩ := dec_digits_aux_spec (n + 1) n [] (by omega)
  unfold dec_digits
  rw [e, List.append_nil]
  exact ⟨h1, h2, h3, h4⟩

theorem takeWhile_digits (ds : List Char) (c : Char) (rest : List Char)
    (hds : ∀ a ∈ ds, is_dec a) (hc : c.isDigit = false) :
    (ds ++ c :: rest).takeWhile Char.isDigit = ds ∧ (ds ++ c :: rest).dropWhile Char.isDigit = c :: rest := by
  induction ds with
  | nil => simp [List.takeWhile_cons, List.dropWhile_cons, hc]
  | cons a t ih =>
    have ha := (is_dec_facts a (hds a (by simp))).1
    have := ih (fun b hb => hds b (List.mem_cons_of_mem _ hb))
    simp [List.takeWhile_cons, List.dropWhile_cons, ha, this.1, this.2]

/-- The libc `strtol` reads back what `%d` printed, up to the next character when that is
not a digit. -/
theorem strtol_fmt_d (n : Int) (c : Char) (rest : List Char) (hc : c.isDigit = false) :
    strtol (fmt_d n ++ c :: rest) = some (n, c :: rest) := by
  obtain ⟨h1, h2, h3, _⟩ := dec_digits_spec n.natAbs
  cases hd : dec_digits n.natAbs with
  | nil => exact absurd hd h1
  | cons d0 ds =>
    have hd0 := is_dec_facts d0 (h2 d0 (by rw [hd]; simp))
    have htw := takeWhile_digits (dec_digits n.natAbs) c rest h2 hc
    rw [hd] at htw h3
    unfold fmt_d strtol
    by_cases hn : n < 0
    · rw [if_pos hn, hd]
      have e1 : (['-'] ++ d0 :: ds ++ c :: rest).dropWhile isspace = '-' :: (d0 :: ds ++ c :: rest) := by
        simp [List.dropWhile_cons, isspace, is_ws]
      have e2 : skip_sign ('-' :: (d0 :: ds ++ c :: rest)) = d0 :: ds ++ c :: rest := by
        simp [skip_sign]
      rw [e1, e2, htw.1, htw.2]
      simp only [reduceCtorEq, if_false, List.head?_cons, if_true, Option.some.injEq, Prod.mk.injEq,
        and_true]
      rw [h3]
      omega
    · rw [if_neg hn, hd]
      have e1 : ([] ++ d0 :: ds ++ c :: rest).dropWhile isspace = d0 :: ds ++ c :: rest := by
        simp [List.dropWhile_cons, hd0.2.1]
      have e2 : skip_sign (d0 :: ds ++ c :: rest) = d0 :: ds ++ c :: rest := by
        unfold skip_sign
        rw [if_neg]
        simp only [List.cons_append, List.head?_cons, Option.some.injEq, not_or]
        exact ⟨hd0.2.2.2.2.1, hd0.2.2.2.2.2.1⟩
      rw [e1, e2, htw.1, htw.2]
      have e3 : ¬ ((d0 :: ds ++ c :: rest).head? = some '-') := by
        simp only [List.cons_append, List.head?_cons, Option.some.injEq]
        exact hd0.2.2.2.2.1
      simp only [reduceCtorEq, if_false, e3, Option.some.injEq, Prod.mk.injEq, and_true]
      rw [h3]
      omega
theorem digits_value_zeros (m : Nat) (ds : List Char) :
    digits_value (List.replicate m '0' ++ ds) = digits_value ds := by
  induction m with
  | zero => rfl
  | succ k ih =>
    unfold digits_value at ih ⊢
    rw [List.replicate_succ, List.cons_append, List.foldl_cons]
    exact ih

theorem pad6_spec (k : Nat) (hk : k < 1000000) :
    (pad6 k).length = 6 ∧ (∀ c ∈ pad6 k, is_dec c) ∧ digits_value (pad6 k) = (k : Int) := by
  obtain ⟨_, h2, h3, h4⟩ := dec_digits_spec k
  have hl := h4 6 (by norm_num) (by norm_num; exact hk)
  unfold pad6
  refine ⟨by simp; omega, ?_, by rw [digits_value_zeros]; exact h3⟩
  intro c hc
  rcases List.mem_append.1 hc with h | h
  · rw [List.eq_of_mem_replicate h]
    exact ⟨0, by norm_num, rfl⟩
  · exact h2 c h

theorem round_half_even_spec (x : ℚ) (hx : 0 ≤ x) :
    0 ≤ round_half_even x ∧ |(round_half_even x : ℚ) - x| ≤ 1 / 2 := by
  have h1 : (⌊x⌋ : ℚ) ≤ x := Int.floor_le x
  have h2 : x < ⌊x⌋ + 1 := Int.lt_floor_add_one x
  have h3 : 0 ≤ ⌊x⌋ := Int.floor_nonneg.2 hx
  unfold round_half_even
  split
  · refine ⟨h3, ?_⟩
    rw [abs_le]
    constructor <;> linarith
  · split
    · refine ⟨by omega, ?_⟩
      push_cast
      rw [abs_le]
      constructor <;> linarith
    · split
      · refine ⟨h3, ?_⟩
        rw [abs_le]
        constructor <;> linarith
      · refine ⟨by omega, ?_⟩
        push_cast
        rw [abs_le]
        constructor <;> linarith

/-- A value rounded to six decimals is within half a millionth of the value. -/
theorem round6_close (q : ℚ) : |round6 q - q| ≤ 1 / 2000000 := by
  obtain ⟨h0, h1⟩ := round_half_even_spec (|q| * 1000000) (by positivity)
  have hN : (((round_half_even (|q| * 1000000)).toNat : Int) : ℚ) =
      (round_half_even (|q| * 1000000) : ℚ) := by
    rw [Int.toNat_of_nonneg h0]
  have hN2 : ((round_half_even (|q| * 1000000)).toNat : ℚ) =
      (round_half_even (|q| * 1000000) : ℚ) := by
    rw [← hN]
    norm_cast
  unfold round6
  rw [hN2]
  rw [abs_le] at h1 ⊢
  generalize (round_half_even (|q| * 1000000) : ℚ) = r at h1 ⊢
  by_cases hq : q < 0
  · rw [if_pos hq]
    have : |q| = -q := abs_of_neg hq
    rw [this] at h1
    constructor <;> linarith
  · rw [if_neg hq]
    have : |q| = q := abs_of_nonneg (not_lt.1 hq)
    rw [this] at h1
    constructor <;> linarith

/-- The libc `strtof` reads back what `%.6f` printed, up to the next character when that
is neither a digit nor an exponent mark: the value rounded to six decimals. -/
theorem strtof_fmt_f6 (q : ℚ) (c : Char) (rest : List Char) (hc : c.isDigit = false)
    (he : c ≠ 'e' ∧ c ≠ 'E') :
    strtof (fmt_f6 q ++ c :: rest) = some (round6 q, c :: rest) := by
  generalize hNdef : (round_half_even (|q| * 1000000)).toNat = N
  obtain ⟨h1, h2, h3, _⟩ := dec_digits_spec (N / 1000000)
  obtain ⟨p1, p2, p3⟩ := pad6_spec (N % 1000000) (Nat.mod_lt _ (by norm_num))
  have hdot : ('.' : Char).isDigit = false := by decide
  have tw1 := takeWhile_digits (dec_digits (N / 1000000)) '.' (pad6 (N % 1000000) ++ c :: rest) h2 hdot
  have tw2 := takeWhile_digits (pad6 (N % 1000000)) c rest p2 hc
  have hval : ((digits_value (dec_digits (N / 1000000)) : Int) : ℚ) +
      ((digits_value (pad6 (N % 1000000)) : Int) : ℚ) / (10 : ℚ) ^ (pad6 (N % 1000000)).length =
      (N : ℚ) / 1000000 := by
    rw [h3, p3, p1]
    have := Nat.div_add_mod N 1000000
    generalize N / 1000000 = a at this ⊢
    generalize N % 1000000 = b at this ⊢
    have e : (N : ℚ) = 1000000 * (a : ℚ) + (b : ℚ) := by exact_mod_cast this.symm
    rw [e]
    push_cast
    field_simp
    ring
  have hexp : strtof_exponent (c :: rest) = (0, c :: rest) := by
    unfold strtof_exponent
    rw [if_neg]
    simp only [List.head?_cons, Option.some.injEq, not_or]
    exact he
  have hfrac : strtof_fraction ('.' :: (pad6 (N % 1000000) ++ c :: rest)) =
      (pad6 (N % 1000000), c :: rest) := by
    unfold strtof_fraction
    simp only [List.head?_cons, if_true, List.tail_cons]
    rw [tw2.1, tw2.2]
  cases hd : dec_digits (N / 1000000) with
  | nil => exact absurd hd h1
  | cons d0 ds =>
    have hd0 := is_dec_facts d0 (h2 d0 (by rw [hd]; simp))
    rw [hd] at tw1 hval
    unfold fmt_f6 strtof round6
    rw [hNdef, hd]
    by_cases hq : q < 0
    · rw [if_pos hq, if_pos hq]
      have e1 : (['-'] ++ d0 :: ds ++ ['.'] ++ pad6 (N % 1000000) ++ c :: rest).dropWhile isspace =
          '-' :: (d0 :: ds ++ '.' :: (pad6 (N % 1000000) ++ c :: rest)) := by
        simp [List.dropWhile_cons, isspace, is_ws]
      have e2 : skip_sign ('-' :: (d0 :: ds ++ '.' :: (pad6 (N % 1000000) ++ c :: rest))) =
          d0 :: ds ++ '.' :: (pad6 (N % 1000000) ++ c :: rest) := by
        simp [skip_sign]
      simp only [e1, e2, tw1.1, tw1.2, hfrac, hexp]
      rw [if_neg (by simp)]
      simp only [List.head?_cons, if_true, zpow_zero, mul_one, Option.some.injEq, Prod.mk.injEq,
        and_true]
      rw [hval]
    · rw [if_neg hq, if_neg hq]
      have e1 : ([] ++ d0 :: ds ++ ['.'] ++ pad6 (N % 1000000) ++ c :: rest).dropWhile isspace =
          d0 :: ds ++ '.' :: (pad6 (N % 1000000) ++ c :: rest) := by
        simp [List.dropWhile_cons, hd0.2.1]
      have e2 : skip_sign (d0 :: ds ++ '.' :: (pad6 (N % 1000000) ++ c :: rest)) =
          d0 :: ds ++ '.' :: (pad6 (N % 1000000) ++ c :: rest) := by
        unfold skip_sign
        rw [if_neg]
        simp only [List.cons_append, List.head?_cons, Option.some.injEq, not_or]
        exact ⟨hd0.2.2.2.2.1, hd0.2.2.2.2.2.1⟩
      have e3 : ¬ ((d0 :: ds ++ '.' :: (pad6 (N % 1000000) ++ c :: rest)).head? = some '-') := by
        simp only [List.cons_append, List.head?_cons, Option.some.injEq]
        exact hd0.2.2.2.2.1
      simp only [e1, e2, tw1.1, tw1.2, hfrac, hexp]
      rw [if_neg (by simp)]
      simp only [e3, if_false, zpow_zero, mul_one, Option.some.injEq, Prod.mk.injEq, and_true]
      rw [hval]
/-! ## The text of a save file -/

set_option maxRecDepth 100000 in
/-- The text written by `savegame_write` is the opening brace, the entries and the
closing brace. -/
theorem savegame_text_eq (g : SaveGame) :
    savegame_text g =
      "\x7b\n".toList ++ (render_entries (save_entries g) ++ "\x7d\n".toList) := by
  have e : ": [".toList = ": ".toList ++ "[".toList := rfl
  simp only [savegame_text, save_entries, render_entries, render_entry, json_line,
    json_array, array_body, e, List.append_assoc, List.append_nil]

theorem save_entries_keys (g : SaveGame) : (save_entries g).map Prod.fst = save_keys := rfl


theorem mismatch_not_prefix :
    ∀ (pat seg rest : List Char), mismatch pat seg = true → pat.isPrefixOf (seg ++ rest) = false := by
  intro pat
  induction pat with
  | nil => intro seg rest h; simp [mismatch] at h
  | cons p ps ih =>
    intro seg rest h
    cases seg with
    | nil => simp [mismatch] at h
    | cons c cs =>
      simp only [mismatch, Bool.or_eq_true, bne_iff_ne, ne_eq] at h
      simp only [List.cons_append, List.isPrefixOf, Bool.and_eq_false_iff, beq_eq_false_iff_ne, ne_eq]
      rcases h with h | h
      · exact Or.inl h
      · exact Or.inr (ih cs rest h)

/-- The libc `strstr` passes over a text in which no occurrence of the pattern starts. -/
theorem strstr_skip (pat : List Char) :
    ∀ (seg s : List Char), no_start pat seg = true → strstr (seg ++ s) pat = strstr s pat := by
  intro seg
  induction seg with
  | nil => intro s _; rfl
  | cons c cs ih =>
    intro s h
    simp only [no_start, Bool.and_eq_true] at h
    have := mismatch_not_prefix pat (c :: cs) s h.1
    simp only [List.cons_append] at this ⊢
    rw [strstr, if_neg (by rw [this]; simp)]
    exact ih s h.2

theorem strstr_skip_plain (q : Char) (pat seg s : List Char) (h : ∀ c ∈ seg, c ≠ q) :
    strstr (seg ++ s) (q :: pat) = strstr s (q :: pat) := by
  apply strstr_skip
  induction seg with
  | nil => rfl
  | cons c cs ih =>
    simp only [no_start, mismatch, Bool.and_eq_true, Bool.or_eq_true, bne_iff_ne, ne_eq]
    exact ⟨Or.inl (fun hh => h c (by simp) hh.symm), ih (fun a ha => h a (List.mem_cons_of_mem _ ha))⟩

theorem strstr_here (q : Char) (pat s : List Char) :
    strstr (q :: pat ++ s) (q :: pat) = some (q :: pat ++ s) := by
  simp only [List.cons_append]
  rw [strstr, if_pos]
  rw [List.isPrefixOf_iff_prefix]
  exact ⟨s, rfl⟩

theorem json_key_cons (k : String) :
    json_key k = Char.ofNat 34 :: (k.toList ++ [Char.ofNat 34]) := rfl

/-- The libc `strstr` finds the quoted key of entry `i` at that entry, when no occurrence
starts in the key part of an earlier entry and the bodies hold no quote. -/
theorem find_entry (k : String) :
    ∀ (es : List (String × List Char)) (i : Nat) (body post : List Char),
      es.get? i = some (k, body) →
      ((es.map Prod.fst).take i).all
        (fun k2 => no_start (json_key k) ("  ".toList ++ json_key k2 ++ ": ".toList)) = true →
      (∀ e ∈ es, ∀ c ∈ e.2, c ≠ Char.ofNat 34) →
      strstr (render_entries es ++ post) (json_key k) =
        some (json_key k ++ (": ".toList ++ (body ++ (render_entries (es.drop (i + 1)) ++ post)))) := by
  intro es
  induction es with
  | nil => intro i body post hi; simp at hi
  | cons e es ih =>
    intro i body post hi hk hb
    cases i with
    | zero =>
      simp only [List.get?_cons_zero, Option.some.injEq] at hi
      subst hi
      simp only [render_entries, render_entry, List.append_assoc, zero_add, List.drop_succ_cons,
        List.drop_zero]
      rw [json_key_cons]
      rw [strstr_skip_plain (Char.ofNat 34) _ "  ".toList _ (by decide)]
      exact strstr_here _ _ _
    | succ j =>
      simp only [List.get?_cons_succ] at hi
      simp only [List.map_cons, List.take_succ_cons, List.all_cons, Bool.and_eq_true] at hk
      have h1 := ih j body post hi hk.2 (fun e2 he2 => hb e2 (List.mem_cons_of_mem _ he2))
      simp only [render_entries, render_entry, List.drop_succ_cons]
      have e1 : "  ".toList ++ json_key e.1 ++ ": ".toList ++ e.2 ++ render_entries es ++ post =
          ("  ".toList ++ json_key e.1 ++ ": ".toList) ++ (e.2 ++ (render_entries es ++ post)) := by
        simp only [List.append_assoc]
      rw [e1, strstr_skip _ _ _ hk.1]
      rw [json_key_cons k] at h1 ⊢
      rw [strstr_skip_plain (Char.ofNat 34) _ e.2 _ (hb e (by simp))]
      exact h1

theorem dropWhile_append_of_pos (p : Char → Bool) (a b : List Char) (h : ∀ c ∈ a, p c = true) :
    (a ++ b).dropWhile p = b.dropWhile p := by
  induction a with
  | nil => rfl
  | cons c cs ih =>
    simp only [List.cons_append, List.dropWhile_cons, h c (by simp), if_true]
    exact ih (fun x hx => h x (List.mem_cons_of_mem _ hx))

/-- The function `json_find_number` from the place where `strstr` found the key: the
text after the colon and the space. -/
theorem find_number (text : List Char) (k : String) (body : List Char)
    (hs : strstr text (json_key k) = some (json_key k ++ (": ".toList ++ body)))
    (hc : ∀ c ∈ json_key k, c ≠ ':') (hb : body.dropWhile is_ws = body) :
    json_find_number text k = some body := by
  unfold json_find_number
  rw [hs]
  simp only
  have e : (json_key k ++ (": ".toList ++ body)).dropWhile (fun a => decide (a ≠ ':')) =
      ':' :: ' ' :: body := by
    rw [dropWhile_append_of_pos _ _ _ (by simpa using hc)]
    rfl
  unfold strchr
  rw [e]
  simp only [reduceCtorEq, if_false, List.tail_cons]
  rw [show (' ' :: body).dropWhile is_ws = body.dropWhile is_ws from rfl, hb]

/-- The place where `strchr` finds the opening bracket of an array entry. -/
theorem find_bracket (k : String) (body : List Char) (hc : ∀ c ∈ json_key k, c ≠ '[') :
    strchr (json_key k ++ (": ".toList ++ ('[' :: body))) '[' = some ('[' :: body) := by
  have e : (json_key k ++ (": ".toList ++ ('[' :: body))).dropWhile (fun a => decide (a ≠ '[')) =
      '[' :: body := by
    rw [dropWhile_append_of_pos _ _ _ (by simpa using hc)]
    rfl
  unfold strchr
  rw [e]
  simp
theorem is_dec_plain (c : Char) (h : is_dec c) : plain c :=
  ⟨(is_dec_facts c h).2.2.2.2.2.2.1, (is_dec_facts c h).2.2.2.2.2.2.2.1⟩

theorem fmt_d_plain (n : Int) : ∀ c ∈ fmt_d n, plain c := by
  intro c hc
  unfold fmt_d at hc
  rcases List.mem_append.1 hc with h | h
  · split at h
    · simp only [List.mem_singleton] at h
      rw [h]
      exact ⟨by decide, by decide⟩
    · simp at h
  · exact is_dec_plain c ((dec_digits_spec _).2.1 c h)

theorem fmt_f6_plain (q : ℚ) : ∀ c ∈ fmt_f6 q, plain c := by
  intro c hc
  unfold fmt_f6 at hc
  simp only [List.mem_append, List.mem_singleton] at hc
  rcases hc with ((h | h) | h) | h
  · split at h
    · simp only [List.mem_singleton] at h
      rw [h]
      exact ⟨by decide, by decide⟩
    · simp at h
  · exact is_dec_plain c ((dec_digits_spec _).2.1 c h)
  · rw [h]
    exact ⟨by decide, by decide⟩
  · exact is_dec_plain c ((pad6_spec _ (Nat.mod_lt _ (by norm_num))).2.1 c h)

theorem string_plain (s : List Char) (h : s.all (fun c => c != Char.ofNat 34 && c != Char.ofNat 0) = true) :
    ∀ c ∈ s, plain c := by
  intro c hc
  have := List.all_eq_true.1 h c hc
  simp only [Bool.and_eq_true, bne_iff_ne, ne_eq] at this
  exact this

theorem json_items_cons (a : List Char) (l : List (List Char)) :
    json_items (a :: l) = a ++ (if l = [] then [] else ", ".toList ++ json_items l) := by
  cases l with
  | nil => simp [json_items]
  | cons b t => simp [json_items]

theorem json_items_plain (l : List (List Char)) (h : ∀ a ∈ l, ∀ c ∈ a, plain c) :
    ∀ c ∈ json_items l, plain c := by
  induction l with
  | nil => intro c hc; simp [json_items] at hc
  | cons a t ih =>
    intro c hc
    rw [json_items_cons] at hc
    rcases List.mem_append.1 hc with h1 | h1
    · exact h a (by simp) c h1
    · split at h1
      · simp at h1
      · rcases List.mem_append.1 h1 with h2 | h2
        · exact string_plain ", ".toList (by decide) c h2
        · exact ih (fun b hb => h b (List.mem_cons_of_mem _ hb)) c h2

theorem scalar_plain (v : List Char) (hv : ∀ c ∈ v, plain c) : ∀ c ∈ v ++ ",\n".toList, plain c := by
  intro c hc
  rcases List.mem_append.1 hc with h | h
  · exact hv c h
  · exact string_plain ",\n".toList (by decide) c h

theorem array_body_plain {α : Type} [Zero α] (count : Int) (max : Nat) (a : List α)
    (fmt : α → List Char) (hf : ∀ x, ∀ c ∈ fmt x, plain c) (eol : String)
    (he : eol.toList.all (fun c => c != Char.ofNat 34 && c != Char.ofNat 0) = true) :
    ∀ c ∈ array_body (saved_entries count max a fmt) eol, plain c := by
  intro c hc
  unfold array_body at hc
  simp only [List.mem_append] at hc
  rcases hc with ((h | h) | h) | h
  · exact string_plain "[".toList (by decide) c h
  · refine json_items_plain _ ?_ c h
    intro x hx
    unfold saved_entries at hx
    obtain ⟨i, _, rfl⟩ := List.mem_map.1 hx
    exact hf _
  · exact string_plain "]".toList (by decide) c h
  · exact string_plain eol.toList he c h

/-- The bodies of the entries of a save file hold neither a quote nor a NUL byte. -/
theorem save_entries_plain (g : SaveGame) : ∀ e ∈ save_entries g, ∀ c ∈ e.2, plain c := by
  unfold save_entries
  simp only [List.forall_mem_cons]
  exact ⟨scalar_plain _ (fmt_d_plain _),
    scalar_plain _ (fmt_d_plain _),
    scalar_plain _ (fmt_f6_plain _),
    scalar_plain _ (fmt_f6_plain _),
    scalar_plain _ (fmt_f6_plain _),
    scalar_plain _ (fmt_d_plain _),
    scalar_plain _ (fmt_d_plain _),
    scalar_plain _ (fmt_d_plain _),
    scalar_plain _ (fmt_d_plain _),
    scalar_plain _ (fmt_d_plain _),
    scalar_plain _ (fmt_d_plain _),
    scalar_plain _ (fmt_d_plain _),
    scalar_plain _ (fmt_d_plain _),
    scalar_plain _ (fmt_d_plain _),
    scalar_plain _ (fmt_d_plain _),
    scalar_plain _ (fmt_d_plain _),
    scalar_plain _ (fmt_d_plain _),
    scalar_plain _ (fmt_f6_plain _),
    scalar_plain _ (fmt_d_plain _),
    array_body_plain _ _ _ _ fmt_f6_plain _ (by decide),
    array_body_plain _ _ _ _ fmt_f6_plain _ (by decide),
    array_body_plain _ _ _ _ fmt_d_plain _ (by decide),
    array_body_plain _ _ _ _ fmt_d_plain _ (by decide),
    array_body_plain _ _ _ _ fmt_d_plain _ (by decide),
    array_body_plain _ _ _ _ fmt_f6_plain _ (by decide),
    scalar_plain _ (fmt_d_plain _),
    array_body_plain _ _ _ _ fmt_f6_plain _ (by decide),
    array_body_plain _ _ _ _ fmt_f6_plain _ (by decide),
    array_body_plain _ _ _ _ fmt_d_plain _ (by decide),
    array_body_plain _ _ _ _ fmt_d_plain _ (by decide),
    fun _ h => absurd h (List.not_mem_nil _)⟩

theorem render_entries_no_nul (es : List (String × List Char))
    (hk : ∀ e ∈ es, ∀ c ∈ json_key e.1, c ≠ Char.ofNat 0) (hb : ∀ e ∈ es, ∀ c ∈ e.2, plain c) :
    ∀ c ∈ render_entries es, c ≠ Char.ofNat 0 := by
  induction es with
  | nil => intro c hc; simp [render_entries] at hc
  | cons e t ih =>
    intro c hc
    simp only [render_entries, render_entry, List.mem_append] at hc
    rcases hc with (((h | h) | h) | h) | h
    · exact (string_plain "  ".toList (by decide) c h).2
    · exact hk e (by simp) c h
    · exact (string_plain ": ".toList (by decide) c h).2
    · exact (hb e (by simp) c h).2
    · exact ih (fun e2 he2 => hk e2 (List.mem_cons_of_mem _ he2))
        (fun e2 he2 => hb e2 (List.mem_cons_of_mem _ he2)) c h

/-- The text of a save file holds no NUL byte: the string functions see all of it. -/
theorem c_string_savegame_text (g : SaveGame) : c_string (savegame_text g) = savegame_text g := by
  apply c_string_of_no_nul
  rw [savegame_text_eq]
  intro c hc
  simp only [List.mem_append] at hc
  rcases hc with h | h | h
  · exact (string_plain "\x7b\n".toList (by decide) c h).2
  · refine render_entries_no_nul _ ?_ (save_entries_plain g) c h
    intro e he
    have hmem : e.1 ∈ save_keys := by
      rw [← save_entries_keys g]
      exact List.mem_map_of_mem _ he
    have hall : ∀ k ∈ save_keys, ∀ c ∈ json_key k, c ≠ Char.ofNat 0 := by decide
    exact hall e.1 hmem
  · exact (string_plain "\x7d\n".toList (by decide) c h).2
theorem num_head_facts (h : Char) (hh : h = '-' ∨ is_dec h) :
    is_ws h = false ∧ json_sep h = false ∧ h ≠ ']' := by
  rcases hh with rfl | hd
  · decide
  · exact ⟨(is_dec_facts h hd).2.2.1, (is_dec_facts h hd).2.2.2.1, (is_dec_facts h hd).2.2.2.2.2.2.2.2.1⟩

theorem fmt_d_head (n : Int) : ∃ h t, fmt_d n = h :: t ∧ (h = '-' ∨ is_dec h) := by
  obtain ⟨h1, h2, _, _⟩ := dec_digits_spec n.natAbs
  unfold fmt_d
  split
  · exact ⟨'-', _, rfl, Or.inl rfl⟩
  · cases hd : dec_digits n.natAbs with
    | nil => exact absurd hd h1
    | cons d0 ds => exact ⟨d0, ds, rfl, Or.inr (h2 d0 (by rw [hd]; simp))⟩

theorem fmt_f6_head (q : ℚ) : ∃ h t, fmt_f6 q = h :: t ∧ (h = '-' ∨ is_dec h) := by
  obtain ⟨h1, h2, _, _⟩ := dec_digits_spec ((round_half_even (|q| * 1000000)).toNat / 1000000)
  unfold fmt_f6
  split
  · exact ⟨'-', _, rfl, Or.inl rfl⟩
  · cases hd : dec_digits ((round_half_even (|q| * 1000000)).toNat / 1000000) with
    | nil => exact absurd hd h1
    | cons d0 ds => exact ⟨d0, _, rfl, Or.inr (h2 d0 (by rw [hd]; simp))⟩

/-- The libc `strstr` finds the quoted key of entry `i` of a save file at that entry. -/
theorem find_key (g : SaveGame) (i : Nat) (k : String) (body : List Char)
    (hkey : key_found k i = true) (hi : (save_entries g).get? i = some (k, body)) :
    strstr (savegame_text g) (json_key k) =
        some (json_key k ++ (": ".toList ++
          (body ++ (render_entries ((save_entries g).drop (i + 1)) ++ "\x7d\n".toList)))) ∧
      (∀ c ∈ json_key k, c ≠ ':') ∧ (∀ c ∈ json_key k, c ≠ '[') := by
  unfold key_found at hkey
  simp only [Bool.and_eq_true] at hkey
  obtain ⟨⟨⟨h1, h2⟩, h3⟩, _⟩ := hkey
  have h3b : ∀ c ∈ json_key k, c ≠ ':' ∧ c ≠ '[' := by
    intro c hc
    have := List.all_eq_true.1 h3 c hc
    simpa using this
  refine ⟨?_, fun c hc => (h3b c hc).1, fun c hc => (h3b c hc).2⟩
  rw [savegame_text_eq, strstr_skip _ _ _ h1]
  apply find_entry k (save_entries g) i body _ hi
  · rw [save_entries_keys]
    exact h2
  · exact fun e he c hc => (save_entries_plain g e he c hc).1

/-- The function `json_get_int` on a save file reads back the integer of a scalar
entry. -/
theorem get_int_at (g : SaveGame) (i : Nat) (k : String) (n out : Int)
    (hkey : key_found k i = true)
    (hi : (save_entries g).get? i = some (k, fmt_d n ++ ",\n".toList)) :
    json_get_int (savegame_text g) k out = (1, n) := by
  obtain ⟨f1, f2, _⟩ := find_key g i k _ hkey hi
  obtain ⟨h, t, e, hh⟩ := fmt_d_head n
  have hfn := find_number (savegame_text g) k _ f1 f2 (by
    rw [e]
    simp [List.dropWhile_cons, (num_head_facts h hh).1])
  unfold json_get_int
  rw [hfn]
  simp only
  have : fmt_d n ++ ",\n".toList ++ (render_entries ((save_entries g).drop (i + 1)) ++ "\x7d\n".toList) =
      fmt_d n ++ ',' :: ('\n' :: (render_entries ((save_entries g).drop (i + 1)) ++ "\x7d\n".toList)) := by
    simp
  rw [this, strtol_fmt_d n ',' _ (by decide)]

/-- The function `json_get_float` on a save file reads back the value of a scalar
entry, rounded to six decimals. -/
theorem get_float_at (g : SaveGame) (i : Nat) (k : String) (q out : ℚ)
    (hkey : key_found k i = true)
    (hi : (save_entries g).get? i = some (k, fmt_f6 q ++ ",\n".toList)) :
    json_get_float (savegame_text g) k out = (1, round6 q) := by
  obtain ⟨f1, f2, _⟩ := find_key g i k _ hkey hi
  obtain ⟨h, t, e, hh⟩ := fmt_f6_head q
  have hfn := find_number (savegame_text g) k _ f1 f2 (by
    rw [e]
    simp [List.dropWhile_cons, (num_head_facts h hh).1])
  unfold json_get_float
  rw [hfn]
  simp only
  have : fmt_f6 q ++ ",\n".toList ++ (render_entries ((save_entries g).drop (i + 1)) ++ "\x7d\n".toList) =
      fmt_f6 q ++ ',' :: ('\n' :: (render_entries ((save_entries g).drop (i + 1)) ++ "\x7d\n".toList)) := by
    simp
  rw [this, strtof_fmt_f6 q ',' _ (by decide) (by decide)]

/-- The loop of `json_parse_int_array` reads back the items that the loop of
`savegame_write` printed, up to the closing bracket. -/
theorem parse_int_items_spec :
    ∀ (vals : List Int) (n : Nat) (sep rest : List Char), vals.length ≤ n →
      (∀ c ∈ sep, json_sep c = true) →
      parse_int_items n (sep ++ (json_items (vals.map fmt_d) ++ ']' :: rest)) = vals := by
  intro vals
  induction vals with
  | nil =>
    intro n sep rest _ hsep
    cases n with
    | zero => rfl
    | succ m =>
      simp only [parse_int_items, List.map_nil, json_items, List.nil_append]
      rw [dropWhile_append_of_pos _ _ _ hsep]
      simp [List.dropWhile_cons, json_sep]
  | cons v vs ih =>
    intro n sep rest hn hsep
    cases n with
    | zero => simp at hn
    | succ m =>
      obtain ⟨h, t, e, hh⟩ := fmt_d_head v
      obtain ⟨_, hs, hb⟩ := num_head_facts h hh
      simp only [parse_int_items, List.map_cons]
      rw [json_items_cons, dropWhile_append_of_pos _ _ _ hsep]
      have hne : sep ++ (fmt_d v ++ (if List.map fmt_d vs = [] then [] else ", ".toList ++
          json_items (List.map fmt_d vs)) ++ ']' :: rest) ≠ [] := by
        rw [e]
        simp
      rw [if_neg hne]
      have hdw : (fmt_d v ++ (if List.map fmt_d vs = [] then [] else ", ".toList ++
          json_items (List.map fmt_d vs)) ++ ']' :: rest).dropWhile json_sep =
          fmt_d v ++ ((if List.map fmt_d vs = [] then [] else ", ".toList) ++
            (json_items (List.map fmt_d vs) ++ ']' :: rest)) := by
        have e2 : fmt_d v ++ (if List.map fmt_d vs = [] then [] else ", ".toList ++
            json_items (List.map fmt_d vs)) ++ ']' :: rest =
            fmt_d v ++ ((if List.map fmt_d vs = [] then [] else ", ".toList) ++
              (json_items (List.map fmt_d vs) ++ ']' :: rest)) := by
          by_cases hv : List.map fmt_d vs = []
          · simp [hv, json_items]
          · simp [hv]
        rw [e2, e]
        simp [List.dropWhile_cons, hs]
      rw [hdw]
      have hhead : ¬ ((fmt_d v ++ ((if List.map fmt_d vs = [] then [] else ", ".toList) ++
          (json_items (List.map fmt_d vs) ++ ']' :: rest))).head? = some ']') := by
        rw [e]
        simpa using hb
      rw [if_neg hhead]
      have hnext : ∃ c tl, ((if List.map fmt_d vs = [] then [] else ", ".toList) ++
          (json_items (List.map fmt_d vs) ++ ']' :: rest)) = c :: tl ∧ c.isDigit = false := by
        by_cases hv : List.map fmt_d vs = []
        · rw [if_pos hv, hv]
          exact ⟨']', rest, rfl, by decide⟩
        · rw [if_neg hv]
          exact ⟨',', _, rfl, by decide⟩
      obtain ⟨c, tl, ec, hc⟩ := hnext
      rw [ec, strtol_fmt_d v c tl hc]
      simp only
      rw [← ec]
      rw [ih m _ rest (by simpa using hn) (by
        intro c hc
        split at hc
        · simp at hc
        · revert c
          decide)]

/-- The loop of `json_parse_float_array` reads back the items that the loop of
`savegame_write` printed, each rounded to six decimals. -/
theorem parse_float_items_spec :
    ∀ (vals : List ℚ) (n : Nat) (sep rest : List Char), vals.length ≤ n →
      (∀ c ∈ sep, json_sep c = true) →
      parse_float_items n (sep ++ (json_items (vals.map fmt_f6) ++ ']' :: rest)) =
        vals.map round6 := by
  intro vals
  induction vals with
  | nil =>
    intro n sep rest _ hsep
    cases n with
    | zero => rfl
    | succ m =>
      simp only [parse_float_items, List.map_nil, json_items, List.nil_append]
      rw [dropWhile_append_of_pos _ _ _ hsep]
      simp [List.dropWhile_cons, json_sep]
  | cons v vs ih =>
    intro n sep rest hn hsep
    cases n with
    | zero => simp at hn
    | succ m =>
      obtain ⟨h, t, e, hh⟩ := fmt_f6_head v
      obtain ⟨_, hs, hb⟩ := num_head_facts h hh
      simp only [parse_float_items, List.map_cons]
      rw [json_items_cons, dropWhile_append_of_pos _ _ _ hsep]
      have hne : sep ++ (fmt_f6 v ++ (if List.map fmt_f6 vs = [] then [] else ", ".toList ++
          json_items (List.map fmt_f6 vs)) ++ ']' :: rest) ≠ [] := by
        rw [e]
        simp
      rw [if_neg hne]
      have hdw : (fmt_f6 v ++ (if List.map fmt_f6 vs = [] then [] else ", ".toList ++
          json_items (List.map fmt_f6 vs)) ++ ']' :: rest).dropWhile json_sep =
          fmt_f6 v ++ ((if List.map fmt_f6 vs = [] then [] else ", ".toList) ++
            (json_items (List.map fmt_f6 vs) ++ ']' :: rest)) := by
        have e2 : fmt_f6 v ++ (if List.map fmt_f6 vs = [] then [] else ", ".toList ++
            json_items (List.map fmt_f6 vs)) ++ ']' :: rest =
            fmt_f6 v ++ ((if List.map fmt_f6 vs = [] then [] else ", ".toList) ++
              (json_items (List.map fmt_f6 vs) ++ ']' :: rest)) := by
          by_cases hv : List.map fmt_f6 vs = []
          · simp [hv, json_items]
          · simp [hv]
        rw [e2, e]
        simp [List.dropWhile_cons, hs]
      rw [hdw]
      have hhead : ¬ ((fmt_f6 v ++ ((if List.map fmt_f6 vs = [] then [] else ", ".toList) ++
          (json_items (List.map fmt_f6 vs) ++ ']' :: rest))).head? = some ']') := by
        rw [e]
        simpa using hb
      rw [if_neg hhead]
      have hnext : ∃ c tl, ((if List.map fmt_f6 vs = [] then [] else ", ".toList) ++
          (json_items (List.map fmt_f6 vs) ++ ']' :: rest)) = c :: tl ∧ c.isDigit = false ∧
          (c ≠ 'e' ∧ c ≠ 'E') := by
        by_cases hv : List.map fmt_f6 vs = []
        · rw [if_pos hv, hv]
          exact ⟨']', rest, rfl, by decide, by decide⟩
        · rw [if_neg hv]
          exact ⟨',', _, rfl, by decide, by decide⟩
      obtain ⟨c, tl, ec, hc, hce⟩ := hnext
      rw [ec, strtof_fmt_f6 v c tl hc hce]
      simp only
      rw [← ec]
      rw [ih m _ rest (by simpa using hn) (by
        intro c hc
        split at hc
        · simp at hc
        · revert c
          decide)]
theorem clamp_count_toNat (count : Int) (max : Nat) :
    (clamp_count count max).toNat = min count.toNat max ∧ 0 ≤ clamp_count count max := by
  unfold clamp_count
  split
  · constructor <;> omega
  · split
    · constructor <;> omega
    · constructor <;> omega

theorem saved_entries_map {α : Type} [Zero α] (count : Int) (max : Nat) (a : List α)
    (fmt : α → List Char) :
    saved_entries count max a fmt =
      ((List.range (clamp_count count max).toNat).map (fun j => a.getD j 0)).map fmt := by
  unfold saved_entries
  rw [(clamp_count_toNat count max).1, List.map_map]
  rfl

/-- The function `json_parse_int_array` on a save file reads back the entries of an
integer array that `savegame_write` printed. -/
theorem get_int_array_at (g : SaveGame) (i : Nat) (k : String) (count : Int) (max : Nat)
    (arr : List Int) (eol : String) (hkey : key_found k i = true)
    (hi : (save_entries g).get? i = some (k, array_body (saved_entries count max arr fmt_d) eol)) :
    json_parse_int_array (savegame_text g) k (clamp_count count max) =
      (List.range (clamp_count count max).toNat).map (fun j => arr.getD j 0) := by
  obtain ⟨f1, _, f3⟩ := find_key g i k _ hkey hi
  unfold json_parse_int_array
  by_cases h0 : clamp_count count max ≤ 0
  · rw [if_pos h0]
    have : (clamp_count count max).toNat = 0 := by omega
    rw [this]
    rfl
  · rw [if_neg h0, f1]
    simp only
    have e : ": ".toList ++ (array_body (saved_entries count max arr fmt_d) eol ++
        (render_entries ((save_entries g).drop (i + 1)) ++ "\x7d\n".toList)) =
        ": ".toList ++ ('[' :: (json_items (saved_entries count max arr fmt_d) ++
          ']' :: (eol.toList ++ (render_entries ((save_entries g).drop (i + 1)) ++ "\x7d\n".toList)))) := by
      unfold array_body
      simp
    rw [e, find_bracket k _ f3]
    simp only [List.tail_cons]
    rw [saved_entries_map]
    have := parse_int_items_spec ((List.range (clamp_count count max).toNat).map (fun j => arr.getD j 0))
      (clamp_count count max).toNat [] (eol.toList ++ (render_entries ((save_entries g).drop (i + 1)) ++
        "\x7d\n".toList)) (by simp) (by simp)
    simpa using this

/-- The function `json_parse_float_array` on a save file reads back the entries of a
float array that `savegame_write` printed, each rounded to six decimals. -/
theorem get_float_array_at (g : SaveGame) (i : Nat) (k : String) (count : Int) (max : Nat)
    (arr : List ℚ) (eol : String) (hkey : key_found k i = true)
    (hi : (save_entries g).get? i = some (k, array_body (saved_entries count max arr fmt_f6) eol)) :
    json_parse_float_array (savegame_text g) k (clamp_count count max) =
      (List.range (clamp_count count max).toNat).map (fun j => round6 (arr.getD j 0)) := by
  obtain ⟨f1, _, f3⟩ := find_key g i k _ hkey hi
  unfold json_parse_float_array
  by_cases h0 : clamp_count count max ≤ 0
  · rw [if_pos h0]
    have : (clamp_count count max).toNat = 0 := by omega
    rw [this]
    rfl
  · rw [if_neg h0, f1]
    simp only
    have e : ": ".toList ++ (array_body (saved_entries count max arr fmt_f6) eol ++
        (render_entries ((save_entries g).drop (i + 1)) ++ "\x7d\n".toList)) =
        ": ".toList ++ ('[' :: (json_items (saved_entries count max arr fmt_f6) ++
          ']' :: (eol.toList ++ (render_entries ((save_entries g).drop (i + 1)) ++ "\x7d\n".toList)))) := by
      unfold array_body
      simp
    rw [e, find_bracket k _ f3]
    simp only [List.tail_cons]
    rw [saved_entries_map]
    have := parse_float_items_spec ((List.range (clamp_count count max).toNat).map (fun j => arr.getD j 0))
      (clamp_count count max).toNat [] (eol.toList ++ (render_entries ((save_entries g).drop (i + 1)) ++
        "\x7d\n".toList)) (by simp) (by simp)
    simpa [List.map_map, Function.comp] using this
/-- The function `savegame_read` on the file written by `savegame_write`: success, and the
record read is `read_back g`. -/
theorem savegame_read_write (slot : Int) (g : SaveGame) (d : Disk) (h1 : 1 ≤ slot) (h3 : slot ≤ 3)
    (hw : d.writable slot = true) :
    savegame_read slot (savegame_write slot g d).1 = (read_back g, 0) := by
  have hc : clamp_slot slot = slot := by
    unfold clamp_slot
    rw [if_neg (by omega), if_neg (by omega)]
  have hne : savegame_text g ≠ [] := by
    rw [savegame_text_eq]
    simp
  have e0 := get_int_at g 0 "version" (if g.version ≤ 0 then SAVEGAME_VERSION else g.version) 1 (by decide) rfl
  have e1 := get_int_at g 1 "level" g.level 1 (by decide) rfl
  have e2 := get_float_at g 2 "px" g.px 3.0 (by decide) rfl
  have e3 := get_float_at g 3 "py" g.py 3.0 (by decide) rfl
  have e4 := get_float_at g 4 "angle" g.angle 0.0 (by decide) rfl
  have e5 := get_int_at g 5 "hp" g.hp 100 (by decide) rfl
  have e7 := get_int_at g 7 "ammo_bullets" g.ammo_bullets 10 (by decide) rfl
  have e8 := get_int_at g 8 "ammo_shells" g.ammo_shells 0 (by decide) rfl
  have e9 := get_int_at g 9 "ammo_energy" g.ammo_energy 0 (by decide) rfl
  have e10 := get_int_at g 10 "hasKey" g.hasKey 0 (by decide) rfl
  have e11 := get_int_at g 11 "hasShotgun" g.hasShotgun 0 (by decide) rfl
  have e12 := get_int_at g 12 "hasSMG" g.hasSMG 0 (by decide) rfl
  have e13 := get_int_at g 13 "hasPlasma" g.hasPlasma 0 (by decide) rfl
  have e14 := get_int_at g 14 "hasRRG" g.hasRRG 0 (by decide) rfl
  have e15 := get_int_at g 15 "weapon" g.weapon 0 (by decide) rfl
  have e16 := get_int_at g 16 "godmode" g.godmode 0 (by decide) rfl
  have e17 := get_float_at g 17 "sens" g.sensitivity 0.0035 (by decide) rfl
  have e18 := get_int_at g 18 "enemy_count" g.enemy_count 0 (by decide) rfl
  have e19 := get_float_array_at g 19 "enemy_x" g.enemy_count MAX_ENEMIES g.enemy_x ",\n" (by decide) rfl
  have e20 := get_float_array_at g 20 "enemy_y" g.enemy_count MAX_ENEMIES g.enemy_y ",\n" (by decide) rfl
  have e21 := get_int_array_at g 21 "enemy_kind" g.enemy_count MAX_ENEMIES g.enemy_kind ",\n" (by decide) rfl
  have e22 := get_int_array_at g 22 "enemy_state" g.enemy_count MAX_ENEMIES g.enemy_state ",\n" (by decide) rfl
  have e23 := get_int_array_at g 23 "enemy_hp" g.enemy_count MAX_ENEMIES g.enemy_hp ",\n" (by decide) rfl
  have e24 := get_float_array_at g 24 "enemy_dying_timer" g.enemy_count MAX_ENEMIES g.enemy_dying_timer ",\n" (by decide) rfl
  have e25 := get_int_at g 25 "item_count" g.item_count 0 (by decide) rfl
  have e26 := get_float_array_at g 26 "item_x" g.item_count MAX_ITEMS g.item_x ",\n" (by decide) rfl
  have e27 := get_float_array_at g 27 "item_y" g.item_count MAX_ITEMS g.item_y ",\n" (by decide) rfl
  have e28 := get_int_array_at g 28 "item_type" g.item_count MAX_ITEMS g.item_type ",\n" (by decide) rfl
  have e29 := get_int_array_at g 29 "item_collected" g.item_count MAX_ITEMS g.item_collected "\n" (by decide) rfl
  have hkind : (if ((List.range (clamp_count g.enemy_count MAX_ENEMIES).toNat).map
        (fun j => g.enemy_kind.getD j 0)).length ≤ 0
      then List.replicate (clamp_count g.enemy_count MAX_ENEMIES).toNat (0 : Int)
      else (List.range (clamp_count g.enemy_count MAX_ENEMIES).toNat).map
        (fun j => g.enemy_kind.getD j 0)) =
      (List.range (clamp_count g.enemy_count MAX_ENEMIES).toNat).map (fun j => g.enemy_kind.getD j 0) := by
    split
    · rename_i hl
      simp only [List.length_map, List.length_range] at hl
      have : (clamp_count g.enemy_count MAX_ENEMIES).toNat = 0 := by omega
      rw [this]
      rfl
    · rfl
  rw [savegame_write_ok slot g d h1 h3 hw]
  unfold savegame_read
  simp only [hc, if_true]
  rw [if_neg hne]
  simp only [c_string_savegame_text, e0, e1, e2, e3, e4, e5, e7, e8, e9, e10, e11, e12, e13, e14, e15, e16, e17, e18, e19, e20, e21, e22, e23, e24, e25, e26, e27, e28, e29, hkind]
  rfl
theorem getD_map_range {α : Type} (f : Nat → α) (n j : Nat) (dflt : α) (h : j < n) :
    ((List.range n).map f).getD j dflt = f j := by
  rw [List.getD_eq_getElem?_getD, List.getElem?_map, List.getElem?_range h]
  rfl

/-- The six-decimal rounding of a value reads back within the tolerance. -/
theorem reads_within_round6 (q : ℚ) : reads_within q (round6 q) := by
  have h := round6_close q
  have h2 : |q - round6 q| ≤ 1 / 2000000 := by rw [abs_sub_comm]; exact h
  unfold reads_within
  refine ⟨by linarith, fun x hx => ?_⟩
  have h3 : |x - q| ≤ |x - round6 q| + |round6 q - q| := abs_sub_le x (round6 q) q
  linarith

/-- C15 (amended): for every save record `g` with a positive version, an enemy count in
`0..64` and an item count in `0..96`, and every slot in 1..3 whose file can be written,
`savegame_write` succeeds and `savegame_read` applied to the file it produced succeeds
with a record `r` equal to `g` in every integer field (version, level, hp, the ammo
pools, hasKey, the weapon flags, weapon, godmode, both counts, and the entries of
enemy_kind, enemy_state, enemy_hp, item_type and item_collected below their counts) and
within 1e-4 in every floating-point field (px, py, angle, sensitivity, and the entries of
enemy_x, enemy_y, enemy_dying_timer, item_x and item_y below their counts).  The value
read is the six-decimal text converted exactly; `reads_within` also bounds every value
that is at least as near to it as the saved value is, which covers the rounding of
`strtof` to the nearest single-precision number when the saved value is one. -/
theorem savegame_roundtrip (slot : Int) (g : SaveGame) (d : Disk) (h1 : 1 ≤ slot) (h3 : slot ≤ 3)
    (hw : d.writable slot = true) (hv : 0 < g.version)
    (he : 0 ≤ g.enemy_count ∧ g.enemy_count ≤ 64) (hi : 0 ≤ g.item_count ∧ g.item_count ≤ 96) :
    (savegame_write slot g d).2 = 0 ∧
      ∃ r, savegame_read slot (savegame_write slot g d).1 = (r, 0) ∧
        r.version = g.version ∧ r.level = g.level ∧ r.hp = g.hp ∧
        r.ammo_bullets = g.ammo_bullets ∧ r.ammo_shells = g.ammo_shells ∧
        r.ammo_energy = g.ammo_energy ∧ r.hasKey = g.hasKey ∧ r.hasShotgun = g.hasShotgun ∧
        r.hasSMG = g.hasSMG ∧ r.hasPlasma = g.hasPlasma ∧ r.hasRRG = g.hasRRG ∧
        r.weapon = g.weapon ∧ r.godmode = g.godmode ∧ r.enemy_count = g.enemy_count ∧
        r.item_count = g.item_count ∧
        reads_within g.px r.px ∧ reads_within g.py r.py ∧ reads_within g.angle r.angle ∧
        reads_within g.sensitivity r.sensitivity ∧
        (∀ j : Nat, (j : Int) < g.enemy_count →
          r.enemy_kind.getD j 0 = g.enemy_kind.getD j 0 ∧
          r.enemy_state.getD j 0 = g.enemy_state.getD j 0 ∧
          r.enemy_hp.getD j 0 = g.enemy_hp.getD j 0 ∧
          reads_within (g.enemy_x.getD j 0) (r.enemy_x.getD j 0) ∧
          reads_within (g.enemy_y.getD j 0) (r.enemy_y.getD j 0) ∧
          reads_within (g.enemy_dying_timer.getD j 0) (r.enemy_dying_timer.getD j 0)) ∧
        (∀ j : Nat, (j : Int) < g.item_count →
          r.item_type.getD j 0 = g.item_type.getD j 0 ∧
          r.item_collected.getD j 0 = g.item_collected.getD j 0 ∧
          reads_within (g.item_x.getD j 0) (r.item_x.getD j 0) ∧
          reads_within (g.item_y.getD j 0) (r.item_y.getD j 0)) := by
  have hb : ∀ q : ℚ, reads_within q (round6 q) := reads_within_round6
  have hce : clamp_count g.enemy_count MAX_ENEMIES = g.enemy_count := by
    unfold clamp_count MAX_ENEMIES
    rw [if_neg (by omega), if_neg (by push_cast; omega)]
  have hci : clamp_count g.item_count MAX_ITEMS = g.item_count := by
    unfold clamp_count MAX_ITEMS
    rw [if_neg (by omega), if_neg (by push_cast; omega)]
  refine ⟨by rw [savegame_write_ok slot g d h1 h3 hw], read_back g,
    savegame_read_write slot g d h1 h3 hw, ?_, rfl, rfl, rfl, rfl, rfl, rfl, rfl, rfl, rfl, rfl,
    rfl, rfl, hce, hci, hb _, hb _, hb _, hb _, ?_, ?_⟩
  · show (if g.version ≤ 0 then SAVEGAME_VERSION else g.version) = g.version
    rw [if_neg (by omega)]
  · intro j hj
    have hjn : j < (clamp_count g.enemy_count MAX_ENEMIES).toNat := by rw [hce]; omega
    unfold read_back
    simp only
    rw [getD_map_range _ _ _ _ hjn, getD_map_range _ _ _ _ hjn, getD_map_range _ _ _ _ hjn,
      getD_map_range _ _ _ _ hjn, getD_map_range _ _ _ _ hjn, getD_map_range _ _ _ _ hjn]
    exact ⟨rfl, rfl, rfl, hb _, hb _, hb _⟩
  · intro j hj
    have hjn : j < (clamp_count g.item_count MAX_ITEMS).toNat := by rw [hci]; omega
    unfold read_back
    simp only
    rw [getD_map_range _ _ _ _ hjn, getD_map_range _ _ _ _ hjn, getD_map_range _ _ _ _ hjn,
      getD_map_range _ _ _ _ hjn]
    exact ⟨rfl, rfl, hb _, hb _⟩

/-- C15 witness: a record with two enemies and one item written to slot 2 and read back;
the item position (1/3, 2/3) comes back as (0.333333, 0.666667). -/
theorem savegame_roundtrip_witness :
    (1 : Int) ≤ 2 ∧ (2 : Int) ≤ 3 ∧ ({} : Disk).writable 2 = true ∧ 0 < sample_save.version ∧
      (0 ≤ sample_save.enemy_count ∧ sample_save.enemy_count ≤ 64) ∧
      (0 ≤ sample_save.item_count ∧ sample_save.item_count ≤ 96) ∧
      (savegame_write 2 sample_save {}).2 = 0 ∧
      (savegame_read 2 (savegame_write 2 sample_save {}).1).1.enemy_hp = [2, 0] ∧
      (savegame_read 2 (savegame_write 2 sample_save {}).1).1.item_x = [0.333333] ∧
      (savegame_read 2 (savegame_write 2 sample_save {}).1).1.item_y = [0.666667] :=
  ⟨by decide, by decide, rfl, by decide, by decide, by decide,
    (savegame_roundtrip 2 sample_save {} (by decide) (by decide) rfl (by decide) (by decide)
      (by decide)).1,
    by decide!, by decide!, by decide!⟩

/-- C15 counterexample: the all-zero record (version 0) is written with version 3, so
the version read back differs from the one in the record; and a record with
`enemy_count = 65` is read back with `enemy_count = 64`. -/
theorem roundtrip_changes_version_and_count :
    ({} : SaveGame).version = 0 ∧ (savegame_write 1 {} {}).2 = 0 ∧
      (savegame_read 1 (savegame_write 1 {} {}).1).2 = 0 ∧
      (savegame_read 1 (savegame_write 1 {} {}).1).1.version = 3 ∧
      (savegame_write 1 { version := 3, enemy_count := 65 } {}).2 = 0 ∧
      (savegame_read 1 (savegame_write 1 { version := 3, enemy_count := 65 } {}).1).2 = 0 ∧
      (savegame_read 1 (savegame_write 1 { version := 3, enemy_count := 65 } {}).1).1.enemy_count = 64 := by
  decide!

/-! ## The view angle after the mouse look -/

/-- The constant `two_pi` is positive. -/
theorem two_pi_pos : 0 < two_pi := by
  unfold two_pi M_PI
  norm_num

/-- For a positive divisor, `fmodf x y` has the sign of `x` and is smaller than `y` in
absolute value. -/
theorem fmodf_range (x y : ℚ) (hy : 0 < y) :
    (0 ≤ x → 0 ≤ fmodf x y ∧ fmodf x y < y) ∧ (x ≤ 0 → -y < fmodf x y ∧ fmodf x y ≤ 0) := by
  have hx : x = x / y * y := by field_simp
  constructor
  · intro h0
    have hq : 0 ≤ x / y := div_nonneg h0 hy.le
    have h1 : ((⌊x / y⌋ : Int) : ℚ) ≤ x / y := Int.floor_le _
    have h2 : x / y < (⌊x / y⌋ : ℚ) + 1 := Int.lt_floor_add_one _
    unfold fmodf truncf
    rw [if_pos hq]
    constructor <;> nlinarith
  · intro h0
    have h1 : x / y ≤ ((⌈x / y⌉ : Int) : ℚ) := Int.le_ceil _
    have h2 : ((⌈x / y⌉ : Int) : ℚ) < x / y + 1 := Int.ceil_lt_add_one _
    unfold fmodf truncf
    by_cases hq : 0 ≤ x / y
    · have hq0 : x / y = 0 := le_antisymm (div_nonpos_of_nonpos_of_nonneg h0 hy.le) hq
      have hx0 : x = 0 := by rw [hx, hq0]; simp
      rw [if_pos hq, hq0, hx0]
      simp [hy]
    · rw [if_neg hq]
      constructor <;> nlinarith

/-- The normalisation of an angle yields a value in `[0, two_pi)`. -/
theorem wrap_angle_range (a : ℚ) : 0 ≤ wrap_angle a ∧ wrap_angle a < two_pi := by
  have hp := two_pi_pos
  unfold wrap_angle
  by_cases h : a ≥ two_pi ∨ a ≤ -two_pi
  · rw [if_pos h]
    rcases h with h | h
    · have := (fmodf_range a two_pi hp).1 (le_trans hp.le h)
      rw [if_neg (not_lt.mpr this.1)]
      exact this
    · have := (fmodf_range a two_pi hp).2 (by linarith)
      by_cases h0 : fmodf a two_pi < 0
      · rw [if_pos h0]; constructor <;> linarith [this.1]
      · rw [if_neg h0]; constructor <;> linarith [this.2]
  · rw [if_neg h]
    push_neg at h
    by_cases h0 : a < 0
    · rw [if_pos h0]; constructor <;> linarith [h.2]
    · rw [if_neg h0]; constructor <;> linarith [h.1]

/-- The mouse-look section stores the normalised sum of the angle and the mouse motion. -/
theorem player_mouse_look_angle (inp : Input) (g : World) :
    (player_mouse_look inp g).angle = wrap_angle (g.angle + (inp.mdx : ℚ) * g.mouse_sensitivity) :=
  rfl

theorem player_movement_angle (m : Libm) (dt : ℚ) (inp : Input) (g : World) :
    (player_movement m dt inp g).angle = g.angle := by
  unfold player_movement
  simp only
  split
  · split
    · split
      · rfl
      · rfl
    · rfl
  · rfl

theorem fire_weapon_angle (g : World) : (fire_weapon g).angle = g.angle := by
  unfold fire_weapon set_weapon_cd weapon_consume_ammo
  cases hw : g.current_weapon <;> simp only <;> split <;> rfl

theorem player_shooting_angle (dt : ℚ) (inp : Input) (g : World) :
    (player_shooting dt inp g).angle = g.angle := by
  unfold player_shooting
  split
  · exact fire_weapon_angle (shooting_prepare dt g)
  · rfl

theorem World.setTile_angle (g : World) (y x : Nat) (v : Int) :
    (g.setTile y x v).angle = g.angle := by
  unfold World.setTile
  cases g.worldmap <;> rfl

theorem interact_cell_angle (m : Libm) (g : World) (y x : Nat) :
    (interact_cell m g y x).angle = g.angle := by
  have hs := World.setTile_angle g y x 0
  unfold interact_cell
  simp only
  split
  · exact hs
  · split
    · split
      · rfl
      · split
        · exact hs
        · rfl
    · rfl

theorem player_interaction_angle (m : Libm) (inp : Input) (g : World) :
    (player_interaction m inp g).angle = g.angle := by
  unfold player_interaction
  simp only
  split
  · split
    · exact for_tiles_invariant (fun a => a.angle = g.angle) _ _ (interact_cell m)
        (fun a y2 x2 _ _ ha => (interact_cell_angle m a y2 x2).trans ha) g rfl
    · rfl
  · rfl

theorem player_damage_fx_angle (dt : ℚ) (g : World) : (player_damage_fx dt g).angle = g.angle := by
  unfold player_damage_fx
  split
  · rfl
  · rfl

/-- The sections of `update_player` after the mouse look leave the view angle alone. -/
theorem player_sections_angle (m : Libm) (dt : ℚ) (inp : Input) (g : World) :
    (player_sections m dt inp g).angle = (player_mouse_look inp g).angle := by
  unfold player_sections
  rw [player_damage_fx_angle, player_interaction_angle]
  exact (player_shooting_angle dt inp _).trans (player_movement_angle m dt inp _)

/-- C21: after the mouse-look section of `update_player` the view angle lies in
`[0, two_pi)`, for every starting angle, every mouse delta and every sensitivity; the
later sections of `update_player` leave the angle alone, so the same holds after
`update_player` whenever it does not return early. -/
theorem mouse_look_angle_range (m : Libm) (dt : ℚ) (inp : Input) (g : World) :
    (0 ≤ (player_mouse_look inp g).angle ∧ (player_mouse_look inp g).angle < two_pi) ∧
    ((godmode_refresh g).player_dead = 0 →
      0 ≤ (update_player m dt inp g).angle ∧ (update_player m dt inp g).angle < two_pi) := by
  have h : ∀ w : World, 0 ≤ (player_mouse_look inp w).angle ∧ (player_mouse_look inp w).angle < two_pi :=
    fun w => by rw [player_mouse_look_angle]; exact wrap_angle_range _
  refine ⟨h g, fun hrun => ?_⟩
  have e : update_player m dt inp g = player_sections m dt inp (godmode_refresh g) := by
    unfold update_player
    rw [if_neg (by simp [hrun])]
  rw [e, player_sections_angle]
  exact h _

theorem mouse_look_angle_range_witness :
    (player_mouse_look { input_of [] 0 with mdx := 1000 } turning_player).angle
        = 8.5 - two_pi ∧
      0 ≤ (update_player libm_ref (1 / 60) { input_of [] 0 with mdx := 1000 } turning_player).angle ∧
      (update_player libm_ref (1 / 60) { input_of [] 0 with mdx := 1000 } turning_player).angle
        < two_pi :=
  ⟨by decide!,
    (mouse_look_angle_range libm_ref (1 / 60) { input_of [] 0 with mdx := 1000 } turning_player).2
      (by decide!)⟩

/-! ## The melee attack of an enemy -/

theorem tick_attack_timer_frame (dt : ℚ) (e : Enemy) :
    (tick_attack_timer dt e).x = e.x ∧ (tick_attack_timer dt e).y = e.y ∧
      (tick_attack_timer dt e).state = e.state ∧ (tick_attack_timer dt e).kind = e.kind ∧
      (tick_attack_timer dt e).touch_cooldown = e.touch_cooldown := by
  unfold tick_attack_timer
  split
  · exact ⟨rfl, rfl, rfl, rfl, rfl⟩
  · exact ⟨rfl, rfl, rfl, rfl, rfl⟩

theorem enemy_chase_frame (dt : ℚ) (g : World) (e : Enemy) (dx dy dist : ℚ) :
    (enemy_chase dt g e dx dy dist).kind = e.kind ∧
      (enemy_chase dt g e dx dy dist).touch_cooldown = e.touch_cooldown ∧
      (enemy_chase dt g e dx dy dist).attack_timer = e.attack_timer := by
  unfold enemy_chase
  simp only
  split
  · split
    · split
      · split
        · split <;> split <;> exact ⟨rfl, rfl, rfl⟩
        · exact ⟨rfl, rfl, rfl⟩
      · exact ⟨rfl, rfl, rfl⟩
    · exact ⟨rfl, rfl, rfl⟩
  · exact ⟨rfl, rfl, rfl⟩

theorem tick_touch_cooldown_frame (dt : ℚ) (e : Enemy) :
    (tick_touch_cooldown dt e).kind = e.kind ∧
      (tick_touch_cooldown dt e).attack_timer = e.attack_timer ∧
      (tick_touch_cooldown dt e).touch_cooldown =
        if e.touch_cooldown > 0 then (if e.touch_cooldown - dt < 0 then 0 else e.touch_cooldown - dt)
        else e.touch_cooldown := by
  unfold tick_touch_cooldown
  split
  · exact ⟨rfl, rfl, rfl⟩
  · exact ⟨rfl, rfl, rfl⟩

/-- The distance of the loop body is computed from the position at the head of the body. -/
theorem enemy_dist_tick (m : Libm) (dt : ℚ) (g : World) (e : Enemy) :
    enemy_dist m g (tick_attack_timer dt e) = enemy_dist m g e := by
  unfold enemy_dist
  rw [(tick_attack_timer_frame dt e).1, (tick_attack_timer_frame dt e).2.1]

/-- The loop body of `update_enemies` for an enemy that is ALIVE: the chase, the
decrement of the touch cooldown and the melee attack. -/
theorem update_enemy_alive (m : Libm) (dt : ℚ) (g : World) (e : Enemy) (halive : e.state = ENEMY_ALIVE) :
    update_enemy m dt g e =
      enemy_attack g
        (tick_touch_cooldown dt
          (enemy_chase dt g (tick_attack_timer dt e) (g.px - e.x) (g.py - e.y) (enemy_dist m g e)))
        (enemy_dist m g e) := by
  have hf := tick_attack_timer_frame dt e
  unfold update_enemy
  rw [if_neg (by rw [halive]; decide), if_neg (by rw [hf.2.2.1, halive]; decide), enemy_dist_tick,
    hf.1, hf.2.1]
/-- The fields of the enemy that enters the melee test, in terms of the enemy at the head
of the loop body. -/
theorem before_attack_fields (m : Libm) (dt : ℚ) (g : World) (e : Enemy) :
    (tick_touch_cooldown dt
        (enemy_chase dt g (tick_attack_timer dt e) (g.px - e.x) (g.py - e.y) (enemy_dist m g e))).kind
        = e.kind ∧
      (tick_touch_cooldown dt
        (enemy_chase dt g (tick_attack_timer dt e) (g.px - e.x) (g.py - e.y)
          (enemy_dist m g e))).touch_cooldown = (tick_touch_cooldown dt e).touch_cooldown ∧
      (tick_touch_cooldown dt
        (enemy_chase dt g (tick_attack_timer dt e) (g.px - e.x) (g.py - e.y)
          (enemy_dist m g e))).attack_timer = (tick_attack_timer dt e).attack_timer := by
  have h1 := tick_attack_timer_frame dt e
  have h2 := enemy_chase_frame dt g (tick_attack_timer dt e) (g.px - e.x) (g.py - e.y) (enemy_dist m g e)
  have h3 := tick_touch_cooldown_frame dt
    (enemy_chase dt g (tick_attack_timer dt e) (g.px - e.x) (g.py - e.y) (enemy_dist m g e))
  refine ⟨by rw [h3.1, h2.1, h1.2.2.2.1], ?_, by rw [h3.2.1, h2.2.2]⟩
  rw [h3.2.2, (tick_touch_cooldown_frame dt e).2.2, h2.2.1, h1.2.2.2.2]

/-- C22: for an enemy that is ALIVE at its iteration of the loop of `update_enemies`: if
the player is not dead, the distance to the player (computed at the head of the
iteration) is below the melee range of the kind and the touch cooldown after its
decrement is not positive, the touch cooldown becomes the cadence of the kind and the
attack timer 0.22; without godmode hp becomes `max (hp - damage) 0`, the player damage
timer 0.30 and `player_dead` is 1 exactly when hp reached 0; with godmode the globals are
unchanged.  If one of the three conditions fails, the globals are unchanged and the
enemy keeps its decremented touch cooldown and attack timer.  The ranges are
0.50/0.50/0.65/0.70, the cadences 1.00/0.60/0.85/0.70 and the damages 10/10/15/20. -/
theorem enemy_attack_rule (m : Libm) (dt : ℚ) (g : World) (e : Enemy) (halive : e.state = ENEMY_ALIVE) :
    (attacks m dt g e →
      (update_enemy m dt g e).1.touch_cooldown = attack_cooldown_for_kind e.kind ∧
      (update_enemy m dt g e).1.attack_timer = 0.22 ∧
      (g.godmode_enabled = 0 →
        (update_enemy m dt g e).2.hp = max (g.hp - attack_damage_for_kind e.kind) 0 ∧
        (update_enemy m dt g e).2.player_damage_timer = 0.30 ∧
        ((update_enemy m dt g e).2.player_dead = 1 ↔ (update_enemy m dt g e).2.hp = 0) ∧
        ((update_enemy m dt g e).2.player_dead = 1 ∨ (update_enemy m dt g e).2.player_dead = 0)) ∧
      (g.godmode_enabled ≠ 0 → (update_enemy m dt g e).2 = g)) ∧
    (¬ attacks m dt g e →
      (update_enemy m dt g e).2 = g ∧
      (update_enemy m dt g e).1.touch_cooldown = (tick_touch_cooldown dt e).touch_cooldown ∧
      (update_enemy m dt g e).1.attack_timer = (tick_attack_timer dt e).attack_timer) ∧
    (attack_range_for_kind ENEMY_KIND1 = 0.50 ∧ attack_range_for_kind ENEMY_KIND2 = 0.50 ∧
      attack_range_for_kind ENEMY_MINIBOSS1 = 0.65 ∧ attack_range_for_kind ENEMY_FINALBOSS = 0.70) ∧
    (attack_cooldown_for_kind ENEMY_KIND1 = 1.00 ∧ attack_cooldown_for_kind ENEMY_KIND2 = 0.60 ∧
      attack_cooldown_for_kind ENEMY_MINIBOSS1 = 0.85 ∧
      attack_cooldown_for_kind ENEMY_FINALBOSS = 0.70) ∧
    (attack_damage_for_kind ENEMY_KIND1 = 10 ∧ attack_damage_for_kind ENEMY_KIND2 = 10 ∧
      attack_damage_for_kind ENEMY_MINIBOSS1 = 15 ∧ attack_damage_for_kind ENEMY_FINALBOSS = 20) := by
  have hf := before_attack_fields m dt g e
  have hu := update_enemy_alive m dt g e halive
  refine ⟨fun hat => ?_, fun hno => ?_, ⟨rfl, rfl, rfl, rfl⟩, ⟨rfl, rfl, rfl, rfl⟩, ⟨rfl, rfl, rfl, rfl⟩⟩
  · have hc : g.player_dead = 0 ∧ enemy_dist m g e < attack_range_for_kind
        (tick_touch_cooldown dt (enemy_chase dt g (tick_attack_timer dt e) (g.px - e.x) (g.py - e.y)
          (enemy_dist m g e))).kind ∧
        (tick_touch_cooldown dt (enemy_chase dt g (tick_attack_timer dt e) (g.px - e.x) (g.py - e.y)
          (enemy_dist m g e))).touch_cooldown ≤ 0 := by
      rw [hf.1, hf.2.1]
      exact hat
    rw [hu]
    unfold enemy_attack
    rw [if_pos hc, hf.1]
    refine ⟨rfl, rfl, fun hgod => ?_, fun hgod => ?_⟩
    · simp only [if_pos hgod]
      unfold hurt_player
      by_cases hz : g.hp - attack_damage_for_kind e.kind ≤ 0
      · simp [hz]
      · have hz2 : 0 ≤ g.hp - attack_damage_for_kind e.kind := le_of_lt (not_le.mp hz)
        have hz3 : g.hp - attack_damage_for_kind e.kind ≠ 0 := fun h => hz (le_of_eq h)
        simp [hz, hz2, hz3, hat.1]
    · simp only [if_neg hgod]
  · have hc : ¬ (g.player_dead = 0 ∧ enemy_dist m g e < attack_range_for_kind
        (tick_touch_cooldown dt (enemy_chase dt g (tick_attack_timer dt e) (g.px - e.x) (g.py - e.y)
          (enemy_dist m g e))).kind ∧
        (tick_touch_cooldown dt (enemy_chase dt g (tick_attack_timer dt e) (g.px - e.x) (g.py - e.y)
          (enemy_dist m g e))).touch_cooldown ≤ 0) := by
      rw [hf.1, hf.2.1]
      exact hno
    rw [hu]
    unfold enemy_attack
    rw [if_neg hc]
    exact ⟨rfl, hf.2.1, hf.2.2⟩

theorem enemy_attack_rule_witness :
    attacks libm_ref 0.25 melee_scene
        { x := 1.9, y := 1.5, state := ENEMY_ALIVE, kind := ENEMY_KIND1, hp := 1,
          touch_cooldown := 0.1, dying_timer := 0, attack_timer := 0 } ∧
      (update_enemies libm_ref 0.25 melee_scene).hp = 0 ∧
      (update_enemies libm_ref 0.25 melee_scene).player_dead = 1 ∧
      (update_enemy libm_ref 0.25 melee_scene
        { x := 1.9, y := 1.5, state := ENEMY_ALIVE, kind := ENEMY_KIND1, hp := 1,
          touch_cooldown := 0.1, dying_timer := 0, attack_timer := 0 }).2.hp
        = max (melee_scene.hp - attack_damage_for_kind ENEMY_KIND1) 0 :=
  ⟨by decide!, by decide!, by decide!,
    (((enemy_attack_rule libm_ref 0.25 melee_scene
      { x := 1.9, y := 1.5, state := ENEMY_ALIVE, kind := ENEMY_KIND1, hp := 1,
        touch_cooldown := 0.1, dying_timer := 0, attack_timer := 0 } rfl).1 (by decide!)).2.2.1
      rfl).1⟩

/-! ## The restored position -/

theorem wrap_angle_id (a : ℚ) (h0 : 0 ≤ a) (h1 : a < two_pi) : wrap_angle a = a := by
  have hp := two_pi_pos
  have c : ¬ (a ≥ two_pi ∨ a ≤ -two_pi) := by
    push_neg
    constructor <;> linarith
  unfold wrap_angle
  simp only [if_neg c, if_neg (not_lt.mpr h0)]

theorem wrap_angle_zero : wrap_angle 0.0 = 0 := by
  have h0 : (0.0 : ℚ) = 0 := by norm_num
  rw [h0]
  exact wrap_angle_id 0 le_rfl two_pi_pos

/-- The flag `ok` is set only for a position at least 0.1 inside the map whose tile is
not solid. -/
theorem pos_ok_true (g : World) (nx ny : ℚ) (h : pos_ok g nx ny = true) :
    g.worldmap ≠ none ∧ (0.1 ≤ nx ∧ nx < (g.worldWidth : ℚ) - 0.1) ∧
      (0.1 ≤ ny ∧ ny < (g.worldHeight : ℚ) - 0.1) ∧
      g.tile (truncf ny).toNat (truncf nx).toNat < 2 := by
  unfold pos_ok at h
  by_cases c1 : g.worldmap = none ∨ g.worldWidth ≤ 0 ∨ g.worldHeight ≤ 0
  · simp only [if_pos c1] at h
    simp at h
  · by_cases c2 : nx < 0.1 ∨ ny < 0.1
    · simp only [if_pos c2] at h
      simp at h
    · by_cases c3 : nx ≥ (g.worldWidth : ℚ) - 0.1 ∨ ny ≥ (g.worldHeight : ℚ) - 0.1
      · simp only [if_pos c3] at h
        simp at h
      · by_cases c4 : truncf nx < 0 ∨ truncf ny < 0 ∨ truncf nx ≥ g.worldWidth ∨ truncf ny ≥ g.worldHeight
        · simp only [if_neg c1, if_neg c2, if_neg c3, if_pos c4] at h
          simp at h
        · by_cases c5 : g.tile (truncf ny).toNat (truncf nx).toNat ≥ 2
          · simp only [if_neg c1, if_neg c2, if_neg c3, if_neg c4, if_pos c5] at h
            simp at h
          · push_neg at c1 c2 c3 c5
            exact ⟨c1.1, ⟨c2.1, c3.1⟩, ⟨c2.2, c3.2⟩, c5⟩

/-- The position (0, 0) is rejected on every map. -/
theorem pos_ok_origin (g : World) : pos_ok g 0 0 = false := by
  unfold pos_ok
  simp only
  have c2 : (0 : ℚ) < 0.1 ∨ (0 : ℚ) < 0.1 := Or.inl (by norm_num)
  rw [if_pos c2]
  split <;> simp
/-- A saved position (0, 0) makes `load_slot_and_enter` place the player at the spawn
point of the loaded map with angle 0. -/
theorem load_restore_origin (sg : SaveGame) (g : World) (hx : sg.px = 0) (hy : sg.py = 0) :
    (load_restore sg g).px = (load_restore sg g).player_spawn_x ∧
      (load_restore sg g).py = (load_restore sg g).player_spawn_y ∧ (load_restore sg g).angle = 0 := by
  unfold load_restore apply_player_pos_safely
  simp only [hx, hy, pos_ok_origin]
  exact ⟨rfl, rfl, wrap_angle_zero⟩

theorem round6_zero : round6 0.0 = 0 := by decide!

/-- The record read back from the file that `save_progress_to_slot` writes holds the
position (0, 0). -/
theorem progress_save_read (slot : Int) (s : Game) (d : Disk) (h1 : 1 ≤ slot) (h3 : slot ≤ 3)
    (hw : d.writable slot = true) :
    (savegame_read slot (save_progress_to_slot slot s d).1.2).2 = 0 ∧
      (savegame_read slot (save_progress_to_slot slot s d).1.2).1.px = 0 ∧
      (savegame_read slot (save_progress_to_slot slot s d).1.2).1.py = 0 := by
  have e : (save_progress_to_slot slot s d).1.2 = (savegame_write slot (save_progress_record s) d).1 := by
    unfold save_progress_to_slot
    rw [savegame_write_ok slot _ d h1 h3 hw, if_neg (by simp)]
  rw [e, savegame_read_write slot _ d h1 h3 hw]
  exact ⟨rfl, round6_zero, round6_zero⟩

/-- C24: `apply_player_pos_safely` keeps the saved position, with the saved angle
normalised to `[0, two_pi)` (the saved angle itself when it is in that range), only if the
position lies strictly inside the map (at least 0.1 from its border) on a loaded map and
its tile has a value below 2; in every other case the player is placed at the spawn
point with angle 0.  The position (0, 0) is rejected on every map, so a load of the save
written by `save_progress_to_slot` succeeds and leaves the player at the spawn point of
the loaded map with angle 0. -/
theorem apply_player_pos_safely_spec (in_x in_y in_angle : ℚ) (g : World) :
    (pos_ok g in_x in_y = true →
      (g.worldmap ≠ none ∧ 0 < in_x ∧ in_x < g.worldWidth ∧ 0 < in_y ∧ in_y < g.worldHeight ∧
        g.tile (truncf in_y).toNat (truncf in_x).toNat < 2) ∧
      (apply_player_pos_safely in_x in_y in_angle g).px = in_x ∧
      (apply_player_pos_safely in_x in_y in_angle g).py = in_y ∧
      (apply_player_pos_safely in_x in_y in_angle g).angle = wrap_angle in_angle ∧
      (0 ≤ in_angle → in_angle < two_pi →
        (apply_player_pos_safely in_x in_y in_angle g).angle = in_angle)) ∧
    (pos_ok g in_x in_y = false →
      (apply_player_pos_safely in_x in_y in_angle g).px = g.player_spawn_x ∧
      (apply_player_pos_safely in_x in_y in_angle g).py = g.player_spawn_y ∧
      (apply_player_pos_safely in_x in_y in_angle g).angle = 0) ∧
    pos_ok g 0 0 = false ∧
    (∀ (files : Int → Option (List Char)) (slot : Int) (s0 s : Game) (d : Disk),
      1 ≤ slot → slot ≤ 3 → d.writable slot = true →
        (load_slot_and_enter files slot s (save_progress_to_slot slot s0 d).1.2).2 = 0 ∧
        (load_slot_and_enter files slot s (save_progress_to_slot slot s0 d).1.2).1.world.px =
          (load_slot_and_enter files slot s (save_progress_to_slot slot s0 d).1.2).1.world.player_spawn_x ∧
        (load_slot_and_enter files slot s (save_progress_to_slot slot s0 d).1.2).1.world.py =
          (load_slot_and_enter files slot s (save_progress_to_slot slot s0 d).1.2).1.world.player_spawn_y ∧
        (load_slot_and_enter files slot s (save_progress_to_slot slot s0 d).1.2).1.world.angle = 0) := by
  refine ⟨fun hok => ?_, fun hno => ?_, pos_ok_origin g, ?_⟩
  · obtain ⟨hm, hx, hy, ht⟩ := pos_ok_true g in_x in_y hok
    have e1 : (0.1 : ℚ) = 1 / 10 := by norm_num
    rw [e1] at hx hy
    refine ⟨⟨hm, by linarith [hx.1], by linarith [hx.2], by linarith [hy.1], by linarith [hy.2], ht⟩,
      ?_, ?_, ?_, ?_⟩
    · unfold apply_player_pos_safely
      simp only [hok, if_true]
    · unfold apply_player_pos_safely
      simp only [hok, if_true]
    · unfold apply_player_pos_safely
      simp only [hok, if_true]
    · intro h0 h1
      unfold apply_player_pos_safely
      simp only [hok, if_true]
      exact wrap_angle_id in_angle h0 h1
  · unfold apply_player_pos_safely
    simp only [hno]
    exact ⟨by simp, by simp, by simpa using wrap_angle_zero⟩
  · intro files slot s0 s d h1 h3 hw
    obtain ⟨r0, rx, ry⟩ := progress_save_read slot s0 d h1 h3 hw
    unfold load_slot_and_enter
    rw [if_neg (by rw [r0]; decide)]
    exact ⟨rfl, load_restore_origin _ _ rx ry⟩
theorem apply_player_pos_safely_spec_witness :
    pos_ok room_loaded 2.5 1.5 = true ∧
      (apply_player_pos_safely 2.5 1.5 1 room_loaded).px = 2.5 ∧
      (apply_player_pos_safely 2.5 1.5 1 room_loaded).angle = 1 ∧
      pos_ok room_loaded 2.5 2.5 = false ∧
      (apply_player_pos_safely 2.5 2.5 1 room_loaded).px = room_loaded.player_spawn_x ∧
      (load_slot_and_enter one_room 2 {} (save_progress_to_slot 2 {} {}).1.2).1.world.px =
        (load_slot_and_enter one_room 2 {} (save_progress_to_slot 2 {} {}).1.2).1.world.player_spawn_x :=
  ⟨by decide!,
    ((apply_player_pos_safely_spec 2.5 1.5 1 room_loaded).1 (by decide!)).2.1,
    ((apply_player_pos_safely_spec 2.5 1.5 1 room_loaded).1 (by decide!)).2.2.2.2 (by norm_num)
      (by unfold two_pi M_PI; norm_num),
    by decide!,
    ((apply_player_pos_safely_spec 2.5 2.5 1 room_loaded).2.1 (by decide!)).1,
    ((apply_player_pos_safely_spec 0 0 0 room_loaded).2.2.2 one_room 2 {} {} {} (by decide)
      (by decide) rfl).2.1⟩

/-! ## Tokens of a map row -/

/-- C25, evaluated on the row `1 5x 1`: the line has three whitespace-separated tokens,
and `load_map` succeeds with width 4 and the tiles 1, 5, 2, 1, because `parse_next_int`
stops after the digits of `5x` and takes the rest of the word as a token of its own. -/
theorem glued_token_two_tiles :
    (ws_tokens "1 5x 1\n".toList).length = 3 ∧
      (load_map glued_token_map 1 {}).2 = 0 ∧
      (load_map glued_token_map 1 {}).1.worldWidth = 4 ∧
      (load_map glued_token_map 1 {}).1.worldHeight = 1 ∧
      (List.range 4).map ((load_map glued_token_map 1 {}).1.tile 0) = [1, 5, 2, 1] ∧
      parse_next_int "5x 1\n".toList 0 = (1, 5, "x 1\n".toList) ∧
      parse_next_int "x 1\n".toList 0 = (1, 2, " 1\n".toList) := by
  refine ⟨by decide!, by decide!, by decide!, by decide!, by decide!, by decide!, by decide!⟩

/-- C16, evaluated on a map whose second row is `2 5x 0 2`: the row has four
whitespace-separated tokens, as many as the width, and the second is not a number; a
wall for it would give the row 2, 2, 0, 2.  `load_map` stores 2, 5, 2, 0: the digit of
`5x` becomes the tile 5, the letter becomes a wall in the next column, and the last
token of the row is never read. -/
theorem glued_word_shifts_row :
    ws_tokens "2 5x 0 2\n".toList = ["2".toList, "5x".toList, "0".toList, "2".toList] ∧
      strtol "5x".toList = some (5, "x".toList) ∧
      (load_map glued_row_map 1 {}).2 = 0 ∧
      (load_map glued_row_map 1 {}).1.worldWidth = 4 ∧
      (load_map glued_row_map 1 {}).1.worldmap = some [[2, 2, 2, 2], [2, 5, 2, 0], [2, 2, 2, 2]] ∧
      (load_map glued_row_map 1 {}).1.tile 1 1 ≠ 2 := by
  refine ⟨by decide!, by decide!, by decide!, by decide!, by decide!, by decide!⟩

/-! ## The shot flag of a dead player -/

/-- C30, evaluated on two PLAYING frames: in the first the left button is pressed, the
player fires one bullet at the miniboss and the miniboss kills the player; in the second
no button is down, `update_player` returns at `if (player_dead) return;` with
`shot_fired` still 1, and the shot resolution damages the miniboss again although no shot
was fired and no ammo consumed. -/
theorem stale_shot_after_death :
    (playing_updates libm_ref 0.02 (input_of [] 1) last_stand_scene).player_dead = 1 ∧
      (playing_updates libm_ref 0.02 (input_of [] 1) last_stand_scene).shot_fired = 1 ∧
      (playing_updates libm_ref 0.02 (input_of [] 1) last_stand_scene).ammo_bullets = 9 ∧
      (playing_updates libm_ref 0.02 (input_of [] 1) last_stand_scene).enemies.map (fun e => e.hp) = [29] ∧
      want_fire (input_of [] 0) (playing_updates libm_ref 0.02 (input_of [] 1) last_stand_scene) = 0 ∧
      (update_player libm_ref 0.02 (input_of [] 0)
        (playing_updates libm_ref 0.02 (input_of [] 1) last_stand_scene)).shot_fired = 1 ∧
      (run_frames libm_ref 0.02 (input_of [] 0) 1
        (playing_updates libm_ref 0.02 (input_of [] 1) last_stand_scene)).ammo_bullets = 9 ∧
      (run_frames libm_ref 0.02 (input_of [] 0) 1
        (playing_updates libm_ref 0.02 (input_of [] 1) last_stand_scene)).enemies.map (fun e => e.hp)
        = [28] ∧
      (run_frames libm_ref 0.02 (input_of [] 0) 5
        (playing_updates libm_ref 0.02 (input_of [] 1) last_stand_scene)).enemies.map (fun e => e.hp)
        = [24] := by
  refine ⟨by decide!, by decide!, by decide!, by decide!, by decide!, by decide!, by decide!,
    by decide!, by decide!⟩

/-! ## Occlusion of the sprites -/

/-- C28, evaluated on a key behind a wall: the march of `is_visible_to_player` from the
player toward the centre of the key tile meets the wall tile first and reports the
target hidden, and `draw_enemies` issues no call for the enemy standing there, but
`draw_keys` draws the key sprite (40 x 40 at the screen centre): it has no occlusion
test. -/
theorem key_behind_wall_drawn :
    is_visible_to_player libm_ref key_behind_wall_scene 3.5 1.5 = 0 ∧
      draw_enemies libm_ref { texEnemy1 := some 1 } key_behind_wall_scene = [] ∧
      draw_keys libm_ref (some 7) key_behind_wall_scene =
        [{ tex := 7, x := 380, y := 280, w := 40, h := 40 }] := by
  refine ⟨by decide!, by decide!, by decide!⟩

/-! ## The DDA loop of the wall projector -/

/-- The step signs of the ray of a column are 1 or -1. -/
theorem ray_of_steps (m : Libm) (g : World) (sx : Int) :
    ((ray_of m g sx).stepX = 1 ∨ (ray_of m g sx).stepX = -1) ∧
      ((ray_of m g sx).stepY = 1 ∨ (ray_of m g sx).stepY = -1) := by
  unfold ray_of
  simp only
  constructor
  · split
    · exact Or.inr rfl
    · exact Or.inl rfl
  · split
    · exact Or.inr rfl
    · exact Or.inl rfl

/-- One step of the DDA moves `mapX` or `mapY`, and only one of them, by its step
sign. -/
theorem dda_advance_moves (r : Ray) (s : Dda) :
    ((dda_advance r s).mapX = s.mapX + r.stepX ∧ (dda_advance r s).mapY = s.mapY) ∨
      ((dda_advance r s).mapX = s.mapX ∧ (dda_advance r s).mapY = s.mapY + r.stepY) := by
  unfold dda_advance
  split
  · exact Or.inl ⟨rfl, rfl⟩
  · exact Or.inr ⟨rfl, rfl⟩

theorem dda_hit_test_pos (g : World) (r : Ray) (s : Dda) :
    (dda_hit_test g r s).mapX = s.mapX ∧ (dda_hit_test g r s).mapY = s.mapY := by
  unfold dda_hit_test
  split
  · exact ⟨rfl, rfl⟩
  · exact ⟨rfl, rfl⟩

theorem dda_range_test_pos (r : Ray) (s : Dda) :
    (dda_range_test r s).mapX = s.mapX ∧ (dda_range_test r s).mapY = s.mapY := by
  unfold dda_range_test
  by_cases h : (if s.side = 0 then s.sideDistX - r.deltaDistX else s.sideDistY - r.deltaDistY) > MAX_DIST
  · rw [if_pos h]
    exact ⟨rfl, rfl⟩
  · rw [if_neg h]
    exact ⟨rfl, rfl⟩

/-- The loop body keeps the tile reached by its step, and leaves `hit` clear only when
that tile is inside the map. -/
theorem dda_body_pos (g : World) (r : Ray) (s : Dda) :
    (dda_body g r s).mapX = (dda_advance r s).mapX ∧ (dda_body g r s).mapY = (dda_advance r s).mapY ∧
      ((dda_body g r s).hit = 0 →
        0 ≤ (dda_advance r s).mapX ∧ (dda_advance r s).mapX < g.worldWidth ∧
        0 ≤ (dda_advance r s).mapY ∧ (dda_advance r s).mapY < g.worldHeight) := by
  unfold dda_body
  split
  · refine ⟨rfl, rfl, fun h => ?_⟩
    simp at h
  · rename_i hb
    push_neg at hb
    exact ⟨(dda_range_test_pos r _).1.trans (dda_hit_test_pos g r _).1,
      (dda_range_test_pos r _).2.trans (dda_hit_test_pos g r _).2,
      fun _ => ⟨hb.1, hb.2.2.1, hb.2.1, hb.2.2.2⟩⟩

/-- A step that leaves `hit` clear uses up one of the steps left inside the map. -/
theorem dda_body_room (g : World) (r : Ray) (s : Dda)
    (hx : r.stepX = 1 ∨ r.stepX = -1) (hy : r.stepY = 1 ∨ r.stepY = -1)
    (h : (dda_body g r s).hit = 0) :
    0 ≤ dda_room g r (dda_body g r s) ∧
      dda_room g r (dda_body g r s) ≤ g.worldWidth + g.worldHeight - 2 ∧
      dda_room g r (dda_body g r s) = dda_room g r s - 1 := by
  obtain ⟨ex, ey, hb⟩ := dda_body_pos g r s
  obtain ⟨b1, b2, b3, b4⟩ := hb h
  unfold dda_room
  rw [ex, ey]
  have e1 : ¬ ((-1 : Int) = 1) := by decide
  rcases dda_advance_moves r s with ⟨mx, my⟩ | ⟨mx, my⟩ <;>
    rcases hx with hx | hx <;> rcases hy with hy | hy <;>
    simp only [hx, hy, if_true, if_neg e1] at mx my ⊢ <;> omega

/-- From a tile inside the map the loop ends within as many iterations as there are
steps left inside the map, plus one. -/
theorem dda_loop_inside (g : World) (r : Ray)
    (hx : r.stepX = 1 ∨ r.stepX = -1) (hy : r.stepY = 1 ∨ r.stepY = -1) :
    ∀ (n : Nat) (s : Dda), dda_room g r s < n → 0 ≤ dda_room g r s →
      ∃ s2, dda_loop g r n s = some s2 ∧ s2.hit ≠ 0 := by
  intro n
  induction n with
  | zero => intro s h1 h2; omega
  | succ k ih =>
    intro s h1 h2
    unfold dda_loop
    by_cases hs : s.hit ≠ 0
    · rw [if_pos hs]
      exact ⟨s, rfl, hs⟩
    · rw [if_neg hs]
      by_cases hb : (dda_body g r s).hit = 0
      · obtain ⟨r0, _, r2⟩ := dda_body_room g r s hx hy hb
        exact ih _ (by rw [r2]; push_cast at h1; omega) r0
      · cases k with
        | zero => exact ⟨_, by unfold dda_loop; rw [if_pos hb], hb⟩
        | succ j => exact ⟨_, by unfold dda_loop; rw [if_pos hb], hb⟩

/-- The DDA loop ends within `worldWidth + worldHeight + 2` iterations, from every start
tile and for every ray whose step signs are 1 or -1. -/
theorem dda_loop_total (g : World) (r : Ray) (s : Dda)
    (hw : 0 < g.worldWidth) (hh : 0 < g.worldHeight)
    (hx : r.stepX = 1 ∨ r.stepX = -1) (hy : r.stepY = 1 ∨ r.stepY = -1) :
    ∃ s2, dda_loop g r (g.worldWidth + g.worldHeight + 2).toNat s = some s2 ∧ s2.hit ≠ 0 := by
  obtain ⟨k, hk⟩ : ∃ k : Nat, (g.worldWidth + g.worldHeight + 2).toNat = k + 1 :=
    ⟨(g.worldWidth + g.worldHeight + 1).toNat, by omega⟩
  rw [hk]
  unfold dda_loop
  by_cases hs : s.hit ≠ 0
  · rw [if_pos hs]
    exact ⟨s, rfl, hs⟩
  · rw [if_neg hs]
    by_cases hb : (dda_body g r s).hit = 0
    · obtain ⟨r0, r1, _⟩ := dda_body_room g r s hx hy hb
      exact dda_loop_inside g r hx hy k _ (by omega) r0
    · cases k with
      | zero => exact ⟨_, by unfold dda_loop; rw [if_pos hb], hb⟩
      | succ j => exact ⟨_, by unfold dda_loop; rw [if_pos hb], hb⟩
/-- C29: the DDA loop of `draw_world` ends for every column.  On a map with positive
width and height, for every player position and every ray (any `cosf` and `sinf`), the
loop started by the column reaches its exit within `worldWidth + worldHeight + 2`
iterations; the same holds from any start tile and for any ray whose step signs are 1 or
-1.  Every iteration moves `mapX` or `mapY`, and only one of them, by its step sign, and
an iteration that does not end the loop has stepped to a tile inside the map. -/
theorem dda_terminates (m : Libm) (g : World) (sx : Int)
    (hw : 0 < g.worldWidth) (hh : 0 < g.worldHeight) :
    (∃ s2, dda_loop g (ray_of m g sx) (g.worldWidth + g.worldHeight + 2).toNat
        (dda_init g (ray_of m g sx)) = some s2 ∧ s2.hit ≠ 0) ∧
    (∀ (r : Ray) (s : Dda), (r.stepX = 1 ∨ r.stepX = -1) → (r.stepY = 1 ∨ r.stepY = -1) →
      ∃ s2, dda_loop g r (g.worldWidth + g.worldHeight + 2).toNat s = some s2 ∧ s2.hit ≠ 0) ∧
    (∀ (r : Ray) (s : Dda),
      (((dda_body g r s).mapX = s.mapX + r.stepX ∧ (dda_body g r s).mapY = s.mapY) ∨
        ((dda_body g r s).mapX = s.mapX ∧ (dda_body g r s).mapY = s.mapY + r.stepY)) ∧
      ((dda_body g r s).hit = 0 →
        0 ≤ (dda_body g r s).mapX ∧ (dda_body g r s).mapX < g.worldWidth ∧
        0 ≤ (dda_body g r s).mapY ∧ (dda_body g r s).mapY < g.worldHeight)) := by
  refine ⟨dda_loop_total g _ _ hw hh (ray_of_steps m g sx).1 (ray_of_steps m g sx).2,
    fun r s hx hy => dda_loop_total g r s hw hh hx hy, fun r s => ?_⟩
  obtain ⟨ex, ey, hb⟩ := dda_body_pos g r s
  rw [ex, ey]
  exact ⟨dda_advance_moves r s, hb⟩

theorem dda_terminates_witness :
    0 < mid_room_scene.worldWidth ∧ 0 < mid_room_scene.worldHeight ∧
      (mid_room_scene.worldWidth + mid_room_scene.worldHeight + 2).toNat = 8 ∧
      ∃ s2, dda_loop mid_room_scene (ray_of libm_ref mid_room_scene 400)
          (mid_room_scene.worldWidth + mid_room_scene.worldHeight + 2).toNat
          (dda_init mid_room_scene (ray_of libm_ref mid_room_scene 400)) = some s2 ∧ s2.hit ≠ 0 :=
  ⟨by decide, by decide, by decide,
    (dda_terminates libm_ref mid_room_scene 400 (by decide) (by decide)).1⟩

/-! ## The wall slice of a column -/

theorem truncf_bounds (q : ℚ) : ⌊q⌋ ≤ truncf q ∧ truncf q ≤ ⌈q⌉ := by
  unfold truncf
  split
  · exact ⟨le_rfl, Int.floor_le_ceil q⟩
  · exact ⟨Int.floor_le_ceil q, le_rfl⟩

theorem clamp_perp_pos (p : ℚ) : 0 < (if p ≤ 0 then (0.001 : ℚ) else p) := by
  split
  · norm_num
  · rename_i h
    exact not_le.mp h

/-- The clamp of the perpendicular distance leaves a positive value. -/
theorem perp_dist_pos (g : World) (r : Ray) (s : Dda) : 0 < perp_dist g r s :=
  clamp_perp_pos _

theorem dda_body_perp_pos (g : World) (r : Ray) (s : Dda) (h : 0 < s.perpWallDist) :
    0 < (dda_body g r s).perpWallDist := by
  have h30 : (0 : ℚ) < MAX_DIST := by unfold MAX_DIST; norm_num
  have ha : (dda_advance r s).perpWallDist = s.perpWallDist := by
    unfold dda_advance
    split <;> rfl
  have hh : 0 < (dda_hit_test g r (dda_advance r s)).perpWallDist := by
    unfold dda_hit_test
    split
    · exact perp_dist_pos g r _
    · rw [← ha] at h
      exact h
  unfold dda_body
  split
  · exact h30
  · unfold dda_range_test
    by_cases c : (if (dda_hit_test g r (dda_advance r s)).side = 0
        then (dda_hit_test g r (dda_advance r s)).sideDistX - r.deltaDistX
        else (dda_hit_test g r (dda_advance r s)).sideDistY - r.deltaDistY) > MAX_DIST
    · rw [if_pos c]
      exact hh
    · rw [if_neg c]
      exact hh

/-- The perpendicular distance is positive at the exit of the DDA loop. -/
theorem dda_loop_perp_pos (g : World) (r : Ray) :
    ∀ (n : Nat) (s s2 : Dda), 0 < s.perpWallDist → dda_loop g r n s = some s2 →
      0 < s2.perpWallDist := by
  intro n
  induction n with
  | zero =>
    intro s s2 hp h
    unfold dda_loop at h
    split at h
    · cases h
      exact hp
    · cases h
  | succ k ih =>
    intro s s2 hp h
    unfold dda_loop at h
    split at h
    · cases h
      exact hp
    · exact ih _ _ (dda_body_perp_pos g r s hp) h

/-- The span of a wall slice computed from a positive distance. -/
theorem wall_slice_span (s : Dda) (sl : WallSlice) (hp : 0 < s.perpWallDist)
    (h : wall_slice s = some sl) :
    sl.perp = s.perpWallDist ∧ s.tile ≥ 2 ∧ sl.perp ≤ MAX_DIST ∧
      sl.y1 = max 0 (truncf (300 - 240 / sl.perp / 2)) ∧
      sl.y2 = min H (truncf (300 + 240 / sl.perp / 2)) ∧
      0 ≤ sl.y1 ∧ sl.y1 ≤ sl.y2 ∧ sl.y2 ≤ H := by
  have h300 : ((Int.tdiv H 2 : Int) : ℚ) = 300 := by decide!
  have hH : H = 600 := rfl
  unfold wall_slice at h
  split at h
  · cases h
  · rename_i hc
    push_neg at hc
    simp only [Option.some.injEq] at h
    subst h
    simp only
    rw [h300]
    have e240 : (240.0 : ℚ) = 240 := by norm_num
    rw [e240]
    have hq : 0 < 240 / s.perpWallDist / 2 := by positivity
    have b1 := (truncf_bounds (300 - 240 / s.perpWallDist / 2)).2
    have b2 := (truncf_bounds (300 + 240 / s.perpWallDist / 2)).1
    have c1 : ⌈300 - 240 / s.perpWallDist / 2⌉ ≤ 300 := by
      rw [Int.ceil_le]
      push_cast
      linarith
    have c2 : (300 : Int) ≤ ⌊300 + 240 / s.perpWallDist / 2⌋ := by
      rw [Int.le_floor]
      push_cast
      linarith
    generalize truncf (300 - 240 / s.perpWallDist / 2) = a at *
    generalize truncf (300 + 240 / s.perpWallDist / 2) = b at *
    refine ⟨trivial, hc.1, hc.2, ?_, ?_, ?_, ?_, ?_⟩
    · split <;> omega
    · split <;> omega
    · split <;> omega
    · split <;> split <;> omega
    · split <;> omega
/-- C27: on a map with positive width and height the computation of a column ends (within
`worldWidth + worldHeight + 2` iterations of the DDA loop), and whenever it yields a wall
slice, with whatever number of iterations, the perpendicular distance is strictly
positive, so that the height `240 / perp` is a positive quotient by a non-zero divisor,
and the span is `y1 = max 0 ((int)(300 - h/2))`, `y2 = min H ((int)(300 + h/2))` with
`0 <= y1 <= y2 <= H`. -/
theorem wall_slice_well_defined (m : Libm) (g : World) (sx : Int)
    (hw : 0 < g.worldWidth) (hh : 0 < g.worldHeight) :
    (∃ c, draw_column m g sx (g.worldWidth + g.worldHeight + 2).toNat = some c) ∧
    (∀ (fuel : Nat) (sl : WallSlice), draw_column m g sx fuel = some (some sl) →
      0 < sl.perp ∧ sl.perp ≠ 0 ∧ 0 < 240 / sl.perp ∧
      sl.y1 = max 0 (truncf (300 - 240 / sl.perp / 2)) ∧
      sl.y2 = min H (truncf (300 + 240 / sl.perp / 2)) ∧
      0 ≤ sl.y1 ∧ sl.y1 ≤ sl.y2 ∧ sl.y2 ≤ H) := by
  constructor
  · obtain ⟨s2, h2, _⟩ := dda_loop_total g (ray_of m g sx) (dda_init g (ray_of m g sx)) hw hh
      (ray_of_steps m g sx).1 (ray_of_steps m g sx).2
    exact ⟨wall_slice s2, by unfold draw_column; rw [h2]; rfl⟩
  · intro fuel sl h
    unfold draw_column at h
    cases hl : dda_loop g (ray_of m g sx) fuel (dda_init g (ray_of m g sx)) with
    | none => rw [hl] at h; cases h
    | some s2 =>
      rw [hl] at h
      simp only [Option.map_some', Option.some.injEq] at h
      have hp : 0 < s2.perpWallDist :=
        dda_loop_perp_pos g _ fuel _ s2 (by unfold dda_init MAX_DIST; norm_num) hl
      obtain ⟨e, _, _, e1, e2, b1, b2, b3⟩ := wall_slice_span s2 sl hp h
      rw [← e] at hp
      exact ⟨hp, ne_of_gt hp, by positivity, e1, e2, b1, b2, b3⟩

theorem wall_slice_well_defined_witness :
    0 < mid_room_scene.worldWidth ∧ 0 < mid_room_scene.worldHeight ∧
      draw_column libm_ref mid_room_scene 400 8 = some (some { perp := 0.5, y1 := 60, y2 := 540 }) ∧
      (0 : ℚ) < 0.5 ∧ (60 : Int) ≤ 540 ∧ (540 : Int) ≤ H :=
  ⟨by decide, by decide, by decide!,
    ((wall_slice_well_defined libm_ref mid_room_scene 400 (by decide) (by decide)).2 8
      { perp := 0.5, y1 := 60, y2 := 540 } (by decide!)).1,
    ((wall_slice_well_defined libm_ref mid_room_scene 400 (by decide) (by decide)).2 8
      { perp := 0.5, y1 := 60, y2 := 540 } (by decide!)).2.2.2.2.2.2.1,
    ((wall_slice_well_defined libm_ref mid_room_scene 400 (by decide) (by decide)).2 8
      { perp := 0.5, y1 := 60, y2 := 540 } (by decide!)).2.2.2.2.2.2.2⟩

/-! ## The clamp of the perpendicular distance -/

/-- C26, evaluated on the player half a thousandth of a tile from the wall ahead: the
player stands in a floor tile, the centre column hits the wall, and the slice is drawn
with the perpendicular distance 0.0005, below 0.001: the clamp of the loop body replaces
only distances that are not positive. -/
theorem thin_gap_slice :
    near_wall_scene.tile (truncf near_wall_scene.py).toNat (truncf near_wall_scene.px).toNat = 0 ∧
      draw_column libm_ref near_wall_scene 400 8 =
        some (some { perp := 0.0005, y1 := 0, y2 := 600 }) ∧
      (0.0005 : ℚ) < 0.001 ∧
      perp_dist near_wall_scene (ray_of libm_ref near_wall_scene 400)
        (dda_advance (ray_of libm_ref near_wall_scene 400)
          (dda_init near_wall_scene (ray_of libm_ref near_wall_scene 400))) = 0.0005 := by
  refine ⟨by decide!, by decide!, by norm_num, by decide!⟩

/-! ## The session invariant -/

/-- The level kept by the two `load_map` calls is the level asked for or the fallback. -/
theorem load_map_or_level (files : Int → Option (List Char)) (level keep : Int) (g : World) :
    (load_map_or files level keep g).1 = level ∨ (load_map_or files level keep g).1 = keep := by
  unfold load_map_or
  split
  · exact Or.inr rfl
  · exact Or.inl rfl

theorem session_inv_begin_new_game (files : Int → Option (List Char)) (startLevel : Int) (s : Game)
    (h : session_inv s) : session_inv (begin_new_game files startLevel s) := by
  obtain ⟨_, _, hc⟩ := h
  refine ⟨?_, ⟨le_rfl, by show (1 : Int) ≤ 3; decide⟩, hc⟩
  show (1 ≤ (if startLevel < 1 then 1 else if startLevel > 9 then 9 else startLevel) ∧
    (if startLevel < 1 then 1 else if startLevel > 9 then 9 else startLevel) ≤ 9)
  split
  · decide
  · split
    · decide
    · omega

/-- The function `load_slot_and_enter` called with a slot in 1..3 keeps the invariant,
whatever the directory holds. -/
theorem session_inv_load_slot (files : Int → Option (List Char)) (slot : Int) (s : Game) (d : Disk)
    (h1 : 1 ≤ slot) (h3 : slot ≤ 3) (h : session_inv s) :
    session_inv (load_slot_and_enter files slot s d).1 := by
  have key : ∀ (L : Int) (G : World), 1 ≤ L → L ≤ 9 →
      1 ≤ (load_map_or files L 1 G).1 ∧ (load_map_or files L 1 G).1 ≤ 9 := by
    intro L G a b
    rcases load_map_or_level files L 1 G with e | e
    · rw [e]
      exact ⟨a, b⟩
    · rw [e]
      decide
  have hL : 1 ≤ (if (savegame_read slot d).1.level < 1 ∨ (savegame_read slot d).1.level > 9 then 1
        else (savegame_read slot d).1.level) ∧
      (if (savegame_read slot d).1.level < 1 ∨ (savegame_read slot d).1.level > 9 then 1
        else (savegame_read slot d).1.level) ≤ 9 := by
    split
    · decide
    · rename_i hl
      push_neg at hl
      exact ⟨hl.1, hl.2⟩
  unfold load_slot_and_enter
  by_cases hr : (savegame_read slot d).2 ≠ 0
  · rw [if_pos hr]
    exact h
  · rw [if_neg hr]
    exact ⟨key _ _ hL.1 hL.2, ⟨h1, h3⟩, h.2.2⟩

theorem session_inv_slot_up (s : Game) (h : session_inv s) : session_inv (slot_up s) := by
  obtain ⟨h1, h2, h3⟩ := h
  refine ⟨h1, h2, ?_⟩
  show (0 ≤ (if s.slot_selection > 0 then s.slot_selection - 1 else s.slot_selection) ∧
    (if s.slot_selection > 0 then s.slot_selection - 1 else s.slot_selection) ≤ 3)
  split <;> omega

theorem session_inv_slot_down (s : Game) (h : session_inv s) : session_inv (slot_down s) := by
  obtain ⟨h1, h2, h3⟩ := h
  refine ⟨h1, h2, ?_⟩
  show (0 ≤ (if s.slot_selection < 3 then s.slot_selection + 1 else s.slot_selection) ∧
    (if s.slot_selection < 3 then s.slot_selection + 1 else s.slot_selection) ≤ 3)
  split <;> omega

theorem session_inv_loadmenu_key (files : Int → Option (List Char)) (sc : Nat) (s : Game) (d : Disk)
    (h : session_inv s) : session_inv (loadmenu_key files sc s d) := by
  unfold loadmenu_key
  split
  · exact session_inv_slot_up s h
  · split
    · exact session_inv_slot_down s h
    · split
      · exact h
      · split
        · split
          · exact h
          · rename_i hne
            exact session_inv_load_slot files _ s d (by have := h.2.2.1; omega)
              (by have := h.2.2.2; omega) h
        · exact h

/-- The function `save_current_to_slot` keeps the invariant for every slot: it writes
`active_slot` only after `savegame_write` has accepted the slot. -/
theorem session_inv_save_current (slot : Int) (s : Game) (d : Disk) (h : session_inv s) :
    session_inv (save_current_to_slot slot s d).1.1 := by
  unfold save_current_to_slot
  split
  · exact h
  · rename_i hw
    have hs : 1 ≤ slot ∧ slot ≤ 3 := by
      by_contra hc
      apply hw
      unfold savegame_write
      rw [if_pos (by omega)]
      simp
    exact ⟨h.1, hs, h.2.2⟩

theorem session_inv_savemenu_key (sc : Nat) (s : Game) (d : Disk) (h : session_inv s) :
    session_inv (savemenu_key sc s d).1 := by
  have hs := session_inv_save_current (s.slot_selection + 1) s d h
  unfold savemenu_key
  split
  · exact session_inv_slot_up s h
  · split
    · exact session_inv_slot_down s h
    · split
      · exact h
      · split
        · split
          · exact h
          · split
            · exact hs
            · exact hs
        · exact h

theorem session_inv_congr (a b : Game) (h1 : b.currentLevel = a.currentLevel)
    (h2 : b.active_slot = a.active_slot) (h3 : b.slot_selection = a.slot_selection)
    (h : session_inv a) : session_inv b := by
  unfold session_inv at *
  rw [h1, h2, h3]
  exact h

theorem session_inv_save_progress (s : Game) (d : Disk) (h : session_inv s) :
    session_inv (save_progress_to_slot s.active_slot s d).1.1 := by
  unfold save_progress_to_slot
  split
  · exact h
  · exact h

theorem session_inv_level_completion (s : Game) (d : Disk) (h : session_inv s) :
    session_inv (level_completion s d).1 := by
  unfold level_completion
  split
  · split
    · rename_i hl
      have h2 : session_inv
          { s with
            world := { s.world with escaped := 0 }
            cutscene_index := s.currentLevel
            currentLevel := s.currentLevel + 1 } :=
        ⟨⟨by have := h.1.1; show 1 ≤ s.currentLevel + 1; omega, by show s.currentLevel + 1 ≤ 9; omega⟩,
          h.2.1, h.2.2⟩
      have h3 := session_inv_save_progress
        { s with
          world := { s.world with escaped := 0 }
          cutscene_index := s.currentLevel
          currentLevel := s.currentLevel + 1 } d h2
      exact session_inv_congr _ _ rfl rfl rfl h3
    · exact h
  · exact h

theorem session_inv_playing_frame (m : Libm) (dt : ℚ) (inp : Input) (s : Game) (d : Disk)
    (h : session_inv s) : session_inv (playing_frame m dt inp s d).1 := by
  unfold playing_frame
  split
  · exact session_inv_level_completion _ d h
  · exact h

theorem session_inv_cutscene_key (files : Int → Option (List Char)) (sc : Nat) (s : Game)
    (h : session_inv s) : session_inv (cutscene_key files sc s) := by
  unfold cutscene_key
  split
  · exact h
  · refine ⟨?_, h.2.1, h.2.2⟩
    rcases load_map_or_level files s.currentLevel 1 s.world with e | e
    · show 1 ≤ (load_map_or files s.currentLevel 1 s.world).1 ∧
        (load_map_or files s.currentLevel 1 s.world).1 ≤ 9
      rw [e]
      exact h.1
    · show 1 ≤ (load_map_or files s.currentLevel 1 s.world).1 ∧
        (load_map_or files s.currentLevel 1 s.world).1 ≤ 9
      rw [e]
      decide

/-- Every reachable session state satisfies the invariant. -/
theorem session_reachable_inv (s : Game) (h : session_reachable s) : session_inv s := by
  induction h with
  | init s h1 h2 h3 =>
    unfold session_inv
    rw [h1, h2, h3]
    decide
  | new_game files startLevel s _ ih => exact session_inv_begin_new_game files startLevel s ih
  | load_key files sc s d _ ih => exact session_inv_loadmenu_key files sc s d ih
  | save_key sc s d _ ih => exact session_inv_savemenu_key sc s d ih
  | frame m dt inp s d _ ih => exact session_inv_playing_frame m dt inp s d ih
  | cutscene files sc s _ ih => exact session_inv_cutscene_key files sc s ih
  | other s s2 h1 h2 h3 _ ih =>
    unfold session_inv
    rw [h1, h2]
    refine ⟨ih.1, ih.2.1, ?_⟩
    rcases h3 with e | e
    · rw [e]
      exact ih.2.2
    · rw [e]
      decide
/-- C23: in every reachable session state the current level is one of 1..9 and the
autosave slot one of 1, 2, 3 (and the slot cursor one of 0..3, which is what keeps the
slot passed by the load menu in range).  The reachable states are those obtained from
the C initialisers by `begin_new_game` with any start level, the keys of the load menu
(`load_slot_and_enter` on any directory content, so any saved level) and of the save
menu, PLAYING frames with the level-completion transition, the keys of the cutscene
(the load of the next map), and the assignments that do not write these variables.
From such a state, `load_slot_and_enter` with a slot in 1..3 keeps the invariant too. -/
theorem session_invariant (s : Game) (h : session_reachable s) :
    (1 ≤ s.currentLevel ∧ s.currentLevel ≤ 9) ∧
    (s.active_slot = 1 ∨ s.active_slot = 2 ∨ s.active_slot = 3) ∧
    (0 ≤ s.slot_selection ∧ s.slot_selection ≤ 3) ∧
    (∀ (files : Int → Option (List Char)) (slot : Int) (d : Disk), 1 ≤ slot → slot ≤ 3 →
      session_inv (load_slot_and_enter files slot s d).1) := by
  have hi := session_reachable_inv s h
  obtain ⟨h1, h2, h3⟩ := hi
  refine ⟨h1, by omega, h3, fun files slot d a b => session_inv_load_slot files slot s d a b ⟨h1, h2, h3⟩⟩

theorem session_invariant_witness :
    session_reachable (begin_new_game one_room 12 {}) ∧
      (begin_new_game one_room 12 {}).currentLevel = 9 ∧
      (1 ≤ (begin_new_game one_room 12 {}).currentLevel ∧
        (begin_new_game one_room 12 {}).currentLevel ≤ 9) ∧
      ((begin_new_game one_room 12 {}).active_slot = 1 ∨ (begin_new_game one_room 12 {}).active_slot = 2 ∨
        (begin_new_game one_room 12 {}).active_slot = 3) :=
  ⟨session_reachable.new_game one_room 12 {} (session_reachable.init {} rfl rfl rfl),
    rfl,
    (session_invariant (begin_new_game one_room 12 {})
      (session_reachable.new_game one_room 12 {} (session_reachable.init {} rfl rfl rfl))).1,
    (session_invariant (begin_new_game one_room 12 {})
      (session_reachable.new_game one_room 12 {} (session_reachable.init {} rfl rfl rfl))).2.1⟩

/-! ## Entities spawned from tiles -/

theorem push_enemy_tile (g : World) (e : Enemy) (y x : Nat) : (push_enemy g e).tile y x = g.tile y x :=
  rfl

theorem push_item_tile (g : World) (it : Item) (y x : Nat) : (push_item g it).tile y x = g.tile y x :=
  rfl

/-- The body of the loop of `init_enemies` at a cell: on an enemy tile with a free slot
it appends the enemy of the tile and clears the tile; otherwise it changes nothing. -/
theorem init_enemies_cell_cases (g : World) (y x : Nat) :
    (∃ k, enemy_kind_of_tile (g.tile y x) = some k ∧ g.enemies.length < MAX_ENEMIES ∧
        (init_enemies_cell g y x).enemies = g.enemies ++ [spawned_enemy y x k] ∧
        ∀ y2 x2, (init_enemies_cell g y x).tile y2 x2 = if y2 = y ∧ x2 = x then 0 else g.tile y2 x2) ∨
      (init_enemies_cell g y x = g ∧
        (enemy_kind_of_tile (g.tile y x) = none ∨ MAX_ENEMIES ≤ g.enemies.length)) := by
  unfold init_enemies_cell
  cases hk : enemy_kind_of_tile (g.tile y x) with
  | none => exact Or.inr ⟨rfl, Or.inl rfl⟩
  | some k =>
    simp only
    by_cases hc : g.enemies.length < MAX_ENEMIES
    · rw [if_pos hc]
      left
      have hne : g.tile y x ≠ 0 := by
        intro h0
        rw [h0] at hk
        simp [enemy_kind_of_tile] at hk
      refine ⟨k, rfl, hc, ?_, ?_⟩
      · rw [World.setTile_enemies]
        rfl
      · intro y2 x2
        exact World.tile_setTile_of_ne_zero (push_enemy g (spawned_enemy y x k)) y x y2 x2 0 hne
    · rw [if_neg hc]
      exact Or.inr ⟨rfl, Or.inr (not_lt.mp hc)⟩

/-- The body of the loop of `init_items` at a cell: on an item tile with a free slot it
appends the item of the tile and clears the tile; otherwise it changes nothing. -/
theorem init_items_cell_cases (g : World) (y x : Nat) :
    (∃ t, item_type_of_tile (g.tile y x) = some t ∧ g.items.length < MAX_ITEMS ∧
        (init_items_cell g y x).items = g.items ++ [spawned_item y x t] ∧
        ∀ y2 x2, (init_items_cell g y x).tile y2 x2 = if y2 = y ∧ x2 = x then 0 else g.tile y2 x2) ∨
      (init_items_cell g y x = g ∧
        (item_type_of_tile (g.tile y x) = none ∨ MAX_ITEMS ≤ g.items.length)) := by
  unfold init_items_cell
  cases hk : item_type_of_tile (g.tile y x) with
  | none => exact Or.inr ⟨rfl, Or.inl rfl⟩
  | some t =>
    simp only
    have hit : is_item_tile (g.tile y x) = true := by
      by_contra hn
      have := (item_type_of_tile_none (g.tile y x)).2 (by simpa using hn)
      rw [this] at hk
      cases hk
    by_cases hc : g.items.length < MAX_ITEMS
    · rw [if_pos ⟨hit, hc⟩]
      left
      have hne : g.tile y x ≠ 0 := by
        intro h0
        rw [h0] at hit
        simp [is_item_tile] at hit
      refine ⟨t, rfl, hc, ?_, ?_⟩
      · rw [World.setTile_items]
        rfl
      · intro y2 x2
        exact World.tile_setTile_of_ne_zero (push_item g (spawned_item y x t)) y x y2 x2 0 hne
    · rw [if_neg (fun h => hc h.2)]
      exact Or.inr ⟨rfl, Or.inr (not_lt.mp hc)⟩

theorem init_enemies_unfold (w h : Int) (g : World) (hg : map_loaded w h g) (hw : 0 < w) (hh : 0 < h) :
    init_enemies g = for_tiles h.toNat w.toNat init_enemies_cell { g with enemies := [] } := by
  obtain ⟨hwf, hW, hH, _⟩ := hg
  have hnone : ¬ (({ g with enemies := [] } : World).worldmap = none ∨
      ({ g with enemies := [] } : World).worldWidth ≤ 0 ∨
      ({ g with enemies := [] } : World).worldHeight ≤ 0) := by
    obtain ⟨m, hm, _, _⟩ := hwf
    simp only [hm, hW, hH]
    simp
    omega
  unfold init_enemies
  simp only
  rw [if_neg hnone]
  simp only [hW, hH]

theorem init_items_unfold (w h : Int) (g : World) (hg : map_loaded w h g) :
    init_items g = for_tiles h.toNat w.toNat init_items_cell { g with items := [] } := by
  obtain ⟨hwf, hW, hH, _⟩ := hg
  have hnone : ¬ (({ g with items := [] } : World).worldmap = none) := by
    obtain ⟨m, hm, _, _⟩ := hwf
    simp [hm]
  unfold init_items
  simp only
  rw [if_neg hnone]
  simp only [hW, hH]

/-- The loop of `init_enemies` turns an enemy tile into the enemy of its kind at the
centre of the tile and clears the tile, unless all slots are used when it gets there. -/
theorem init_enemies_turns (w h : Int) (g : World) (hg : map_loaded w h g) (hw : 0 < w) (hh : 0 < h)
    (y0 x0 : Nat) (k : EnemyKind) (hk : enemy_kind_of_tile (g.tile y0 x0) = some k) :
    ((init_enemies g).tile y0 x0 = 0 ∧ spawned_enemy y0 x0 k ∈ (init_enemies g).enemies) ∨
      ((init_enemies g).tile y0 x0 = g.tile y0 x0 ∧
        (init_enemies g).enemies.length = MAX_ENEMIES) := by
  have hne : g.tile y0 x0 ≠ 0 := by
    intro h0
    rw [h0] at hk
    simp [enemy_kind_of_tile] at hk
  have hr := grid_wf_inrange w h g y0 x0 hg.1 hne
  have h0kind : enemy_kind_of_tile 0 = none := by simp [enemy_kind_of_tile]
  rw [init_enemies_unfold w h g hg hw hh]
  -- one step of the loop, from a state in which the tile is still there or already turned
  have one : ∀ (a : World) (y x : Nat), a.enemies.length ≤ MAX_ENEMIES →
      (a.tile y0 x0 = g.tile y0 x0 ∨ (a.tile y0 x0 = 0 ∧ spawned_enemy y0 x0 k ∈ a.enemies)) →
      (init_enemies_cell a y x).enemies.length ≤ MAX_ENEMIES ∧
      ((init_enemies_cell a y x).tile y0 x0 = g.tile y0 x0 ∧
          ((y = y0 ∧ x = x0) → (init_enemies_cell a y x).enemies.length = MAX_ENEMIES) ∧
          (a.enemies.length = MAX_ENEMIES → (init_enemies_cell a y x).enemies.length = MAX_ENEMIES) ∨
        ((init_enemies_cell a y x).tile y0 x0 = 0 ∧
          spawned_enemy y0 x0 k ∈ (init_enemies_cell a y x).enemies)) := by
    intro a y x hlen ht
    rcases init_enemies_cell_cases a y x with ⟨k2, hk2, hlt, hen, htile⟩ | ⟨hsame, hwhy⟩
    · refine ⟨by rw [hen]; simp only [List.length_append, List.length_singleton]; omega, ?_⟩
      rw [htile y0 x0, hen]
      by_cases hc : y0 = y ∧ x0 = x
      · right
        rw [if_pos hc]
        refine ⟨rfl, ?_⟩
        obtain ⟨rfl, rfl⟩ := hc
        rcases ht with ht | ht
        · rw [ht, hk] at hk2
          cases hk2
          simp
        · rw [ht.1, h0kind] at hk2
          cases hk2
      · rw [if_neg hc]
        rcases ht with ht | ht
        · left
          refine ⟨ht, fun hyx => absurd ⟨hyx.1.symm, hyx.2.symm⟩ hc, fun hfull => ?_⟩
          omega
        · right
          exact ⟨ht.1, List.mem_append_left _ ht.2⟩
    · rw [hsame]
      refine ⟨hlen, ?_⟩
      rcases ht with ht | ht
      · left
        refine ⟨ht, fun hyx => ?_, fun hfull => hfull⟩
        obtain ⟨rfl, rfl⟩ := hyx
        rcases hwhy with hnone | hfull
        · rw [ht, hk] at hnone
          cases hnone
        · omega
      · right
        exact ht
  exact for_tiles_visit
    (fun a => a.enemies.length ≤ MAX_ENEMIES ∧
      (a.tile y0 x0 = g.tile y0 x0 ∨ (a.tile y0 x0 = 0 ∧ spawned_enemy y0 x0 k ∈ a.enemies)))
    (fun a => (a.tile y0 x0 = 0 ∧ spawned_enemy y0 x0 k ∈ a.enemies) ∨
      (a.tile y0 x0 = g.tile y0 x0 ∧ a.enemies.length = MAX_ENEMIES))
    h.toNat w.toNat init_enemies_cell y0 x0 hr.1 hr.2
    (fun a y x _ _ ha => by
      obtain ⟨h1, h2⟩ := one a y x ha.1 ha.2
      refine ⟨h1, ?_⟩
      rcases h2 with h2 | h2
      · exact Or.inl h2.1
      · exact Or.inr h2)
    (fun a ha => by
      obtain ⟨_, h2⟩ := one a y0 x0 ha.1 ha.2
      rcases h2 with h2 | h2
      · exact Or.inr ⟨h2.1, h2.2.1 ⟨rfl, rfl⟩⟩
      · exact Or.inl h2)
    (fun a y x _ _ ha hq => by
      rcases hq with hq | hq
      · obtain ⟨_, h2⟩ := one a y x ha.1 (Or.inr hq)
        rcases h2 with h2 | h2
        · exact Or.inr ⟨h2.1, by
            -- the tile is 0 and equals the enemy tile of the map: impossible
            exfalso
            have := h2.1
            rcases init_enemies_cell_cases a y x with ⟨k2, hk2, hlt, hen, htile⟩ | ⟨hsame, _⟩
            · rw [htile y0 x0] at this
              split at this
              · exact hne this.symm
              · rw [hq.1] at this
                exact hne this.symm
            · rw [hsame, hq.1] at this
              exact hne this.symm⟩
        · exact Or.inl h2
      · obtain ⟨_, h2⟩ := one a y x ha.1 (Or.inl hq.1)
        rcases h2 with h2 | h2
        · exact Or.inr ⟨h2.1, h2.2.2 hq.2⟩
        · exact Or.inl h2)
    { g with enemies := [] } ⟨by simp, Or.inl rfl⟩

/-- The loop of `init_enemies` leaves every tile that is not an enemy tile as it is. -/
theorem init_enemies_keeps (w h : Int) (g : World) (hg : map_loaded w h g) (hw : 0 < w) (hh : 0 < h)
    (y0 x0 : Nat) (hk : enemy_kind_of_tile (g.tile y0 x0) = none) :
    (init_enemies g).tile y0 x0 = g.tile y0 x0 := by
  rw [init_enemies_unfold w h g hg hw hh]
  exact for_tiles_invariant (fun a => a.tile y0 x0 = g.tile y0 x0) h.toNat w.toNat init_enemies_cell
    (fun a y x _ _ ha => by
      rcases init_enemies_cell_cases a y x with ⟨k2, hk2, _, _, htile⟩ | ⟨hsame, _⟩
      · rw [htile y0 x0]
        by_cases hc : y0 = y ∧ x0 = x
        · obtain ⟨rfl, rfl⟩ := hc
          rw [ha, hk] at hk2
          cases hk2
        · rw [if_neg hc]
          exact ha
      · rw [hsame]
        exact ha)
    { g with enemies := [] } rfl

/-- The loop of `init_items` turns an item tile into the item of its type at the
centre of the tile and clears the tile, unless all slots are used when it gets there. -/
theorem init_items_turns (w h : Int) (g : World) (hg : map_loaded w h g)
    (y0 x0 : Nat) (k : ItemType) (hk : item_type_of_tile (g.tile y0 x0) = some k) :
    ((init_items g).tile y0 x0 = 0 ∧ spawned_item y0 x0 k ∈ (init_items g).items) ∨
      ((init_items g).tile y0 x0 = g.tile y0 x0 ∧
        (init_items g).items.length = MAX_ITEMS) := by
  have hne : g.tile y0 x0 ≠ 0 := by
    intro h0
    rw [h0] at hk
    simp [item_type_of_tile] at hk
  have hr := grid_wf_inrange w h g y0 x0 hg.1 hne
  have h0kind : item_type_of_tile 0 = none := by simp [item_type_of_tile]
  rw [init_items_unfold w h g hg]
  -- one step of the loop, from a state in which the tile is still there or already turned
  have one : ∀ (a : World) (y x : Nat), a.items.length ≤ MAX_ITEMS →
      (a.tile y0 x0 = g.tile y0 x0 ∨ (a.tile y0 x0 = 0 ∧ spawned_item y0 x0 k ∈ a.items)) →
      (init_items_cell a y x).items.length ≤ MAX_ITEMS ∧
      ((init_items_cell a y x).tile y0 x0 = g.tile y0 x0 ∧
          ((y = y0 ∧ x = x0) → (init_items_cell a y x).items.length = MAX_ITEMS) ∧
          (a.items.length = MAX_ITEMS → (init_items_cell a y x).items.length = MAX_ITEMS) ∨
        ((init_items_cell a y x).tile y0 x0 = 0 ∧
          spawned_item y0 x0 k ∈ (init_items_cell a y x).items)) := by
    intro a y x hlen ht
    rcases init_items_cell_cases a y x with ⟨k2, hk2, hlt, hen, htile⟩ | ⟨hsame, hwhy⟩
    · refine ⟨by rw [hen]; simp only [List.length_append, List.length_singleton]; omega, ?_⟩
      rw [htile y0 x0, hen]
      by_cases hc : y0 = y ∧ x0 = x
      · right
        rw [if_pos hc]
        refine ⟨rfl, ?_⟩
        obtain ⟨rfl, rfl⟩ := hc
        rcases ht with ht | ht
        · rw [ht, hk] at hk2
          cases hk2
          simp
        · rw [ht.1, h0kind] at hk2
          cases hk2
      · rw [if_neg hc]
        rcases ht with ht | ht
        · left
          refine ⟨ht, fun hyx => absurd ⟨hyx.1.symm, hyx.2.symm⟩ hc, fun hfull => ?_⟩
          omega
        · right
          exact ⟨ht.1, List.mem_append_left _ ht.2⟩
    · rw [hsame]
      refine ⟨hlen, ?_⟩
      rcases ht with ht | ht
      · left
        refine ⟨ht, fun hyx => ?_, fun hfull => hfull⟩
        obtain ⟨rfl, rfl⟩ := hyx
        rcases hwhy with hnone | hfull
        · rw [ht, hk] at hnone
          cases hnone
        · omega
      · right
        exact ht
  exact for_tiles_visit
    (fun a => a.items.length ≤ MAX_ITEMS ∧
      (a.tile y0 x0 = g.tile y0 x0 ∨ (a.tile y0 x0 = 0 ∧ spawned_item y0 x0 k ∈ a.items)))
    (fun a => (a.tile y0 x0 = 0 ∧ spawned_item y0 x0 k ∈ a.items) ∨
      (a.tile y0 x0 = g.tile y0 x0 ∧ a.items.length = MAX_ITEMS))
    h.toNat w.toNat init_items_cell y0 x0 hr.1 hr.2
    (fun a y x _ _ ha => by
      obtain ⟨h1, h2⟩ := one a y x ha.1 ha.2
      refine ⟨h1, ?_⟩
      rcases h2 with h2 | h2
      · exact Or.inl h2.1
      · exact Or.inr h2)
    (fun a ha => by
      obtain ⟨_, h2⟩ := one a y0 x0 ha.1 ha.2
      rcases h2 with h2 | h2
      · exact Or.inr ⟨h2.1, h2.2.1 ⟨rfl, rfl⟩⟩
      · exact Or.inl h2)
    (fun a y x _ _ ha hq => by
      rcases hq with hq | hq
      · obtain ⟨_, h2⟩ := one a y x ha.1 (Or.inr hq)
        rcases h2 with h2 | h2
        · exact Or.inr ⟨h2.1, by
            -- the tile is 0 and equals the item tile of the map: impossible
            exfalso
            have := h2.1
            rcases init_items_cell_cases a y x with ⟨k2, hk2, hlt, hen, htile⟩ | ⟨hsame, _⟩
            · rw [htile y0 x0] at this
              split at this
              · exact hne this.symm
              · rw [hq.1] at this
                exact hne this.symm
            · rw [hsame, hq.1] at this
              exact hne this.symm⟩
        · exact Or.inl h2
      · obtain ⟨_, h2⟩ := one a y x ha.1 (Or.inl hq.1)
        rcases h2 with h2 | h2
        · exact Or.inr ⟨h2.1, h2.2.2 hq.2⟩
        · exact Or.inl h2)
    { g with items := [] } ⟨by simp, Or.inl rfl⟩

/-- The loop of `init_items` leaves every tile that is not an item tile as it is. -/
theorem init_items_keeps (w h : Int) (g : World) (hg : map_loaded w h g)
    (y0 x0 : Nat) (hk : item_type_of_tile (g.tile y0 x0) = none) :
    (init_items g).tile y0 x0 = g.tile y0 x0 := by
  rw [init_items_unfold w h g hg]
  exact for_tiles_invariant (fun a => a.tile y0 x0 = g.tile y0 x0) h.toNat w.toNat init_items_cell
    (fun a y x _ _ ha => by
      rcases init_items_cell_cases a y x with ⟨k2, hk2, _, _, htile⟩ | ⟨hsame, _⟩
      · rw [htile y0 x0]
        by_cases hc : y0 = y ∧ x0 = x
        · obtain ⟨rfl, rfl⟩ := hc
          rw [ha, hk] at hk2
          cases hk2
        · rw [if_neg hc]
          exact ha
      · rw [hsame]
        exact ha)
    { g with items := [] } rfl

/-- Every enemy stored by the loop of `init_enemies` is the enemy of an enemy tile of the
map. -/
theorem init_enemies_from_tiles (w h : Int) (g : World) (hg : map_loaded w h g) (hw : 0 < w)
    (hh : 0 < h) :
    ∀ e ∈ (init_enemies g).enemies,
      ∃ y x k, e = spawned_enemy y x k ∧ enemy_kind_of_tile (g.tile y x) = some k := by
  have h0kind : enemy_kind_of_tile 0 = none := by simp [enemy_kind_of_tile]
  rw [init_enemies_unfold w h g hg hw hh]
  exact (for_tiles_invariant
    (fun a => (∀ y x, a.tile y x = g.tile y x ∨ a.tile y x = 0) ∧
      ∀ e ∈ a.enemies, ∃ y x k, e = spawned_enemy y x k ∧ enemy_kind_of_tile (g.tile y x) = some k)
    h.toNat w.toNat init_enemies_cell
    (fun a y x _ _ ha => by
      rcases init_enemies_cell_cases a y x with ⟨k2, hk2, _, hen, htile⟩ | ⟨hsame, _⟩
      · refine ⟨fun y2 x2 => ?_, fun e he => ?_⟩
        · rw [htile y2 x2]
          split
          · exact Or.inr rfl
          · exact ha.1 y2 x2
        · rw [hen] at he
          rcases List.mem_append.1 he with he | he
          · exact ha.2 e he
          · rw [List.mem_singleton] at he
            refine ⟨y, x, k2, he, ?_⟩
            rcases ha.1 y x with h1 | h1
            · rw [← h1]
              exact hk2
            · rw [h1, h0kind] at hk2
              cases hk2
      · rw [hsame]
        exact ha)
    { g with enemies := [] } ⟨fun _ _ => Or.inl rfl, fun e he => by simp at he⟩).2

/-- Every item stored by the loop of `init_items` is the item of an item tile of the
map. -/
theorem init_items_from_tiles (w h : Int) (g : World) (hg : map_loaded w h g) :
    ∀ it ∈ (init_items g).items,
      ∃ y x t, it = spawned_item y x t ∧ item_type_of_tile (g.tile y x) = some t := by
  have h0kind : item_type_of_tile 0 = none := by simp [item_type_of_tile]
  rw [init_items_unfold w h g hg]
  exact (for_tiles_invariant
    (fun a => (∀ y x, a.tile y x = g.tile y x ∨ a.tile y x = 0) ∧
      ∀ it ∈ a.items, ∃ y x t, it = spawned_item y x t ∧ item_type_of_tile (g.tile y x) = some t)
    h.toNat w.toNat init_items_cell
    (fun a y x _ _ ha => by
      rcases init_items_cell_cases a y x with ⟨k2, hk2, _, hen, htile⟩ | ⟨hsame, _⟩
      · refine ⟨fun y2 x2 => ?_, fun e he => ?_⟩
        · rw [htile y2 x2]
          split
          · exact Or.inr rfl
          · exact ha.1 y2 x2
        · rw [hen] at he
          rcases List.mem_append.1 he with he | he
          · exact ha.2 e he
          · rw [List.mem_singleton] at he
            refine ⟨y, x, k2, he, ?_⟩
            rcases ha.1 y x with h1 | h1
            · rw [← h1]
              exact hk2
            · rw [h1, h0kind] at hk2
              cases hk2
      · rw [hsame]
        exact ha)
    { g with items := [] } ⟨fun _ _ => Or.inl rfl, fun e he => by simp at he⟩).2

theorem enemy_kind_some_iff (t : Int) : is_enemy_tile t ↔ ∃ k, enemy_kind_of_tile t = some k := by
  constructor
  · intro h
    cases hk : enemy_kind_of_tile t with
    | none => exact absurd h ((enemy_kind_of_tile_none t).1 hk)
    | some k => exact ⟨k, rfl⟩
  · rintro ⟨k, hk⟩
    by_contra hn
    rw [(enemy_kind_of_tile_none t).2 hn] at hk
    cases hk

theorem item_type_some_iff (t : Int) : is_item_tile t = true ↔ ∃ ty, item_type_of_tile t = some ty := by
  constructor
  · intro h
    cases hk : item_type_of_tile t with
    | none =>
      rw [(item_type_of_tile_none t).1 hk] at h
      cases h
    | some ty => exact ⟨ty, rfl⟩
  · rintro ⟨ty, hk⟩
    by_contra hn
    rw [(item_type_of_tile_none t).2 (by simpa using hn)] at hk
    cases hk

/-- No tile code is both an enemy tile and an item tile. -/
theorem enemy_tile_not_item (t : Int) (h : is_enemy_tile t) : item_type_of_tile t = none := by
  rw [item_type_of_tile_none]
  unfold is_enemy_tile at h
  unfold is_item_tile
  rcases h with h | h | h | h <;> subst h <;> decide

/-- C1 (as the code has it): after a successful `load_map` followed by `init_enemies`
and `init_items`, a grid is allocated and every tile of it is a floor, key, wall or door
code (0..4) or one of the spare codes 18..99 that `load_map` accepts; the only other
tiles are enemy tiles left over when all `MAX_ENEMIES` slots are used and item tiles left
over when all `MAX_ITEMS` slots are used.  Every enemy tile of the loaded map (9, 10, 12,
13) has been turned into an entity: the enemy of its kind, alive with the hit points of
the kind at the centre of the tile, is in `enemies` and the tile is 0, or the tile is
still there and all `MAX_ENEMIES` slots are used.  Likewise every item tile (5, 6, 7, 11,
14, 15, 16, 17) has been turned into the item of its type, not collected, at the centre
of the tile, and reset to 0, or is still there with all `MAX_ITEMS` slots used.  Every
other tile is as `load_map` stored it, and every enemy and every item in the arrays comes
from such a tile of the loaded map. -/
theorem init_tiles_after_load (files : Int → Option (List Char)) (level : Int) (g : World)
    (h : (load_map files level g).2 = 0) :
    (init_items (init_enemies (load_map files level g).1)).worldmap ≠ none ∧
      (∀ y x : Nat,
        (0 ≤ (init_items (init_enemies (load_map files level g).1)).tile y x ∧
          (init_items (init_enemies (load_map files level g).1)).tile y x ≤ 4) ∨
        (18 ≤ (init_items (init_enemies (load_map files level g).1)).tile y x ∧
          (init_items (init_enemies (load_map files level g).1)).tile y x ≤ 99) ∨
        (is_enemy_tile ((init_items (init_enemies (load_map files level g).1)).tile y x) ∧
          (init_items (init_enemies (load_map files level g).1)).enemies.length = MAX_ENEMIES) ∨
        (is_item_tile ((init_items (init_enemies (load_map files level g).1)).tile y x) = true ∧
          (init_items (init_enemies (load_map files level g).1)).items.length = MAX_ITEMS)) ∧
      (∀ (y x : Nat) (k : EnemyKind), enemy_kind_of_tile ((load_map files level g).1.tile y x) = some k →
        ((init_items (init_enemies (load_map files level g).1)).tile y x = 0 ∧
          spawned_enemy y x k ∈ (init_items (init_enemies (load_map files level g).1)).enemies) ∨
        ((init_items (init_enemies (load_map files level g).1)).tile y x =
            (load_map files level g).1.tile y x ∧
          (init_items (init_enemies (load_map files level g).1)).enemies.length = MAX_ENEMIES)) ∧
      (∀ (y x : Nat) (t : ItemType), item_type_of_tile ((load_map files level g).1.tile y x) = some t →
        ((init_items (init_enemies (load_map files level g).1)).tile y x = 0 ∧
          spawned_item y x t ∈ (init_items (init_enemies (load_map files level g).1)).items) ∨
        ((init_items (init_enemies (load_map files level g).1)).tile y x =
            (load_map files level g).1.tile y x ∧
          (init_items (init_enemies (load_map files level g).1)).items.length = MAX_ITEMS)) ∧
      (∀ y x : Nat, ¬ is_enemy_tile ((load_map files level g).1.tile y x) →
        is_item_tile ((load_map files level g).1.tile y x) = false →
        (init_items (init_enemies (load_map files level g).1)).tile y x =
          (load_map files level g).1.tile y x) ∧
      (∀ e ∈ (init_items (init_enemies (load_map files level g).1)).enemies,
        ∃ y x k, e = spawned_enemy y x k ∧
          enemy_kind_of_tile ((load_map files level g).1.tile y x) = some k) ∧
      (∀ it ∈ (init_items (init_enemies (load_map files level g).1)).items,
        ∃ y x t, it = spawned_item y x t ∧
          item_type_of_tile ((load_map files level g).1.tile y x) = some t) ∧
      (∀ t : Int, (is_enemy_tile t ↔ ∃ k, enemy_kind_of_tile t = some k) ∧
        (is_item_tile t = true ↔ ∃ ty, item_type_of_tile t = some ty)) := by
  obtain ⟨hl, hw, hh⟩ := load_map_loaded files level g h
  obtain ⟨e1, _, e3, _, e5⟩ := init_enemies_spec _ _ _ hl hw hh
  obtain ⟨i1, i2, i3, _, i5⟩ := init_items_spec _ _ _ e1
  refine ⟨?_, ?_, ?_, ?_, ?_, ?_, ?_, fun t => ⟨enemy_kind_some_iff t, item_type_some_iff t⟩⟩
  · obtain ⟨⟨m, hm, _, _⟩, _⟩ := i1
    simp [hm]
  · intro y x
    have hlt := i1.2.2.2 y x
    by_cases hen : is_enemy_tile ((init_items (init_enemies (load_map files level g).1)).tile y x)
    · right; right; left
      refine ⟨hen, ?_⟩
      rw [i2]
      apply e5 y x
      rcases i3 y x with h1 | h1
      · rw [← h1]; exact hen
      · rw [h1] at hen
        simp [is_enemy_tile] at hen
    · by_cases hit : is_item_tile ((init_items (init_enemies (load_map files level g).1)).tile y x) = true
      · right; right; right
        exact ⟨hit, i5 y x hit⟩
      · unfold loaded_tile at hlt
        unfold is_enemy_tile at hen
        simp only [is_item_tile, Bool.or_eq_true, decide_eq_true_eq] at hit
        omega
  · intro y x k hk
    rw [i2]
    rcases init_enemies_turns _ _ _ hl hw hh y x k hk with ⟨t0, hm⟩ | ⟨t0, hfull⟩
    · left
      refine ⟨?_, hm⟩
      rcases i3 y x with h1 | h1
      · rw [h1, t0]
      · exact h1
    · right
      refine ⟨?_, hfull⟩
      have hnot : item_type_of_tile ((init_enemies (load_map files level g).1).tile y x) = none := by
        rw [t0]
        exact enemy_tile_not_item _ ((enemy_kind_some_iff _).2 ⟨k, hk⟩)
      rw [init_items_keeps _ _ _ e1 y x hnot, t0]
  · intro y x t ht
    have hnk : enemy_kind_of_tile ((load_map files level g).1.tile y x) = none := by
      rw [enemy_kind_of_tile_none]
      intro hen
      rw [enemy_tile_not_item _ hen] at ht
      cases ht
    have hkeep := init_enemies_keeps _ _ _ hl hw hh y x hnk
    rw [← hkeep] at ht ⊢
    exact init_items_turns _ _ _ e1 y x t ht
  · intro y x hen hit
    have hnk := (enemy_kind_of_tile_none _).2 hen
    have hkeep := init_enemies_keeps _ _ _ hl hw hh y x hnk
    have hni : item_type_of_tile ((init_enemies (load_map files level g).1).tile y x) = none := by
      rw [hkeep]
      exact (item_type_of_tile_none _).2 hit
    rw [init_items_keeps _ _ _ e1 y x hni, hkeep]
  · intro e he
    rw [i2] at he
    exact init_enemies_from_tiles _ _ _ hl hw hh e he
  · intro it hit
    obtain ⟨y, x, t, ht, hty⟩ := init_items_from_tiles _ _ _ e1 it hit
    refine ⟨y, x, t, ht, ?_⟩
    rcases e3 y x with h1 | h1
    · rw [← h1]
      exact hty
    · rw [h1] at hty
      simp [item_type_of_tile] at hty

/-- C1 witness: a map with an enemy tile and a box of bullets; after the three calls both
tiles are 0, the enemy of kind 1 stands at (2.5, 1.5) and the box lies at (3.5, 1.5). -/
theorem init_tiles_after_load_witness :
    (load_map map_with_entities 1 {}).2 = 0 ∧
      (init_items (init_enemies (load_map map_with_entities 1 {}).1)).worldmap ≠ none ∧
      (load_map map_with_entities 1 {}).1.tile 1 2 = 9 ∧
      (load_map map_with_entities 1 {}).1.tile 1 3 = 5 ∧
      (init_items (init_enemies (load_map map_with_entities 1 {}).1)).enemies =
        [spawned_enemy 1 2 ENEMY_KIND1] ∧
      (init_items (init_enemies (load_map map_with_entities 1 {}).1)).items =
        [spawned_item 1 3 ITEM_BULLETS] ∧
      (((init_items (init_enemies (load_map map_with_entities 1 {}).1)).tile 1 2 = 0 ∧
          spawned_enemy 1 2 ENEMY_KIND1 ∈
            (init_items (init_enemies (load_map map_with_entities 1 {}).1)).enemies) ∨
        ((init_items (init_enemies (load_map map_with_entities 1 {}).1)).tile 1 2 =
            (load_map map_with_entities 1 {}).1.tile 1 2 ∧
          (init_items (init_enemies (load_map map_with_entities 1 {}).1)).enemies.length = MAX_ENEMIES)) :=
  ⟨by decide!, (init_tiles_after_load map_with_entities 1 {} (by decide!)).1, by decide!, by decide!,
    by decide!, by decide!,
    (init_tiles_after_load map_with_entities 1 {} (by decide!)).2.2.1 1 2 ENEMY_KIND1 (by decide!)⟩

/-- C1 counterexample: a map file that `load_map` accepts and in which, after
`init_enemies` and `init_items`, the tile at row 1, column 2 is 18, a value outside
`{0, 1, 2, 3, 4}`. -/
theorem init_tiles_not_in_0_4 :
    (load_map map_with_tile_18 1 {}).2 = 0 ∧
      (init_items (init_enemies (load_map map_with_tile_18 1 {}).1)).tile 1 2 = 18 ∧
      ¬ ((init_items (init_enemies (load_map map_with_tile_18 1 {}).1)).tile 1 2 ∈
          ([0, 1, 2, 3, 4] : List Int)) := by
  decide!

end EscapeTheAliens
